import Mathlib

/-! Legal-Support knowledge graph: query engine, graph store access and pattern extractor.

A shallow embedding of `internal/graph` (`models.go`, `query_engine.go`,
`repository.go`, `ingestion.go`) together with theorems about it.

Modelling conventions

* Go `string` values that hold text are Lean `String`s (sequences of Unicode
  code points); `len`, `strings.Index` and slicing work on the UTF-8 encoding,
  so byte counts are computed with `Char.utf8Size` and a sliced string is a
  list of bytes.
* `float32` / `float64` values are exact rationals (`ℚ`).
* `uuid.UUID` values are natural numbers, `time.Time` values are natural
  numbers with `0` the zero time.
* A Go `map` is an association list with unique keys kept in first-insertion
  order; `range` over it visits that order.  `sort.Slice` is the stable
  insertion sort for its `less` function.
* A call that can fail returns `Except Fault _`: `Fault.err` is a returned Go
  `error`, `Fault.panic` a run-time panic.
-/

namespace Graph

/-! ## Go runtime and standard library -/

/-- A Go `error` value: a message, possibly wrapped by `fmt.Errorf("...: %w", err)`. -/
inductive GoError where
  | msg (text : String)
  | wrap (context : String) (cause : GoError)
  deriving DecidableEq, Repr

/-- Abnormal results of a call: a returned `error` or a run-time panic. -/
inductive Fault where
  | err (e : GoError)
  | panic (reason : String)
  deriving DecidableEq, Repr

deriving instance DecidableEq for Except

/-- True when a store or capability call returned an `error`. -/
def failed {α : Type} : Except GoError α → Bool
  | .error _ => true
  | .ok _ => false

/-- True when a result is a returned Go `error` (not a value, not a panic). -/
def isError {α : Type} : Except Fault α → Bool
  | .error (.err _) => true
  | _ => false

/-- UTF-8 encoding of a string: the bytes a Go `string` holds. -/
def utf8 (s : String) : List UInt8 :=
  s.data.flatMap String.utf8EncodeChar

/-- Go `len(s)` for a string: the number of bytes of its UTF-8 encoding. -/
def len (s : String) : Nat :=
  (s.data.map Char.utf8Size).sum

/-- Go slice expression `b[lo:hi]` on the bytes of a string; out-of-range bounds panic. -/
def sliceBytes (b : List UInt8) (lo hi : Int) : Except Fault (List UInt8) :=
  if 0 ≤ lo ∧ lo ≤ hi ∧ hi ≤ (b.length : Int) then
    .ok ((b.drop lo.toNat).take (hi.toNat - lo.toNat))
  else
    .error (.panic "slice bounds out of range")

namespace Unicode

/-- The `unicode.IsSpace` predicate (Unicode White_Space property). -/
def IsSpace (c : Char) : Bool :=
  let n := c.toNat
  n = 0x20 || (0x09 ≤ n && n ≤ 0x0D) || n = 0x85 || n = 0xA0 || n = 0x1680 ||
  (0x2000 ≤ n && n ≤ 0x200A) || n = 0x2028 || n = 0x2029 || n = 0x202F ||
  n = 0x205F || n = 0x3000

/-- The lower-case mappings that `unicode.ToLower` takes from `unicode.CaseRanges` (the
simple lowercase mappings of Unicode 15.0.0), as ascending disjoint ranges
`(lo, hi, step, delta)`: the code points `lo`, `lo + step`, ... up to `hi` map to
themselves plus `delta`. -/
def lowerRanges : List (Nat × Nat × Nat × Int) :=
  [(0x41, 0x5A, 1, 32), (0xC0, 0xD6, 1, 32), (0xD8, 0xDE, 1, 32), (0x100, 0x12E, 2, 1),
   (0x130, 0x130, 1, -199), (0x132, 0x136, 2, 1), (0x139, 0x147, 2, 1), (0x14A, 0x176, 2, 1),
   (0x178, 0x178, 1, -121), (0x179, 0x17D, 2, 1), (0x181, 0x181, 1, 210), (0x182, 0x184, 2, 1),
   (0x186, 0x186, 1, 206), (0x187, 0x187, 1, 1), (0x189, 0x18A, 1, 205), (0x18B, 0x18B, 1, 1),
   (0x18E, 0x18E, 1, 79), (0x18F, 0x18F, 1, 202), (0x190, 0x190, 1, 203), (0x191, 0x191, 1, 1),
   (0x193, 0x193, 1, 205), (0x194, 0x194, 1, 207), (0x196, 0x196, 1, 211), (0x197, 0x197, 1, 209),
   (0x198, 0x198, 1, 1), (0x19C, 0x19C, 1, 211), (0x19D, 0x19D, 1, 213), (0x19F, 0x19F, 1, 214),
   (0x1A0, 0x1A4, 2, 1), (0x1A6, 0x1A6, 1, 218), (0x1A7, 0x1A7, 1, 1), (0x1A9, 0x1A9, 1, 218),
   (0x1AC, 0x1AC, 1, 1), (0x1AE, 0x1AE, 1, 218), (0x1AF, 0x1AF, 1, 1), (0x1B1, 0x1B2, 1, 217),
   (0x1B3, 0x1B5, 2, 1), (0x1B7, 0x1B7, 1, 219), (0x1B8, 0x1B8, 1, 1), (0x1BC, 0x1BC, 1, 1),
   (0x1C4, 0x1C4, 1, 2), (0x1C5, 0x1C5, 1, 1), (0x1C7, 0x1C7, 1, 2), (0x1C8, 0x1C8, 1, 1),
   (0x1CA, 0x1CA, 1, 2), (0x1CB, 0x1DB, 2, 1), (0x1DE, 0x1EE, 2, 1), (0x1F1, 0x1F1, 1, 2),
   (0x1F2, 0x1F4, 2, 1), (0x1F6, 0x1F6, 1, -97), (0x1F7, 0x1F7, 1, -56), (0x1F8, 0x21E, 2, 1),
   (0x220, 0x220, 1, -130), (0x222, 0x232, 2, 1), (0x23A, 0x23A, 1, 10795), (0x23B, 0x23B, 1, 1),
   (0x23D, 0x23D, 1, -163), (0x23E, 0x23E, 1, 10792), (0x241, 0x241, 1, 1), (0x243, 0x243, 1, -195),
   (0x244, 0x244, 1, 69), (0x245, 0x245, 1, 71), (0x246, 0x24E, 2, 1), (0x370, 0x372, 2, 1),
   (0x376, 0x376, 1, 1), (0x37F, 0x37F, 1, 116), (0x386, 0x386, 1, 38), (0x388, 0x38A, 1, 37),
   (0x38C, 0x38C, 1, 64), (0x38E, 0x38F, 1, 63), (0x391, 0x3A1, 1, 32), (0x3A3, 0x3AB, 1, 32),
   (0x3CF, 0x3CF, 1, 8), (0x3D8, 0x3EE, 2, 1), (0x3F4, 0x3F4, 1, -60), (0x3F7, 0x3F7, 1, 1),
   (0x3F9, 0x3F9, 1, -7), (0x3FA, 0x3FA, 1, 1), (0x3FD, 0x3FF, 1, -130), (0x400, 0x40F, 1, 80),
   (0x410, 0x42F, 1, 32), (0x460, 0x480, 2, 1), (0x48A, 0x4BE, 2, 1), (0x4C0, 0x4C0, 1, 15),
   (0x4C1, 0x4CD, 2, 1), (0x4D0, 0x52E, 2, 1), (0x531, 0x556, 1, 48), (0x10A0, 0x10C5, 1, 7264),
   (0x10C7, 0x10C7, 1, 7264), (0x10CD, 0x10CD, 1, 7264), (0x13A0, 0x13EF, 1, 38864), (0x13F0, 0x13F5, 1, 8),
   (0x1C90, 0x1CBA, 1, -3008), (0x1CBD, 0x1CBF, 1, -3008), (0x1E00, 0x1E94, 2, 1), (0x1E9E, 0x1E9E, 1, -7615),
   (0x1EA0, 0x1EFE, 2, 1), (0x1F08, 0x1F0F, 1, -8), (0x1F18, 0x1F1D, 1, -8), (0x1F28, 0x1F2F, 1, -8),
   (0x1F38, 0x1F3F, 1, -8), (0x1F48, 0x1F4D, 1, -8), (0x1F59, 0x1F5F, 2, -8), (0x1F68, 0x1F6F, 1, -8),
   (0x1F88, 0x1F8F, 1, -8), (0x1F98, 0x1F9F, 1, -8), (0x1FA8, 0x1FAF, 1, -8), (0x1FB8, 0x1FB9, 1, -8),
   (0x1FBA, 0x1FBB, 1, -74), (0x1FBC, 0x1FBC, 1, -9), (0x1FC8, 0x1FCB, 1, -86), (0x1FCC, 0x1FCC, 1, -9),
   (0x1FD8, 0x1FD9, 1, -8), (0x1FDA, 0x1FDB, 1, -100), (0x1FE8, 0x1FE9, 1, -8), (0x1FEA, 0x1FEB, 1, -112),
   (0x1FEC, 0x1FEC, 1, -7), (0x1FF8, 0x1FF9, 1, -128), (0x1FFA, 0x1FFB, 1, -126), (0x1FFC, 0x1FFC, 1, -9),
   (0x2126, 0x2126, 1, -7517), (0x212A, 0x212A, 1, -8383), (0x212B, 0x212B, 1, -8262), (0x2132, 0x2132, 1, 28),
   (0x2160, 0x216F, 1, 16), (0x2183, 0x2183, 1, 1), (0x24B6, 0x24CF, 1, 26), (0x2C00, 0x2C2F, 1, 48),
   (0x2C60, 0x2C60, 1, 1), (0x2C62, 0x2C62, 1, -10743), (0x2C63, 0x2C63, 1, -3814), (0x2C64, 0x2C64, 1, -10727),
   (0x2C67, 0x2C6B, 2, 1), (0x2C6D, 0x2C6D, 1, -10780), (0x2C6E, 0x2C6E, 1, -10749), (0x2C6F, 0x2C6F, 1, -10783),
   (0x2C70, 0x2C70, 1, -10782), (0x2C72, 0x2C72, 1, 1), (0x2C75, 0x2C75, 1, 1), (0x2C7E, 0x2C7F, 1, -10815),
   (0x2C80, 0x2CE2, 2, 1), (0x2CEB, 0x2CED, 2, 1), (0x2CF2, 0x2CF2, 1, 1), (0xA640, 0xA66C, 2, 1),
   (0xA680, 0xA69A, 2, 1), (0xA722, 0xA72E, 2, 1), (0xA732, 0xA76E, 2, 1), (0xA779, 0xA77B, 2, 1),
   (0xA77D, 0xA77D, 1, -35332), (0xA77E, 0xA786, 2, 1), (0xA78B, 0xA78B, 1, 1), (0xA78D, 0xA78D, 1, -42280),
   (0xA790, 0xA792, 2, 1), (0xA796, 0xA7A8, 2, 1), (0xA7AA, 0xA7AA, 1, -42308), (0xA7AB, 0xA7AB, 1, -42319),
   (0xA7AC, 0xA7AC, 1, -42315), (0xA7AD, 0xA7AD, 1, -42305), (0xA7AE, 0xA7AE, 1, -42308), (0xA7B0, 0xA7B0, 1, -42258),
   (0xA7B1, 0xA7B1, 1, -42282), (0xA7B2, 0xA7B2, 1, -42261), (0xA7B3, 0xA7B3, 1, 928), (0xA7B4, 0xA7C2, 2, 1),
   (0xA7C4, 0xA7C4, 1, -48), (0xA7C5, 0xA7C5, 1, -42307), (0xA7C6, 0xA7C6, 1, -35384), (0xA7C7, 0xA7C9, 2, 1),
   (0xA7D0, 0xA7D0, 1, 1), (0xA7D6, 0xA7D8, 2, 1), (0xA7F5, 0xA7F5, 1, 1), (0xFF21, 0xFF3A, 1, 32),
   (0x10400, 0x10427, 1, 40), (0x104B0, 0x104D3, 1, 40), (0x10570, 0x1057A, 1, 39), (0x1057C, 0x1058A, 1, 39),
   (0x1058C, 0x10592, 1, 39), (0x10594, 0x10595, 1, 39), (0x10C80, 0x10CB2, 1, 64), (0x118A0, 0x118BF, 1, 32),
   (0x16E40, 0x16E5F, 1, 32), (0x1E900, 0x1E921, 1, 34)]

/-- What `unicode.ToLower` adds to the code point `n`: the `delta` of its range, 0 when `n`
has no lower case of its own. -/
def lowerDelta (n : Nat) : List (Nat × Nat × Nat × Int) → Int
  | [] => 0
  | (lo, hi, step, delta) :: rest =>
    if n < lo then 0
    else if n ≤ hi then (if (n - lo) % step = 0 then delta else 0)
    else lowerDelta n rest

/-- The `unicode.ToLower` mapping. -/
def ToLower (c : Char) : Char :=
  let delta := lowerDelta c.toNat lowerRanges
  if delta = 0 then c else Char.ofNat ((c.toNat : Int) + delta).toNat

/-- The code points of the Unicode letter category `L` (table `unicode.L`, Unicode 15.0.0),
which the regular expression class `\p{L}` denotes, as ascending disjoint ranges
`(lo, hi)`. -/
def letterRanges : List (Nat × Nat) :=
  [(0x41, 0x5A), (0x61, 0x7A), (0xAA, 0xAA), (0xB5, 0xB5), (0xBA, 0xBA), (0xC0, 0xD6),
   (0xD8, 0xF6), (0xF8, 0x2C1), (0x2C6, 0x2D1), (0x2E0, 0x2E4), (0x2EC, 0x2EC), (0x2EE, 0x2EE),
   (0x370, 0x374), (0x376, 0x377), (0x37A, 0x37D), (0x37F, 0x37F), (0x386, 0x386), (0x388, 0x38A),
   (0x38C, 0x38C), (0x38E, 0x3A1), (0x3A3, 0x3F5), (0x3F7, 0x481), (0x48A, 0x52F), (0x531, 0x556),
   (0x559, 0x559), (0x560, 0x588), (0x5D0, 0x5EA), (0x5EF, 0x5F2), (0x620, 0x64A), (0x66E, 0x66F),
   (0x671, 0x6D3), (0x6D5, 0x6D5), (0x6E5, 0x6E6), (0x6EE, 0x6EF), (0x6FA, 0x6FC), (0x6FF, 0x6FF),
   (0x710, 0x710), (0x712, 0x72F), (0x74D, 0x7A5), (0x7B1, 0x7B1), (0x7CA, 0x7EA), (0x7F4, 0x7F5),
   (0x7FA, 0x7FA), (0x800, 0x815), (0x81A, 0x81A), (0x824, 0x824), (0x828, 0x828), (0x840, 0x858),
   (0x860, 0x86A), (0x870, 0x887), (0x889, 0x88E), (0x8A0, 0x8C9), (0x904, 0x939), (0x93D, 0x93D),
   (0x950, 0x950), (0x958, 0x961), (0x971, 0x980), (0x985, 0x98C), (0x98F, 0x990), (0x993, 0x9A8),
   (0x9AA, 0x9B0), (0x9B2, 0x9B2), (0x9B6, 0x9B9), (0x9BD, 0x9BD), (0x9CE, 0x9CE), (0x9DC, 0x9DD),
   (0x9DF, 0x9E1), (0x9F0, 0x9F1), (0x9FC, 0x9FC), (0xA05, 0xA0A), (0xA0F, 0xA10), (0xA13, 0xA28),
   (0xA2A, 0xA30), (0xA32, 0xA33), (0xA35, 0xA36), (0xA38, 0xA39), (0xA59, 0xA5C), (0xA5E, 0xA5E),
   (0xA72, 0xA74), (0xA85, 0xA8D), (0xA8F, 0xA91), (0xA93, 0xAA8), (0xAAA, 0xAB0), (0xAB2, 0xAB3),
   (0xAB5, 0xAB9), (0xABD, 0xABD), (0xAD0, 0xAD0), (0xAE0, 0xAE1), (0xAF9, 0xAF9), (0xB05, 0xB0C),
   (0xB0F, 0xB10), (0xB13, 0xB28), (0xB2A, 0xB30), (0xB32, 0xB33), (0xB35, 0xB39), (0xB3D, 0xB3D),
   (0xB5C, 0xB5D), (0xB5F, 0xB61), (0xB71, 0xB71), (0xB83, 0xB83), (0xB85, 0xB8A), (0xB8E, 0xB90),
   (0xB92, 0xB95), (0xB99, 0xB9A), (0xB9C, 0xB9C), (0xB9E, 0xB9F), (0xBA3, 0xBA4), (0xBA8, 0xBAA),
   (0xBAE, 0xBB9), (0xBD0, 0xBD0), (0xC05, 0xC0C), (0xC0E, 0xC10), (0xC12, 0xC28), (0xC2A, 0xC39),
   (0xC3D, 0xC3D), (0xC58, 0xC5A), (0xC5D, 0xC5D), (0xC60, 0xC61), (0xC80, 0xC80), (0xC85, 0xC8C),
   (0xC8E, 0xC90), (0xC92, 0xCA8), (0xCAA, 0xCB3), (0xCB5, 0xCB9), (0xCBD, 0xCBD), (0xCDD, 0xCDE),
   (0xCE0, 0xCE1), (0xCF1, 0xCF2), (0xD04, 0xD0C), (0xD0E, 0xD10), (0xD12, 0xD3A), (0xD3D, 0xD3D),
   (0xD4E, 0xD4E), (0xD54, 0xD56), (0xD5F, 0xD61), (0xD7A, 0xD7F), (0xD85, 0xD96), (0xD9A, 0xDB1),
   (0xDB3, 0xDBB), (0xDBD, 0xDBD), (0xDC0, 0xDC6), (0xE01, 0xE30), (0xE32, 0xE33), (0xE40, 0xE46),
   (0xE81, 0xE82), (0xE84, 0xE84), (0xE86, 0xE8A), (0xE8C, 0xEA3), (0xEA5, 0xEA5), (0xEA7, 0xEB0),
   (0xEB2, 0xEB3), (0xEBD, 0xEBD), (0xEC0, 0xEC4), (0xEC6, 0xEC6), (0xEDC, 0xEDF), (0xF00, 0xF00),
   (0xF40, 0xF47), (0xF49, 0xF6C), (0xF88, 0xF8C), (0x1000, 0x102A), (0x103F, 0x103F), (0x1050, 0x1055),
   (0x105A, 0x105D), (0x1061, 0x1061), (0x1065, 0x1066), (0x106E, 0x1070), (0x1075, 0x1081), (0x108E, 0x108E),
   (0x10A0, 0x10C5), (0x10C7, 0x10C7), (0x10CD, 0x10CD), (0x10D0, 0x10FA), (0x10FC, 0x1248), (0x124A, 0x124D),
   (0x1250, 0x1256), (0x1258, 0x1258), (0x125A, 0x125D), (0x1260, 0x1288), (0x128A, 0x128D), (0x1290, 0x12B0),
   (0x12B2, 0x12B5), (0x12B8, 0x12BE), (0x12C0, 0x12C0), (0x12C2, 0x12C5), (0x12C8, 0x12D6), (0x12D8, 0x1310),
   (0x1312, 0x1315), (0x1318, 0x135A), (0x1380, 0x138F), (0x13A0, 0x13F5), (0x13F8, 0x13FD), (0x1401, 0x166C),
   (0x166F, 0x167F), (0x1681, 0x169A), (0x16A0, 0x16EA), (0x16F1, 0x16F8), (0x1700, 0x1711), (0x171F, 0x1731),
   (0x1740, 0x1751), (0x1760, 0x176C), (0x176E, 0x1770), (0x1780, 0x17B3), (0x17D7, 0x17D7), (0x17DC, 0x17DC),
   (0x1820, 0x1878), (0x1880, 0x1884), (0x1887, 0x18A8), (0x18AA, 0x18AA), (0x18B0, 0x18F5), (0x1900, 0x191E),
   (0x1950, 0x196D), (0x1970, 0x1974), (0x1980, 0x19AB), (0x19B0, 0x19C9), (0x1A00, 0x1A16), (0x1A20, 0x1A54),
   (0x1AA7, 0x1AA7), (0x1B05, 0x1B33), (0x1B45, 0x1B4C), (0x1B83, 0x1BA0), (0x1BAE, 0x1BAF), (0x1BBA, 0x1BE5),
   (0x1C00, 0x1C23), (0x1C4D, 0x1C4F), (0x1C5A, 0x1C7D), (0x1C80, 0x1C88), (0x1C90, 0x1CBA), (0x1CBD, 0x1CBF),
   (0x1CE9, 0x1CEC), (0x1CEE, 0x1CF3), (0x1CF5, 0x1CF6), (0x1CFA, 0x1CFA), (0x1D00, 0x1DBF), (0x1E00, 0x1F15),
   (0x1F18, 0x1F1D), (0x1F20, 0x1F45), (0x1F48, 0x1F4D), (0x1F50, 0x1F57), (0x1F59, 0x1F59), (0x1F5B, 0x1F5B),
   (0x1F5D, 0x1F5D), (0x1F5F, 0x1F7D), (0x1F80, 0x1FB4), (0x1FB6, 0x1FBC), (0x1FBE, 0x1FBE), (0x1FC2, 0x1FC4),
   (0x1FC6, 0x1FCC), (0x1FD0, 0x1FD3), (0x1FD6, 0x1FDB), (0x1FE0, 0x1FEC), (0x1FF2, 0x1FF4), (0x1FF6, 0x1FFC),
   (0x2071, 0x2071), (0x207F, 0x207F), (0x2090, 0x209C), (0x2102, 0x2102), (0x2107, 0x2107), (0x210A, 0x2113),
   (0x2115, 0x2115), (0x2119, 0x211D), (0x2124, 0x2124), (0x2126, 0x2126), (0x2128, 0x2128), (0x212A, 0x212D),
   (0x212F, 0x2139), (0x213C, 0x213F), (0x2145, 0x2149), (0x214E, 0x214E), (0x2183, 0x2184), (0x2C00, 0x2CE4),
   (0x2CEB, 0x2CEE), (0x2CF2, 0x2CF3), (0x2D00, 0x2D25), (0x2D27, 0x2D27), (0x2D2D, 0x2D2D), (0x2D30, 0x2D67),
   (0x2D6F, 0x2D6F), (0x2D80, 0x2D96), (0x2DA0, 0x2DA6), (0x2DA8, 0x2DAE), (0x2DB0, 0x2DB6), (0x2DB8, 0x2DBE),
   (0x2DC0, 0x2DC6), (0x2DC8, 0x2DCE), (0x2DD0, 0x2DD6), (0x2DD8, 0x2DDE), (0x2E2F, 0x2E2F), (0x3005, 0x3006),
   (0x3031, 0x3035), (0x303B, 0x303C), (0x3041, 0x3096), (0x309D, 0x309F), (0x30A1, 0x30FA), (0x30FC, 0x30FF),
   (0x3105, 0x312F), (0x3131, 0x318E), (0x31A0, 0x31BF), (0x31F0, 0x31FF), (0x3400, 0x4DBF), (0x4E00, 0xA48C),
   (0xA4D0, 0xA4FD), (0xA500, 0xA60C), (0xA610, 0xA61F), (0xA62A, 0xA62B), (0xA640, 0xA66E), (0xA67F, 0xA69D),
   (0xA6A0, 0xA6E5), (0xA717, 0xA71F), (0xA722, 0xA788), (0xA78B, 0xA7CA), (0xA7D0, 0xA7D1), (0xA7D3, 0xA7D3),
   (0xA7D5, 0xA7D9), (0xA7F2, 0xA801), (0xA803, 0xA805), (0xA807, 0xA80A), (0xA80C, 0xA822), (0xA840, 0xA873),
   (0xA882, 0xA8B3), (0xA8F2, 0xA8F7), (0xA8FB, 0xA8FB), (0xA8FD, 0xA8FE), (0xA90A, 0xA925), (0xA930, 0xA946),
   (0xA960, 0xA97C), (0xA984, 0xA9B2), (0xA9CF, 0xA9CF), (0xA9E0, 0xA9E4), (0xA9E6, 0xA9EF), (0xA9FA, 0xA9FE),
   (0xAA00, 0xAA28), (0xAA40, 0xAA42), (0xAA44, 0xAA4B), (0xAA60, 0xAA76), (0xAA7A, 0xAA7A), (0xAA7E, 0xAAAF),
   (0xAAB1, 0xAAB1), (0xAAB5, 0xAAB6), (0xAAB9, 0xAABD), (0xAAC0, 0xAAC0), (0xAAC2, 0xAAC2), (0xAADB, 0xAADD),
   (0xAAE0, 0xAAEA), (0xAAF2, 0xAAF4), (0xAB01, 0xAB06), (0xAB09, 0xAB0E), (0xAB11, 0xAB16), (0xAB20, 0xAB26),
   (0xAB28, 0xAB2E), (0xAB30, 0xAB5A), (0xAB5C, 0xAB69), (0xAB70, 0xABE2), (0xAC00, 0xD7A3), (0xD7B0, 0xD7C6),
   (0xD7CB, 0xD7FB), (0xF900, 0xFA6D), (0xFA70, 0xFAD9), (0xFB00, 0xFB06), (0xFB13, 0xFB17), (0xFB1D, 0xFB1D),
   (0xFB1F, 0xFB28), (0xFB2A, 0xFB36), (0xFB38, 0xFB3C), (0xFB3E, 0xFB3E), (0xFB40, 0xFB41), (0xFB43, 0xFB44),
   (0xFB46, 0xFBB1), (0xFBD3, 0xFD3D), (0xFD50, 0xFD8F), (0xFD92, 0xFDC7), (0xFDF0, 0xFDFB), (0xFE70, 0xFE74),
   (0xFE76, 0xFEFC), (0xFF21, 0xFF3A), (0xFF41, 0xFF5A), (0xFF66, 0xFFBE), (0xFFC2, 0xFFC7), (0xFFCA, 0xFFCF),
   (0xFFD2, 0xFFD7), (0xFFDA, 0xFFDC), (0x10000, 0x1000B), (0x1000D, 0x10026), (0x10028, 0x1003A), (0x1003C, 0x1003D),
   (0x1003F, 0x1004D), (0x10050, 0x1005D), (0x10080, 0x100FA), (0x10280, 0x1029C), (0x102A0, 0x102D0), (0x10300, 0x1031F),
   (0x1032D, 0x10340), (0x10342, 0x10349), (0x10350, 0x10375), (0x10380, 0x1039D), (0x103A0, 0x103C3), (0x103C8, 0x103CF),
   (0x10400, 0x1049D), (0x104B0, 0x104D3), (0x104D8, 0x104FB), (0x10500, 0x10527), (0x10530, 0x10563), (0x10570, 0x1057A),
   (0x1057C, 0x1058A), (0x1058C, 0x10592), (0x10594, 0x10595), (0x10597, 0x105A1), (0x105A3, 0x105B1), (0x105B3, 0x105B9),
   (0x105BB, 0x105BC), (0x10600, 0x10736), (0x10740, 0x10755), (0x10760, 0x10767), (0x10780, 0x10785), (0x10787, 0x107B0),
   (0x107B2, 0x107BA), (0x10800, 0x10805), (0x10808, 0x10808), (0x1080A, 0x10835), (0x10837, 0x10838), (0x1083C, 0x1083C),
   (0x1083F, 0x10855), (0x10860, 0x10876), (0x10880, 0x1089E), (0x108E0, 0x108F2), (0x108F4, 0x108F5), (0x10900, 0x10915),
   (0x10920, 0x10939), (0x10980, 0x109B7), (0x109BE, 0x109BF), (0x10A00, 0x10A00), (0x10A10, 0x10A13), (0x10A15, 0x10A17),
   (0x10A19, 0x10A35), (0x10A60, 0x10A7C), (0x10A80, 0x10A9C), (0x10AC0, 0x10AC7), (0x10AC9, 0x10AE4), (0x10B00, 0x10B35),
   (0x10B40, 0x10B55), (0x10B60, 0x10B72), (0x10B80, 0x10B91), (0x10C00, 0x10C48), (0x10C80, 0x10CB2), (0x10CC0, 0x10CF2),
   (0x10D00, 0x10D23), (0x10E80, 0x10EA9), (0x10EB0, 0x10EB1), (0x10F00, 0x10F1C), (0x10F27, 0x10F27), (0x10F30, 0x10F45),
   (0x10F70, 0x10F81), (0x10FB0, 0x10FC4), (0x10FE0, 0x10FF6), (0x11003, 0x11037), (0x11071, 0x11072), (0x11075, 0x11075),
   (0x11083, 0x110AF), (0x110D0, 0x110E8), (0x11103, 0x11126), (0x11144, 0x11144), (0x11147, 0x11147), (0x11150, 0x11172),
   (0x11176, 0x11176), (0x11183, 0x111B2), (0x111C1, 0x111C4), (0x111DA, 0x111DA), (0x111DC, 0x111DC), (0x11200, 0x11211),
   (0x11213, 0x1122B), (0x1123F, 0x11240), (0x11280, 0x11286), (0x11288, 0x11288), (0x1128A, 0x1128D), (0x1128F, 0x1129D),
   (0x1129F, 0x112A8), (0x112B0, 0x112DE), (0x11305, 0x1130C), (0x1130F, 0x11310), (0x11313, 0x11328), (0x1132A, 0x11330),
   (0x11332, 0x11333), (0x11335, 0x11339), (0x1133D, 0x1133D), (0x11350, 0x11350), (0x1135D, 0x11361), (0x11400, 0x11434),
   (0x11447, 0x1144A), (0x1145F, 0x11461), (0x11480, 0x114AF), (0x114C4, 0x114C5), (0x114C7, 0x114C7), (0x11580, 0x115AE),
   (0x115D8, 0x115DB), (0x11600, 0x1162F), (0x11644, 0x11644), (0x11680, 0x116AA), (0x116B8, 0x116B8), (0x11700, 0x1171A),
   (0x11740, 0x11746), (0x11800, 0x1182B), (0x118A0, 0x118DF), (0x118FF, 0x11906), (0x11909, 0x11909), (0x1190C, 0x11913),
   (0x11915, 0x11916), (0x11918, 0x1192F), (0x1193F, 0x1193F), (0x11941, 0x11941), (0x119A0, 0x119A7), (0x119AA, 0x119D0),
   (0x119E1, 0x119E1), (0x119E3, 0x119E3), (0x11A00, 0x11A00), (0x11A0B, 0x11A32), (0x11A3A, 0x11A3A), (0x11A50, 0x11A50),
   (0x11A5C, 0x11A89), (0x11A9D, 0x11A9D), (0x11AB0, 0x11AF8), (0x11C00, 0x11C08), (0x11C0A, 0x11C2E), (0x11C40, 0x11C40),
   (0x11C72, 0x11C8F), (0x11D00, 0x11D06), (0x11D08, 0x11D09), (0x11D0B, 0x11D30), (0x11D46, 0x11D46), (0x11D60, 0x11D65),
   (0x11D67, 0x11D68), (0x11D6A, 0x11D89), (0x11D98, 0x11D98), (0x11EE0, 0x11EF2), (0x11F02, 0x11F02), (0x11F04, 0x11F10),
   (0x11F12, 0x11F33), (0x11FB0, 0x11FB0), (0x12000, 0x12399), (0x12480, 0x12543), (0x12F90, 0x12FF0), (0x13000, 0x1342F),
   (0x13441, 0x13446), (0x14400, 0x14646), (0x16800, 0x16A38), (0x16A40, 0x16A5E), (0x16A70, 0x16ABE), (0x16AD0, 0x16AED),
   (0x16B00, 0x16B2F), (0x16B40, 0x16B43), (0x16B63, 0x16B77), (0x16B7D, 0x16B8F), (0x16E40, 0x16E7F), (0x16F00, 0x16F4A),
   (0x16F50, 0x16F50), (0x16F93, 0x16F9F), (0x16FE0, 0x16FE1), (0x16FE3, 0x16FE3), (0x17000, 0x187F7), (0x18800, 0x18CD5),
   (0x18D00, 0x18D08), (0x1AFF0, 0x1AFF3), (0x1AFF5, 0x1AFFB), (0x1AFFD, 0x1AFFE), (0x1B000, 0x1B122), (0x1B132, 0x1B132),
   (0x1B150, 0x1B152), (0x1B155, 0x1B155), (0x1B164, 0x1B167), (0x1B170, 0x1B2FB), (0x1BC00, 0x1BC6A), (0x1BC70, 0x1BC7C),
   (0x1BC80, 0x1BC88), (0x1BC90, 0x1BC99), (0x1D400, 0x1D454), (0x1D456, 0x1D49C), (0x1D49E, 0x1D49F), (0x1D4A2, 0x1D4A2),
   (0x1D4A5, 0x1D4A6), (0x1D4A9, 0x1D4AC), (0x1D4AE, 0x1D4B9), (0x1D4BB, 0x1D4BB), (0x1D4BD, 0x1D4C3), (0x1D4C5, 0x1D505),
   (0x1D507, 0x1D50A), (0x1D50D, 0x1D514), (0x1D516, 0x1D51C), (0x1D51E, 0x1D539), (0x1D53B, 0x1D53E), (0x1D540, 0x1D544),
   (0x1D546, 0x1D546), (0x1D54A, 0x1D550), (0x1D552, 0x1D6A5), (0x1D6A8, 0x1D6C0), (0x1D6C2, 0x1D6DA), (0x1D6DC, 0x1D6FA),
   (0x1D6FC, 0x1D714), (0x1D716, 0x1D734), (0x1D736, 0x1D74E), (0x1D750, 0x1D76E), (0x1D770, 0x1D788), (0x1D78A, 0x1D7A8),
   (0x1D7AA, 0x1D7C2), (0x1D7C4, 0x1D7CB), (0x1DF00, 0x1DF1E), (0x1DF25, 0x1DF2A), (0x1E030, 0x1E06D), (0x1E100, 0x1E12C),
   (0x1E137, 0x1E13D), (0x1E14E, 0x1E14E), (0x1E290, 0x1E2AD), (0x1E2C0, 0x1E2EB), (0x1E4D0, 0x1E4EB), (0x1E7E0, 0x1E7E6),
   (0x1E7E8, 0x1E7EB), (0x1E7ED, 0x1E7EE), (0x1E7F0, 0x1E7FE), (0x1E800, 0x1E8C4), (0x1E900, 0x1E943), (0x1E94B, 0x1E94B),
   (0x1EE00, 0x1EE03), (0x1EE05, 0x1EE1F), (0x1EE21, 0x1EE22), (0x1EE24, 0x1EE24), (0x1EE27, 0x1EE27), (0x1EE29, 0x1EE32),
   (0x1EE34, 0x1EE37), (0x1EE39, 0x1EE39), (0x1EE3B, 0x1EE3B), (0x1EE42, 0x1EE42), (0x1EE47, 0x1EE47), (0x1EE49, 0x1EE49),
   (0x1EE4B, 0x1EE4B), (0x1EE4D, 0x1EE4F), (0x1EE51, 0x1EE52), (0x1EE54, 0x1EE54), (0x1EE57, 0x1EE57), (0x1EE59, 0x1EE59),
   (0x1EE5B, 0x1EE5B), (0x1EE5D, 0x1EE5D), (0x1EE5F, 0x1EE5F), (0x1EE61, 0x1EE62), (0x1EE64, 0x1EE64), (0x1EE67, 0x1EE6A),
   (0x1EE6C, 0x1EE72), (0x1EE74, 0x1EE77), (0x1EE79, 0x1EE7C), (0x1EE7E, 0x1EE7E), (0x1EE80, 0x1EE89), (0x1EE8B, 0x1EE9B),
   (0x1EEA1, 0x1EEA3), (0x1EEA5, 0x1EEA9), (0x1EEAB, 0x1EEBB), (0x20000, 0x2A6DF), (0x2A700, 0x2B739), (0x2B740, 0x2B81D),
   (0x2B820, 0x2CEA1), (0x2CEB0, 0x2EBE0), (0x2F800, 0x2FA1D), (0x30000, 0x3134A), (0x31350, 0x323AF)]

/-- Membership of a code point in a list of ascending disjoint ranges. -/
def inRanges (n : Nat) : List (Nat × Nat) → Bool
  | [] => false
  | (lo, hi) :: rest =>
    if n < lo then false else if n ≤ hi then true else inRanges n rest

/-- The `unicode.IsLetter` predicate (category `L`). -/
def IsLetter (c : Char) : Bool :=
  inRanges c.toNat letterRanges

end Unicode

namespace Strings

/-- Go `strings.ToLower`. -/
def ToLower (s : String) : String :=
  ⟨s.data.map Unicode.ToLower⟩

/-- Byte offset of the first occurrence of `sub` in `s` (rune lists of valid UTF-8 text). -/
def indexRunes (sub : List Char) : List Char → Option Nat
  | [] => if sub.isEmpty then some 0 else none
  | c :: rest =>
    if sub.isPrefixOf (c :: rest) then some 0
    else (indexRunes sub rest).map (fun i => i + c.utf8Size)

/-- Go `strings.Index`: byte index of the first occurrence, `none` for `-1`. -/
def Index (s sub : String) : Option Nat :=
  indexRunes sub.data s.data

/-- Go `strings.Contains`. -/
def Contains (s sub : String) : Bool :=
  (Index s sub).isSome

/-- Splits a rune list around runs of white space, dropping empty fields; `cur` is the
field being read, in reverse. -/
def fieldsAux : List Char → List Char → List String
  | [], cur => if cur.isEmpty then [] else [⟨cur.reverse⟩]
  | c :: rest, cur =>
    if Unicode.IsSpace c then
      (if cur.isEmpty then fieldsAux rest [] else ⟨cur.reverse⟩ :: fieldsAux rest [])
    else fieldsAux rest (c :: cur)

/-- Go `strings.Fields`. -/
def Fields (s : String) : List String :=
  fieldsAux s.data []

/-- Removes the leading runes that satisfy `p`. -/
def trimLeft (p : Char → Bool) (l : List Char) : List Char :=
  l.dropWhile p

/-- Removes the leading and trailing runes that satisfy `p`. -/
def trimBoth (p : Char → Bool) (l : List Char) : List Char :=
  ((trimLeft p l).reverse.dropWhile p).reverse

/-- Go `strings.Trim(s, cutset)`. -/
def Trim (s cutset : String) : String :=
  ⟨trimBoth (fun c => cutset.data.contains c) s.data⟩

/-- Go `strings.TrimSpace`. -/
def TrimSpace (s : String) : String :=
  ⟨trimBoth Unicode.IsSpace s.data⟩

/-- Go `strings.Join`. -/
def Join (parts : List String) (sep : String) : String :=
  sep.intercalate parts

end Strings

/-- Go `sort.Slice(xs, less)`: the stable insertion sort, which places `a` before `b`
unless `less b a`. -/
def sortSlice {α : Type} (less : α → α → Bool) (xs : List α) : List α :=
  xs.insertionSort (fun a b => less b a = false)

/-! ### Go maps -/

/-- Lookup `m[k]` with the comma-ok form: `none` when the key is absent. -/
def mapGet {κ ν : Type} [DecidableEq κ] (m : List (κ × ν)) (k : κ) : Option ν :=
  (m.find? (fun e => e.1 = k)).map Prod.snd

/-- Assignment `m[k] = v`: replaces the value of an existing key, else adds the key. -/
def mapSet {κ ν : Type} [DecidableEq κ] : List (κ × ν) → κ → ν → List (κ × ν)
  | [], k, v => [(k, v)]
  | e :: rest, k, v => if e.1 = k then (k, v) :: rest else e :: mapSet rest k v

/-! ## Data model (`models.go`) -/

/-- Legal document (law, decree, regulation, ...); `Type_` is the Go field `Type`. -/
structure Document where
  ID : Nat := 0
  Title : String := ""
  Type_ : String := ""
  Number : Option String := none
  Year : Option Int := none
  Authority : Option String := none
  Status : String := ""
  CreatedAt : Nat := 0
  UpdatedAt : Nat := 0
  deriving DecidableEq, Repr

/-- Legal text unit (article, clause, point, ...). -/
structure Unit where
  ID : Nat := 0
  DocumentID : Nat := 0
  Level : String := ""
  Code : Option String := none
  Text : String := ""
  ParentID : Option Nat := none
  OrderIndex : Int := 0
  CreatedAt : Nat := 0
  deriving DecidableEq, Repr

/-- Legal concept (entity, action, condition, ...); `Type_` is the Go field `Type`. -/
structure Concept where
  ID : Nat := 0
  Name : String := ""
  Description : Option String := none
  Synonyms : List String := []
  Keywords : List String := []
  Type_ : String := ""
  CreatedAt : Nat := 0
  deriving DecidableEq, Repr

/-- Relationship between concepts. -/
structure Relation where
  ID : Nat := 0
  Name : String := ""
  Description : Option String := none
  Keywords : List String := []
  RelationType : String := ""
  CreatedAt : Nat := 0
  deriving DecidableEq, Repr

/-- Knowledge triple (Subject-Relation-Object). -/
structure Triple where
  ID : Nat := 0
  SubjectID : Nat := 0
  RelationID : Nat := 0
  ObjectID : Nat := 0
  UnitID : Nat := 0
  DocRef : String := ""
  Confidence : ℚ := 0
  TfIdf : ℚ := 0
  IsBlacklisted : Bool := false
  Context : Option String := none
  CreatedAt : Nat := 0
  deriving DecidableEq, Repr

/-- Triple with resolved names for easier query results. -/
structure TripleView extends Triple where
  SubjectName : String := ""
  RelationName : String := ""
  ObjectName : String := ""
  UnitText : String := ""
  DocumentTitle : String := ""
  DocumentID : Nat := 0
  deriving DecidableEq, Repr

/-- Candidate for query matching; `Type_` (Go field `Type`) is "subject", "relation" or "object". -/
structure QueryCandidate where
  Type_ : String := ""
  ConceptID : Option Nat := none
  RelationID : Option Nat := none
  Name : String := ""
  Score : ℚ := 0
  MatchType : String := ""
  deriving DecidableEq, Repr

/-- Star pattern for querying triples. -/
structure QueryStar where
  SubjectCandidates : List QueryCandidate := []
  RelationCandidates : List QueryCandidate := []
  ObjectCandidates : List QueryCandidate := []
  MatchingTriples : List TripleView := []
  deriving DecidableEq, Repr

/-- Single answer to a legal query; `Snippet` holds the bytes of the Go string. -/
structure Answer where
  DocRef : String := ""
  UnitID : String := ""
  Snippet : List UInt8 := []
  Score : ℚ := 0
  Context : Option String := none
  Title : String := ""
  SourceURL : String := ""
  deriving DecidableEq, Repr

/-- Debugging information for query processing; `Timings` is a map in milliseconds. -/
structure QueryDebug where
  Stars : List QueryStar := []
  Candidates : List QueryCandidate := []
  Timings : List (String × Int) := []
  Query : String := ""
  deriving DecidableEq, Repr

/-- Result of a legal query. -/
structure QueryResult where
  Answers : List Answer := []
  Debug : Option QueryDebug := none
  deriving DecidableEq, Repr

/-! ## Query engine (`query_engine.go`): scoring and ranking -/

/-- The `calculateRelevanceScore` method: how relevant a triple is to the query. -/
def calculateRelevanceScore (triple : TripleView) (queryText : String) : ℚ :=
  let queryLower := Strings.ToLower queryText
  let score : ℚ := 0.0
  let score := if Strings.Contains queryLower (Strings.ToLower triple.SubjectName)
    then score + 0.3 else score
  let score := if Strings.Contains queryLower (Strings.ToLower triple.RelationName)
    then score + 0.4 else score
  let score := if Strings.Contains queryLower (Strings.ToLower triple.ObjectName)
    then score + 0.3 else score
  let unitTextLower := Strings.ToLower triple.UnitText
  let queryWords := Strings.Fields queryLower
  let matchingWords :=
    (queryWords.filter (fun word => decide (len word > 2) && Strings.Contains unitTextLower word)).length
  let score := if queryWords.length > 0
    then score + (matchingWords : ℚ) / (queryWords.length : ℚ) * 0.2 else score
  if score = 0 then 0.1 else score

/-- The loop of `generateSnippet` over the candidate terms, with its fallback. -/
def snippetAround (text : String) : List String → Except Fault (List UInt8)
  | [] => do
    let head ← sliceBytes (utf8 text) 0 200
    pure (head ++ utf8 "...")
  | term :: rest =>
    if term = "" then snippetAround text rest
    else
      let termLower := Strings.ToLower term
      let textLower := Strings.ToLower text
      match Strings.Index textLower termLower with
      | some idx => do
        let start : Int := max 0 ((idx : Int) - 50)
        let stop : Int := min (len text : Int) ((idx : Int) + (len term : Int) + 150)
        let snippet ← sliceBytes (utf8 text) start stop
        let snippet := if start > 0 then utf8 "..." ++ snippet else snippet
        let snippet := if stop < (len text : Int) then snippet ++ utf8 "..." else snippet
        pure snippet
      | none => snippetAround text rest

/-- The `generateSnippet` method: a relevant snippet from the unit text. -/
def generateSnippet (triple : TripleView) : Except Fault (List UInt8) :=
  let text := triple.UnitText
  if len text ≤ 200 then .ok (utf8 text)
  else snippetAround text [triple.SubjectName, triple.ObjectName]

/-- True when `generateSnippet` returns a snippet for the triple (no slice panic). -/
def snippetOk (triple : TripleView) : Bool :=
  match generateSnippet triple with
  | .ok _ => true
  | .error _ => false

/-- The two maps `combineAndRankResults` fills while it walks the stars. -/
structure RankMaps where
  tripleMap : List (Nat × TripleView) := []
  tripleScores : List (Nat × ℚ) := []
  deriving DecidableEq, Repr

/-- Positional weight of the star at index `starIdx`. -/
def starWeightAt (starIdx : Nat) : ℚ :=
  let starWeight : ℚ := 1.0 - (starIdx : ℚ) * 0.1
  if starWeight < 0.1 then 0.1 else starWeight

/-- Score of one (star, triple) pairing before the maximum is taken. -/
def combinedScore (triple : TripleView) (queryText : String) (starWeight : ℚ) : ℚ :=
  let relevanceScore := calculateRelevanceScore triple queryText
  let alpha : ℚ := 0.2
  let beta : ℚ := 0.1
  let tfidfScore := triple.TfIdf
  let coverage : ℚ := 1.0
  let score := relevanceScore + alpha * tfidfScore + beta * coverage
  score * starWeight

/-- Body of the inner loop of `combineAndRankResults` for one matching triple. -/
def rankTriple (queryText : String) (starWeight : ℚ) (m : RankMaps) (triple : TripleView) :
    RankMaps :=
  let key := triple.ID
  let tripleMap :=
    match mapGet m.tripleMap key with
    | some existing => mapSet m.tripleMap key existing
    | none => mapSet m.tripleMap key triple
  let score := combinedScore triple queryText starWeight
  let existingScore := (mapGet m.tripleScores key).getD 0
  let tripleScores :=
    if score > existingScore then mapSet m.tripleScores key score else m.tripleScores
  { tripleMap := tripleMap, tripleScores := tripleScores }

/-- Body of the outer loop of `combineAndRankResults` for the star at index `starIdx`. -/
def rankStar (queryText : String) (m : RankMaps) (indexed : Nat × QueryStar) : RankMaps :=
  indexed.2.MatchingTriples.foldl (rankTriple queryText (starWeightAt indexed.1)) m

/-- The maps after the collection loop of `combineAndRankResults`. -/
def collectTriples (stars : List QueryStar) (queryText : String) : RankMaps :=
  stars.enum.foldl (rankStar queryText) {}

/-- Decimal rendering of an identifier, standing for `uuid.UUID.String`. -/
def idString (id : Nat) : String :=
  toString id

/-- Conversion of one entry of `tripleMap` into an `Answer`, paired with its triple id. -/
def toAnswer (tripleScores : List (Nat × ℚ)) (entry : Nat × TripleView) :
    Except Fault (Nat × Answer) :=
  let tripleID := entry.1
  let triple := entry.2
  let score := (mapGet tripleScores tripleID).getD 0
  match generateSnippet triple with
  | .error f => .error f
  | .ok snippet =>
    .ok (tripleID, {
      DocRef := triple.DocRef
      UnitID := idString triple.UnitID
      Snippet := snippet
      Score := score
      Context := triple.Context
      Title := triple.DocumentTitle
      SourceURL := "/documents/" ++ idString triple.DocumentID })

/-- The conversion loop of `combineAndRankResults` over the entries of `tripleMap`; it
stops at the first entry whose snippet panics. -/
def toAnswers (tripleScores : List (Nat × ℚ)) :
    List (Nat × TripleView) → Except Fault (List (Nat × Answer))
  | [] => .ok []
  | entry :: rest =>
    match toAnswer tripleScores entry with
    | .error f => .error f
    | .ok a =>
      match toAnswers tripleScores rest with
      | .error f => .error f
      | .ok answers => .ok (a :: answers)

/-- The method `combineAndRankResults`, each answer paired with the id of its triple. -/
def combineAndRankResultsKeyed (stars : List QueryStar) (queryText : String) :
    Except Fault (List (Nat × Answer)) :=
  let m := collectTriples stars queryText
  match toAnswers m.tripleScores m.tripleMap with
  | .error f => .error f
  | .ok answers =>
    let answers := sortSlice (fun a b => decide (a.2.Score > b.2.Score)) answers
    .ok (if answers.length > 10 then answers.take 10 else answers)

/-- The `combineAndRankResults` method: combines results from all stars and ranks them. -/
def combineAndRankResults (stars : List QueryStar) (queryText : String) :
    Except Fault (List Answer) :=
  match combineAndRankResultsKeyed stars queryText with
  | .error f => .error f
  | .ok keyed => .ok (keyed.map Prod.snd)

/-! ### Quantities named by the specification of the ranking stage -/

/-- Pre-weight score of a triple for a query: `relevance + 0.2·tfidf + 0.1·1.0`. -/
def preWeight (triple : TripleView) (queryText : String) : ℚ :=
  calculateRelevanceScore triple queryText + 0.2 * triple.TfIdf + 0.1

/-- The combined scores `(relevance + 0.2·tfidf + 0.1) · max(0.1, 1.0 − 0.1·i)` of every
appearance of triple `id`, over the stars in order. -/
def appearanceScores (stars : List QueryStar) (queryText : String) (id : Nat) : List ℚ :=
  stars.enum.flatMap (fun indexed =>
    (indexed.2.MatchingTriples.filter (fun t => t.ID = id)).map
      (fun t => preWeight t queryText * max 0.1 (1.0 - 0.1 * (indexed.1 : ℚ))))

/-- `x` is the maximum of the list `l`: it occurs in `l` and bounds every entry. -/
def IsMaxOf (l : List ℚ) (x : ℚ) : Prop :=
  x ∈ l ∧ ∀ y ∈ l, y ≤ x

/-- The triple ids among the matching triples of the stars, in encounter order. -/
def tripleIDs (stars : List QueryStar) : List Nat :=
  stars.flatMap (fun star => star.MatchingTriples.map (fun t => t.ID))

/-- Every (star weight, triple) pairing in the order the collection loop meets them. -/
def pairings (stars : List (Nat × QueryStar)) : List (ℚ × TripleView) :=
  stars.flatMap (fun indexed =>
    indexed.2.MatchingTriples.map (fun t => (starWeightAt indexed.1, t)))

/-! ### Sample inputs for the ranking stage -/

/-- Triple 1 as one star resolves it: tfidf 1.1, so its pre-weight score for the query
"speed limit" is 0.1 + 0.2·1.1 + 0.1 = 0.42. -/
def sampleTripleA : TripleView :=
  { ID := 1, TfIdf := 1.1, SubjectName := "driver", RelationName := "phải",
    ObjectName := "helmet", UnitText := "the driver must wear a helmet" }

/-- Triple 1 as another star resolves it: tfidf 1.55, pre-weight score 0.51. -/
def sampleTripleB : TripleView :=
  { sampleTripleA with TfIdf := 1.55 }

/-- Triple 1 with tfidf −2: its pre-weight score for the query "speed limit" is −0.2. -/
def sampleTripleNeg : TripleView :=
  { sampleTripleA with TfIdf := -2 }

/-- The answer built from `sampleTripleA` with the given score. -/
def sampleAnswer (score : ℚ) : Answer :=
  { DocRef := "", UnitID := "0", Snippet := utf8 "the driver must wear a helmet",
    Score := score, Context := none, Title := "", SourceURL := "/documents/0" }

/-- Two stars that both resolve triple 1, with pre-weight scores 0.42 (star index 0) and
0.51 (star index 1) for the query "speed limit". -/
def sampleStars : List QueryStar :=
  [{ MatchingTriples := [sampleTripleA] }, { MatchingTriples := [sampleTripleB] }]

/-- One star with twelve distinct triples, ids 1 to 12, tfidf 0, 0.1, ..., 1.1. -/
def twelveTripleStar : QueryStar :=
  { MatchingTriples :=
      (List.range 12).map (fun k => { sampleTripleA with ID := k + 1, TfIdf := (k : ℚ) / 10 }) }

/-- One star whose only triple has a negative combined score. -/
def negativeStars : List QueryStar :=
  [{ MatchingTriples := [sampleTripleNeg] }]

/-! ## Query engine (`query_engine.go`): terms, candidates, stars and the pipeline -/

/-- One reranked document (`rerank.go`). -/
structure RerankResult where
  Index : Int := 0
  RelevanceScore : ℚ := 0
  deriving DecidableEq, Repr

/-- The `QAProvider` interface, reduced to the method the query engine calls. -/
structure QAProvider where
  RewriteQuery : String → Except GoError (List String)

/-- The `Reranker` interface. -/
structure Reranker where
  Rerank : String → List String → Except GoError (List RerankResult)

/-- The store operations the query engine calls on its `Repository`, as the database
answers them while one query runs (the store is only read, so each is a function of its
argument). -/
structure RepositoryReads where
  FindConceptCandidates : String → Except GoError (List QueryCandidate)
  FindRelationCandidates : String → Except GoError (List QueryCandidate)
  FindTriplesByStar : QueryStar → Except GoError (List TripleView)

/-- The `QueryEngine` struct; a `none` field is a nil interface value. -/
structure QueryEngine where
  repo : RepositoryReads
  qaProvider : Option QAProvider
  reranker : Option Reranker

/-- What the run time contributes to one call of `ProcessQuery`: `now k` is the k-th
reading of the clock in nanoseconds, `addr i` the hexadecimal digits of the address held
by the `Context` pointer of the answer at position `i`. -/
structure Runtime where
  now : Nat → Int
  addr : Nat → String

/-- Stop words of `extractQueryTerms` (English and Vietnamese). -/
def stopWords : List String :=
  ["what", "is", "the", "a", "an",
   "are", "can", "does", "how",
   "when", "where", "who", "why", "which",
   "for", "of", "to", "in", "on",
   "at", "by", "with", "from", "and",
   "or", "but", "not", "be", "have",
   "has", "had", "will", "would", "could",
   "should", "may", "might", "must", "do",
   "là", "của", "và", "có", "được",
   "trong", "cho", "để", "với", "các",
   "một", "những", "này", "đó", "như",
   "khi", "nếu", "thì", "sẽ", "đã",
   "về", "từ", "trên", "theo", "tại",
   "bởi", "vì", "hay", "hoặc",
   "nhưng", "mà", "nào", "gì", "ai",
   "đâu", "sao", "bao", "nhiêu", "thế",
   "vậy", "ra", "vào", "lên",
   "xuống", "qua", "lại", "đi", "đến"]

/-- Common punctuation trimmed from query words. -/
def punct : String :=
  ".,!?;:()[]\x7b\x7d\"\x27“”‘’-_"

/-- Lookup `stopWords[word]`. -/
def isStopWord (word : String) : Bool :=
  stopWords.contains word

/-- First loop of `extractQueryTerms`: the single-word terms. -/
def wordTerms (words : List String) : List String :=
  (words.map (fun word => Strings.Trim word punct)).filter
    (fun word => decide (len word > 2) && !isStopWord word)

/-- Body of the second loop of `extractQueryTerms` at one position: the 2-, 3- and 4-word
phrases that start with the first word of the remaining words. -/
def phrasesAt : List String → List String
  | w1 :: w2 :: rest =>
    let word1 := Strings.Trim w1 punct
    let word2 := Strings.Trim w2 punct
    let two :=
      if len word1 > 1 ∧ len word2 > 1 ∧ !isStopWord word1 ∧ !isStopWord word2
      then [word1 ++ " " ++ word2] else []
    let three :=
      match rest with
      | w3 :: _ =>
        let word3 := Strings.Trim w3 punct
        if len word1 > 1 ∧ len word2 > 1 ∧ len word3 > 1 ∧ !isStopWord word1 ∧ !isStopWord word3
        then [word1 ++ " " ++ word2 ++ " " ++ word3] else []
      | [] => []
    let four :=
      match rest with
      | w3 :: w4 :: _ =>
        let word3 := Strings.Trim w3 punct
        let word4 := Strings.Trim w4 punct
        if len word1 > 1 ∧ len word2 > 1 ∧ len word3 > 1 ∧ len word4 > 1 ∧
            !isStopWord word1 ∧ !isStopWord word4
        then [word1 ++ " " ++ word2 ++ " " ++ word3 ++ " " ++ word4] else []
      | _ => []
    two ++ three ++ four
  | _ => []

/-- Second loop of `extractQueryTerms`, over the positions `i < len(words) - 1`. -/
def phraseTerms : List String → List String
  | [] => []
  | w :: rest => phrasesAt (w :: rest) ++ phraseTerms rest

/-- The `extractQueryTerms` method: meaningful terms of the query text. -/
def extractQueryTerms (queryText : String) : List String :=
  let text := Strings.ToLower queryText
  let words := Strings.Fields text
  wordTerms words ++ phraseTerms words

/-- Rendering by `%v` of an optional identifier (`*uuid.UUID`). -/
def fmtOptID : Option Nat → String
  | none => "<nil>"
  | some id => idString id

/-- Deduplication key of a candidate in `findAllCandidates`. -/
def candidateKey (candidate : QueryCandidate) : String :=
  candidate.Type_ ++ "_" ++ candidate.Name ++ "_" ++ fmtOptID candidate.ConceptID ++ "_" ++
    fmtOptID candidate.RelationID

/-- First loop of `findAllCandidates`: the raw candidates of every term, in order; the
first failing lookup ends it. -/
def gatherCandidates (repo : RepositoryReads) : List String → Except Fault (List QueryCandidate)
  | [] => .ok []
  | term :: rest =>
    match repo.FindConceptCandidates term with
    | .error err =>
      .error (.err (.wrap ("finding concept candidates for \x27" ++ term ++ "\x27") err))
    | .ok conceptCandidates =>
      match repo.FindRelationCandidates term with
      | .error err =>
        .error (.err (.wrap ("finding relation candidates for \x27" ++ term ++ "\x27") err))
      | .ok relationCandidates =>
        match gatherCandidates repo rest with
        | .error f => .error f
        | .ok more =>
          .ok (conceptCandidates.flatMap (fun candidate =>
                [{ candidate with Type_ := "subject" }, { candidate with Type_ := "object" }])
              ++ relationCandidates ++ more)

/-- Deduplication step of `findAllCandidates` for one candidate. -/
def dedupCandidate (candidateMap : List (String × QueryCandidate)) (candidate : QueryCandidate) :
    List (String × QueryCandidate) :=
  let key := candidateKey candidate
  match mapGet candidateMap key with
  | some existing =>
    if candidate.Score > existing.Score then mapSet candidateMap key candidate else candidateMap
  | none => mapSet candidateMap key candidate

/-- The `findAllCandidates` method: concept and relation candidates for all query terms. -/
def findAllCandidates (repo : RepositoryReads) (terms : List String) :
    Except Fault (List QueryCandidate) :=
  match gatherCandidates repo terms with
  | .error f => .error f
  | .ok allCandidates =>
    let candidateMap := allCandidates.foldl dedupCandidate []
    let dedupedCandidates := candidateMap.map Prod.snd
    .ok (sortSlice (fun a b => decide (a.Score > b.Score)) dedupedCandidates)

/-- The three candidate groups `buildQueryStars` fills. -/
structure RoleGroups where
  subjectCandidates : List QueryCandidate := []
  relationCandidates : List QueryCandidate := []
  objectCandidates : List QueryCandidate := []
  deriving DecidableEq, Repr

/-- Body of the grouping loop of `buildQueryStars`: the `switch` on the candidate type,
each group limited to its first five candidates. -/
def groupCandidate (g : RoleGroups) (candidate : QueryCandidate) : RoleGroups :=
  if candidate.Type_ = "subject" then
    (if g.subjectCandidates.length < 5
      then { g with subjectCandidates := g.subjectCandidates ++ [candidate] } else g)
  else if candidate.Type_ = "relation" then
    (if g.relationCandidates.length < 5
      then { g with relationCandidates := g.relationCandidates ++ [candidate] } else g)
  else if candidate.Type_ = "object" then
    (if g.objectCandidates.length < 5
      then { g with objectCandidates := g.objectCandidates ++ [candidate] } else g)
  else g

/-- The `buildQueryStars` method: star patterns from candidates. -/
def buildQueryStars (candidates : List QueryCandidate) : List QueryStar :=
  let groups := candidates.foldl groupCandidate {}
  let subjectCandidates := groups.subjectCandidates
  let relationCandidates := groups.relationCandidates
  let objectCandidates := groups.objectCandidates
  let stars : List QueryStar := []
  let stars :=
    if subjectCandidates.length > 0 ∧ relationCandidates.length > 0 ∧ objectCandidates.length > 0
    then stars ++ [{ SubjectCandidates := subjectCandidates,
                     RelationCandidates := relationCandidates,
                     ObjectCandidates := objectCandidates }]
    else stars
  let stars :=
    if relationCandidates.length > 0
    then stars ++ [{ SubjectCandidates := subjectCandidates,
                     RelationCandidates := relationCandidates.take (min 2 relationCandidates.length),
                     ObjectCandidates := objectCandidates }]
    else stars
  let stars :=
    if subjectCandidates.length > 0
    then stars ++ [{ SubjectCandidates := subjectCandidates.take (min 3 subjectCandidates.length),
                     RelationCandidates := relationCandidates,
                     ObjectCandidates := [] }]
    else stars
  let stars :=
    if objectCandidates.length > 0
    then stars ++ [{ SubjectCandidates := [],
                     RelationCandidates := relationCandidates,
                     ObjectCandidates := objectCandidates.take (min 3 objectCandidates.length) }]
    else stars
  stars

/-- Step 4 of `ProcessQuery`: executes the stars in order, attaching the matching triples;
the first failing retrieval ends it. `i` is the index of the first star of the list. -/
def executeStars (repo : RepositoryReads) : Nat → List QueryStar → Except Fault (List QueryStar)
  | _, [] => .ok []
  | i, star :: rest =>
    match repo.FindTriplesByStar star with
    | .error err => .error (.err (.wrap ("executing star " ++ toString i) err))
    | .ok triples =>
      match executeStars repo (i + 1) rest with
      | .error f => .error f
      | .ok done => .ok ({ star with MatchingTriples := triples } :: done)

/-- The `time.Duration.Milliseconds` method of a duration in nanoseconds. -/
def milliseconds (d : Int) : Int :=
  Int.tdiv d 1000000

/-- Formatting by `fmt.Sprintf` with verb `%s` of a `*string`: the verb does not apply to
a pointer, so the output is the bad-verb form with the address the pointer holds. -/
def sprintStringPtr (addr : String) : Option String → String
  | none => "%!s(*string=<nil>)"
  | some _ => "%!s(*string=0x" ++ addr ++ ")"

/-- The document text `ProcessQuery` builds for the answer at position `i`:
`fmt.Sprintf("Title: %s\nContent: %s", ans.Title, ans.Context)`. -/
def rerankDoc (rt : Runtime) (i : Nat) (ans : Answer) : String :=
  "Title: " ++ ans.Title ++ "\nContent: " ++ sprintStringPtr (rt.addr i) ans.Context

/-- The map of new scores `ProcessQuery` builds from the reranker response. -/
def rerankScoreMap (rerankResults : List RerankResult) : List (Int × ℚ) :=
  rerankResults.foldl (fun scoreMap res => mapSet scoreMap res.Index res.RelevanceScore) []

/-- The power `2^k` for an integer exponent. -/
def pow2 (k : Int) : ℚ :=
  if 0 ≤ k then ((2 ^ k.toNat : Nat) : ℚ) else 1 / ((2 ^ (-k).toNat : Nat) : ℚ)

/-- Position of the highest set bit of `n` (0 for `n < 2`); the recursion halves `n` and is
bounded by `fuel`, for which `n` itself is enough. -/
def log2Floor : Nat → Nat → Nat
  | 0, _ => 0
  | fuel + 1, n => if n < 2 then 0 else log2Floor fuel (n / 2) + 1

/-- Rounding of a non-negative rational to the nearest integer, ties to the even one. -/
def roundHalfEven (x : ℚ) : Int :=
  let f := x.floor
  let r := x - (f : ℚ)
  if r < 1 / 2 then f
  else if 1 / 2 < r then f + 1
  else if f % 2 = 0 then f else f + 1

/-- Go conversion `float32(x)` of a `float64` value: the nearest value with 24 significant
bits and exponent at least -126 (below, the subnormal grid of step `2^-149`), ties to even.
A magnitude that rounds to `2^128` or more overflows to an infinity, for which `±2^128`
stands: it exceeds every finite `float32`, and only comparisons are applied to it. -/
def toFloat32 (x : ℚ) : ℚ :=
  if x = 0 then 0
  else
    let a := |x|
    let e0 : Int :=
      (log2Floor a.num.natAbs a.num.natAbs : Int) - (log2Floor a.den a.den : Int)
    let e : Int := if a < pow2 e0 then e0 - 1 else e0
    let q : Int := max e (-126) - 23
    let y := (roundHalfEven (a / pow2 q) : ℚ) * pow2 q
    let y := if pow2 128 ≤ y then pow2 128 else y
    if x < 0 then -y else y

/-- The update loop of Step 6: keeps the candidates whose position has a new score, with
that score converted to `float32`. -/
def applyRerank (scoreMap : List (Int × ℚ)) (candidatesToRerank : List Answer) : List Answer :=
  candidatesToRerank.enum.filterMap (fun indexed =>
    match mapGet scoreMap (indexed.1 : Int) with
    | some newScore => some { indexed.2 with Score := toFloat32 newScore }
    | none => none)

/-- Steps 0 to 5 of `ProcessQuery`: what the pipeline holds before the rerank step. -/
structure Stage5 where
  queries : List String
  terms : List String
  allCandidates : List QueryCandidate
  stars : List QueryStar
  answers : List Answer

/-- Step 0 of `ProcessQuery`: the query variants; a failed rewrite falls back to the
original query alone. -/
def rewriteQueries (qa : QAProvider) (queryText : String) : List String :=
  match qa.RewriteQuery queryText with
  | .ok queries => queries
  | .error _ => [queryText]

/-- Step 1 of `ProcessQuery`: the terms of all query variations, merged through `termMap`. -/
def combinedTerms (queries : List String) : List String :=
  let termMap : List (String × Bool) :=
    queries.foldl (fun termMap q =>
      (extractQueryTerms q).foldl (fun termMap t => mapSet termMap t true) termMap) []
  termMap.map Prod.fst

/-- Steps 0 to 5 of `ProcessQuery`. -/
def runStages (e : QueryEngine) (queryText : String) : Except Fault Stage5 :=
  match e.qaProvider with
  | none => .error (.panic "invalid memory address or nil pointer dereference")
  | some qa =>
    let queries := rewriteQueries qa queryText
    let terms := combinedTerms queries
    match findAllCandidates e.repo terms with
    | .error (.err err) => .error (.err (.wrap "finding candidates" err))
    | .error f => .error f
    | .ok allCandidates =>
      let stars := buildQueryStars allCandidates
      match executeStars e.repo 0 stars with
      | .error f => .error f
      | .ok stars =>
        match combineAndRankResults stars queryText with
        | .error f => .error f
        | .ok answers =>
          .ok { queries := queries, terms := terms, allCandidates := allCandidates,
                stars := stars, answers := answers }

/-- The answers `ProcessQuery` holds after Step 5 (combine and rank). -/
def stage5Answers (e : QueryEngine) (queryText : String) : Except Fault (List Answer) :=
  match runStages e queryText with
  | .error f => .error f
  | .ok st => .ok st.answers

/-- Step 6 of `ProcessQuery`: the answers after the optional rerank and whether the rerank
branch was entered (it then records a "reranking" timing). -/
def rerankStep (e : QueryEngine) (rt : Runtime) (queryText : String) (answers : List Answer) :
    List Answer × Bool :=
  match e.reranker with
  | some reranker =>
    if answers.length > 0 then
      let candidatesToRerank := if answers.length > 30 then answers.take 30 else answers
      let docs := candidatesToRerank.enum.map (fun indexed => rerankDoc rt indexed.1 indexed.2)
      match reranker.Rerank queryText docs with
      | .ok rerankResults =>
        let scoreMap := rerankScoreMap rerankResults
        let rerankedAnswers := applyRerank scoreMap candidatesToRerank
        (sortSlice (fun a b => decide (a.Score > b.Score)) rerankedAnswers, true)
      | .error _ => (answers, true)
    else (answers, false)
  | none => (answers, false)

/-- The timings map of `ProcessQuery`; the clock is read in program order. -/
def queryTimings (rt : Runtime) (reranked : Bool) : List (String × Int) :=
  let timings : List (String × Int) := []
  let rewriting := milliseconds (rt.now 2 - rt.now 1)
  let timings := mapSet timings "query_rewriting" rewriting
  let timings := mapSet timings "term_extraction" (milliseconds (rt.now 3 - rt.now 0) - rewriting)
  let timings := mapSet timings "candidate_search" (milliseconds (rt.now 5 - rt.now 4))
  let timings := mapSet timings "star_building" (milliseconds (rt.now 7 - rt.now 6))
  let timings := mapSet timings "triple_matching" (milliseconds (rt.now 9 - rt.now 8))
  let timings := mapSet timings "initial_ranking" (milliseconds (rt.now 11 - rt.now 10))
  if reranked then
    let timings := mapSet timings "reranking" (milliseconds (rt.now 13 - rt.now 12))
    mapSet timings "total" (milliseconds (rt.now 14 - rt.now 0))
  else
    mapSet timings "total" (milliseconds (rt.now 12 - rt.now 0))

/-- The `ProcessQuery` method: analyzes a natural language legal query and returns
relevant answers. -/
def ProcessQuery (e : QueryEngine) (rt : Runtime) (queryText : String) (includeDebug : Bool) :
    Except Fault QueryResult :=
  match runStages e queryText with
  | .error f => .error f
  | .ok st =>
    let step6 := rerankStep e rt queryText st.answers
    let debug : QueryDebug :=
      { Query := queryText, Timings := queryTimings rt step6.2,
        Candidates := st.allCandidates, Stars := st.stars }
    .ok { Answers := step6.1, Debug := if includeDebug then some debug else none }

/-! ### Sample engine -/

/-- A second triple of the sample store. -/
def sampleTripleC : TripleView :=
  { ID := 2, UnitID := 5, TfIdf := 0.5, SubjectName := "rider", RelationName := "phải",
    ObjectName := "helmet", UnitText := "the rider must wear a helmet",
    Context := some "article 5", DocumentTitle := "Road Traffic Law", DocumentID := 3 }

/-- Store reads of a graph that knows the concept "helmet" and resolves every star to the
two sample triples. -/
def sampleRepo : RepositoryReads :=
  { FindConceptCandidates := fun term =>
      if term = "helmet" then
        .ok [{ Type_ := "subject", ConceptID := some 7, Name := "helmet", Score := 1,
               MatchType := "exact" }]
      else .ok []
    FindRelationCandidates := fun _ => .ok []
    FindTriplesByStar := fun _ => .ok [sampleTripleA, sampleTripleC] }

/-- An engine whose rewrite capability fails and whose reranker scores only the document
at position 1. -/
def sampleEngine : QueryEngine :=
  { repo := sampleRepo
    qaProvider := some { RewriteQuery := fun _ => .error (.msg "rewrite unavailable") }
    reranker := some { Rerank := fun _ _ => .ok [{ Index := 1, RelevanceScore := 0.9 }] } }

/-- An engine over an empty graph: every lookup succeeds with no candidate. -/
def emptyGraphEngine : QueryEngine :=
  { repo :=
      { FindConceptCandidates := fun _ => .ok []
        FindRelationCandidates := fun _ => .ok []
        FindTriplesByStar := fun _ => .ok [] }
    qaProvider := some { RewriteQuery := fun q => .ok [q] }
    reranker := some { Rerank := fun _ _ => .error (.msg "reranker not configured") } }

/-- A clock that advances one millisecond per reading and a fixed pointer address. -/
def sampleRuntime : Runtime :=
  { now := fun k => 1000000 * (k : Int)
    addr := fun _ => "c000010250" }

/-- The Stage-5 answers of `sampleEngine` for the query "helmet". -/
def sampleStage5 : List Answer :=
  [sampleAnswer 0.82,
   { DocRef := "", UnitID := "5", Snippet := utf8 "the rider must wear a helmet", Score := 0.7,
     Context := some "article 5", Title := "Road Traffic Law", SourceURL := "/documents/3" }]

/-! ## Graph store (`repository.go`)

The database is a record of tables.  Every statement sent to it is counted; the statement
with ordinal `k` fails when `k ∈ faults`.  Rows are found by primary key (`ID`).  The
timestamp `NOW()` of a statement is its ordinal plus one, so it is never the zero time. -/

/-- Row of table `triples`; column `tfidf` may hold SQL NULL. -/
structure TripleRow where
  id : Nat := 0
  subject_id : Nat := 0
  relation_id : Nat := 0
  object_id : Nat := 0
  unit_id : Nat := 0
  doc_ref : String := ""
  confidence : ℚ := 0
  tfidf : Option ℚ := none
  is_blacklisted : Bool := false
  context : Option String := none
  created_at : Nat := 0
  deriving DecidableEq, Repr

/-- The database behind a `Repository`. -/
structure Store where
  documents : List Document := []
  units : List Unit := []
  concepts : List Concept := []
  relations : List Relation := []
  triples : List TripleRow := []
  unit_embeddings : List (Nat × List ℚ × String) := []
  nextID : Nat := 1
  calls : Nat := 0
  faults : List Nat := []
  tfidfDefault : Option ℚ := none
  deriving DecidableEq, Repr

/-- True when the statement about to be sent fails. -/
def Store.faulted (db : Store) : Bool :=
  db.faults.contains db.calls

/-- The store after one more statement was sent. -/
def Store.step (db : Store) : Store :=
  { db with calls := db.calls + 1 }

/-- Timestamp `NOW()` of the statement about to be sent. -/
def Store.now (db : Store) : Nat :=
  db.calls + 1

/-- The error of a failed statement. -/
def dbError : GoError :=
  .msg "database error"

/-- One row of the join `triples ⋈ concepts ⋈ relations ⋈ concepts ⋈ units ⋈ documents`
of `FindTriplesByStar`. -/
structure JoinedRow where
  t : TripleRow
  subject_name : String
  relation_name : String
  object_name : String
  unit_text : String
  document_title : String
  document_id : Nat
  deriving DecidableEq, Repr

/-- The joined row of a triple, when all its references resolve (inner joins). -/
def joinTriple (db : Store) (t : TripleRow) : Option JoinedRow :=
  match db.concepts.find? (fun c => c.ID = t.subject_id),
        db.relations.find? (fun r => r.ID = t.relation_id),
        db.concepts.find? (fun c => c.ID = t.object_id),
        db.units.find? (fun u => u.ID = t.unit_id) with
  | some cs, some cr, some co, some u =>
    match db.documents.find? (fun d => d.ID = u.DocumentID) with
    | some d =>
      some { t := t, subject_name := cs.Name, relation_name := cr.Name, object_name := co.Name,
             unit_text := u.Text, document_title := d.Title, document_id := d.ID }
    | none => none
  | _, _, _, _ => none

/-- The ids of the candidates that carry a concept id. -/
def conceptIDs (candidates : List QueryCandidate) : List Nat :=
  candidates.filterMap (fun c => c.ConceptID)

/-- The ids of the candidates that carry a relation id. -/
def relationIDs (candidates : List QueryCandidate) : List Nat :=
  candidates.filterMap (fun c => c.RelationID)

/-- The `WHERE` clause `FindTriplesByStar` builds: not blacklisted, and for each role whose
id list is non-empty, the id lies in that list (`= ANY($n)`). -/
def starWhere (star : QueryStar) (row : JoinedRow) : Bool :=
  row.t.is_blacklisted = false &&
  (decide (conceptIDs star.SubjectCandidates = []) ||
    (conceptIDs star.SubjectCandidates).contains row.t.subject_id) &&
  (decide (relationIDs star.RelationCandidates = []) ||
    (relationIDs star.RelationCandidates).contains row.t.relation_id) &&
  (decide (conceptIDs star.ObjectCandidates = []) ||
    (conceptIDs star.ObjectCandidates).contains row.t.object_id)

/-- `tfidf DESC NULLS LAST` on two values: `a` strictly before `b`. -/
def tfidfBefore : Option ℚ → Option ℚ → Bool
  | some x, some y => decide (x > y)
  | some _, none => true
  | none, _ => false

/-- The `ORDER BY t.tfidf DESC NULLS LAST, t.confidence DESC, t.created_at DESC` order:
`a` is at or before `b`. -/
def starOrder (a b : JoinedRow) : Bool :=
  tfidfBefore a.t.tfidf b.t.tfidf ||
  (!tfidfBefore b.t.tfidf a.t.tfidf &&
    (decide (a.t.confidence > b.t.confidence) ||
      (decide (a.t.confidence = b.t.confidence) && decide (a.t.created_at ≥ b.t.created_at))))

/-- The rows that satisfy the `WHERE` clause of the star query. -/
def starMatches (db : Store) (star : QueryStar) : List JoinedRow :=
  (db.triples.filterMap (joinTriple db)).filter (starWhere star)

/-- The result set of the star query: matching rows in `ORDER BY` order (rows that tie keep
their table order), cut by `LIMIT 50`. -/
def starQuery (db : Store) (star : QueryStar) : List JoinedRow :=
  ((starMatches db star).insertionSort (fun a b => starOrder a b = true)).take 50

/-- The `rows.Scan` call of `FindTriplesByStar` on one row; SQL NULL cannot be scanned into
the `float32` field `TfIdf`. -/
def scanTripleView (row : JoinedRow) : Except GoError TripleView :=
  match row.t.tfidf with
  | none => .error (.msg "cannot scan NULL into *float32")
  | some tfidf =>
    .ok { ID := row.t.id, SubjectID := row.t.subject_id, RelationID := row.t.relation_id,
          ObjectID := row.t.object_id, UnitID := row.t.unit_id, DocRef := row.t.doc_ref,
          Confidence := row.t.confidence, TfIdf := tfidf,
          IsBlacklisted := row.t.is_blacklisted, Context := row.t.context,
          CreatedAt := row.t.created_at,
          SubjectName := row.subject_name, RelationName := row.relation_name,
          ObjectName := row.object_name, UnitText := row.unit_text,
          DocumentTitle := row.document_title, DocumentID := row.document_id }

/-- The scan loop of `FindTriplesByStar`: the first failing scan ends it. -/
def scanRows : List JoinedRow → Except GoError (List TripleView)
  | [] => .ok []
  | row :: rest =>
    match scanTripleView row with
    | .error err => .error err
    | .ok tv =>
      match scanRows rest with
      | .error err => .error err
      | .ok triples => .ok (tv :: triples)

/-- The `FindTriplesByStar` method of the repository. -/
def FindTriplesByStar (db : Store) (star : QueryStar) :
    Except GoError (List TripleView) × Store :=
  if db.faulted then (.error dbError, db.step)
  else (scanRows (starQuery db star), db.step)

/-- The `ORDER BY` order of the star query read on scanned triples: `a` is at or before
`b` in (tfidf, confidence, creation time), each descending. -/
def viewOrder (a b : TripleView) : Prop :=
  a.TfIdf > b.TfIdf ∨
  (a.TfIdf = b.TfIdf ∧
    (a.Confidence > b.Confidence ∨ (a.Confidence = b.Confidence ∧ a.CreatedAt ≥ b.CreatedAt)))

/-! ### Sample store -/

/-- A store with three concepts, two relations, one unit of one document and five triples:
triple 102 has no tfidf (NULL), triple 103 is blacklisted. -/
def sampleStore : Store :=
  { documents := [{ ID := 30, Title := "Road Traffic Law", Type_ := "Law" }]
    units := [{ ID := 20, DocumentID := 30, Text := "the driver must wear a helmet" }]
    concepts := [{ ID := 1, Name := "driver" }, { ID := 2, Name := "helmet" },
                 { ID := 3, Name := "red light" }]
    relations := [{ ID := 10, Name := "phải" }, { ID := 11, Name := "cấm" }]
    triples :=
      [{ id := 100, subject_id := 1, relation_id := 10, object_id := 2, unit_id := 20,
         confidence := 0.9, tfidf := some 0.5, created_at := 5 },
       { id := 101, subject_id := 1, relation_id := 11, object_id := 3, unit_id := 20,
         confidence := 0.9, tfidf := some 0.8, created_at := 6 },
       { id := 102, subject_id := 1, relation_id := 11, object_id := 3, unit_id := 20,
         confidence := 0.8, tfidf := none, created_at := 7 },
       { id := 103, subject_id := 1, relation_id := 10, object_id := 2, unit_id := 20,
         confidence := 0.9, tfidf := some 0.9, is_blacklisted := true, created_at := 8 },
       { id := 104, subject_id := 2, relation_id := 10, object_id := 3, unit_id := 20,
         confidence := 0.9, tfidf := some 0.7, created_at := 9 }]
    nextID := 200 }

/-- A star that constrains the relation to relation 10 only. -/
def sampleRelationStar : QueryStar :=
  { RelationCandidates := [{ Type_ := "relation", RelationID := some 10, Name := "phải" }] }

/-- A star that constrains the subject to concept 1 only. -/
def sampleSubjectStar : QueryStar :=
  { SubjectCandidates := [{ Type_ := "subject", ConceptID := some 1, Name := "driver" }] }

/-! ### Concepts and relations -/

/-- The `CreateConcept` method: `INSERT INTO concepts ... RETURNING id, created_at`. -/
def CreateConcept (db : Store) (concept : Concept) : Except GoError Concept × Store :=
  if db.faulted then (.error dbError, db.step)
  else
    let created := { concept with ID := db.nextID, CreatedAt := db.now }
    (.ok created,
      { db.step with concepts := db.concepts ++ [created], nextID := db.nextID + 1 })

/-- The `GetOrCreateConcept` method: the concept of that name, created when absent. -/
def GetOrCreateConcept (db : Store) (name : String) (conceptType : String) :
    Except GoError Concept × Store :=
  if db.faulted then (.error dbError, db.step)
  else
    match db.concepts.find? (fun c => c.Name = name) with
    | some concept => (.ok concept, db.step)
    | none =>
      CreateConcept db.step { Name := name, Type_ := conceptType, Synonyms := [], Keywords := [] }

/-- The merge loop of `UpsertConcept` and `UpsertRelation`: `existingSet` is built from
the stored list before the loop, and each new item not in that set is appended. -/
def mergeItems (stored : List String) (items : List String) : List String :=
  items.foldl (fun acc s => if stored.contains s then acc else acc ++ [s]) stored

/-- The `UpsertConcept` method: creates or updates a concept with synonyms. -/
def UpsertConcept (db : Store) (name : String) (synonyms : List String) (conceptType : String) :
    Except GoError Concept × Store :=
  let conceptType := if conceptType = "" then "general" else conceptType
  if db.faulted then (.error dbError, db.step)
  else
    match db.concepts.find? (fun c => c.Name = name) with
    | some concept =>
      if synonyms.length > 0 then
        let concept := { concept with Synonyms := mergeItems concept.Synonyms synonyms }
        if db.step.faulted then (.error dbError, db.step.step)
        else
          (.ok concept,
            { db.step.step with
              concepts := db.concepts.map (fun c =>
                if c.ID = concept.ID then { c with Synonyms := concept.Synonyms } else c) })
      else (.ok concept, db.step)
    | none =>
      CreateConcept db.step
        { Name := name, Type_ := conceptType, Synonyms := synonyms, Keywords := [] }

/-- The `CreateRelation` method: `INSERT INTO relations ... RETURNING id, created_at`. -/
def CreateRelation (db : Store) (relation : Relation) : Except GoError Relation × Store :=
  if db.faulted then (.error dbError, db.step)
  else
    let created := { relation with ID := db.nextID, CreatedAt := db.now }
    (.ok created,
      { db.step with relations := db.relations ++ [created], nextID := db.nextID + 1 })

/-- The `UpsertRelation` method: creates or updates a relation with keywords. -/
def UpsertRelation (db : Store) (name : String) (keywords : List String)
    (relationType : String) : Except GoError Relation × Store :=
  let relationType := if relationType = "" then "general" else relationType
  if db.faulted then (.error dbError, db.step)
  else
    match db.relations.find? (fun r => r.Name = name) with
    | some relation =>
      if keywords.length > 0 then
        let relation := { relation with Keywords := mergeItems relation.Keywords keywords }
        if db.step.faulted then (.error dbError, db.step.step)
        else
          (.ok relation,
            { db.step.step with
              relations := db.relations.map (fun r =>
                if r.ID = relation.ID then { r with Keywords := relation.Keywords } else r) })
      else (.ok relation, db.step)
    | none =>
      CreateRelation db.step { Name := name, RelationType := relationType, Keywords := keywords }

/-- The `CreateTriple` method: `INSERT INTO triples (subject_id, relation_id, object_id,
unit_id, doc_ref, confidence, context) ... RETURNING id, created_at`; the columns it does
not list take their defaults. -/
def CreateTriple (db : Store) (triple : Triple) : Except GoError Triple × Store :=
  if db.faulted then (.error dbError, db.step)
  else
    let row : TripleRow :=
      { id := db.nextID, subject_id := triple.SubjectID, relation_id := triple.RelationID,
        object_id := triple.ObjectID, unit_id := triple.UnitID, doc_ref := triple.DocRef,
        confidence := triple.Confidence, tfidf := db.tfidfDefault, is_blacklisted := false,
        context := triple.Context, created_at := db.now }
    (.ok { triple with ID := db.nextID, CreatedAt := db.now },
      { db.step with triples := db.triples ++ [row], nextID := db.nextID + 1 })

/-- The synonyms stored for the concept of that name. -/
def storedSynonyms (db : Store) (name : String) : Option (List String) :=
  (db.concepts.find? (fun c => c.Name = name)).map (fun c => c.Synonyms)

/-- The store after a run of `UpsertConcept` calls for one name, with the identifier each
call returned (`none` for a failed call). -/
def upsertRun (name : String) (conceptType : String) :
    Store → List (List String) → List (Option Nat) × Store
  | db, [] => ([], db)
  | db, synonyms :: rest =>
    let r := UpsertConcept db name synonyms conceptType
    let id := match r.1 with
      | .ok concept => some concept.ID
      | .error _ => none
    let more := upsertRun name conceptType r.2 rest
    (id :: more.1, more.2)

/-! ## Regular expressions (`regexp`)

The patterns of the extractor use literals, character classes, groups, `+`, `?` and `|`.
Matching is the leftmost-first (backtracking order) matching of package `regexp`. -/

/-- Item of a character class. -/
inductive ClassItem where
  | single (c : Char)
  | range (lo hi : Char)
  | space
  | letter
  deriving DecidableEq, Repr

/-- Whether a rune belongs to a class item: `\s` is `[\t\n\f\r ]`, `\p{L}` the letters. -/
def ClassItem.test : ClassItem → Char → Bool
  | .single x, c => c = x
  | .range lo hi, c => lo.toNat ≤ c.toNat && c.toNat ≤ hi.toNat
  | .space, c => c.toNat = 0x09 || c.toNat = 0x0A || c.toNat = 0x0C || c.toNat = 0x0D ||
      c.toNat = 0x20
  | .letter, c => Unicode.IsLetter c

/-- Parsed regular expression; `group i` is the i-th capturing group. -/
inductive Re where
  | empty
  | char (c : Char)
  | cls (negated : Bool) (items : List ClassItem)
  | seq (a b : Re)
  | alt (a b : Re)
  | plus (a : Re)
  | opt (a : Re)
  | group (index : Nat) (a : Re)
  deriving DecidableEq, Repr

/-- Concatenation of a list of expressions. -/
def Re.cat (parts : List Re) : Re :=
  parts.foldr Re.seq Re.empty

/-- The literal text `s`. -/
def Re.lit (s : String) : Re :=
  Re.cat (s.data.map Re.char)

/-- Number of capturing groups of an expression. -/
def Re.groups : Re → Nat
  | .empty => 0
  | .char _ => 0
  | .cls _ _ => 0
  | .seq a b => a.groups + b.groups
  | .alt a b => a.groups + b.groups
  | .plus a => a.groups
  | .opt a => a.groups
  | .group _ a => a.groups + 1

/-- State of a match in progress: the text still to read and the captured groups. -/
abbrev MatchState := List Char × List (Nat × String)

/-- Greedy repetition `a+`: after one match of `a` (given by `step`), further matches are
tried before the rest of the expression. -/
def plusLoop (step : List Char → List (Nat × String) →
      (List Char → List (Nat × String) → Option MatchState) → Option MatchState) :
    Nat → List Char → List (Nat × String) →
      (List Char → List (Nat × String) → Option MatchState) → Option MatchState
  | 0, _, _, _ => none
  | fuel + 1, s, caps, k =>
    step s caps (fun s' caps' =>
      if s'.length < s.length then
        match plusLoop step fuel s' caps' k with
        | some r => some r
        | none => k s' caps'
      else k s' caps')

/-- Backtracking match of an expression at the start of `s`, continuing with `k` on the
rest; alternatives are tried in priority order, so the first success is the
leftmost-first match. -/
def Re.run : Re → List Char → List (Nat × String) →
    (List Char → List (Nat × String) → Option MatchState) → Option MatchState
  | .empty, s, caps, k => k s caps
  | .char c, s, caps, k =>
    match s with
    | x :: rest => if x = c then k rest caps else none
    | [] => none
  | .cls negated items, s, caps, k =>
    match s with
    | x :: rest => if (items.any (fun item => item.test x)) != negated then k rest caps else none
    | [] => none
  | .seq a b, s, caps, k => a.run s caps (fun s' caps' => b.run s' caps' k)
  | .alt a b, s, caps, k =>
    match a.run s caps k with
    | some r => some r
    | none => b.run s caps k
  | .plus a, s, caps, k => plusLoop (fun s' caps' k' => a.run s' caps' k') (s.length + 1) s caps k
  | .opt a, s, caps, k =>
    match a.run s caps k with
    | some r => some r
    | none => k s caps
  | .group i a, s, caps, k =>
    a.run s caps (fun s' caps' => k s' (mapSet caps' i ⟨s.take (s.length - s'.length)⟩))

/-- The match of `re` that starts at the beginning of `s`, if any: the text after the
match and the submatch slice `[whole, group 1, ..., group n]`. -/
def matchHere (re : Re) (s : List Char) : Option (List Char × List String) :=
  match re.run s [] (fun s' caps => some (s', caps)) with
  | some (rest, caps) =>
    some (rest,
      (⟨s.take (s.length - rest.length)⟩ : String) ::
        (List.range re.groups).map (fun i => (mapGet caps (i + 1)).getD ""))
  | none => none

/-- Successive non-overlapping leftmost matches of `re` in `s`: after a match the search
resumes where it ended (one rune further after an empty match), after a failure one rune
further. -/
def findAllFrom (re : Re) : Nat → List Char → List (List String)
  | 0, _ => []
  | fuel + 1, s =>
    match matchHere re s with
    | some (rest, m) =>
      m :: (if rest.length < s.length then findAllFrom re fuel rest
            else if s.isEmpty then [] else findAllFrom re fuel s.tail)
    | none => if s.isEmpty then [] else findAllFrom re fuel s.tail

/-- The method `Regexp.FindAllStringSubmatch(text, -1)`. -/
def FindAllStringSubmatch (re : Re) (text : String) : List (List String) :=
  findAllFrom re (text.data.length + 1) text.data

/-! ## Ingestion (`ingestion.go`): pattern extractor -/

/-- Pattern of the extractor: its source text, as passed to `regexp.Compile`, and the
expression it compiles to. -/
structure Pattern where
  source : String
  re : Re
  deriving DecidableEq, Repr

/-- Pattern 1: "X is prohibited/forbidden/banned". -/
def prohibitionPatterns : List Pattern :=
  [{ source := "([a-zA-Z\\s]+) is prohibited",
     re := .cat [.group 1 (.plus (.cls false [.range 'a' 'z', .range 'A' 'Z', .space])), .lit " is prohibited"] },
   { source := "([a-zA-Z\\s]+) is forbidden",
     re := .cat [.group 1 (.plus (.cls false [.range 'a' 'z', .range 'A' 'Z', .space])), .lit " is forbidden"] },
   { source := "([a-zA-Z\\s]+) is banned",
     re := .cat [.group 1 (.plus (.cls false [.range 'a' 'z', .range 'A' 'Z', .space])), .lit " is banned"] },
   { source := "([a-zA-Z\\s]+) shall not be",
     re := .cat [.group 1 (.plus (.cls false [.range 'a' 'z', .range 'A' 'Z', .space])), .lit " shall not be"] },
   { source := "no ([a-zA-Z\\s]+) shall",
     re := .cat [.lit "no ", .group 1 (.plus (.cls false [.range 'a' 'z', .range 'A' 'Z', .space])), .lit " shall"] },
   { source := "([\\p\x7bL\x7d0-9\\s,]+) không được ([^.;]+)",
     re := .cat [.group 1 (.plus (.cls false [.letter, .range '0' '9', .space, .single ','])), .lit " không được ", .group 2 (.plus (.cls true [.single '.', .single ';']))] },
   { source := "([\\p\x7bL\x7d0-9\\s,]+) bị nghiêm cấm ([^.;]+)",
     re := .cat [.group 1 (.plus (.cls false [.letter, .range '0' '9', .space, .single ','])), .lit " bị nghiêm cấm ", .group 2 (.plus (.cls true [.single '.', .single ';']))] },
   { source := "([\\p\x7bL\x7d0-9\\s,]+) nghiêm cấm ([^.;]+)",
     re := .cat [.group 1 (.plus (.cls false [.letter, .range '0' '9', .space, .single ','])), .lit " nghiêm cấm ", .group 2 (.plus (.cls true [.single '.', .single ';']))] }]

/-- Pattern 2: "X requires Y" or "X must Y". -/
def requirementPatterns : List Pattern :=
  [{ source := "([a-zA-Z\\s]+) requires ([a-zA-Z\\s]+)",
     re := .cat [.group 1 (.plus (.cls false [.range 'a' 'z', .range 'A' 'Z', .space])), .lit " requires ", .group 2 (.plus (.cls false [.range 'a' 'z', .range 'A' 'Z', .space]))] },
   { source := "([a-zA-Z\\s]+) must ([a-zA-Z\\s]+)",
     re := .cat [.group 1 (.plus (.cls false [.range 'a' 'z', .range 'A' 'Z', .space])), .lit " must ", .group 2 (.plus (.cls false [.range 'a' 'z', .range 'A' 'Z', .space]))] },
   { source := "([a-zA-Z\\s]+) shall ([a-zA-Z\\s]+)",
     re := .cat [.group 1 (.plus (.cls false [.range 'a' 'z', .range 'A' 'Z', .space])), .lit " shall ", .group 2 (.plus (.cls false [.range 'a' 'z', .range 'A' 'Z', .space]))] },
   { source := "([\\p\x7bL\x7d0-9\\s,]+) phải ([^.;]+)",
     re := .cat [.group 1 (.plus (.cls false [.letter, .range '0' '9', .space, .single ','])), .lit " phải ", .group 2 (.plus (.cls true [.single '.', .single ';']))] },
   { source := "([\\p\x7bL\x7d0-9\\s,]+) có trách nhiệm ([^.;]+)",
     re := .cat [.group 1 (.plus (.cls false [.letter, .range '0' '9', .space, .single ','])), .lit " có trách nhiệm ", .group 2 (.plus (.cls true [.single '.', .single ';']))] },
   { source := "([\\p\x7bL\x7d0-9\\s,]+) bắt buộc ([^.;]+)",
     re := .cat [.group 1 (.plus (.cls false [.letter, .range '0' '9', .space, .single ','])), .lit " bắt buộc ", .group 2 (.plus (.cls true [.single '.', .single ';']))] }]

/-- Pattern 3: "Fine of X for Y" or "Penalty of X for Y". -/
def penaltyPatterns : List Pattern :=
  [{ source := "fine of ([0-9,.\\s]+(?:vnd|dong|dollars?)) for ([a-zA-Z\\s]+)",
     re := .cat [.lit "fine of ", .group 1 (.cat [.plus (.cls false [.range '0' '9', .single ',', .single '.', .space]), .alt (.lit "vnd") (.alt (.lit "dong") (.cat [.lit "dollar", .opt (.lit "s")]))]), .lit " for ", .group 2 (.plus (.cls false [.range 'a' 'z', .range 'A' 'Z', .space]))] },
   { source := "penalty of ([0-9,.\\s]+(?:vnd|dong|dollars?)) for ([a-zA-Z\\s]+)",
     re := .cat [.lit "penalty of ", .group 1 (.cat [.plus (.cls false [.range '0' '9', .single ',', .single '.', .space]), .alt (.lit "vnd") (.alt (.lit "dong") (.cat [.lit "dollar", .opt (.lit "s")]))]), .lit " for ", .group 2 (.plus (.cls false [.range 'a' 'z', .range 'A' 'Z', .space]))] },
   { source := "([a-zA-Z\\s]+) (?:shall be )?punished by ([a-zA-Z\\s0-9,.-]+)",
     re := .cat [.group 1 (.plus (.cls false [.range 'a' 'z', .range 'A' 'Z', .space])), .lit " ", .opt (.lit "shall be "), .lit "punished by ", .group 2 (.plus (.cls false [.range 'a' 'z', .range 'A' 'Z', .space, .range '0' '9', .single ',', .single '.', .single '-']))] },
   { source := "phạt tiền (?:từ )?([0-9\\.\\s]+(?:đ|đồng|vnđ)) (?:đến [0-9\\.\\s]+(?:đ|đồng|vnđ) )?đối với ([^.;]+)",
     re := .cat [.lit "phạt tiền ", .opt (.lit "từ "), .group 1 (.cat [.plus (.cls false [.range '0' '9', .single '.', .space]), .alt (.lit "đ") (.alt (.lit "đồng") (.lit "vnđ"))]), .lit " ", .opt (.cat [.lit "đến ", .plus (.cls false [.range '0' '9', .single '.', .space]), .alt (.lit "đ") (.alt (.lit "đồng") (.lit "vnđ")), .lit " "]), .lit "đối với ", .group 2 (.plus (.cls true [.single '.', .single ';']))] },
   { source := "phạt ([^.;]+) đối với ([^.;]+)",
     re := .cat [.lit "phạt ", .group 1 (.plus (.cls true [.single '.', .single ';'])), .lit " đối với ", .group 2 (.plus (.cls true [.single '.', .single ';']))] },
   { source := "xử phạt ([^.;]+) đối với ([^.;]+)",
     re := .cat [.lit "xử phạt ", .group 1 (.plus (.cls true [.single '.', .single ';'])), .lit " đối với ", .group 2 (.plus (.cls true [.single '.', .single ';']))] },
   { source := "bị phạt ([^.;]+) khi ([^.;]+)",
     re := .cat [.lit "bị phạt ", .group 1 (.plus (.cls true [.single '.', .single ';'])), .lit " khi ", .group 2 (.plus (.cls true [.single '.', .single ';']))] }]

/-- Pattern 4: "X applies to Y" or "X covers Y". -/
def applicationPatterns : List Pattern :=
  [{ source := "([a-zA-Z\\s]+) applies to ([a-zA-Z\\s]+)",
     re := .cat [.group 1 (.plus (.cls false [.range 'a' 'z', .range 'A' 'Z', .space])), .lit " applies to ", .group 2 (.plus (.cls false [.range 'a' 'z', .range 'A' 'Z', .space]))] },
   { source := "([a-zA-Z\\s]+) covers ([a-zA-Z\\s]+)",
     re := .cat [.group 1 (.plus (.cls false [.range 'a' 'z', .range 'A' 'Z', .space])), .lit " covers ", .group 2 (.plus (.cls false [.range 'a' 'z', .range 'A' 'Z', .space]))] },
   { source := "this ([a-zA-Z\\s]+) applies to ([a-zA-Z\\s]+)",
     re := .cat [.lit "this ", .group 1 (.plus (.cls false [.range 'a' 'z', .range 'A' 'Z', .space])), .lit " applies to ", .group 2 (.plus (.cls false [.range 'a' 'z', .range 'A' 'Z', .space]))] },
   { source := "([\\p\x7bL\x7d0-9\\s,]+) áp dụng cho ([^.;]+)",
     re := .cat [.group 1 (.plus (.cls false [.letter, .range '0' '9', .space, .single ','])), .lit " áp dụng cho ", .group 2 (.plus (.cls true [.single '.', .single ';']))] },
   { source := "([\\p\x7bL\x7d0-9\\s,]+) áp dụng đối với ([^.;]+)",
     re := .cat [.group 1 (.plus (.cls false [.letter, .range '0' '9', .space, .single ','])), .lit " áp dụng đối với ", .group 2 (.plus (.cls true [.single '.', .single ';']))] }]

/-- Pattern 5: Scope/Regulation (Vietnamese). -/
def scopePatterns : List Pattern :=
  [{ source := "([\\p\x7bL\x7d0-9\\s,]+) quy định về ([^.;]+)",
     re := .cat [.group 1 (.plus (.cls false [.letter, .range '0' '9', .space, .single ','])), .lit " quy định về ", .group 2 (.plus (.cls true [.single '.', .single ';']))] },
   { source := "([\\p\x7bL\x7d0-9\\s,]+) bao gồm ([^.;]+)",
     re := .cat [.group 1 (.plus (.cls false [.letter, .range '0' '9', .space, .single ','])), .lit " bao gồm ", .group 2 (.plus (.cls true [.single '.', .single ';']))] },
   { source := "phạm vi điều chỉnh của ([\\p\x7bL\x7d0-9\\s,]+) là ([^.;]+)",
     re := .cat [.lit "phạm vi điều chỉnh của ", .group 1 (.plus (.cls false [.letter, .range '0' '9', .space, .single ','])), .lit " là ", .group 2 (.plus (.cls true [.single '.', .single ';']))] },
   { source := "phạm vi điều chỉnh của ([\\p\x7bL\x7d0-9\\s,]+) bao gồm ([^.;]+)",
     re := .cat [.lit "phạm vi điều chỉnh của ", .group 1 (.plus (.cls false [.letter, .range '0' '9', .space, .single ','])), .lit " bao gồm ", .group 2 (.plus (.cls true [.single '.', .single ';']))] },
   { source := "([\\p\x7bL\x7d0-9\\s,]+) có phạm vi điều chỉnh ([^.;]+)",
     re := .cat [.group 1 (.plus (.cls false [.letter, .range '0' '9', .space, .single ','])), .lit " có phạm vi điều chỉnh ", .group 2 (.plus (.cls true [.single '.', .single ';']))] }]

/-- The `buildDocRef` method: a human-readable document reference. -/
def buildDocRef (doc : Document) (unit : Unit) : String :=
  let parts : List String := []
  let parts := if doc.Type_ ≠ "" then parts ++ [doc.Type_] else parts
  let parts :=
    match doc.Number with
    | some number => if number ≠ "" then parts ++ [number] else parts
    | none => parts
  let parts :=
    match doc.Year with
    | some year => if year > 0 then parts ++ [toString year] else parts
    | none => parts
  let parts :=
    match unit.Code with
    | some code => if code ≠ "" then parts ++ [code] else parts
    | none => parts
  if parts.length = 0 then doc.Title else Strings.Join parts " "

/-- Keywords `extractTriplesByPattern` gives the relation it upserts. -/
def relationKeywordsFor (relationName : String) : List String :=
  if relationName = "cấm" then
    ["cấm", "nghiêm cấm", "không được", "forbidden", "prohibited", "ban"]
  else if relationName = "phải" then
    ["phải", "bắt buộc", "có trách nhiệm", "must", "shall", "require"]
  else if relationName = "xử phạt" then
    ["xử phạt", "mức phạt", "phạt", "phạt tiền", "bị phạt", "penalty", "fine", "punish"]
  else if relationName = "áp dụng" then
    ["áp dụng", "điều chỉnh", "thực hiện đối với", "applies", "covers"]
  else if relationName = "phạm vi điều chỉnh" then
    ["phạm vi điều chỉnh", "quy định về", "bao gồm", "scope", "regulates"]
  else [relationName]

/-- What `extractTriplesByPattern` accumulates: the triples it created, the two counters
it increments through pointers, and the store. -/
structure Extraction where
  triples : List Triple := []
  conceptsCreated : Nat := 0
  relationsCreated : Nat := 0
  db : Store
  deriving DecidableEq, Repr

/-- The names and context `extractTriplesByPattern` derives from one match, or `none` when
the match is skipped. -/
def matchNames (pattern : Pattern) (relationName : String) (m : List String) :
    Option (String × String × Option String) :=
  if m.length < 3 then none
  else
    let subjectName := Strings.TrimSpace (m.getD 1 "")
    let objectName := Strings.TrimSpace (m.getD 2 "")
    let rebound : String × String × Option String :=
      if relationName = "xử phạt" ∧ Strings.Contains pattern.source "đối với" then
        ("người vi phạm", Strings.TrimSpace (m.getD 2 ""), some subjectName)
      else (subjectName, objectName, none)
    if rebound.1 = "" ∨ rebound.2.1 = "" then none else some rebound

/-- The store part of the loop body of `extractTriplesByPattern`: gets or creates the two
concepts, upserts the relation and creates the triple; a failed call skips the match. -/
def storeTriple (relationName : String) (unitID : Nat) (docRef : String) (acc : Extraction)
    (subjectName objectName : String) (extraContext : Option String) : Extraction :=
  match GetOrCreateConcept acc.db subjectName "entity" with
  | (.error _, db) => { acc with db := db }
  | (.ok subject, db) =>
    let conceptsCreated :=
      if subject.CreatedAt = 0 then acc.conceptsCreated + 1 else acc.conceptsCreated
    match GetOrCreateConcept db objectName "entity" with
    | (.error _, db) => { acc with db := db, conceptsCreated := conceptsCreated }
    | (.ok object, db) =>
      let conceptsCreated :=
        if object.CreatedAt = 0 then conceptsCreated + 1 else conceptsCreated
      match UpsertRelation db relationName (relationKeywordsFor relationName) "legal_rule" with
      | (.error _, db) => { acc with db := db, conceptsCreated := conceptsCreated }
      | (.ok relation, db) =>
        let relationsCreated :=
          if relation.CreatedAt = 0 then acc.relationsCreated + 1 else acc.relationsCreated
        let triple : Triple :=
          { SubjectID := subject.ID, RelationID := relation.ID, ObjectID := object.ID,
            UnitID := unitID, DocRef := docRef, Confidence := 0.8, Context := extraContext }
        match CreateTriple db triple with
        | (.ok created, db) =>
          { triples := acc.triples ++ [created], conceptsCreated := conceptsCreated,
            relationsCreated := relationsCreated, db := db }
        | (.error _, db) =>
          { acc with db := db, conceptsCreated := conceptsCreated,
                     relationsCreated := relationsCreated }

/-- Body of the loop of `extractTriplesByPattern` for one match. -/
def extractMatch (pattern : Pattern) (relationName : String) (unitID : Nat) (docRef : String)
    (acc : Extraction) (m : List String) : Extraction :=
  match matchNames pattern relationName m with
  | none => acc
  | some names => storeTriple relationName unitID docRef acc names.1 names.2.1 names.2.2

/-- The `extractTriplesByPattern` method: the triples of one pattern are appended to those
collected so far. -/
def extractTriplesByPattern (pattern : Pattern) (relationName : String) (text : String)
    (unitID : Nat) (docRef : String) (acc : Extraction) : Extraction :=
  (FindAllStringSubmatch pattern.re text).foldl
    (extractMatch pattern relationName unitID docRef) acc

/-- The rule table of `extractTriplesFromText`, in the order the method walks it. -/
def extractionRules : List (String × List Pattern) :=
  [("cấm", prohibitionPatterns), ("phải", requirementPatterns), ("xử phạt", penaltyPatterns),
   ("áp dụng", applicationPatterns), ("phạm vi điều chỉnh", scopePatterns)]

/-- The `extractTriplesFromText` method: analyzes legal text and extracts knowledge
triples. -/
def extractTriplesFromText (db : Store) (unit : Unit) (doc : Document) : Extraction :=
  let text := Strings.ToLower unit.Text
  let docRef := buildDocRef doc unit
  extractionRules.foldl
    (fun acc rule =>
      rule.2.foldl
        (fun acc pattern => extractTriplesByPattern pattern rule.1 text unit.ID docRef acc) acc)
    { db := db }

/-- Name of the relation a triple refers to, read from the store. -/
def relationNameOf (db : Store) (triple : Triple) : Option String :=
  (db.relations.find? (fun r => r.ID = triple.RelationID)).map (fun r => r.Name)

/-- Name of the concept with the given id, read from the store. -/
def conceptNameOf (db : Store) (id : Nat) : Option String :=
  (db.concepts.find? (fun c => c.ID = id)).map (fun c => c.Name)

/-- Every match of every pattern on the text, in the order `extractTriplesFromText` meets
them, each with its pattern and the relation name of its rule. -/
def allMatches (text : String) : List (Pattern × String × List String) :=
  extractionRules.flatMap (fun rule =>
    rule.2.flatMap (fun pattern =>
      (FindAllStringSubmatch pattern.re text).map (fun m => (pattern, rule.1, m))))

/-- The statements the extractor derives from a text, in order: relation name, subject
name, object name and context of every match that is not skipped. -/
def extractedStatements (text : String) : List (String × String × String × Option String) :=
  (allMatches text).filterMap (fun x =>
    (matchNames x.1 x.2.1 x.2.2).map (fun names => (x.2.1, names)))

/-- True when every text the expression matches holds a rune that is not white space. -/
def Re.needsNonSpace : Re → Bool
  | .empty => false
  | .char c => !Unicode.IsSpace c
  | .cls _ _ => false
  | .seq a b => a.needsNonSpace || b.needsNonSpace
  | .alt a b => a.needsNonSpace && b.needsNonSpace
  | .plus a => a.needsNonSpace
  | .opt _ => false
  | .group _ a => a.needsNonSpace

/-! ### Sample units -/

/-- A unit whose text reads "the driver must not run the red light". -/
def driverUnit : Unit :=
  { ID := 20, DocumentID := 30, Code := some "Article 5",
    Text := "the driver must not run the red light" }

/-- The same rule in Vietnamese. -/
def driverUnitVN : Unit :=
  { ID := 20, DocumentID := 30, Code := some "Article 5",
    Text := "Người lái xe không được vượt đèn đỏ" }

/-- A unit whose text is white space only. -/
def blankUnit : Unit :=
  { ID := 21, DocumentID := 30, Code := some "Article 6", Text := "  \n\t " }

/-- The document of the sample units. -/
def lawDoc : Document :=
  { ID := 30, Title := "Road Traffic Law", Type_ := "Law", Number := some "123/2024",
    Year := some 2024 }

/-! ### Document references: the parts named by the specification -/

/-- The parts of a document reference in citation order, each present only under its
condition: the type if non-empty, the number if present and non-empty, the decimal year if
present and positive, the unit code if present and non-empty. -/
def docRefParts (doc : Document) (unit : Unit) : List String :=
  [if doc.Type_ = "" then none else some doc.Type_,
   doc.Number.filter (fun number => number ≠ ""),
   (doc.Year.filter (fun year => year > 0)).map (fun year => toString year.toNat),
   unit.Code.filter (fun code => code ≠ "")].filterMap id

/-! ## Key rotation (`key_manager.go`) -/

/-- API key rotation state: the keys and the rotation cursor (the mutex is not modelled,
calls are taken one after the other). -/
structure KeyManager where
  keys : List String := []
  idx : Nat := 0
  deriving DecidableEq, Repr

/-- Creates a `KeyManager` with the provided keys. -/
def NewKeyManager (keys : List String) : KeyManager :=
  { keys := keys, idx := 0 }

/-- The `GetNextKey` method: the next API key in the rotation, and the manager after the
call; indexing `keys` out of range is a run-time panic. -/
def KeyManager.GetNextKey (m : KeyManager) : Except Fault String × KeyManager :=
  if m.keys.length = 0 then (.ok "", m)
  else
    match m.keys[m.idx]? with
    | none => (.error (.panic "index out of range"), m)
    | some key => (.ok key, { m with idx := (m.idx + 1) % m.keys.length })

/-- The manager after `k` successive calls of `GetNextKey`. -/
def KeyManager.afterCalls (m : KeyManager) : Nat → KeyManager
  | 0 => m
  | k + 1 => ((m.afterCalls k).GetNextKey).2

/-- What the `k`-th call of `GetNextKey` returns (`k = 0` is the first call). -/
def KeyManager.nthCall (m : KeyManager) (k : Nat) : Except Fault String :=
  ((m.afterCalls k).GetNextKey).1

/-! ### Star construction: the quantities named by the specification -/

/-- The candidates of one role, in the order of the candidate list, cut to the first five. -/
def roleTop5 (role : String) (candidates : List QueryCandidate) : List QueryCandidate :=
  (candidates.filter (fun c => c.Type_ = role)).take 5

/-! ### Query terms: the quantities named by the specification -/

/-- A term is a single word when it holds no space (phrases are words joined by a space). -/
def isSingleWord (term : String) : Bool :=
  !term.data.contains ' '

/-! ### Candidate search: the quantities named by the specification -/

/-- The (role, name, concept id, relation id) tuple of a candidate. -/
def candidateTuple (c : QueryCandidate) : String × String × Option Nat × Option Nat :=
  (c.Type_, c.Name, c.ConceptID, c.RelationID)

/-- The raw candidates of a term list, given what the store returns for each term: every
concept candidate once as subject and once as object, then the relation candidates. -/
def rawCandidates (concepts relations : String → List QueryCandidate) (terms : List String) :
    List QueryCandidate :=
  terms.flatMap (fun term =>
    (concepts term).flatMap (fun candidate =>
      [{ candidate with Type_ := "subject" }, { candidate with Type_ := "object" }])
    ++ relations term)

/-- Sample store answers: the concept "helmet" found by two terms with different scores, and
two relations found by the term "app" with the same score, the shorter name first as the
statement of `FindRelationCandidates` orders them (score, then name length, then name). -/
def tieConcepts (term : String) : List QueryCandidate :=
  if term = "helmet" then
    [{ Type_ := "subject", ConceptID := some 7, Name := "helmet", Score := 1, MatchType := "exact" }]
  else if term = "helm" then
    [{ Type_ := "subject", ConceptID := some 7, Name := "helmet", Score := 0.7, MatchType := "fuzzy" }]
  else []

/-- Relation candidates of the sample store answers. -/
def tieRelations (term : String) : List QueryCandidate :=
  if term = "app" then
    [{ Type_ := "relation", RelationID := some 1, Name := "apply", Score := 0.75,
       MatchType := "prefix" },
     { Type_ := "relation", RelationID := some 2, Name := "applicable", Score := 0.75,
       MatchType := "prefix" }]
  else []

/-- Store reads that answer with `tieConcepts` and `tieRelations`. -/
def tieRepo : RepositoryReads where
  FindConceptCandidates := fun term => .ok (tieConcepts term)
  FindRelationCandidates := fun term => .ok (tieRelations term)
  FindTriplesByStar := fun _ => .ok []

/-! ## Graph store (`repository.go`): documents, units, embeddings -/

/-- The `FindDocumentByMetadata` method: the first document whose title, or whose number
when one is given, equals the argument up to letter case; `none` when there is no row. -/
def FindDocumentByMetadata (db : Store) (title : String) (number : Option String) :
    Except GoError (Option Document) × Store :=
  if db.faulted then (.error dbError, db.step)
  else
    (.ok (db.documents.find? (fun d =>
        decide (Strings.ToLower d.Title = Strings.ToLower title) ||
        (match number, d.Number with
         | some n, some stored => decide (Strings.ToLower stored = Strings.ToLower n)
         | _, _ => false))),
      db.step)

/-- The `CreateDocument` method: `INSERT INTO documents ... RETURNING id, created_at,
updated_at`. -/
def CreateDocument (db : Store) (doc : Document) : Except GoError Document × Store :=
  if db.faulted then (.error dbError, db.step)
  else
    let created := { doc with ID := db.nextID, CreatedAt := db.now, UpdatedAt := db.now }
    (.ok created,
      { db.step with documents := db.documents ++ [created], nextID := db.nextID + 1 })

/-- The `CreateUnit` method: `INSERT INTO units ... RETURNING id, created_at`. -/
def CreateUnit (db : Store) (unit : Unit) : Except GoError Unit × Store :=
  if db.faulted then (.error dbError, db.step)
  else
    let created := { unit with ID := db.nextID, CreatedAt := db.now }
    (.ok created, { db.step with units := db.units ++ [created], nextID := db.nextID + 1 })

/-- The `GetUnit` method: the unit with that id; no row is an error. -/
def GetUnit (db : Store) (id : Nat) : Except GoError Unit × Store :=
  if db.faulted then (.error dbError, db.step)
  else
    match db.units.find? (fun u => u.ID = id) with
    | some unit => (.ok unit, db.step)
    | none => (.error (.msg "no rows in result set"), db.step)

/-- The `UpsertUnitEmbedding` method: stores or updates the embedding of a unit; the result
is the returned error, `none` for nil. -/
def UpsertUnitEmbedding (db : Store) (unitID : Nat) (embedding : List ℚ) (model : String) :
    Option GoError × Store :=
  if db.faulted then (some dbError, db.step)
  else (none, { db.step with unit_embeddings := mapSet db.unit_embeddings unitID (embedding, model) })

/-- The `InsertTriple` method: inserts a triple with TF-IDF and blacklist support. -/
def InsertTriple (db : Store) (triple : Triple) : Except GoError Triple × Store :=
  if db.faulted then (.error dbError, db.step)
  else
    let row : TripleRow :=
      { id := db.nextID, subject_id := triple.SubjectID, relation_id := triple.RelationID,
        object_id := triple.ObjectID, unit_id := triple.UnitID, doc_ref := triple.DocRef,
        confidence := triple.Confidence, tfidf := some triple.TfIdf,
        is_blacklisted := triple.IsBlacklisted, context := triple.Context,
        created_at := db.now }
    (.ok { triple with ID := db.nextID, CreatedAt := db.now },
      { db.step with triples := db.triples ++ [row], nextID := db.nextID + 1 })

/-! ## Ingestion (`ingestion.go`): requests and `IngestLegalContent` -/

/-- Document data for ingestion; `Type_` is the Go field `Type`. -/
structure DocumentRequest where
  Title : String := ""
  Type_ : String := ""
  Number : Option String := none
  Year : Option Int := none
  Authority : Option String := none
  deriving DecidableEq, Repr

/-- Unit of legal text for ingestion. -/
structure UnitRequest where
  Level : String := ""
  Code : Option String := none
  Text : String := ""
  ParentCode : Option String := none
  OrderIndex : Int := 0
  deriving DecidableEq, Repr

/-- Concept for ingestion. -/
structure ConceptRequest where
  Name : String := ""
  Synonyms : List String := []
  Type_ : String := ""
  deriving DecidableEq, Repr

/-- Relation for ingestion. -/
structure RelationRequest where
  Name : String := ""
  Keywords : List String := []
  Type_ : String := ""
  deriving DecidableEq, Repr

/-- Triple for ingestion. -/
structure TripleRequest where
  Subject : String := ""
  Relation : String := ""
  Object : String := ""
  UnitCode : String := ""
  DocRef : String := ""
  TfIdf : Option ℚ := none
  Context : Option String := none
  deriving DecidableEq, Repr

/-- Request to ingest legal content. -/
structure IngestRequest where
  Document : DocumentRequest := {}
  Units : List UnitRequest := []
  Concepts : List ConceptRequest := []
  Relations : List RelationRequest := []
  Triples : List TripleRequest := []
  AutoEmbed : Option Bool := none
  EmbeddingModel : String := ""
  deriving DecidableEq, Repr

/-- Response from ingestion. -/
structure IngestResponse where
  DocumentID : Nat := 0
  UnitsCreated : Nat := 0
  TriplesCreated : Nat := 0
  ConceptsCreated : Nat := 0
  RelationsCreated : Nat := 0
  EmbeddingsCreated : Nat := 0
  ProcessingSummary : String := ""
  deriving DecidableEq, Repr

/-- The embedding capability: what `Embed` answers for a text. -/
structure EmbeddingProvider where
  Embed : String → Except GoError (List ℚ)

/-- The `IngestionService` struct without its repository, which is passed as the store;
`embedder = none` is a nil interface value. -/
structure IngestionService where
  embedder : Option EmbeddingProvider := none
  embeddingModel : String := ""

/-- The `createTripleFromRequest` method: creates a triple from a triple request; the
result is the returned error, `none` for nil. -/
def createTripleFromRequest (db : Store) (req : TripleRequest) (unitMap : List (String × Nat)) :
    Option GoError × Store :=
  match mapGet unitMap req.UnitCode with
  | none => (some (.msg ("unit code " ++ req.UnitCode ++ " not found")), db)
  | some unitID =>
    match UpsertConcept db req.Subject [] "entity" with
    | (.error err, db) => (some (.wrap "upserting subject concept" err), db)
    | (.ok subject, db) =>
      match UpsertConcept db req.Object [] "entity" with
      | (.error err, db) => (some (.wrap "upserting object concept" err), db)
      | (.ok object, db) =>
        match UpsertRelation db req.Relation [] "legal_rule" with
        | (.error err, db) => (some (.wrap "upserting relation" err), db)
        | (.ok relation, db) =>
          let tfidf : ℚ := match req.TfIdf with
            | some given => given
            | none => 0.5
          let triple : Triple :=
            { SubjectID := subject.ID, RelationID := relation.ID, ObjectID := object.ID,
              UnitID := unitID, DocRef := req.DocRef, Confidence := 0.9, TfIdf := tfidf,
              IsBlacklisted := false, Context := req.Context }
          match InsertTriple db triple with
          | (.error err, db) => (some err, db)
          | (.ok _, db) => (none, db)

/-- What the unit loop of `IngestLegalContent` keeps: the map from unit code to unit id,
the units created so far and their count. -/
structure UnitLoop where
  unitMap : List (String × Nat) := []
  createdUnits : List Unit := []
  unitsCreated : Nat := 0
  deriving DecidableEq, Repr

/-- The unit the loop builds from a request before creating it: the parent link is set
when the parent code is present, non-empty and found in `unitMap`. -/
def unitFor (docID : Nat) (unitMap : List (String × Nat)) (unitReq : UnitRequest) : Unit :=
  let unit : Unit :=
    { DocumentID := docID, Level := unitReq.Level, Code := unitReq.Code, Text := unitReq.Text,
      OrderIndex := unitReq.OrderIndex }
  match unitReq.ParentCode with
  | some parentCode =>
    if parentCode ≠ "" then
      match mapGet unitMap parentCode with
      | some parentID => { unit with ParentID := some parentID }
      | none => unit
    else unit
  | none => unit

/-- The unit loop of `IngestLegalContent`.  When `CreateUnit` fails, the error message is
formatted with `*unit.Code`, which panics for a unit without a code. -/
def createUnits (docID : Nat) : List UnitRequest → Store → UnitLoop → Except Fault UnitLoop × Store
  | [], db, st => (.ok st, db)
  | unitReq :: rest, db, st =>
    let unit := unitFor docID st.unitMap unitReq
    match CreateUnit db unit with
    | (.error err, db) =>
      match unit.Code with
      | none => (.error (.panic "invalid memory address or nil pointer dereference"), db)
      | some code => (.error (.err (.wrap ("creating unit " ++ code) err)), db)
    | (.ok unit, db) =>
      let unitMap :=
        match unit.Code with
        | some code => mapSet st.unitMap code unit.ID
        | none => st.unitMap
      createUnits docID rest db
        { unitMap := unitMap, createdUnits := st.createdUnits ++ [unit],
          unitsCreated := st.unitsCreated + 1 }

/-- The embedding loop of `IngestLegalContent`; the count is `EmbeddingsCreated`. -/
def embedUnits (embedder : EmbeddingProvider) (model : String) :
    List Unit → Store → Nat → Except Fault Nat × Store
  | [], db, n => (.ok n, db)
  | unit :: rest, db, n =>
    match embedder.Embed unit.Text with
    | .error err => (.error (.err (.wrap ("embedding unit " ++ idString unit.ID) err)), db)
    | .ok emb =>
      match UpsertUnitEmbedding db unit.ID emb model with
      | (some err, db) =>
        (.error (.err (.wrap ("storing embedding for unit " ++ idString unit.ID) err)), db)
      | (none, db) => embedUnits embedder model rest db (n + 1)

/-- The loop over the explicit concepts; the count is `ConceptsCreated`. -/
def upsertConcepts : List ConceptRequest → Store → Nat → Except Fault Nat × Store
  | [], db, n => (.ok n, db)
  | conceptReq :: rest, db, n =>
    let conceptType := if conceptReq.Type_ = "" then "general" else conceptReq.Type_
    match UpsertConcept db conceptReq.Name conceptReq.Synonyms conceptType with
    | (.error err, db) => (.error (.err (.wrap ("upserting concept " ++ conceptReq.Name) err)), db)
    | (.ok _, db) => upsertConcepts rest db (n + 1)

/-- The loop over the explicit relations; the count is `RelationsCreated`. -/
def upsertRelations : List RelationRequest → Store → Nat → Except Fault Nat × Store
  | [], db, n => (.ok n, db)
  | relationReq :: rest, db, n =>
    let relationType := if relationReq.Type_ = "" then "general" else relationReq.Type_
    match UpsertRelation db relationReq.Name relationReq.Keywords relationType with
    | (.error err, db) =>
      (.error (.err (.wrap ("upserting relation " ++ relationReq.Name) err)), db)
    | (.ok _, db) => upsertRelations rest db (n + 1)

/-- The loop over the explicit triples; the count is `TriplesCreated`. -/
def createTriples (unitMap : List (String × Nat)) :
    List TripleRequest → Store → Nat → Except Fault Nat × Store
  | [], db, n => (.ok n, db)
  | tripleReq :: rest, db, n =>
    match createTripleFromRequest db tripleReq unitMap with
    | (some err, db) =>
      (.error (.err (.wrap ("creating triple " ++ tripleReq.Subject ++ "-" ++
        tripleReq.Relation ++ "-" ++ tripleReq.Object) err)), db)
    | (none, db) => createTriples unitMap rest db (n + 1)

/-- The counters the extraction loop adds to: triples, concepts, relations. -/
structure ExtractionCounts where
  triples : Nat := 0
  concepts : Nat := 0
  relations : Nat := 0
  deriving DecidableEq, Repr

/-- The extraction loop of `IngestLegalContent` over `unitMap` (visited in insertion
order): a unit that cannot be read is skipped; `extractTriplesFromText` has no error
result. -/
def extractUnits (doc : Document) :
    List (String × Nat) → Store → ExtractionCounts → ExtractionCounts × Store
  | [], db, counts => (counts, db)
  | entry :: rest, db, counts =>
    match GetUnit db entry.2 with
    | (.error _, db) => extractUnits doc rest db counts
    | (.ok unit, db) =>
      let found := extractTriplesFromText db unit doc
      extractUnits doc rest found.db
        { triples := counts.triples + found.triples.length,
          concepts := counts.concepts + found.conceptsCreated,
          relations := counts.relations + found.relationsCreated }

/-- The embedding stage of `IngestLegalContent`: unit texts are embedded when an embedding
provider is configured and `auto_embed` is not switched off. -/
def embedStage (s : IngestionService) (req : IngestRequest) (createdUnits : List Unit)
    (db : Store) : Except Fault Nat × Store :=
  match s.embedder with
  | some embedder =>
    let model := if req.EmbeddingModel = "" then s.embeddingModel else req.EmbeddingModel
    let auto := match req.AutoEmbed with
      | some flag => flag
      | none => true
    if auto then embedUnits embedder model createdUnits db 0 else (.ok 0, db)
  | none => (.ok 0, db)

/-- The stage of `IngestLegalContent` for the explicit concepts, relations and triples of
the request; the counts are those of the response so far. -/
def explicitStage (req : IngestRequest) (unitMap : List (String × Nat)) (db : Store) :
    Except Fault ExtractionCounts × Store :=
  match upsertConcepts req.Concepts db 0 with
  | (.error f, db) => (.error f, db)
  | (.ok conceptsCreated, db) =>
    match upsertRelations req.Relations db 0 with
    | (.error f, db) => (.error f, db)
    | (.ok relationsCreated, db) =>
      match createTriples unitMap req.Triples db 0 with
      | (.error f, db) => (.error f, db)
      | (.ok triplesCreated, db) =>
        (.ok { triples := triplesCreated, concepts := conceptsCreated,
               relations := relationsCreated }, db)

/-- The extraction stage of `IngestLegalContent`: triples are extracted from the unit texts
when the request has no explicit triple. -/
def extractStage (req : IngestRequest) (doc : Document) (unitMap : List (String × Nat))
    (db : Store) (counts : ExtractionCounts) : ExtractionCounts × Store :=
  if req.Triples.length = 0 then extractUnits doc unitMap db counts else (counts, db)

/-- The success response of `IngestLegalContent`. -/
def ingestResponse (doc : Document) (unitsCreated embeddingsCreated : Nat)
    (counts : ExtractionCounts) : IngestResponse :=
  { DocumentID := doc.ID,
    UnitsCreated := unitsCreated,
    TriplesCreated := counts.triples,
    ConceptsCreated := counts.concepts,
    RelationsCreated := counts.relations,
    EmbeddingsCreated := embeddingsCreated,
    ProcessingSummary :=
      "Successfully ingested document \x27" ++ doc.Title ++ "\x27 with " ++
      toString unitsCreated ++ " units, extracted " ++
      toString counts.triples ++ " triples, created " ++
      toString counts.concepts ++ " new concepts and " ++
      toString counts.relations ++ " new relations" }

/-- The stages of `IngestLegalContent` after the document was created. -/
def ingestInto (s : IngestionService) (db : Store) (req : IngestRequest) (doc : Document) :
    Except Fault IngestResponse × Store :=
  match createUnits doc.ID req.Units db {} with
  | (.error f, db) => (.error f, db)
  | (.ok units, db) =>
    match embedStage s req units.createdUnits db with
    | (.error f, db) => (.error f, db)
    | (.ok embeddingsCreated, db) =>
      match explicitStage req units.unitMap db with
      | (.error f, db) => (.error f, db)
      | (.ok counts, db) =>
        let extracted := extractStage req doc units.unitMap db counts
        (.ok (ingestResponse doc units.unitsCreated embeddingsCreated extracted.1), extracted.2)

/-- The `IngestLegalContent` method: processes and stores legal content. -/
def IngestLegalContent (s : IngestionService) (db : Store) (req : IngestRequest) :
    Except Fault IngestResponse × Store :=
  match FindDocumentByMetadata db req.Document.Title req.Document.Number with
  | (.error err, db) => (.error (.err (.wrap "checking for existing document" err)), db)
  | (.ok (some existingDoc), db) =>
    (.ok { DocumentID := existingDoc.ID,
           ProcessingSummary := "Document \x27" ++ existingDoc.Title ++
             "\x27 already exists. Skipped re-ingestion." }, db)
  | (.ok none, db) =>
    let doc : Document :=
      { Title := req.Document.Title, Type_ := req.Document.Type_, Number := req.Document.Number,
        Year := req.Document.Year, Authority := req.Document.Authority, Status := "active" }
    match CreateDocument db doc with
    | (.error err, db) => (.error (.err (.wrap "creating document" err)), db)
    | (.ok doc, db) => ingestInto s db req doc

/-! ### Sample ingestion requests -/

/-- A law with two articles, the second a child of the first; the first holds a rule the
extractor finds. -/
def sampleIngest : IngestRequest :=
  { Document := { Title := "Road Traffic Law", Type_ := "Law", Number := some "23/2008",
                  Year := some 2008 },
    Units := [{ Level := "article", Code := some "Article 1",
                Text := "the driver must wear a helmet", OrderIndex := 1 },
              { Level := "clause", Code := some "Clause 1", Text := "",
                ParentCode := some "Article 1", OrderIndex := 2 }] }

/-- A request whose only unit has no code. -/
def uncodedIngest : IngestRequest :=
  { Document := { Title := "Notice", Type_ := "Notice" },
    Units := [{ Level := "paragraph", Text := "general provisions" }] }

/-! ### Unit tree: the quantities named by the specification -/

/-- Unit `u` has parent `v` among the units `us`. -/
def IsParentIn (us : List Unit) (u v : Unit) : Prop :=
  u ∈ us ∧ v ∈ us ∧ u.ParentID = some v.ID

/-- The parent a unit request resolves to against the units created before it in the same
call: the id of the last of them that carries the parent code, if the request has a
non-empty parent code and there is such a unit. -/
def resolveParent (earlier : List Unit) (unitReq : UnitRequest) : Option Nat :=
  match unitReq.ParentCode with
  | some parentCode =>
    if parentCode ≠ "" then
      (earlier.reverse.find? (fun v => v.Code = some parentCode)).map (fun v => v.ID)
    else none
  | none => none

/-- The sample request with one explicit triple on its first article. -/
def explicitIngest : IngestRequest :=
  { sampleIngest with
    Triples := [{ Subject := "driver", Relation := "phải", Object := "helmet",
                  UnitCode := "Article 1", DocRef := "Law 23/2008 Article 1" }] }

/-- A unit whose text names a penalty with a blank where the amount should stand. -/
def blankAmountUnit : Unit :=
  { ID := 1, Text := "Phạt   đối với xe máy" }

/-! ### Rule table: the language of a pattern -/

/-- A pattern is taken as English when its source text is plain ASCII. -/
def Pattern.isEnglish (p : Pattern) : Bool :=
  p.source.data.all (fun c => decide (c.toNat < 128))

/-- A pattern is taken as Vietnamese when its source text holds a letter outside ASCII
(a letter with a Vietnamese diacritic). -/
def Pattern.isVietnamese (p : Pattern) : Bool :=
  p.source.data.any (fun c => decide (128 ≤ c.toNat))


/-! ### Relevance: the quantities named by the specification -/

/-- Iverson bracket: 1 when the condition holds, else 0. -/
def bracket (condition : Bool) : ℚ :=
  if condition then 1 else 0

/-- The number `m` of white-space-separated words of the lower-cased query that have length
above 2 and occur in the lower-cased unit text. -/
def matchedQueryWords (triple : TripleView) (queryText : String) : Nat :=
  ((Strings.Fields (Strings.ToLower queryText)).filter (fun word =>
    decide (len word > 2) && Strings.Contains (Strings.ToLower triple.UnitText) word)).length

/-- The relevance sum `0.3·[subject] + 0.4·[relation] + 0.3·[object] + 0.2·m/n`, the last
term being 0 when the query has no word. -/
def relevanceSum (triple : TripleView) (queryText : String) : ℚ :=
  let queryLower := Strings.ToLower queryText
  let n := (Strings.Fields queryLower).length
  0.3 * bracket (Strings.Contains queryLower (Strings.ToLower triple.SubjectName)) +
  0.4 * bracket (Strings.Contains queryLower (Strings.ToLower triple.RelationName)) +
  0.3 * bracket (Strings.Contains queryLower (Strings.ToLower triple.ObjectName)) +
  (if n = 0 then 0 else 0.2 * (matchedQueryWords triple queryText : ℚ) / (n : ℚ))

/-! ### Sample engine with a probing reranker -/

/-- The sample engine over a graph that resolves every star to `sampleTripleC` alone
(title "Road Traffic Law", context "article 5"), with a reranker that scores position 0
when it is handed exactly the documents `expected`, and scores nothing otherwise. -/
def probeEngine (expected : List String) : QueryEngine :=
  { repo := { sampleRepo with FindTriplesByStar := fun _ => .ok [sampleTripleC] }
    qaProvider := sampleEngine.qaProvider
    reranker := some { Rerank := fun _ docs =>
      if docs = expected then .ok [{ Index := 0, RelevanceScore := 1 }] else .ok [] } }

/-! ## Rewrite capability (`qa.go`) -/

namespace Strings

/-- Splits a rune list at every line feed; `cur` is the piece being read, in reverse. -/
def splitLinesAux : List Char → List Char → List String
  | [], cur => [⟨cur.reverse⟩]
  | c :: rest, cur =>
    if c = '\n' then ⟨cur.reverse⟩ :: splitLinesAux rest [] else splitLinesAux rest (c :: cur)

/-- Go `strings.Split(s, "\n")`. -/
def SplitLines (s : String) : List String :=
  splitLinesAux s.data []

end Strings

/-- The last part of `RewriteQuery` in both providers: the original query first, then every
line of the model's text that is not blank, trimmed. -/
def rewriteLines (query content : String) : List String :=
  (Strings.SplitLines content).foldl
    (fun queries line =>
      let trimmed := Strings.TrimSpace line
      if trimmed ≠ "" then queries ++ [trimmed] else queries)
    [query]

/-- What `CreateChatCompletion` answers: an error, or the message contents of the choices. -/
inductive ChatCompletion where
  | failed (err : GoError)
  | choices (contents : List String)
  deriving DecidableEq, Repr

/-- The method `RewriteQuery` of `OpenAIQAProvider`: the returned list and error (`none` is
nil).  `p = none` is the nil receiver; otherwise `p` tells what the client answers for the
query. -/
def OpenAIQAProvider.RewriteQuery (p : Option (String → ChatCompletion)) (query : String) :
    List String × Option GoError :=
  match p with
  | none => ([query], none)
  | some complete =>
    match complete query with
    | .failed err => ([query], some err)
    | .choices [] => ([query], none)
    | .choices (content :: _) => (rewriteLines query content, none)

/-- What the HTTP call of `GeminiQAProvider` answers: a transport error, or a response with
its status code and, decoded from its body, the part texts of each candidate (or the
decoding error). -/
inductive GeminiReply where
  | failed (err : GoError)
  | response (statusCode : Int) (candidates : Except GoError (List (List String)))
  deriving DecidableEq, Repr

/-- The method `RewriteQuery` of `GeminiQAProvider`: the returned list and error. -/
def GeminiQAProvider.RewriteQuery (p : Option (String → GeminiReply)) (query : String) :
    List String × Option GoError :=
  match p with
  | none => ([query], none)
  | some send =>
    match send query with
    | .failed err => ([query], some err)
    | .response statusCode candidates =>
      if statusCode ≠ 200 then
        ([query], some (.msg ("gemini api error: " ++ toString statusCode)))
      else
        match candidates with
        | .error err => ([query], some err)
        | .ok [] => ([query], none)
        | .ok ([] :: _) => ([query], none)
        | .ok ((text :: _) :: _) => (rewriteLines query text, none)

/-- A Go result pair `(list, err)` as the caller reads it: the list counts only when the
error is nil. -/
def resultOf (r : List String × Option GoError) : Except GoError (List String) :=
  match r.2 with
  | some err => .error err
  | none => .ok r.1

/-- The OpenAI provider as the `QAProvider` of a query engine. -/
def openAIQA (p : Option (String → ChatCompletion)) : QAProvider :=
  { RewriteQuery := fun query => resultOf (OpenAIQAProvider.RewriteQuery p query) }

/-- The Gemini provider as the `QAProvider` of a query engine. -/
def geminiQA (p : Option (String → GeminiReply)) : QAProvider :=
  { RewriteQuery := fun query => resultOf (GeminiQAProvider.RewriteQuery p query) }

/-! ### Phrase terms: the quantities named by the specification -/

/-- The query words after lower-casing, splitting at white space and trimming punctuation. -/
def trimmedWords (queryText : String) : List String :=
  (Strings.Fields (Strings.ToLower queryText)).map (fun word => Strings.Trim word punct)

/-- The words of a window joined by single spaces. -/
def joinWords : List String → String
  | [] => ""
  | [word] => word
  | word :: rest => word ++ " " ++ joinWords rest

/-- The contiguous windows of 2, 3 and 4 words that start at the head of the given words. -/
def windowsAt (words : List String) : List (List String) :=
  [2, 3, 4].filterMap (fun n => if n ≤ words.length then some (words.take n) else none)

/-- All contiguous windows of 2, 3 and 4 words, by start position and then by size. -/
def windows (words : List String) : List (List String) :=
  words.tails.flatMap windowsAt

/-- The first and the last word of the window are not stop words. -/
def endsNotStopWords (window : List String) : Bool :=
  window.head?.all (fun word => !isStopWord word) &&
    window.getLast?.all (fun word => !isStopWord word)

/-- The condition of the specification: first and last word are non-stopwords of length
above 1. -/
def endsMeaningful (window : List String) : Bool :=
  endsNotStopWords window &&
    window.head?.all (fun word => decide (len word > 1)) &&
    window.getLast?.all (fun word => decide (len word > 1))

/-- The condition of the code: every word of the window has length above 1, and the first and
the last word are not stop words. -/
def windowEmitted (window : List String) : Bool :=
  window.all (fun word => decide (len word > 1)) && endsNotStopWords window

/-! ### Snippets: sample texts and the quantities named by the specification -/

/-- A Vietnamese rule of 179 characters whose UTF-8 encoding has 236 bytes. -/
def helmetRuleText : String :=
  "Người điều khiển xe mô tô, xe gắn máy phải đội mũ bảo hiểm có cài quai đúng quy cách khi tham gia giao thông đường bộ; người vi phạm bị phạt tiền từ 400.000 đồng đến 600.000 đồng."

/-- A triple stated by `helmetRuleText`. -/
def helmetRuleTriple : TripleView :=
  { ID := 1, UnitID := 1, SubjectName := "người điều khiển xe mô tô", RelationName := "phải",
    ObjectName := "mũ bảo hiểm", UnitText := helmetRuleText }

/-- Byte offset, in the text itself, of the first place where the name occurs when letter
case is ignored (`none` when there is no such place); the text and the name are rune
lists. -/
def caseInsensitiveOffset (name : List Char) : List Char → Option Nat
  | [] => if name.isEmpty then some 0 else none
  | c :: rest =>
    if (name.map Unicode.ToLower).isPrefixOf ((c :: rest).map Unicode.ToLower) then some 0
    else (caseInsensitiveOffset name rest).map (fun i => i + c.utf8Size)

/-- Lower-casing changes the encoded size of no character of the text. -/
def lowerKeepsSize (text : String) : Prop :=
  ∀ c ∈ text.data, (Unicode.ToLower c).utf8Size = c.utf8Size

instance (text : String) : Decidable (lowerKeepsSize text) := by
  unfold lowerKeepsSize
  infer_instance

/-- The window of the text around an occurrence at byte offset `idx` of a name: the bytes
from `max(0, idx-50)` to `min(len(text), idx+len(name)+150)`, with "..." in front when the
window starts after the beginning and "..." behind when it stops before the end. -/
def snippetWindow (text name : String) (idx : Nat) : List UInt8 :=
  let start := idx - 50
  let stop := min (len text) (idx + len name + 150)
  (if start > 0 then utf8 "..." else []) ++
    ((utf8 text).drop start).take (stop - start) ++
    (if stop < len text then utf8 "..." else [])

/-- The offset at which `generateSnippet` is specified to find a name: none for the empty
name, which is skipped, else the first case-insensitive occurrence in the text. -/
def nameOffset (text name : String) : Option Nat :=
  if name = "" then none else caseInsensitiveOffset name.data text.data

/-- An ASCII text of 206 bytes that holds "Helmet" at byte offset 100. -/
def paddedHelmetText : String :=
  String.mk (List.replicate 100 'a') ++ "Helmet" ++ String.mk (List.replicate 100 'b')

/-- A triple on `paddedHelmetText` whose subject name is empty. -/
def unnamedSubjectTriple : TripleView :=
  { ID := 1, UnitID := 1, SubjectName := "", RelationName := "phải", ObjectName := "helmet",
    UnitText := paddedHelmetText }

/-- A text of 203 bytes: 101 letters "Ⱥ" (`U+023A`, two bytes, lower case `U+2C65` of three
bytes) followed by "x". -/
def stretchedText : String :=
  String.mk (List.replicate 101 'Ⱥ') ++ "x"

/-- A text of 326 bytes: 60 letters "İ" (`U+0130`, two bytes, lower case "i" of one byte),
100 letters "a", the word "helmet" and 100 letters "b". -/
def shrunkText : String :=
  String.mk (List.replicate 60 'İ') ++ String.mk (List.replicate 100 'a') ++ "helmet" ++
    String.mk (List.replicate 100 'b')

/-! ### Extraction scope of `IngestLegalContent` -/

/-- The units the extraction loop of `IngestLegalContent` passes to
`extractTriplesFromText`, each with what the extractor returned, in the order of the loop
over `unitMap`. -/
def scannedUnits (doc : Document) : List (String × Nat) → Store → List (Unit × Extraction)
  | [], _ => []
  | entry :: rest, db =>
    match GetUnit db entry.2 with
    | (.error _, db) => scannedUnits doc rest db
    | (.ok unit, db) =>
      let found := extractTriplesFromText db unit doc
      (unit, found) :: scannedUnits doc rest found.db

/-- The units scanned by the stages of `IngestLegalContent` after the document was created;
none when a stage before the extraction returns an error. -/
def ingestIntoScanned (s : IngestionService) (db : Store) (req : IngestRequest)
    (doc : Document) : List (Unit × Extraction) :=
  match createUnits doc.ID req.Units db {} with
  | (.error _, _) => []
  | (.ok units, db) =>
    match embedStage s req units.createdUnits db with
    | (.error _, _) => []
    | (.ok _, db) =>
      match explicitStage req units.unitMap db with
      | (.error _, _) => []
      | (.ok _, db) =>
        if req.Triples.length = 0 then scannedUnits doc units.unitMap db else []

/-- The units scanned by one call of `IngestLegalContent`. -/
def ingestScanned (s : IngestionService) (db : Store) (req : IngestRequest) :
    List (Unit × Extraction) :=
  match FindDocumentByMetadata db req.Document.Title req.Document.Number with
  | (.ok none, db) =>
    let doc : Document :=
      { Title := req.Document.Title, Type_ := req.Document.Type_, Number := req.Document.Number,
        Year := req.Document.Year, Authority := req.Document.Authority, Status := "active" }
    match CreateDocument db doc with
    | (.error _, _) => []
    | (.ok doc, db) => ingestIntoScanned s db req doc
  | _ => []

/-- A request whose only unit has no code and a text that states a rule. -/
def uncodedRuleIngest : IngestRequest :=
  { Document := { Title := "Helmet Notice", Type_ := "Notice" },
    Units := [{ Level := "paragraph", Text := "the driver must wear a helmet" }] }

/-- Two units under one code, the rule in the first. -/
def sharedCodeIngest : IngestRequest :=
  { Document := { Title := "Helmet Notice", Type_ := "Notice" },
    Units := [{ Level := "article", Code := some "Article 1",
                Text := "the driver must wear a helmet", OrderIndex := 1 },
              { Level := "article", Code := some "Article 1", Text := "general provisions",
                OrderIndex := 2 }] }

/-- Two units under one code, the rule in the second. -/
def sharedCodeIngestLast : IngestRequest :=
  { sharedCodeIngest with Units := sharedCodeIngest.Units.reverse }

/-! ### Sample inputs: panics, nil provider, score conversion -/

/-- One star whose only matching triple has the unit text `stretchedText` and the subject
name "x". -/
def stretchedStars : List QueryStar :=
  [{ MatchingTriples :=
      [{ ID := 1, UnitID := 1, SubjectName := "x", RelationName := "phải", ObjectName := "y",
         UnitText := stretchedText }] }]

/-- The engine `cmd/api/main.go` builds over an empty graph when `EMBEDDING_API_KEY` is
empty: the `QAProvider` interface value stays nil. -/
def keylessEngine : QueryEngine :=
  { emptyGraphEngine with qaProvider := none }

/-- The sample engine with a reranker that scores position 0 with 1/2 and position 1 with
`1/2 + 2^-40`, two `float64` values that convert to the same `float32`. -/
def closeScoresEngine : QueryEngine :=
  { repo := sampleRepo
    qaProvider := sampleEngine.qaProvider
    reranker := some { Rerank := fun _ _ => .ok [{ Index := 0, RelevanceScore := 1 / 2 },
      { Index := 1, RelevanceScore := 1 / 2 + 1 / 1099511627776 }] } }

/-- A provider outside the repository whose list does not hold the query. -/
def foreignQA : QAProvider :=
  { RewriteQuery := fun _ => .ok ["crash helmet"] }

/-- The empty-graph engine with the provider `foreignQA`. -/
def foreignEngine : QueryEngine :=
  { emptyGraphEngine with qaProvider := some foreignQA }

theorem mapGet_mapSet {κ ν : Type} [DecidableEq κ] (m : List (κ × ν)) (k k' : κ) (v : ν) :
    mapGet (mapSet m k v) k' = if k' = k then some v else mapGet m k' := by
  induction m with
  | nil =>
    by_cases h : k' = k
    · simp [mapSet, mapGet, h]
    · have h' : ¬ k = k' := fun e => h e.symm
      simp [mapSet, mapGet, h, h']
  | cons e rest ih =>
    unfold mapSet
    by_cases he : e.1 = k
    · by_cases h : k' = k
      · simp [mapGet, he, h]
      · have h' : ¬ k = k' := fun e => h e.symm
        simp [mapGet, he, h, h']
    · simp only [he, if_false]
      by_cases hk : e.1 = k'
      · have h : ¬ k' = k := fun e' => he (hk.trans e')
        simp [mapGet, hk, h]
      · have : mapGet (e :: mapSet rest k v) k' = mapGet (mapSet rest k v) k' := by
          simp [mapGet, hk]
        rw [this, ih]
        simp [mapGet, hk]

theorem mapSet_of_mapGet_some {κ ν : Type} [DecidableEq κ] (m : List (κ × ν)) (k : κ) (v : ν)
    (h : mapGet m k = some v) : mapSet m k v = m := by
  induction m with
  | nil => simp [mapGet] at h
  | cons e rest ih =>
    unfold mapSet
    by_cases he : e.1 = k
    · simp [mapGet, he] at h
      simp [he]
      exact Prod.ext he.symm h.symm
    · simp [mapGet, he] at h
      simp only [he, if_false]
      rw [ih (by simpa [mapGet] using h)]

theorem mapSet_of_mapGet_none {κ ν : Type} [DecidableEq κ] (m : List (κ × ν)) (k : κ) (v : ν)
    (h : mapGet m k = none) : mapSet m k v = m ++ [(k, v)] := by
  induction m with
  | nil => simp [mapSet]
  | cons e rest ih =>
    unfold mapSet
    by_cases he : e.1 = k
    · simp [mapGet, he] at h
    · simp [mapGet, he] at h
      simp only [he, if_false]
      rw [ih (by simpa [mapGet] using h)]
      rfl

theorem mapGet_isSome_iff {κ ν : Type} [DecidableEq κ] (m : List (κ × ν)) (k : κ) :
    (mapGet m k).isSome ↔ k ∈ m.map Prod.fst := by
  induction m with
  | nil => simp [mapGet]
  | cons e rest ih =>
    by_cases he : e.1 = k
    · simp [mapGet, he]
    · have h' : ¬ k = e.1 := fun x => he x.symm
      have : mapGet (e :: rest) k = mapGet rest k := by simp [mapGet, he]
      rw [this, ih]
      simp [h']

theorem mapGet_mem {κ ν : Type} [DecidableEq κ] (m : List (κ × ν)) (k : κ) (v : ν)
    (h : mapGet m k = some v) : (k, v) ∈ m := by
  induction m with
  | nil => simp [mapGet] at h
  | cons e rest ih =>
    by_cases he : e.1 = k
    · simp [mapGet, he] at h
      have : e = (k, v) := Prod.ext he h
      simp [this]
    · have h2 : mapGet (e :: rest) k = mapGet rest k := by simp [mapGet, he]
      rw [h2] at h
      exact List.mem_cons_of_mem _ (ih h)

theorem mapGet_of_mem_nodup {κ ν : Type} [DecidableEq κ] (m : List (κ × ν)) (k : κ) (v : ν)
    (hn : (m.map Prod.fst).Nodup) (h : (k, v) ∈ m) : mapGet m k = some v := by
  induction m with
  | nil => simp at h
  | cons e rest ih =>
    simp only [List.map_cons, List.nodup_cons] at hn
    rcases List.mem_cons.1 h with h | h
    · subst h
      simp [mapGet]
    · have hk : k ∈ rest.map Prod.fst := List.mem_map.2 ⟨(k, v), h, rfl⟩
      have he : ¬ e.1 = k := fun x => hn.1 (x ▸ hk)
      have h2 : mapGet (e :: rest) k = mapGet rest k := by simp [mapGet, he]
      rw [h2]
      exact ih hn.2 h

/-! ### The collection loop of `combineAndRankResults` -/

/-- One step of the collection loop on a (weight, triple) pairing. -/
theorem collect_foldl_pairings (q : String) (stars : List (Nat × QueryStar)) (m : RankMaps) :
    stars.foldl (rankStar q) m =
      (pairings stars).foldl (fun acc p => rankTriple q p.1 acc p.2) m := by
  induction stars generalizing m with
  | nil => simp [pairings]
  | cons s rest ih =>
    simp only [List.foldl_cons, pairings, List.flatMap_cons, List.foldl_append]
    rw [ih]
    simp [rankStar, pairings, List.foldl_map]

theorem rankTriple_tripleMap (q : String) (w : ℚ) (m : RankMaps) (t : TripleView) :
    (rankTriple q w m t).tripleMap =
      if t.ID ∈ m.tripleMap.map Prod.fst then m.tripleMap else m.tripleMap ++ [(t.ID, t)] := by
  unfold rankTriple
  simp only
  cases h : mapGet m.tripleMap t.ID with
  | none =>
    have : ¬ t.ID ∈ m.tripleMap.map Prod.fst := by
      rw [← mapGet_isSome_iff, h]; simp
    rw [if_neg this]
    exact mapSet_of_mapGet_none _ _ _ h
  | some existing =>
    have : t.ID ∈ m.tripleMap.map Prod.fst := by
      rw [← mapGet_isSome_iff, h]; simp
    rw [if_pos this]
    exact mapSet_of_mapGet_some _ _ _ h

theorem rankTriple_score (q : String) (w : ℚ) (m : RankMaps) (t : TripleView) (id : Nat) :
    (mapGet (rankTriple q w m t).tripleScores id).getD 0 =
      if t.ID = id then max ((mapGet m.tripleScores id).getD 0) (combinedScore t q w)
      else (mapGet m.tripleScores id).getD 0 := by
  unfold rankTriple
  simp only
  by_cases hid : t.ID = id
  · subst hid
    simp only [if_true]
    by_cases hs : combinedScore t q w > (mapGet m.tripleScores t.ID).getD 0
    · rw [if_pos hs, mapGet_mapSet]
      simp only [if_true, Option.getD_some]
      exact (max_eq_right (le_of_lt hs)).symm
    · rw [if_neg hs]
      exact (max_eq_left (not_lt.1 hs)).symm
  · simp only [hid, if_false]
    by_cases hs : combinedScore t q w > (mapGet m.tripleScores t.ID).getD 0
    · rw [if_pos hs, mapGet_mapSet]
      have : ¬ id = t.ID := fun x => hid x.symm
      simp [this]
    · rw [if_neg hs]

/-- Scores of the pairings of triple `id`, in encounter order. -/
theorem foldl_rankTriple_score (q : String) (ps : List (ℚ × TripleView)) (m : RankMaps)
    (id : Nat) :
    (mapGet (ps.foldl (fun acc p => rankTriple q p.1 acc p.2) m).tripleScores id).getD 0 =
      ((ps.filter (fun p => p.2.ID = id)).map (fun p => combinedScore p.2 q p.1)).foldl max
        ((mapGet m.tripleScores id).getD 0) := by
  induction ps generalizing m with
  | nil => simp
  | cons p rest ih =>
    simp only [List.foldl_cons]
    rw [ih, rankTriple_score]
    by_cases hid : p.2.ID = id
    · simp [List.filter_cons, hid]
    · simp [List.filter_cons, hid]

theorem foldl_rankTriple_keys (q : String) (ps : List (ℚ × TripleView)) (m : RankMaps)
    (hn : (m.tripleMap.map Prod.fst).Nodup) :
    ((ps.foldl (fun acc p => rankTriple q p.1 acc p.2) m).tripleMap.map Prod.fst).Nodup ∧
    (∀ id, id ∈ (ps.foldl (fun acc p => rankTriple q p.1 acc p.2) m).tripleMap.map Prod.fst ↔
      id ∈ m.tripleMap.map Prod.fst ∨ id ∈ ps.map (fun p => p.2.ID)) ∧
    (∀ e ∈ (ps.foldl (fun acc p => rankTriple q p.1 acc p.2) m).tripleMap,
      e ∈ m.tripleMap ∨ ∃ p ∈ ps, e = (p.2.ID, p.2)) := by
  induction ps generalizing m with
  | nil => simp [hn]
  | cons p rest ih =>
    simp only [List.foldl_cons]
    have hstep := rankTriple_tripleMap q p.1 m p.2
    have hn' : ((rankTriple q p.1 m p.2).tripleMap.map Prod.fst).Nodup := by
      rw [hstep]
      by_cases hin : p.2.ID ∈ m.tripleMap.map Prod.fst
      · rw [if_pos hin]; exact hn
      · rw [if_neg hin]
        simp only [List.map_append, List.map_cons, List.map_nil]
        exact List.Nodup.append hn (List.nodup_singleton _) (by simpa using hin)
    obtain ⟨h1, h2, h3⟩ := ih (rankTriple q p.1 m p.2) hn'
    refine ⟨h1, ?_, ?_⟩
    · intro id
      rw [h2 id, hstep]
      by_cases hin : p.2.ID ∈ m.tripleMap.map Prod.fst
      · rw [if_pos hin]
        simp only [List.map_cons, List.mem_cons]
        constructor
        · rintro (h | h)
          · exact Or.inl h
          · exact Or.inr (Or.inr h)
        · rintro (h | h | h)
          · exact Or.inl h
          · exact Or.inl (h ▸ hin)
          · exact Or.inr h
      · rw [if_neg hin]
        simp only [List.map_append, List.map_cons, List.map_nil, List.mem_append,
          List.mem_singleton, List.mem_cons]
        tauto
    · intro e he
      rcases h3 e he with h | ⟨p', hp', hep⟩
      · rw [hstep] at h
        by_cases hin : p.2.ID ∈ m.tripleMap.map Prod.fst
        · rw [if_pos hin] at h; exact Or.inl h
        · rw [if_neg hin] at h
          rcases List.mem_append.1 h with h | h
          · exact Or.inl h
          · exact Or.inr ⟨p, List.mem_cons_self _ _, by simpa using h⟩
      · exact Or.inr ⟨p', List.mem_cons_of_mem _ hp', hep⟩
theorem starWeightAt_eq (i : Nat) : starWeightAt i = max 0.1 (1.0 - 0.1 * (i : ℚ)) := by
  unfold starWeightAt
  simp only
  by_cases h : (1.0 : ℚ) - (i : ℚ) * 0.1 < 0.1
  · rw [if_pos h, max_eq_left]
    linarith
  · rw [if_neg h, max_eq_right]
    · ring
    · linarith

theorem combinedScore_eq (t : TripleView) (q : String) (i : Nat) :
    combinedScore t q (starWeightAt i) = preWeight t q * max 0.1 (1.0 - 0.1 * (i : ℚ)) := by
  rw [starWeightAt_eq]
  unfold combinedScore preWeight
  norm_num

theorem pairings_scores (q : String) (id : Nat) (l : List (Nat × QueryStar)) :
    ((pairings l).filter (fun p => p.2.ID = id)).map (fun p => combinedScore p.2 q p.1) =
      l.flatMap (fun indexed =>
        (indexed.2.MatchingTriples.filter (fun t => t.ID = id)).map
          (fun t => preWeight t q * max 0.1 (1.0 - 0.1 * (indexed.1 : ℚ)))) := by
  induction l with
  | nil => simp [pairings]
  | cons s rest ih =>
    simp only [pairings, List.flatMap_cons, List.filter_append, List.map_append] at ih ⊢
    rw [ih]
    congr 1
    simp only [List.filter_map, List.map_map]
    apply List.map_congr_left
    intro t _
    simp [combinedScore_eq]

theorem pairings_ids (l : List (Nat × QueryStar)) :
    (pairings l).map (fun p => p.2.ID) = tripleIDs (l.map Prod.snd) := by
  induction l with
  | nil => simp [pairings, tripleIDs]
  | cons s rest ih =>
    simp only [pairings, tripleIDs, List.flatMap_cons, List.map_append, List.map_cons] at ih ⊢
    rw [ih]
    simp

theorem pairings_mem (l : List (Nat × QueryStar)) (p : ℚ × TripleView) (h : p ∈ pairings l) :
    ∃ s ∈ l.map Prod.snd, p.2 ∈ s.MatchingTriples := by
  simp only [pairings, List.mem_flatMap, List.mem_map] at h
  obtain ⟨s, hs, t, ht, rfl⟩ := h
  exact ⟨s.2, List.mem_map.2 ⟨s, hs, rfl⟩, ht⟩

theorem collectTriples_eq (stars : List QueryStar) (q : String) :
    collectTriples stars q =
      (pairings stars.enum).foldl (fun acc p => rankTriple q p.1 acc p.2) {} := by
  unfold collectTriples
  exact collect_foldl_pairings q _ _

theorem collectTriples_keys_nodup (stars : List QueryStar) (q : String) :
    ((collectTriples stars q).tripleMap.map Prod.fst).Nodup := by
  rw [collectTriples_eq]
  exact (foldl_rankTriple_keys q _ {} (by simp)).1

theorem collectTriples_keys (stars : List QueryStar) (q : String) (id : Nat) :
    id ∈ (collectTriples stars q).tripleMap.map Prod.fst ↔ id ∈ tripleIDs stars := by
  rw [collectTriples_eq, (foldl_rankTriple_keys q _ {} (by simp)).2.1 id, pairings_ids,
    List.enum_map_snd]
  simp

theorem collectTriples_values (stars : List QueryStar) (q : String) (e : Nat × TripleView)
    (he : e ∈ (collectTriples stars q).tripleMap) :
    e.1 = e.2.ID ∧ ∃ s ∈ stars, e.2 ∈ s.MatchingTriples := by
  rw [collectTriples_eq] at he
  rcases (foldl_rankTriple_keys q _ {} (by simp)).2.2 e he with h | ⟨p, hp, rfl⟩
  · simp at h
  · obtain ⟨s, hs, ht⟩ := pairings_mem _ p hp
    rw [List.enum_map_snd] at hs
    exact ⟨rfl, s, hs, ht⟩

theorem collectTriples_score (stars : List QueryStar) (q : String) (id : Nat) :
    (mapGet (collectTriples stars q).tripleScores id).getD 0 =
      (appearanceScores stars q id).foldl max 0 := by
  rw [collectTriples_eq, foldl_rankTriple_score, pairings_scores]
  simp [appearanceScores, mapGet]

/-! ### Conversion to answers, sorting and truncation -/

theorem toAnswer_ok (sc : List (Nat × ℚ)) (e : Nat × TripleView) (a : Nat × Answer)
    (h : toAnswer sc e = .ok a) : a.1 = e.1 ∧ a.2.Score = (mapGet sc e.1).getD 0 := by
  unfold toAnswer at h
  simp only at h
  cases hs : generateSnippet e.2 with
  | error f => rw [hs] at h; simp at h
  | ok b =>
    rw [hs] at h
    simp only [Except.ok.injEq] at h
    subst h
    exact ⟨rfl, rfl⟩

theorem toAnswers_ok (sc : List (Nat × ℚ)) (l : List (Nat × TripleView))
    (out : List (Nat × Answer)) (h : toAnswers sc l = .ok out) :
    out.map Prod.fst = l.map Prod.fst ∧ ∀ a ∈ out, a.2.Score = (mapGet sc a.1).getD 0 := by
  induction l generalizing out with
  | nil =>
    simp only [toAnswers, Except.ok.injEq] at h
    subst h
    simp
  | cons e rest ih =>
    unfold toAnswers at h
    cases h1 : toAnswer sc e with
    | error f => rw [h1] at h; simp at h
    | ok a =>
      rw [h1] at h
      cases h2 : toAnswers sc rest with
      | error f => rw [h2] at h; simp at h
      | ok as =>
        rw [h2] at h
        simp only [Except.ok.injEq] at h
        subst h
        obtain ⟨k1, k2⟩ := ih as h2
        obtain ⟨j1, j2⟩ := toAnswer_ok sc e a h1
        refine ⟨by simp [k1, j1], ?_⟩
        intro x hx
        rcases List.mem_cons.1 hx with hx | hx
        · subst hx; rw [j2, j1]
        · exact k2 x hx

theorem toAnswers_total (sc : List (Nat × ℚ)) (l : List (Nat × TripleView))
    (h : ∀ e ∈ l, ∃ b, generateSnippet e.2 = .ok b) : ∃ out, toAnswers sc l = .ok out := by
  induction l with
  | nil => exact ⟨[], rfl⟩
  | cons e rest ih =>
    obtain ⟨b, hb⟩ := h e (List.mem_cons_self _ _)
    obtain ⟨as, has⟩ := ih (fun x hx => h x (List.mem_cons_of_mem _ hx))
    unfold toAnswers
    simp [toAnswer, hb, has]

theorem sortSlice_perm {α : Type} (less : α → α → Bool) (xs : List α) :
    (sortSlice less xs).Perm xs :=
  List.perm_insertionSort _ xs

/-- Sorting with `less a b := key a > key b` orders the slice by key, highest first. -/
theorem sortSlice_key_sorted {α : Type} (key : α → ℚ) (xs : List α) :
    (sortSlice (fun a b => decide (key a > key b)) xs).Pairwise
      (fun a b => key b ≤ key a) := by
  have hs := @List.sorted_insertionSort α
    (fun a b => decide (key b > key a) = false) _
    ⟨fun a b => by
      simp only [decide_eq_false_iff_not, not_lt]
      exact le_total _ _⟩
    ⟨fun a b c => by
      simp only [decide_eq_false_iff_not, not_lt]
      intro h1 h2
      exact le_trans h2 h1⟩ xs
  unfold sortSlice
  refine List.Pairwise.imp ?_ hs
  intro a b h
  simpa using h

theorem foldl_max_ge_init (l : List ℚ) (a : ℚ) : a ≤ l.foldl max a := by
  induction l generalizing a with
  | nil => simp
  | cons x rest ih => exact le_trans (le_max_left a x) (ih (max a x))

theorem foldl_max_ge_mem (l : List ℚ) (a : ℚ) : ∀ y ∈ l, y ≤ l.foldl max a := by
  induction l generalizing a with
  | nil => simp
  | cons x rest ih =>
    intro y hy
    rcases List.mem_cons.1 hy with h | h
    · subst h
      exact le_trans (le_max_right a y) (foldl_max_ge_init rest (max a y))
    · exact ih (max a x) y h

theorem foldl_max_eq_init_or_mem (l : List ℚ) (a : ℚ) : l.foldl max a = a ∨ l.foldl max a ∈ l := by
  induction l generalizing a with
  | nil => simp
  | cons x rest ih =>
    simp only [List.foldl_cons]
    rcases ih (max a x) with h | h
    · rcases max_choice a x with h' | h'
      · left; rw [h, h']
      · right; rw [h, h']; exact List.mem_cons_self _ _
    · right; exact List.mem_cons_of_mem _ h

theorem appearanceScores_ne_nil (stars : List QueryStar) (q : String) (id : Nat)
    (h : id ∈ tripleIDs stars) : appearanceScores stars q id ≠ [] := by
  simp only [tripleIDs, List.mem_flatMap, List.mem_map] at h
  obtain ⟨s, hs, t, ht, hid⟩ := h
  obtain ⟨n, hn⟩ := List.mem_iff_getElem?.1 hs
  have hmem : (n, s) ∈ stars.enum := List.mk_mem_enum_iff_getElem?.2 hn
  have : preWeight t q * max 0.1 (1.0 - 0.1 * (n : ℚ)) ∈ appearanceScores stars q id := by
    simp only [appearanceScores, List.mem_flatMap, List.mem_map, List.mem_filter]
    exact ⟨(n, s), hmem, t, ⟨ht, by simpa using hid⟩, rfl⟩
  exact List.ne_nil_of_mem this

/-- Shape of a successful run of `combineAndRankResultsKeyed`. -/
theorem combineAndRankResultsKeyed_ok (stars : List QueryStar) (q : String)
    (keyed : List (Nat × Answer)) (h : combineAndRankResultsKeyed stars q = .ok keyed) :
    ∃ answers, toAnswers (collectTriples stars q).tripleScores (collectTriples stars q).tripleMap
        = .ok answers ∧
      keyed = (sortSlice (fun a b => decide (a.2.Score > b.2.Score)) answers).take 10 := by
  unfold combineAndRankResultsKeyed at h
  simp only at h
  cases ha : toAnswers (collectTriples stars q).tripleScores (collectTriples stars q).tripleMap with
  | error f => rw [ha] at h; simp at h
  | ok answers =>
    rw [ha] at h
    simp only [Except.ok.injEq] at h
    refine ⟨answers, rfl, ?_⟩
    rw [← h]
    split
    · rfl
    · rw [List.take_of_length_le (by omega)]

theorem combineAndRankResultsKeyed_mem (stars : List QueryStar) (q : String)
    (keyed : List (Nat × Answer)) (h : combineAndRankResultsKeyed stars q = .ok keyed)
    (e : Nat × Answer) (he : e ∈ keyed) :
    e.1 ∈ tripleIDs stars ∧
      e.2.Score = (mapGet (collectTriples stars q).tripleScores e.1).getD 0 := by
  obtain ⟨answers, ha, rfl⟩ := combineAndRankResultsKeyed_ok stars q keyed h
  have hmem : e ∈ answers := (sortSlice_perm _ answers).mem_iff.1 (List.mem_of_mem_take he)
  obtain ⟨k1, k2⟩ := toAnswers_ok _ _ answers ha
  refine ⟨?_, k2 e hmem⟩
  rw [← collectTriples_keys stars q, ← k1]
  exact List.mem_map.2 ⟨e, hmem, rfl⟩

/-! ### Ranking stage: main results -/

/-- C1, counterexample: a triple whose only appearance has combined score −0.2 (tfidf −2)
is emitted with score 0, which is not the maximum of its appearance scores. -/
theorem combineAndRankResults_score_not_max :
    appearanceScores negativeStars "speed limit" 1 = [-(1 / 5)] ∧
    combineAndRankResultsKeyed negativeStars "speed limit"
      = .ok [(1, sampleAnswer 0)] ∧
    ¬ IsMaxOf (appearanceScores negativeStars "speed limit" 1)
      (sampleAnswer 0).Score := by
  refine ⟨by decide!, by decide!, ?_⟩
  have h : appearanceScores negativeStars "speed limit" 1 = [-(1 / 5)] := by
    decide!
  rw [h]
  intro hmax
  have := hmax.1
  simp [sampleAnswer] at this

/-- C1, amended: the score of the Answer emitted for a triple id is the larger of 0 and the
maximum of `(relevance + 0.2·tfidf + 0.1) · max(0.1, 1.0 − 0.1·i)` over the appearances of
that id; it is that maximum whenever some appearance has a positive combined score, and it
is 0 when no appearance has. -/
theorem combineAndRankResults_score_floored_max (stars : List QueryStar) (q : String)
    (keyed : List (Nat × Answer)) (h : combineAndRankResultsKeyed stars q = .ok keyed) :
    combineAndRankResults stars q = .ok (keyed.map Prod.snd) ∧
    ∀ e ∈ keyed,
      appearanceScores stars q e.1 ≠ [] ∧
      e.2.Score = (appearanceScores stars q e.1).foldl max 0 ∧
      ((∃ s ∈ appearanceScores stars q e.1, 0 < s) →
        IsMaxOf (appearanceScores stars q e.1) e.2.Score) ∧
      ((∀ s ∈ appearanceScores stars q e.1, s ≤ 0) → e.2.Score = 0) := by
  refine ⟨by simp [combineAndRankResults, h], ?_⟩
  intro e he
  obtain ⟨hid, hscore⟩ := combineAndRankResultsKeyed_mem stars q keyed h e he
  rw [collectTriples_score] at hscore
  refine ⟨appearanceScores_ne_nil stars q e.1 hid, hscore, ?_, ?_⟩
  · rintro ⟨s, hs, hpos⟩
    rw [hscore]
    refine ⟨?_, foldl_max_ge_mem _ 0⟩
    rcases foldl_max_eq_init_or_mem (appearanceScores stars q e.1) 0 with h0 | h0
    · have := foldl_max_ge_mem (appearanceScores stars q e.1) 0 s hs
      rw [h0] at this
      exact absurd hpos (not_lt.2 this)
    · exact h0
  · intro hall
    rw [hscore]
    rcases foldl_max_eq_init_or_mem (appearanceScores stars q e.1) 0 with h0 | h0
    · exact h0
    · exact le_antisymm (hall _ h0) (foldl_max_ge_init _ 0)

/-- C1, witness: two stars resolving triple 1 with combined scores 0.42 and 0.459. -/
theorem combineAndRankResults_score_floored_max_witness :
    combineAndRankResults sampleStars "speed limit"
      = .ok ([(1, sampleAnswer 0.459)].map Prod.snd) ∧
    ∀ e ∈ [(1, sampleAnswer 0.459)],
      appearanceScores sampleStars "speed limit" e.1 ≠ [] ∧
      e.2.Score = (appearanceScores sampleStars "speed limit" e.1).foldl max 0 ∧
      ((∃ s ∈ appearanceScores sampleStars "speed limit" e.1, 0 < s) →
        IsMaxOf (appearanceScores sampleStars "speed limit" e.1) e.2.Score) ∧
      ((∀ s ∈ appearanceScores sampleStars "speed limit" e.1, s ≤ 0) → e.2.Score = 0) :=
  combineAndRankResults_score_floored_max _ "speed limit" [(1, sampleAnswer 0.459)] (by decide!)

/-- C2, counterexample: star 0 resolves triple 1 with pre-weight score 0.42, star 1 with
pre-weight score 0.51, and the emitted score is 0.459, not 0.51. -/
theorem combineAndRankResults_keeps_weighted_not_preweight :
    sampleTripleA.ID = sampleTripleB.ID ∧
    preWeight sampleTripleA "speed limit" = 0.42 ∧ preWeight sampleTripleB "speed limit" = 0.51 ∧
    combineAndRankResults sampleStars "speed limit" = .ok [sampleAnswer 0.459] ∧
    (sampleAnswer 0.459).Score ≠ 0.51 := by
  refine ⟨by decide!, by decide!, by decide!, by decide!, by decide!⟩

/-- C2, amended: when star 0 resolves a triple id with pre-weight score 0.42 and star 1
resolves the same id with pre-weight score 0.51, the single Answer emitted for that triple
has score 0.459 = 0.51 · 0.9, the larger of the two star-weighted scores. -/
theorem combineAndRankResults_two_stars_weighted_max (s0 s1 : QueryStar) (t0 t1 : TripleView)
    (q : String) (b : List UInt8)
    (h0 : s0.MatchingTriples = [t0]) (h1 : s1.MatchingTriples = [t1]) (hid : t0.ID = t1.ID)
    (hp0 : preWeight t0 q = 0.42) (hp1 : preWeight t1 q = 0.51)
    (hb : generateSnippet t0 = .ok b) :
    ∃ a, combineAndRankResults [s0, s1] q = .ok [a] ∧ a.Score = 0.459 ∧
      a.Score = max (0.42 * 1.0) (0.51 * 0.9) := by
  have hm : collectTriples [s0, s1] q =
      rankTriple q (starWeightAt 1) (rankTriple q (starWeightAt 0) {} t0) t1 := by
    simp [collectTriples, List.enum, List.enumFrom, rankStar, h0, h1]
  have hmap : (collectTriples [s0, s1] q).tripleMap = [(t0.ID, t0)] := by
    rw [hm, rankTriple_tripleMap, rankTriple_tripleMap]
    simp [hid]
  have hsc : (mapGet (collectTriples [s0, s1] q).tripleScores t0.ID).getD 0 = 0.459 := by
    rw [hm, rankTriple_score, rankTriple_score, combinedScore_eq, combinedScore_eq, hp0, hp1]
    simp only [hid, if_true]
    norm_num [mapGet]
  refine ⟨{ DocRef := t0.DocRef, UnitID := idString t0.UnitID, Snippet := b, Score := 0.459,
            Context := t0.Context, Title := t0.DocumentTitle,
            SourceURL := "/documents/" ++ idString t0.DocumentID }, ?_, rfl, by norm_num⟩
  simp [combineAndRankResults, combineAndRankResultsKeyed, hmap, toAnswers, toAnswer, hb, hsc,
    sortSlice]

/-- C2, witness: the two sample stars. -/
theorem combineAndRankResults_two_stars_weighted_max_witness :
    ∃ a, combineAndRankResults
        [{ MatchingTriples := [sampleTripleA] }, { MatchingTriples := [sampleTripleB] }] "speed limit"
        = .ok [a] ∧ a.Score = 0.459 ∧ a.Score = max (0.42 * 1.0) (0.51 * 0.9) :=
  combineAndRankResults_two_stars_weighted_max _ _ sampleTripleA sampleTripleB "speed limit"
    (utf8 "the driver must wear a helmet") rfl rfl (by decide!) (by decide!) (by decide!)
    (by decide!)

theorem snippetOk_iff {t : TripleView} :
    snippetOk t = true ↔ ∃ b, generateSnippet t = .ok b := by
  unfold snippetOk
  cases generateSnippet t <;> simp

/-- Shape of the answers after sorting and truncation, for any successful conversion. -/
theorem ranked_answers_props (stars : List QueryStar) (q : String)
    (answers : List (Nat × Answer))
    (ha : toAnswers (collectTriples stars q).tripleScores (collectTriples stars q).tripleMap
      = .ok answers) :
    combineAndRankResultsKeyed stars q
      = .ok ((sortSlice (fun a b => decide (a.2.Score > b.2.Score)) answers).take 10) ∧
    ∀ keyed, keyed = (sortSlice (fun a b => decide (a.2.Score > b.2.Score)) answers).take 10 →
      (keyed.map Prod.fst).Nodup ∧
      (∀ id ∈ keyed.map Prod.fst, id ∈ tripleIDs stars) ∧
      (keyed.map Prod.snd).length = min 10 (tripleIDs stars).dedup.length ∧
      (keyed.map Prod.snd).Pairwise (fun a b => b.Score ≤ a.Score) ∧
      (∀ id ∈ tripleIDs stars, id ∉ keyed.map Prod.fst →
        ∀ a ∈ keyed.map Prod.snd,
          (mapGet (collectTriples stars q).tripleScores id).getD 0 ≤ a.Score) := by
  obtain ⟨k1, k2⟩ := toAnswers_ok _ _ answers ha
  have hperm := sortSlice_perm (fun a b : Nat × Answer => decide (a.2.Score > b.2.Score)) answers
  have hsorted := sortSlice_key_sorted (fun x : Nat × Answer => x.2.Score) answers
  generalize hsl : sortSlice (fun a b : Nat × Answer => decide (a.2.Score > b.2.Score)) answers
    = sorted at hperm hsorted
  have hkeyed : combineAndRankResultsKeyed stars q = .ok (sorted.take 10) := by
    unfold combineAndRankResultsKeyed
    simp only [ha, hsl]
    split
    · rfl
    · rw [List.take_of_length_le (by omega)]
  have hkeys : (sorted.map Prod.fst).Perm ((collectTriples stars q).tripleMap.map Prod.fst) := by
    rw [← k1]
    exact hperm.map _
  have hnodup : (sorted.map Prod.fst).Nodup :=
    hkeys.nodup_iff.2 (collectTriples_keys_nodup stars q)
  have hlen : sorted.length = (tripleIDs stars).dedup.length := by
    have h1 : (sorted.map Prod.fst).Perm (tripleIDs stars).dedup := by
      rw [List.perm_ext_iff_of_nodup hnodup (List.nodup_dedup _)]
      intro id
      rw [hkeys.mem_iff, collectTriples_keys, List.mem_dedup]
    have := h1.length_eq
    simpa using this
  refine ⟨hkeyed, ?_⟩
  intro keyed hk
  subst hk
  refine ⟨?_, ?_, ?_, ?_, ?_⟩
  · rw [List.map_take]
    exact hnodup.sublist (List.take_sublist _ _)
  · intro id hid
    rw [List.map_take] at hid
    rw [← collectTriples_keys stars q, ← hkeys.mem_iff]
    exact List.mem_of_mem_take hid
  · rw [List.length_map, List.length_take, hlen]
  · rw [List.map_take]
    exact (List.pairwise_map.2 hsorted).sublist (List.take_sublist _ _)
  · intro id hid hout a ha'
    obtain ⟨e, he, rfl⟩ := List.mem_map.1 ha'
    have hin : id ∈ sorted.map Prod.fst := by
      rw [hkeys.mem_iff, collectTriples_keys]
      exact hid
    obtain ⟨e', he', rfl⟩ := List.mem_map.1 hin
    have hsplit : sorted = sorted.take 10 ++ sorted.drop 10 := (List.take_append_drop 10 sorted).symm
    have hdrop : e' ∈ sorted.drop 10 := by
      have : e' ∈ sorted.take 10 ++ sorted.drop 10 := by rw [← hsplit]; exact he'
      rcases List.mem_append.1 this with h | h
      · exact absurd (List.mem_map.2 ⟨e', h, rfl⟩) hout
      · exact h
    rw [hsplit, List.pairwise_append] at hsorted
    have hle := hsorted.2.2 e he e' hdrop
    rw [← k2 e' (hperm.mem_iff.1 he')]
    exact hle

/-- Whatever `combineAndRankResults` returns holds exactly one Answer per distinct triple
id among the matching triples of the stars, `min(10, number of distinct ids)` of them,
ordered by score non-increasing, and every triple left out has a recorded score no higher
than the score of every returned answer.  It returns when no snippet cut panics. -/
theorem combineAndRankResults_top_ten (stars : List QueryStar) (q : String) :
    (∀ keyed, combineAndRankResultsKeyed stars q = .ok keyed →
      combineAndRankResults stars q = .ok (keyed.map Prod.snd) ∧
      (keyed.map Prod.fst).Nodup ∧
      (∀ id ∈ keyed.map Prod.fst, id ∈ tripleIDs stars) ∧
      (keyed.map Prod.snd).length = min 10 (tripleIDs stars).dedup.length ∧
      (keyed.map Prod.snd).Pairwise (fun a b => b.Score ≤ a.Score) ∧
      (∀ id ∈ tripleIDs stars, id ∉ keyed.map Prod.fst →
        ∀ a ∈ keyed.map Prod.snd,
          (mapGet (collectTriples stars q).tripleScores id).getD 0 ≤ a.Score)) ∧
    ((∀ s ∈ stars, ∀ t ∈ s.MatchingTriples, snippetOk t = true) →
      ∃ keyed, combineAndRankResultsKeyed stars q = .ok keyed) := by
  constructor
  · intro keyed hk
    obtain ⟨answers, ha, hkeyed⟩ := combineAndRankResultsKeyed_ok stars q keyed hk
    obtain ⟨_, hprops⟩ := ranked_answers_props stars q answers ha
    exact ⟨by simp [combineAndRankResults, hk], hprops keyed hkeyed⟩
  · intro hsnip
    obtain ⟨answers, ha⟩ := toAnswers_total (collectTriples stars q).tripleScores
      (collectTriples stars q).tripleMap (by
        intro e he
        obtain ⟨_, s, hs, ht⟩ := collectTriples_values stars q e he
        exact snippetOk_iff.1 (hsnip s hs e.2 ht))
    exact ⟨_, (ranked_answers_props stars q answers ha).1⟩

/-- A star with twelve distinct triples: ten answers are returned, highest score
first, and the two triples left out (tfidf 0 and 0.1) are the lowest. -/
theorem combineAndRankResults_top_ten_sample :
    (combineAndRankResultsKeyed [twelveTripleStar] "speed limit").map
      (fun keyed => keyed.map (fun e => (e.1, e.2.Score)))
      = .ok [(12, 0.42), (11, 0.40), (10, 0.38), (9, 0.36), (8, 0.34), (7, 0.32), (6, 0.30),
             (5, 0.28), (4, 0.26), (3, 0.24)] := by
  decide!

/-! ### `ProcessQuery`: rerank step -/

theorem combineAndRankResults_length_le (stars : List QueryStar) (q : String)
    (answers : List Answer) (h : combineAndRankResults stars q = .ok answers) :
    answers.length ≤ 10 := by
  unfold combineAndRankResults at h
  cases hk : combineAndRankResultsKeyed stars q with
  | error f => rw [hk] at h; simp at h
  | ok keyed =>
    rw [hk] at h
    simp only [Except.ok.injEq] at h
    obtain ⟨as, _, rfl⟩ := combineAndRankResultsKeyed_ok stars q keyed hk
    rw [← h, List.length_map, List.length_take]
    exact Nat.min_le_left _ _

theorem stage5Answers_ok (e : QueryEngine) (q : String) (answers : List Answer)
    (h : stage5Answers e q = .ok answers) :
    ∃ st, runStages e q = .ok st ∧ st.answers = answers ∧ answers.length ≤ 10 := by
  unfold stage5Answers at h
  cases hr : runStages e q with
  | error f => rw [hr] at h; simp at h
  | ok st =>
    rw [hr] at h
    simp only [Except.ok.injEq] at h
    refine ⟨st, rfl, h, ?_⟩
    unfold runStages at hr
    split at hr
    · simp at hr
    · simp only at hr
      split at hr
      · simp at hr
      · simp at hr
      · split at hr
        · simp at hr
        · split at hr
          · simp at hr
          · rename_i stars _ as hc
            simp only [Except.ok.injEq] at hr
            rw [← h, ← hr]
            exact combineAndRankResults_length_le _ _ _ hc

theorem rerankScoreMap_some (results : List RerankResult) (m : List (Int × ℚ)) (i : Int) (s : ℚ)
    (h : mapGet (results.foldl (fun sm res => mapSet sm res.Index res.RelevanceScore) m) i
      = some s) :
    mapGet m i = some s ∨ ∃ r ∈ results, r.Index = i ∧ r.RelevanceScore = s := by
  induction results generalizing m with
  | nil => exact Or.inl h
  | cons r rest ih =>
    simp only [List.foldl_cons] at h
    rcases ih _ h with h' | ⟨r', hr', h1, h2⟩
    · rw [mapGet_mapSet] at h'
      by_cases hi : i = r.Index
      · rw [if_pos hi] at h'
        simp only [Option.some.injEq] at h'
        exact Or.inr ⟨r, List.mem_cons_self _ _, hi.symm, h'⟩
      · rw [if_neg hi] at h'
        exact Or.inl h'
    · exact Or.inr ⟨r', List.mem_cons_of_mem _ hr', h1, h2⟩

theorem rerankScoreMap_isSome (results : List RerankResult) (m : List (Int × ℚ)) (i : Int)
    (h : (mapGet m i).isSome ∨ ∃ r ∈ results, r.Index = i) :
    (mapGet (results.foldl (fun sm res => mapSet sm res.Index res.RelevanceScore) m) i).isSome := by
  induction results generalizing m with
  | nil =>
    rcases h with h | ⟨r, hr, _⟩
    · exact h
    · simp at hr
  | cons r rest ih =>
    simp only [List.foldl_cons]
    apply ih
    by_cases hi : i = r.Index
    · left; rw [mapGet_mapSet, if_pos hi]; rfl
    · rcases h with h | ⟨r', hr', h1⟩
      · left; rw [mapGet_mapSet, if_neg hi]; exact h
      · rcases List.mem_cons.1 hr' with h2 | h2
        · subst h2; exact absurd h1.symm hi
        · exact Or.inr ⟨r', h2, h1⟩

theorem rerankScoreMap_isSome_iff (results : List RerankResult) (i : Int) :
    (mapGet (rerankScoreMap results) i).isSome ↔ ∃ r ∈ results, r.Index = i := by
  constructor
  · intro h
    obtain ⟨s, hs⟩ := Option.isSome_iff_exists.1 h
    rcases rerankScoreMap_some results [] i s hs with h' | ⟨r, hr, h1, _⟩
    · simp [mapGet] at h'
    · exact ⟨r, hr, h1⟩
  · intro h
    exact rerankScoreMap_isSome results [] i (Or.inr h)

theorem kept_positions (sm : List (Int × ℚ)) (l : List (Nat × Answer)) :
    (l.filterMap (fun indexed =>
      match mapGet sm (indexed.1 : Int) with
      | some newScore => some (indexed.1, { indexed.2 with Score := toFloat32 newScore })
      | none => none)).map Prod.fst =
    (l.map Prod.fst).filter (fun (i : Nat) => (mapGet sm (i : Int)).isSome) := by
  induction l with
  | nil => rfl
  | cons x rest ih =>
    cases hs : mapGet sm (x.1 : Int) with
    | none => simp [List.filterMap_cons, hs, ih]
    | some s => simp [List.filterMap_cons, hs, ih]

/-- The answers kept by the rerank update loop, each with its position. -/
theorem applyRerank_kept (sm : List (Int × ℚ)) (answers : List Answer) :
    ∃ kept : List (Nat × Answer),
      applyRerank sm answers = kept.map Prod.snd ∧
      kept.map Prod.fst =
        (List.range answers.length).filter (fun (i : Nat) => (mapGet sm (i : Int)).isSome) ∧
      ∀ x ∈ kept, ∃ old s, answers[x.1]? = some old ∧ mapGet sm (x.1 : Int) = some s ∧
        x.2 = { old with Score := toFloat32 s } := by
  refine ⟨answers.enum.filterMap (fun indexed =>
    match mapGet sm (indexed.1 : Int) with
    | some newScore => some (indexed.1, { indexed.2 with Score := toFloat32 newScore })
    | none => none), ?_, ?_, ?_⟩
  · unfold applyRerank
    rw [List.map_filterMap]
    congr 1
    funext indexed
    cases mapGet sm (indexed.1 : Int) <;> rfl
  · rw [kept_positions, List.enum_map_fst]
  · intro x hx
    simp only [List.mem_filterMap] at hx
    obtain ⟨indexed, hmem, hval⟩ := hx
    have hget := List.mem_enum_iff_getElem?.1 hmem
    cases hs : mapGet sm (indexed.1 : Int) with
    | none => rw [hs] at hval; simp at hval
    | some s =>
      rw [hs] at hval
      simp only [Option.some.injEq] at hval
      subst hval
      exact ⟨indexed.2, s, hget, hs, rfl⟩

/-- C4, amended: after Step 5 produced a non-empty answer list and the reranker answered the
submitted documents with `results`, `ProcessQuery` returns exactly the Stage-5 answers whose
position occurs as an index in `results`, each with the `float32` conversion of a relevance
score `results` holds for its position in place of its Stage-5 score, ordered by the
converted score non-increasing; an answer whose position is absent from `results` is not
returned. -/
theorem ProcessQuery_rerank_success (e : QueryEngine) (rt : Runtime) (q : String)
    (includeDebug : Bool) (rr : Reranker) (answers : List Answer) (results : List RerankResult)
    (hst : stage5Answers e q = .ok answers) (hne : answers ≠ [])
    (hrr : e.reranker = some rr)
    (hok : rr.Rerank q (answers.enum.map (fun indexed => rerankDoc rt indexed.1 indexed.2))
      = .ok results) :
    ∃ (res : QueryResult) (kept : List (Nat × Answer)), ProcessQuery e rt q includeDebug = .ok res ∧
      res.Answers.Perm (kept.map Prod.snd) ∧
      res.Answers.Pairwise (fun a b => b.Score ≤ a.Score) ∧
      kept.map Prod.fst = (List.range answers.length).filter
        (fun (i : Nat) => decide (∃ r ∈ results, r.Index = (i : Int))) ∧
      ∀ x ∈ kept, ∃ old r, answers[x.1]? = some old ∧ r ∈ results ∧ r.Index = (x.1 : Int) ∧
        x.2 = { old with Score := toFloat32 r.RelevanceScore } := by
  obtain ⟨st, hrun, hans, hlen⟩ := stage5Answers_ok e q answers hst
  obtain ⟨kept, hk1, hk2, hk3⟩ := applyRerank_kept (rerankScoreMap results) answers
  have hpos : 0 < answers.length := List.length_pos.2 hne
  have hstep : rerankStep e rt q answers =
      (sortSlice (fun a b => decide (a.Score > b.Score))
        (applyRerank (rerankScoreMap results) answers), true) := by
    unfold rerankStep
    rw [hrr]
    simp only
    rw [if_pos hpos]
    have h30 : ¬ answers.length > 30 := by omega
    simp only [h30, if_false, hok]
  refine ⟨_, kept, by simp only [ProcessQuery, hrun, hans, hstep]; rfl, ?_, ?_, ?_, ?_⟩
  · show (sortSlice _ _).Perm _
    rw [← hk1]
    exact sortSlice_perm _ _
  · exact sortSlice_key_sorted (fun a : Answer => a.Score) _
  · rw [hk2]
    apply List.filter_congr
    intro i _
    rw [Bool.eq_iff_iff, rerankScoreMap_isSome_iff]
    simp
  · intro x hx
    obtain ⟨old, s, h1, h2, h3⟩ := hk3 x hx
    rcases rerankScoreMap_some results [] _ s h2 with h' | ⟨r, hr, hi, hs⟩
    · simp [mapGet] at h'
    · exact ⟨old, r, h1, hr, hi, by rw [h3, hs]⟩

/-- C4, witness: the sample engine, whose reranker scores position 1 only. -/
theorem ProcessQuery_rerank_success_witness :
    ∃ (res : QueryResult) (kept : List (Nat × Answer)), ProcessQuery sampleEngine sampleRuntime "helmet" true = .ok res ∧
      res.Answers.Perm (kept.map Prod.snd) ∧
      res.Answers.Pairwise (fun a b => b.Score ≤ a.Score) ∧
      kept.map Prod.fst = (List.range sampleStage5.length).filter
        (fun (i : Nat) => decide (∃ r ∈ [({ Index := 1, RelevanceScore := 0.9 } : RerankResult)],
          r.Index = (i : Int))) ∧
      ∀ x ∈ kept, ∃ old r, sampleStage5[x.1]? = some old ∧
        r ∈ [({ Index := 1, RelevanceScore := 0.9 } : RerankResult)] ∧ r.Index = (x.1 : Int) ∧
        x.2 = { old with Score := toFloat32 r.RelevanceScore } :=
  ProcessQuery_rerank_success sampleEngine sampleRuntime "helmet" true
    { Rerank := fun _ _ => .ok [{ Index := 1, RelevanceScore := 0.9 }] } sampleStage5
    [{ Index := 1, RelevanceScore := 0.9 }] (by decide!) (by decide!) rfl rfl

/-! ### `ProcessQuery`: error propagation -/

theorem sliceBytes_not_error (b : List UInt8) (lo hi : Int) : isError (sliceBytes b lo hi) = false := by
  unfold sliceBytes
  split <;> rfl

theorem snippetAround_not_error (text : String) (terms : List String) :
    isError (snippetAround text terms) = false := by
  induction terms with
  | nil =>
    unfold snippetAround
    have h := sliceBytes_not_error (utf8 text) 0 200
    cases hs : sliceBytes (utf8 text) 0 200 with
    | ok v => rfl
    | error f =>
      rw [hs] at h
      cases f with
      | err e => simp [isError] at h
      | panic r => rfl
  | cons term rest ih =>
    unfold snippetAround
    split
    · exact ih
    · simp only
      split
      · rename_i idx _
        have h := sliceBytes_not_error (utf8 text) (max 0 ((idx : Int) - 50))
          (min (len text : Int) ((idx : Int) + (len term : Int) + 150))
        cases hs : sliceBytes (utf8 text) (max 0 ((idx : Int) - 50))
            (min (len text : Int) ((idx : Int) + (len term : Int) + 150)) with
        | ok v => simp [hs, bind, Except.bind, pure, Except.pure, isError]
        | error f =>
          rw [hs] at h
          cases f with
          | err e => simp [isError] at h
          | panic r => simp [hs, bind, Except.bind, isError]
      · exact ih

theorem generateSnippet_not_error (t : TripleView) : isError (generateSnippet t) = false := by
  unfold generateSnippet
  simp only
  split
  · rfl
  · exact snippetAround_not_error _ _

theorem toAnswer_not_error (sc : List (Nat × ℚ)) (e : Nat × TripleView) :
    isError (toAnswer sc e) = false := by
  unfold toAnswer
  simp only
  have h := generateSnippet_not_error e.2
  cases hs : generateSnippet e.2 with
  | ok v => rfl
  | error f =>
    rw [hs] at h
    cases f with
    | err e => simp [isError] at h
    | panic r => rfl

theorem toAnswers_not_error (sc : List (Nat × ℚ)) (l : List (Nat × TripleView)) :
    isError (toAnswers sc l) = false := by
  induction l with
  | nil => rfl
  | cons e rest ih =>
    unfold toAnswers
    have h := toAnswer_not_error sc e
    cases h1 : toAnswer sc e with
    | error f =>
      rw [h1] at h
      cases f with
      | err e => simp [isError] at h
      | panic r => rfl
    | ok a =>
      simp only
      cases h2 : toAnswers sc rest with
      | error f =>
        rw [h2] at ih
        cases f with
        | err e => simp [isError] at ih
        | panic r => rfl
      | ok as => rfl

/-- The method `combineAndRankResults` returns answers or panics; it has no `error` result. -/
theorem combineAndRankResults_not_error (stars : List QueryStar) (q : String) :
    isError (combineAndRankResults stars q) = false := by
  unfold combineAndRankResults combineAndRankResultsKeyed
  simp only
  have h := toAnswers_not_error (collectTriples stars q).tripleScores
    (collectTriples stars q).tripleMap
  cases hs : toAnswers (collectTriples stars q).tripleScores (collectTriples stars q).tripleMap with
  | error f =>
    rw [hs] at h
    cases f with
    | err e => simp [isError] at h
    | panic r => rfl
  | ok as => rfl

theorem gatherCandidates_cases (repo : RepositoryReads) (terms : List String) :
    (∃ cs, gatherCandidates repo terms = .ok cs ∧
      ∀ t ∈ terms, failed (repo.FindConceptCandidates t) = false ∧
        failed (repo.FindRelationCandidates t) = false) ∨
    (∃ err, gatherCandidates repo terms = .error (.err err) ∧
      ∃ t ∈ terms, failed (repo.FindConceptCandidates t) = true ∨
        failed (repo.FindRelationCandidates t) = true) := by
  induction terms with
  | nil => exact Or.inl ⟨[], rfl, by simp⟩
  | cons term rest ih =>
    unfold gatherCandidates
    cases hc : repo.FindConceptCandidates term with
    | error err =>
      exact Or.inr ⟨_, rfl, term, List.mem_cons_self _ _, Or.inl (by simp [failed, hc])⟩
    | ok cc =>
      cases hr : repo.FindRelationCandidates term with
      | error err =>
        exact Or.inr ⟨_, rfl, term, List.mem_cons_self _ _, Or.inr (by simp [failed, hr])⟩
      | ok rc =>
        rcases ih with ⟨cs, hcs, hall⟩ | ⟨err, herr, t, ht, hf⟩
        · refine Or.inl ⟨_, by rw [hcs], ?_⟩
          intro t ht
          rcases List.mem_cons.1 ht with h | h
          · subst h; simp [failed, hc, hr]
          · exact hall t h
        · exact Or.inr ⟨err, by rw [herr], t, List.mem_cons_of_mem _ ht, hf⟩

theorem findAllCandidates_cases (repo : RepositoryReads) (terms : List String) :
    (∃ cs, findAllCandidates repo terms = .ok cs ∧
      ∀ t ∈ terms, failed (repo.FindConceptCandidates t) = false ∧
        failed (repo.FindRelationCandidates t) = false) ∨
    (∃ err, findAllCandidates repo terms = .error (.err err) ∧
      ∃ t ∈ terms, failed (repo.FindConceptCandidates t) = true ∨
        failed (repo.FindRelationCandidates t) = true) := by
  unfold findAllCandidates
  rcases gatherCandidates_cases repo terms with ⟨cs, hcs, hall⟩ | ⟨err, herr, h⟩
  · exact Or.inl ⟨_, by rw [hcs], hall⟩
  · exact Or.inr ⟨err, by rw [herr], h⟩

theorem executeStars_cases (repo : RepositoryReads) (i : Nat) (stars : List QueryStar) :
    (∃ out, executeStars repo i stars = .ok out ∧
      ∀ s ∈ stars, failed (repo.FindTriplesByStar s) = false) ∨
    (∃ err, executeStars repo i stars = .error (.err err) ∧
      ∃ s ∈ stars, failed (repo.FindTriplesByStar s) = true) := by
  induction stars generalizing i with
  | nil => exact Or.inl ⟨[], rfl, by simp⟩
  | cons star rest ih =>
    unfold executeStars
    cases hf : repo.FindTriplesByStar star with
    | error err =>
      exact Or.inr ⟨_, rfl, star, List.mem_cons_self _ _, by simp [failed, hf]⟩
    | ok triples =>
      rcases ih (i + 1) with ⟨out, hout, hall⟩ | ⟨err, herr, s, hs, hfs⟩
      · refine Or.inl ⟨_, by rw [hout], ?_⟩
        intro s hs
        rcases List.mem_cons.1 hs with h | h
        · subst h; simp [failed, hf]
        · exact hall s h
      · exact Or.inr ⟨err, by rw [herr], s, List.mem_cons_of_mem _ hs, hfs⟩
theorem ProcessQuery_isError (e : QueryEngine) (rt : Runtime) (q : String) (includeDebug : Bool) :
    isError (ProcessQuery e rt q includeDebug) = isError (runStages e q) := by
  unfold ProcessQuery
  cases runStages e q with
  | error f => cases f <;> rfl
  | ok st => rfl

theorem isError_match_ok {α β : Type} (x : Except Fault α) (g : α → β)
    (h : isError x = false) :
    isError (match x with
      | .error f => (.error f : Except Fault β)
      | .ok a => .ok (g a)) = false := by
  cases x with
  | ok a => rfl
  | error f =>
    cases f with
    | err e => simp [isError] at h
    | panic r => rfl

/-- C5: `ProcessQuery` returns an error exactly when a concept-candidate lookup, a
relation-candidate lookup or a star retrieval fails; what the rewrite capability and the
reranker return, failures included, never makes it return an error. -/
theorem ProcessQuery_error_iff (e : QueryEngine) (rt : Runtime) (q : String)
    (includeDebug : Bool) :
    (isError (ProcessQuery e rt q includeDebug) = true ↔
      ∃ qa, e.qaProvider = some qa ∧
        ((∃ t ∈ combinedTerms (rewriteQueries qa q),
            failed (e.repo.FindConceptCandidates t) = true ∨
            failed (e.repo.FindRelationCandidates t) = true) ∨
         (∃ candidates,
            findAllCandidates e.repo (combinedTerms (rewriteQueries qa q)) = .ok candidates ∧
            ∃ s ∈ buildQueryStars candidates, failed (e.repo.FindTriplesByStar s) = true))) ∧
    ((∀ t, failed (e.repo.FindConceptCandidates t) = false ∧
        failed (e.repo.FindRelationCandidates t) = false) →
      (∀ s, failed (e.repo.FindTriplesByStar s) = false) →
      isError (ProcessQuery e rt q includeDebug) = false) := by
  have main : isError (ProcessQuery e rt q includeDebug) = true ↔
      ∃ qa, e.qaProvider = some qa ∧
        ((∃ t ∈ combinedTerms (rewriteQueries qa q),
            failed (e.repo.FindConceptCandidates t) = true ∨
            failed (e.repo.FindRelationCandidates t) = true) ∨
         (∃ candidates,
            findAllCandidates e.repo (combinedTerms (rewriteQueries qa q)) = .ok candidates ∧
            ∃ s ∈ buildQueryStars candidates, failed (e.repo.FindTriplesByStar s) = true)) := by
    rw [ProcessQuery_isError]
    unfold runStages
    cases hqa : e.qaProvider with
    | none => simp [isError]
    | some qa =>
      simp only
      rcases findAllCandidates_cases e.repo (combinedTerms (rewriteQueries qa q)) with
        ⟨cs, hcs, hall⟩ | ⟨err, herr, hex⟩
      · rw [hcs]
        simp only
        rcases executeStars_cases e.repo 0 (buildQueryStars cs) with
          ⟨out, hout, hstars⟩ | ⟨err, herr, hex⟩
        · rw [hout]
          simp only
          have hc := combineAndRankResults_not_error out q
          have hrhs : ¬ ∃ qa', some qa = some qa' ∧
              ((∃ t ∈ combinedTerms (rewriteQueries qa' q),
                failed (e.repo.FindConceptCandidates t) = true ∨
                failed (e.repo.FindRelationCandidates t) = true) ∨
              (∃ candidates,
                findAllCandidates e.repo (combinedTerms (rewriteQueries qa' q)) = .ok candidates ∧
                ∃ s ∈ buildQueryStars candidates,
                  failed (e.repo.FindTriplesByStar s) = true)) := by
            rintro ⟨qa', hq', h⟩
            simp only [Option.some.injEq] at hq'
            subst hq'
            rcases h with ⟨t, ht, hf⟩ | ⟨cands, hc', s, hs, hf⟩
            · have := hall t ht
              rcases hf with hf | hf
              · rw [this.1] at hf; simp at hf
              · rw [this.2] at hf; simp at hf
            · rw [hcs] at hc'
              simp only [Except.ok.injEq] at hc'
              subst hc'
              rw [hstars s hs] at hf
              simp at hf
          cases hcr : combineAndRankResults out q with
          | ok as =>
            simp only [isError]
            exact ⟨fun h => by simp at h, fun h => absurd h hrhs⟩
          | error f =>
            rw [hcr] at hc
            cases f with
            | err e => simp [isError] at hc
            | panic r =>
              simp only [isError]
              exact ⟨fun h => by simp at h, fun h => absurd h hrhs⟩
        · rw [herr]
          simp only [isError, true_iff]
          exact ⟨qa, rfl, Or.inr ⟨cs, hcs, hex⟩⟩
      · rw [herr]
        simp only [isError, true_iff]
        exact ⟨qa, rfl, Or.inl hex⟩
  refine ⟨main, ?_⟩
  intro hlook hstar
  cases hval : isError (ProcessQuery e rt q includeDebug) with
  | false => rfl
  | true =>
    obtain ⟨qa, _, h⟩ := main.1 hval
    rcases h with ⟨t, _, hf⟩ | ⟨_, _, s, _, hf⟩
    · rcases hf with hf | hf
      · rw [(hlook t).1] at hf; simp at hf
      · rw [(hlook t).2] at hf; simp at hf
    · rw [hstar s] at hf; simp at hf

/-! ### `ProcessQuery`: no candidates -/

theorem gatherCandidates_nil_of_no_candidates (repo : RepositoryReads) (terms : List String)
    (h : ∀ t ∈ terms, repo.FindConceptCandidates t = .ok [] ∧
      repo.FindRelationCandidates t = .ok []) :
    gatherCandidates repo terms = .ok [] := by
  induction terms with
  | nil => rfl
  | cons term rest ih =>
    unfold gatherCandidates
    obtain ⟨h1, h2⟩ := h term (List.mem_cons_self _ _)
    rw [h1, h2, ih (fun t ht => h t (List.mem_cons_of_mem _ ht))]
    rfl

theorem rerankStep_nil (e : QueryEngine) (rt : Runtime) (q : String) :
    rerankStep e rt q [] = ([], false) := by
  unfold rerankStep
  cases e.reranker <;> rfl

theorem queryTimings_keys_without_rerank (rt : Runtime) :
    (queryTimings rt false).map Prod.fst =
      ["query_rewriting", "term_extraction", "candidate_search", "star_building",
       "triple_matching", "initial_ranking", "total"] := by
  simp [queryTimings, mapSet]

/-- On an engine that holds a QA provider: when every candidate lookup of the query
returns no candidate, `ProcessQuery` returns an empty answer list and no error, and with
debug requested the trace has a timing entry for rewrite, term extraction, candidate
search, star building, triple matching, initial ranking and total. -/
theorem ProcessQuery_no_candidates (e : QueryEngine) (rt : Runtime) (q : String)
    (includeDebug : Bool) (qa : QAProvider) (hqa : e.qaProvider = some qa)
    (hnone : ∀ t ∈ combinedTerms (rewriteQueries qa q),
      e.repo.FindConceptCandidates t = .ok [] ∧ e.repo.FindRelationCandidates t = .ok []) :
    ∃ res, ProcessQuery e rt q includeDebug = .ok res ∧ res.Answers = [] ∧
      (includeDebug = true → ∃ d, res.Debug = some d ∧
        d.Timings.map Prod.fst =
          ["query_rewriting", "term_extraction", "candidate_search", "star_building",
           "triple_matching", "initial_ranking", "total"] ∧
        ∀ k ∈ ["query_rewriting", "term_extraction", "candidate_search", "star_building",
               "triple_matching", "initial_ranking", "total"], (mapGet d.Timings k).isSome) := by
  have hcands : findAllCandidates e.repo (combinedTerms (rewriteQueries qa q)) = .ok [] := by
    unfold findAllCandidates
    rw [gatherCandidates_nil_of_no_candidates e.repo _ hnone]
    rfl
  have hrun : runStages e q = .ok
      { queries := rewriteQueries qa q, terms := combinedTerms (rewriteQueries qa q),
        allCandidates := [], stars := [], answers := [] } := by
    unfold runStages
    rw [hqa]
    simp only [hcands]
    rfl
  refine ⟨_, by simp only [ProcessQuery, hrun, rerankStep_nil]; rfl, rfl, ?_⟩
  intro hdbg
  subst hdbg
  refine ⟨_, rfl, queryTimings_keys_without_rerank rt, ?_⟩
  intro k hk
  rw [mapGet_isSome_iff]
  show k ∈ (queryTimings rt false).map Prod.fst
  rw [queryTimings_keys_without_rerank]
  exact hk

/-- A query against the empty graph on an engine with a provider, debug requested. -/
theorem ProcessQuery_no_candidates_witness :
    ∃ res, ProcessQuery emptyGraphEngine sampleRuntime
        "What is the fine for not wearing a helmet?" true = .ok res ∧ res.Answers = [] ∧
      (true = true → ∃ d, res.Debug = some d ∧
        d.Timings.map Prod.fst =
          ["query_rewriting", "term_extraction", "candidate_search", "star_building",
           "triple_matching", "initial_ranking", "total"] ∧
        ∀ k ∈ ["query_rewriting", "term_extraction", "candidate_search", "star_building",
               "triple_matching", "initial_ranking", "total"], (mapGet d.Timings k).isSome) :=
  ProcessQuery_no_candidates emptyGraphEngine sampleRuntime
    "What is the fine for not wearing a helmet?" true { RewriteQuery := fun q => .ok [q] } rfl
    (fun _ _ => ⟨rfl, rfl⟩)

/-! ### `FindTriplesByStar` -/

theorem starOrder_iff (a b : JoinedRow) :
    starOrder a b = true ↔
      (tfidfBefore a.t.tfidf b.t.tfidf = true) ∨
      (tfidfBefore a.t.tfidf b.t.tfidf = false ∧ tfidfBefore b.t.tfidf a.t.tfidf = false ∧
        (a.t.confidence > b.t.confidence ∨
          (a.t.confidence = b.t.confidence ∧ a.t.created_at ≥ b.t.created_at))) := by
  unfold starOrder
  cases h1 : tfidfBefore a.t.tfidf b.t.tfidf <;> cases h2 : tfidfBefore b.t.tfidf a.t.tfidf <;>
    simp

theorem tfidfBefore_asymm (x y : Option ℚ) (h : tfidfBefore x y = true) :
    tfidfBefore y x = false := by
  cases x <;> cases y <;> simp [tfidfBefore] at h ⊢
  exact le_of_lt h

theorem tfidfBefore_trans (x y z : Option ℚ) (h1 : tfidfBefore x y = true)
    (h2 : tfidfBefore y z = true) : tfidfBefore x z = true := by
  cases x <;> cases y <;> cases z <;> simp [tfidfBefore] at h1 h2 ⊢
  exact lt_trans h2 h1

/-- Values of which neither is strictly before the other are equal. -/
theorem tfidfBefore_tie (x y : Option ℚ) (h1 : tfidfBefore x y = false)
    (h2 : tfidfBefore y x = false) : x = y := by
  cases x with
  | none =>
    cases y with
    | none => rfl
    | some b => simp [tfidfBefore] at h2
  | some a =>
    cases y with
    | none => simp [tfidfBefore] at h1
    | some b =>
      simp [tfidfBefore] at h1 h2
      rw [le_antisymm h1 h2]

theorem starOrder_total (a b : JoinedRow) : starOrder a b = true ∨ starOrder b a = true := by
  rw [starOrder_iff, starOrder_iff]
  cases h1 : tfidfBefore a.t.tfidf b.t.tfidf with
  | true => exact Or.inl (Or.inl rfl)
  | false =>
    cases h2 : tfidfBefore b.t.tfidf a.t.tfidf with
    | true => exact Or.inr (Or.inl rfl)
    | false =>
      rcases lt_trichotomy a.t.confidence b.t.confidence with h | h | h
      · exact Or.inr (Or.inr ⟨rfl, rfl, Or.inl h⟩)
      · rcases le_total a.t.created_at b.t.created_at with h' | h'
        · exact Or.inr (Or.inr ⟨rfl, rfl, Or.inr ⟨h.symm, h'⟩⟩)
        · exact Or.inl (Or.inr ⟨rfl, rfl, Or.inr ⟨h, h'⟩⟩)
      · exact Or.inl (Or.inr ⟨rfl, rfl, Or.inl h⟩)

theorem starOrder_trans (a b c : JoinedRow) (hab : starOrder a b = true)
    (hbc : starOrder b c = true) : starOrder a c = true := by
  rw [starOrder_iff] at hab hbc ⊢
  rcases hab with hab | ⟨hab1, hab2, hab3⟩
  · rcases hbc with hbc | ⟨hbc1, hbc2, _⟩
    · exact Or.inl (tfidfBefore_trans _ _ _ hab hbc)
    · have := tfidfBefore_tie _ _ hbc1 hbc2
      rw [← this]
      exact Or.inl hab
  · have hab' := tfidfBefore_tie _ _ hab1 hab2
    rcases hbc with hbc | ⟨hbc1, hbc2, hbc3⟩
    · rw [hab']
      exact Or.inl hbc
    · refine Or.inr ⟨by rw [hab']; exact hbc1, by rw [hab']; exact hbc2, ?_⟩
      rcases hab3 with h | ⟨h, h'⟩
      · rcases hbc3 with k | ⟨k, _⟩
        · exact Or.inl (lt_trans k h)
        · exact Or.inl (k ▸ h)
      · rcases hbc3 with k | ⟨k, k'⟩
        · exact Or.inl (h ▸ k)
        · exact Or.inr ⟨h.trans k, le_trans k' h'⟩

theorem starQuery_sorted_perm (db : Store) (star : QueryStar) :
    ∃ ordered : List JoinedRow,
      ordered.Perm (starMatches db star) ∧
      ordered.Pairwise (fun a b => starOrder a b = true) ∧
      starQuery db star = ordered.take 50 := by
  refine ⟨(starMatches db star).insertionSort (fun a b => starOrder a b = true),
    List.perm_insertionSort _ _, ?_, rfl⟩
  exact @List.sorted_insertionSort JoinedRow (fun a b => starOrder a b = true) _
    ⟨starOrder_total⟩ ⟨starOrder_trans⟩ _

theorem contains_nat_iff (l : List Nat) (a : Nat) : l.contains a = true ↔ a ∈ l := by
  simp

theorem starMatches_mem (db : Store) (star : QueryStar) (row : JoinedRow) :
    row ∈ starMatches db star ↔
      (∃ t ∈ db.triples, joinTriple db t = some row) ∧ row.t.is_blacklisted = false ∧
      (conceptIDs star.SubjectCandidates = [] ∨
        row.t.subject_id ∈ conceptIDs star.SubjectCandidates) ∧
      (relationIDs star.RelationCandidates = [] ∨
        row.t.relation_id ∈ relationIDs star.RelationCandidates) ∧
      (conceptIDs star.ObjectCandidates = [] ∨
        row.t.object_id ∈ conceptIDs star.ObjectCandidates) := by
  unfold starMatches starWhere
  simp only [List.mem_filter, List.mem_filterMap, Bool.and_eq_true, Bool.or_eq_true,
    decide_eq_true_eq, contains_nat_iff]
  tauto

theorem scanRows_ok (rows : List JoinedRow) (out : List TripleView)
    (h : scanRows rows = .ok out) :
    List.Forall₂ (fun row tv => scanTripleView row = .ok tv) rows out := by
  induction rows generalizing out with
  | nil =>
    simp only [scanRows, Except.ok.injEq] at h
    subst h
    exact List.Forall₂.nil
  | cons row rest ih =>
    unfold scanRows at h
    cases h1 : scanTripleView row with
    | error err => rw [h1] at h; simp at h
    | ok tv =>
      rw [h1] at h
      cases h2 : scanRows rest with
      | error err => rw [h2] at h; simp at h
      | ok tvs =>
        rw [h2] at h
        simp only [Except.ok.injEq] at h
        subst h
        exact List.Forall₂.cons h1 (ih tvs h2)

theorem scanRows_total (rows : List JoinedRow) (h : ∀ row ∈ rows, row.t.tfidf ≠ none) :
    ∃ out, scanRows rows = .ok out := by
  induction rows with
  | nil => exact ⟨[], rfl⟩
  | cons row rest ih =>
    obtain ⟨tvs, htvs⟩ := ih (fun r hr => h r (List.mem_cons_of_mem _ hr))
    have hrow := h row (List.mem_cons_self _ _)
    cases hv : row.t.tfidf with
    | none => exact absurd hv hrow
    | some v =>
      unfold scanRows
      simp [scanTripleView, hv, htvs]

theorem scanTripleView_ok (row : JoinedRow) (tv : TripleView) (h : scanTripleView row = .ok tv) :
    row.t.tfidf = some tv.TfIdf ∧ tv.IsBlacklisted = row.t.is_blacklisted ∧
    tv.Confidence = row.t.confidence ∧ tv.CreatedAt = row.t.created_at ∧
    tv.SubjectID = row.t.subject_id ∧ tv.RelationID = row.t.relation_id ∧
    tv.ObjectID = row.t.object_id ∧ tv.ID = row.t.id := by
  unfold scanTripleView at h
  cases hv : row.t.tfidf with
  | none => rw [hv] at h; simp at h
  | some v =>
    rw [hv] at h
    simp only [Except.ok.injEq] at h
    subst h
    exact ⟨rfl, rfl, rfl, rfl, rfl, rfl, rfl, rfl⟩

theorem starOrder_viewOrder (r1 r2 : JoinedRow) (t1 t2 : TripleView)
    (h1 : scanTripleView r1 = .ok t1) (h2 : scanTripleView r2 = .ok t2)
    (h : starOrder r1 r2 = true) : viewOrder t1 t2 := by
  obtain ⟨a1, _, a3, a4, _⟩ := scanTripleView_ok r1 t1 h1
  obtain ⟨b1, _, b3, b4, _⟩ := scanTripleView_ok r2 t2 h2
  rw [starOrder_iff, a1, b1] at h
  unfold viewOrder
  rw [a3, a4, b3, b4]
  rcases h with h | ⟨k1, k2, k3⟩
  · left
    simpa [tfidfBefore] using h
  · right
    have := tfidfBefore_tie _ _ k1 k2
    simp only [Option.some.injEq] at this
    exact ⟨this, k3⟩
theorem forall₂_mem_right {α β : Type} {R : α → β → Prop} {l₁ : List α} {l₂ : List β}
    (h : List.Forall₂ R l₁ l₂) (y : β) (hy : y ∈ l₂) : ∃ a ∈ l₁, R a y := by
  induction h with
  | nil => simp at hy
  | @cons a x l₁' l₂' hr _ ih =>
    rcases List.mem_cons.1 hy with h | h
    · subst h; exact ⟨a, List.mem_cons_self _ _, hr⟩
    · obtain ⟨b, hb, hr'⟩ := ih h
      exact ⟨b, List.mem_cons_of_mem _ hb, hr'⟩

theorem forall₂_pairwise {α β : Type} {R : α → β → Prop} {P : α → α → Prop}
    {Q : β → β → Prop} (hPQ : ∀ a b x y, R a x → R b y → P a b → Q x y)
    {l₁ : List α} {l₂ : List β} (h : List.Forall₂ R l₁ l₂) (hp : l₁.Pairwise P) :
    l₂.Pairwise Q := by
  induction h with
  | nil => exact List.Pairwise.nil
  | @cons a x l₁' l₂' hr hrest ih =>
    rw [List.pairwise_cons] at hp ⊢
    refine ⟨?_, ih hp.2⟩
    intro y hy
    obtain ⟨b, hb, hby⟩ := forall₂_mem_right hrest y hy
    exact hPQ a b x y hr hby (hp.1 b hb)

/-- The result set of the star query is the first 50 rows of the non-blacklisted
triples whose subject, relation and object lie in the id list of the star for that role (a
role without ids puts no constraint), ordered by tfidf descending with NULLs last, then
confidence descending, then creation time descending.  `FindTriplesByStar` returns exactly
these rows whenever it returns rows, and it does so when the statement is not refused and
every selected row can be scanned; hence it never returns a blacklisted triple or more
than 50 rows. -/
theorem FindTriplesByStar_first_fifty (db : Store) (star : QueryStar) :
    (∃ ordered : List JoinedRow,
      ordered.Perm (starMatches db star) ∧
      ordered.Pairwise (fun a b => starOrder a b = true) ∧
      starQuery db star = ordered.take 50) ∧
    (∀ row, row ∈ starMatches db star ↔
      (∃ t ∈ db.triples, joinTriple db t = some row) ∧ row.t.is_blacklisted = false ∧
      (conceptIDs star.SubjectCandidates = [] ∨
        row.t.subject_id ∈ conceptIDs star.SubjectCandidates) ∧
      (relationIDs star.RelationCandidates = [] ∨
        row.t.relation_id ∈ relationIDs star.RelationCandidates) ∧
      (conceptIDs star.ObjectCandidates = [] ∨
        row.t.object_id ∈ conceptIDs star.ObjectCandidates)) ∧
    (∀ out, (FindTriplesByStar db star).1 = .ok out →
      List.Forall₂ (fun row tv => scanTripleView row = .ok tv) (starQuery db star) out ∧
      out.length ≤ 50 ∧
      (∀ tv ∈ out, tv.IsBlacklisted = false ∧
        (conceptIDs star.SubjectCandidates = [] ∨
          tv.SubjectID ∈ conceptIDs star.SubjectCandidates) ∧
        (relationIDs star.RelationCandidates = [] ∨
          tv.RelationID ∈ relationIDs star.RelationCandidates) ∧
        (conceptIDs star.ObjectCandidates = [] ∨
          tv.ObjectID ∈ conceptIDs star.ObjectCandidates)) ∧
      out.Pairwise viewOrder) ∧
    (db.faulted = false → (∀ row ∈ starQuery db star, row.t.tfidf ≠ none) →
      ∃ out, (FindTriplesByStar db star).1 = .ok out) := by
  obtain ⟨ordered, hperm, hsorted, htake⟩ := starQuery_sorted_perm db star
  refine ⟨⟨ordered, hperm, hsorted, htake⟩, starMatches_mem db star, ?_, ?_⟩
  · intro out hout
    unfold FindTriplesByStar at hout
    by_cases hf : db.faulted = true
    · simp [hf] at hout
    · simp only [hf] at hout
      have hscan := scanRows_ok _ _ hout
      have hlen : out.length ≤ 50 := by
        rw [← hscan.length_eq, htake, List.length_take]
        exact Nat.min_le_left _ _
      refine ⟨hscan, hlen, ?_, ?_⟩
      · intro tv htv
        obtain ⟨row, hrow, hr⟩ := forall₂_mem_right hscan tv htv
        have hmem : row ∈ starMatches db star := by
          rw [htake] at hrow
          exact hperm.mem_iff.1 (List.mem_of_mem_take hrow)
        obtain ⟨_, h2, h3, h4, h5⟩ := (starMatches_mem db star row).1 hmem
        obtain ⟨_, k2, _, _, k5, k6, k7, _⟩ := scanTripleView_ok row tv hr
        rw [k2, k5, k6, k7]
        exact ⟨h2, h3, h4, h5⟩
      · refine forall₂_pairwise (fun a b x y h1 h2 h => starOrder_viewOrder a b x y h1 h2 h)
          hscan ?_
        rw [htake]
        exact hsorted.sublist (List.take_sublist _ _)
  · intro hf hnn
    unfold FindTriplesByStar
    simp only [hf]
    exact scanRows_total _ hnn

/-- The relation-constrained sample star selects triples 104 and 100, in that order. -/
theorem FindTriplesByStar_sample_rows :
    ((FindTriplesByStar sampleStore sampleRelationStar).1).map (fun out => out.map (·.ID))
      = .ok [104, 100] := by
  decide!

/-- The subject-constrained sample star selects a row whose tfidf is NULL (triple 102,
placed last), and the scan of that row fails the call. -/
theorem FindTriplesByStar_sample_null :
    (starQuery sampleStore sampleSubjectStar).map (fun row => row.t.id) = [101, 100, 102] ∧
    (FindTriplesByStar sampleStore sampleSubjectStar).1
      = .error (.msg "cannot scan NULL into *float32") := by
  decide!

/-! ### `UpsertConcept` -/

/-- C8, failing input: the concept "helmet" exists without synonyms and is upserted with
the list ["casque", "casque"]; both calls return identifier 1, and the stored synonym list
then holds "casque" twice. -/
theorem UpsertConcept_stores_duplicate_synonyms :
    (upsertRun "helmet" "" {} [[], ["casque", "casque"]]).1 = [some 1, some 1] ∧
    storedSynonyms (upsertRun "helmet" "" {} [[], ["casque", "casque"]]).2 "helmet"
      = some ["casque", "casque"] ∧
    ¬ (["casque", "casque"] : List String).Nodup ∧
    storedSynonyms (UpsertConcept {} "helmet" ["casque", "casque"] "").2 "helmet"
      = some ["casque", "casque"] := by
  decide!

theorem mergeItems_eq (stored items : List String) :
    mergeItems stored items = stored ++ items.filter (fun s => !stored.contains s) := by
  unfold mergeItems
  suffices h : ∀ acc : List String,
      items.foldl (fun acc s => if stored.contains s then acc else acc ++ [s]) acc =
        acc ++ items.filter (fun s => !stored.contains s) from h stored
  induction items with
  | nil => simp
  | cons s rest ih =>
    intro acc
    simp only [List.foldl_cons]
    rw [ih]
    by_cases hs : s ∈ stored
    · simp [hs, List.filter_cons]
    · simp [hs, List.filter_cons]

theorem mergeItems_nodup (stored items : List String) (h1 : stored.Nodup) (h2 : items.Nodup) :
    (mergeItems stored items).Nodup := by
  rw [mergeItems_eq]
  refine List.Nodup.append h1 (h2.sublist (List.filter_sublist _)) ?_
  intro a ha hb
  simp only [List.mem_filter] at hb
  have : stored.contains a = true := by simpa using ha
  rw [this] at hb
  simp at hb

theorem step_faults (db : Store) : db.step.faults = db.faults := rfl

theorem faulted_of_no_faults (db : Store) (h : db.faults = []) : db.faulted = false := by
  simp [Store.faulted, h]

/-- One successful upsert on a store without faults. -/
theorem UpsertConcept_ok (db : Store) (name : String) (synonyms : List String) (ty : String)
    (hf : db.faults = []) (hn : synonyms.Nodup)
    (hstored : ∀ syn, storedSynonyms db name = some syn → syn.Nodup) :
    ∃ c db', UpsertConcept db name synonyms ty = (.ok c, db') ∧ db'.faults = [] ∧
      (∃ c', db'.concepts.find? (fun x => x.Name = name) = some c' ∧ c'.ID = c.ID ∧
        c'.Synonyms.Nodup) ∧
      (∀ c0, db.concepts.find? (fun x => x.Name = name) = some c0 → c.ID = c0.ID) := by
  have hf0 := faulted_of_no_faults db hf
  have hf1 := faulted_of_no_faults db.step hf
  unfold UpsertConcept
  simp only [hf0, hf1]
  cases hfind : db.concepts.find? (fun x => x.Name = name) with
  | none =>
    simp only [CreateConcept, hf1]
    refine ⟨_, _, rfl, hf, ⟨_, ?_, rfl, hn⟩, by simp⟩
    show List.find? _ (db.concepts ++ _) = _
    rw [List.find?_append, hfind]
    simp
  | some c0 =>
    have hname : c0.Name = name := by
      have := List.find?_some hfind
      simpa using this
    have hsyn : c0.Synonyms.Nodup := hstored c0.Synonyms (by simp [storedSynonyms, hfind])
    by_cases hlen : synonyms.length > 0
    · simp only [hlen, if_true]
      refine ⟨_, _, rfl, hf, ⟨{ c0 with Synonyms := mergeItems c0.Synonyms synonyms }, ?_, rfl,
        mergeItems_nodup _ _ hsyn hn⟩, ?_⟩
      · show List.find? _ (db.concepts.map _) = _
        rw [List.find?_map]
        have : ((fun x : Concept => decide (x.Name = name)) ∘ fun c : Concept =>
            if c.ID = c0.ID then { c with Synonyms := mergeItems c0.Synonyms synonyms } else c)
            = fun x : Concept => decide (x.Name = name) := by
          funext c
          simp only [Function.comp]
          split <;> rfl
        simp only [this, hfind, Option.map_some', if_true]
      · intro c1 h1
        simp only [Option.some.injEq] at h1
        rw [← h1]
    · simp only [hlen, if_false]
      exact ⟨_, _, rfl, hf, ⟨c0, hfind, rfl, hsyn⟩, by
        intro c1 h1
        simp only [Option.some.injEq] at h1
        rw [← h1]⟩

/-- Duplicate-free arguments: on a store that refuses no statement, upserts of one name with
duplicate-free synonym lists all return the same identifier and leave a duplicate-free
stored synonym list. -/
theorem upsertRun_same_id_nodup (name ty : String) (lists : List (List String)) (db : Store)
    (hf : db.faults = []) (hn : ∀ l ∈ lists, l.Nodup)
    (hstored : ∀ syn, storedSynonyms db name = some syn → syn.Nodup) :
    ∃ id, (upsertRun name ty db lists).1 = lists.map (fun _ => some id) ∧
      (∀ syn, storedSynonyms (upsertRun name ty db lists).2 name = some syn → syn.Nodup) ∧
      (∀ c0, db.concepts.find? (fun x => x.Name = name) = some c0 → lists ≠ [] → id = c0.ID) ∧
      (lists ≠ [] → ∃ c', (upsertRun name ty db lists).2.concepts.find?
          (fun x => x.Name = name) = some c' ∧ c'.ID = id) := by
  induction lists generalizing db with
  | nil => exact ⟨0, rfl, hstored, by simp, by simp⟩
  | cons l rest ih =>
    obtain ⟨c, db', hcall, hf', ⟨c', hfind', hid', hsyn'⟩, hsame⟩ :=
      UpsertConcept_ok db name l ty hf (hn l (List.mem_cons_self _ _)) hstored
    have hstored' : ∀ syn, storedSynonyms db' name = some syn → syn.Nodup := by
      intro syn hs
      simp only [storedSynonyms, hfind', Option.map_some', Option.some.injEq] at hs
      rw [← hs]
      exact hsyn'
    obtain ⟨id, h1, h2, h3, h4⟩ := ih db' hf' (fun x hx => hn x (List.mem_cons_of_mem _ hx)) hstored'
    have hrun : upsertRun name ty db (l :: rest) =
        (some c.ID :: (upsertRun name ty db' rest).1, (upsertRun name ty db' rest).2) := by
      simp only [upsertRun, hcall]
    refine ⟨c.ID, ?_, ?_, ?_, ?_⟩
    · rw [hrun, h1]
      cases rest with
      | nil => rfl
      | cons l2 rest2 =>
        have := h3 c' hfind' (by simp)
        rw [this, hid']
        rfl
    · rw [hrun]; exact h2
    · intro c0 hc0 _
      exact hsame c0 hc0
    · intro _
      rw [hrun]
      cases rest with
      | nil =>
        simp only [upsertRun]
        exact ⟨c', hfind', hid'⟩
      | cons l2 rest2 =>
        obtain ⟨c'', hc'', hid''⟩ := h4 (by simp)
        refine ⟨c'', hc'', ?_⟩
        rw [hid'', h3 c' hfind' (by simp), hid']

/-! ### Pattern extractor: white space -/

theorem lowerDelta_gap (n a b : Nat) (ha : a ≤ n) (hb : n ≤ b)
    (l : List (Nat × Nat × Nat × Int)) (hl : ∀ r ∈ l, r.2.1 < a ∨ b < r.1) :
    Unicode.lowerDelta n l = 0 := by
  induction l with
  | nil => rfl
  | cons r rest ih =>
    obtain ⟨lo, hi, step, delta⟩ := r
    have h1 := hl (lo, hi, step, delta) (List.mem_cons_self _ _)
    simp only at h1
    have h2 := ih (fun r hr => hl r (List.mem_cons_of_mem _ hr))
    unfold Unicode.lowerDelta
    split_ifs <;> first | rfl | exact h2 | omega

theorem toLower_space (c : Char) (h : Unicode.IsSpace c = true) : Unicode.ToLower c = c := by
  have key : Unicode.lowerDelta c.toNat Unicode.lowerRanges = 0 := by
    unfold Unicode.IsSpace at h
    simp only [Bool.or_eq_true, Bool.and_eq_true, decide_eq_true_eq] at h
    generalize c.toNat = n at h
    have hn : n ≤ 0x20 ∨ (0x85 ≤ n ∧ n ≤ 0xA0) ∨ n = 0x1680 ∨ (0x2000 ≤ n ∧ n ≤ 0x205F) ∨
        n = 0x3000 := by
      omega
    rcases hn with hn | hn | rfl | hn | rfl
    · exact lowerDelta_gap n 0 0x20 (Nat.zero_le _) hn _ (by decide!)
    · exact lowerDelta_gap n 0x85 0xA0 hn.1 hn.2 _ (by decide!)
    · decide!
    · exact lowerDelta_gap n 0x2000 0x205F hn.1 hn.2 _ (by decide!)
    · decide!
  unfold Unicode.ToLower
  simp only [key, if_true]

theorem plusLoop_fails_on_space
    (step : List Char → List (Nat × String) →
      (List Char → List (Nat × String) → Option MatchState) → Option MatchState)
    (hstep : ∀ s caps k, (∀ c ∈ s, Unicode.IsSpace c = true) →
      (∀ s' caps', (∀ c ∈ s', Unicode.IsSpace c = true) → k s' caps' = none) →
      step s caps k = none)
    (fuel : Nat) (s : List Char) (caps : List (Nat × String))
    (k : List Char → List (Nat × String) → Option MatchState)
    (hs : ∀ c ∈ s, Unicode.IsSpace c = true)
    (hk : ∀ s' caps', (∀ c ∈ s', Unicode.IsSpace c = true) → k s' caps' = none) :
    plusLoop step fuel s caps k = none := by
  induction fuel generalizing s caps with
  | zero => rfl
  | succ n ih =>
    unfold plusLoop
    apply hstep s caps _ hs
    intro s' caps' hs'
    split
    · rw [ih s' caps' hs', hk s' caps' hs']
    · exact hk s' caps' hs'

/-- On white space, a match fails as soon as its continuation fails on white space. -/
theorem run_fails_of_continuation (r : Re) :
    ∀ (s : List Char) (caps : List (Nat × String))
      (k : List Char → List (Nat × String) → Option MatchState),
      (∀ c ∈ s, Unicode.IsSpace c = true) →
      (∀ s' caps', (∀ c ∈ s', Unicode.IsSpace c = true) → k s' caps' = none) →
      r.run s caps k = none := by
  induction r with
  | empty => intro s caps k hs hk; exact hk s caps hs
  | char c =>
    intro s caps k hs hk
    cases s with
    | nil => rfl
    | cons x rest =>
      simp only [Re.run]
      split
      · exact hk rest caps (fun c hc => hs c (List.mem_cons_of_mem _ hc))
      · rfl
  | cls negated items =>
    intro s caps k hs hk
    cases s with
    | nil => rfl
    | cons x rest =>
      simp only [Re.run]
      split
      · exact hk rest caps (fun c hc => hs c (List.mem_cons_of_mem _ hc))
      · rfl
  | seq a b iha ihb =>
    intro s caps k hs hk
    simp only [Re.run]
    exact iha s caps _ hs (fun s' caps' hs' => ihb s' caps' k hs' hk)
  | alt a b iha ihb =>
    intro s caps k hs hk
    simp only [Re.run]
    rw [iha s caps k hs hk]
    exact ihb s caps k hs hk
  | plus a iha =>
    intro s caps k hs hk
    simp only [Re.run]
    exact plusLoop_fails_on_space _ (fun s caps k => iha s caps k) _ s caps k hs hk
  | opt a iha =>
    intro s caps k hs hk
    simp only [Re.run]
    rw [iha s caps k hs hk]
    exact hk s caps hs
  | group i a iha =>
    intro s caps k hs hk
    simp only [Re.run]
    exact iha s caps _ hs (fun s' caps' hs' => hk s' _ hs')

/-- An expression that needs a rune other than white space matches no white-space text. -/
theorem run_fails_on_space (r : Re) (hr : r.needsNonSpace = true) :
    ∀ (s : List Char) (caps : List (Nat × String))
      (k : List Char → List (Nat × String) → Option MatchState),
      (∀ c ∈ s, Unicode.IsSpace c = true) → r.run s caps k = none := by
  induction r with
  | empty => simp [Re.needsNonSpace] at hr
  | char c =>
    intro s caps k hs
    cases s with
    | nil => rfl
    | cons x rest =>
      simp only [Re.run]
      split
      · rename_i hx
        subst hx
        have := hs x (List.mem_cons_self _ _)
        simp [Re.needsNonSpace, this] at hr
      · rfl
  | cls negated items => simp [Re.needsNonSpace] at hr
  | seq a b iha ihb =>
    intro s caps k hs
    simp only [Re.run]
    simp only [Re.needsNonSpace, Bool.or_eq_true] at hr
    rcases hr with h | h
    · exact iha h s caps _ hs
    · exact run_fails_of_continuation a s caps _ hs (fun s' caps' hs' => ihb h s' caps' k hs')
  | alt a b iha ihb =>
    intro s caps k hs
    simp only [Re.run]
    simp only [Re.needsNonSpace, Bool.and_eq_true] at hr
    rw [iha hr.1 s caps k hs]
    exact ihb hr.2 s caps k hs
  | plus a iha =>
    intro s caps k hs
    simp only [Re.run, plusLoop]
    simp only [Re.needsNonSpace] at hr
    exact iha hr s caps _ hs
  | opt a iha => simp [Re.needsNonSpace] at hr
  | group i a iha =>
    intro s caps k hs
    simp only [Re.run]
    simp only [Re.needsNonSpace] at hr
    exact iha hr s caps _ hs

theorem findAllFrom_space (re : Re) (hr : re.needsNonSpace = true) (fuel : Nat) (s : List Char)
    (hs : ∀ c ∈ s, Unicode.IsSpace c = true) : findAllFrom re fuel s = [] := by
  induction fuel generalizing s with
  | zero => rfl
  | succ n ih =>
    unfold findAllFrom
    have : matchHere re s = none := by
      unfold matchHere
      rw [run_fails_on_space re hr s [] _ hs]
    rw [this]
    simp only
    split
    · rfl
    · exact ih s.tail (fun c hc => hs c (List.mem_of_mem_tail hc))

theorem extractionRules_need_non_space :
    ∀ rule ∈ extractionRules, ∀ p ∈ rule.2, p.re.needsNonSpace = true := by
  decide

theorem allMatches_space (text : String) (hs : ∀ c ∈ text.data, Unicode.IsSpace c = true) :
    allMatches text = [] := by
  unfold allMatches
  rw [List.flatMap_eq_nil_iff]
  intro rule hrule
  rw [List.flatMap_eq_nil_iff]
  intro p hp
  rw [List.map_eq_nil_iff]
  exact findAllFrom_space p.re (extractionRules_need_non_space rule hrule p hp) _ _ hs
theorem foldl_flatMap_eq {α β γ : Type} (f : α → List β) (g : γ → β → γ) (l : List α)
    (init : γ) :
    l.foldl (fun acc a => (f a).foldl g acc) init = (l.flatMap f).foldl g init := by
  induction l generalizing init with
  | nil => rfl
  | cons a rest ih => simp only [List.foldl_cons, List.flatMap_cons, List.foldl_append, ih]

/-- The method `extractTriplesFromText` handles the matches of `allMatches` one by one. -/
theorem extractTriplesFromText_eq (db : Store) (unit : Unit) (doc : Document) :
    extractTriplesFromText db unit doc =
      (allMatches (Strings.ToLower unit.Text)).foldl
        (fun acc x => extractMatch x.1 x.2.1 unit.ID (buildDocRef doc unit) acc x.2.2)
        { db := db } := by
  unfold extractTriplesFromText allMatches
  simp only
  rw [← foldl_flatMap_eq]
  congr 1
  funext acc rule
  rw [← foldl_flatMap_eq]
  congr 1
  funext acc p
  unfold extractTriplesByPattern
  rw [List.foldl_map]

theorem toLower_space_text (text : String) (hs : ∀ c ∈ text.data, Unicode.IsSpace c = true) :
    ∀ c ∈ (Strings.ToLower text).data, Unicode.IsSpace c = true := by
  intro c hc
  simp only [Strings.ToLower, List.mem_map] at hc
  obtain ⟨x, hx, rfl⟩ := hc
  rw [toLower_space x (hs x hx)]
  exact hs x hx

/-- C9: for a unit whose text is empty or holds only white space, `extractTriplesFromText`
returns no triple, leaves both counters at zero and sends no statement to the store, which
is unchanged: no concept, relation or triple is created. -/
theorem extractTriplesFromText_blank (db : Store) (unit : Unit) (doc : Document)
    (hws : ∀ c ∈ unit.Text.data, Unicode.IsSpace c = true) :
    extractTriplesFromText db unit doc =
      { triples := [], conceptsCreated := 0, relationsCreated := 0, db := db } := by
  rw [extractTriplesFromText_eq, allMatches_space _ (toLower_space_text _ hws)]
  rfl

/-- C9, witness: a unit of blanks, a line feed and a tab over the sample store. -/
theorem extractTriplesFromText_blank_witness :
    extractTriplesFromText sampleStore blankUnit lawDoc =
      { triples := [], conceptsCreated := 0, relationsCreated := 0, db := sampleStore } :=
  extractTriplesFromText_blank sampleStore blankUnit lawDoc (by decide)

/-- The empty text: no triple, and the store is unchanged. -/
theorem extractTriplesFromText_empty (db : Store) (doc : Document) :
    (extractTriplesFromText db { Text := "" } doc).triples = [] ∧
    (extractTriplesFromText db { Text := "" } doc).db = db := by
  rw [extractTriplesFromText_eq, allMatches_space _ (toLower_space_text _ (by simp))]
  exact ⟨rfl, rfl⟩

/-! ### Pattern extractor: statements and their storage -/

theorem foldl_filterMap_eq {α β γ : Type} (f : α → Option β) (g : γ → β → γ) (l : List α)
    (init : γ) :
    (l.filterMap f).foldl g init =
      l.foldl (fun acc a => match f a with
        | some b => g acc b
        | none => acc) init := by
  induction l generalizing init with
  | nil => rfl
  | cons a rest ih =>
    cases h : f a with
    | none => simp only [List.filterMap_cons, h, List.foldl_cons, ih]
    | some b => simp only [List.filterMap_cons, h, List.foldl_cons, ih]

/-- The method `extractTriplesFromText` stores the extracted statements one by one. -/
theorem extractTriplesFromText_statements (db : Store) (unit : Unit) (doc : Document) :
    extractTriplesFromText db unit doc =
      (extractedStatements (Strings.ToLower unit.Text)).foldl
        (fun acc st =>
          storeTriple st.1 unit.ID (buildDocRef doc unit) acc st.2.1 st.2.2.1 st.2.2.2)
        { db := db } := by
  rw [extractTriplesFromText_eq]
  unfold extractedStatements
  rw [foldl_filterMap_eq]
  congr 1
  funext acc x
  unfold extractMatch
  cases matchNames x.1 x.2.1 x.2.2 <;> rfl

/-- C10, counterexample: from the text "the driver must not run the red light" the
extractor derives one statement, a requirement ("phải"); over the empty store the one
triple it creates refers to the relation named "phải", and none refers to "cấm". -/
theorem extractTriplesFromText_must_not_requirement :
    extractedStatements (Strings.ToLower driverUnit.Text)
      = [("phải", "the driver", "not run the red light", none)] ∧
    (extractTriplesFromText {} driverUnit lawDoc).triples.map
      (relationNameOf (extractTriplesFromText {} driverUnit lawDoc).db) = [some "phải"] ∧
    ¬ ∃ t ∈ (extractTriplesFromText {} driverUnit lawDoc).triples,
      relationNameOf (extractTriplesFromText {} driverUnit lawDoc).db t = some "cấm" := by
  decide!

/-- The Vietnamese wording of the same rule yields a prohibition ("cấm"). -/
theorem extractTriplesFromText_khong_duoc_prohibition :
    extractedStatements (Strings.ToLower driverUnitVN.Text)
      = [("cấm", "người lái xe", "vượt đèn đỏ", none)] ∧
    (extractTriplesFromText {} driverUnitVN lawDoc).triples.map
      (relationNameOf (extractTriplesFromText {} driverUnitVN lawDoc).db) = [some "cấm"] := by
  decide!
theorem CreateConcept_ok (db : Store) (concept : Concept) (hf : db.faults = []) :
    ∃ c db', CreateConcept db concept = (.ok c, db') ∧ db'.faults = [] ∧
      db'.relations = db.relations ∧ c.Name = concept.Name ∧ c ∈ db'.concepts ∧
      (∀ row ∈ db.concepts, row ∈ db'.concepts) := by
  unfold CreateConcept
  simp only [faulted_of_no_faults db hf]
  refine ⟨_, _, rfl, hf, rfl, rfl, ?_, ?_⟩
  · show _ ∈ db.concepts ++ _
    simp
  · intro row hrow
    show row ∈ db.concepts ++ _
    exact List.mem_append_left _ hrow

theorem GetOrCreateConcept_ok (db : Store) (name ty : String) (hf : db.faults = []) :
    ∃ c db', GetOrCreateConcept db name ty = (.ok c, db') ∧ db'.faults = [] ∧
      db'.relations = db.relations ∧ c.Name = name ∧ c ∈ db'.concepts ∧
      (∀ row ∈ db.concepts, row ∈ db'.concepts) := by
  unfold GetOrCreateConcept
  simp only [faulted_of_no_faults db hf]
  cases hfind : db.concepts.find? (fun c => c.Name = name) with
  | some c0 =>
    have hname : c0.Name = name := by simpa using List.find?_some hfind
    exact ⟨c0, db.step, rfl, hf, rfl, hname, List.mem_of_find?_eq_some hfind, fun _ h => h⟩
  | none =>
    obtain ⟨c, db', h1, h2, h3, h4, h5, h6⟩ := CreateConcept_ok db.step
      { Name := name, Type_ := ty, Synonyms := [], Keywords := [] } hf
    exact ⟨c, db', h1, h2, h3, h4, h5, h6⟩

theorem UpsertRelation_ok (db : Store) (name : String) (keywords : List String) (ty : String)
    (hf : db.faults = []) :
    ∃ r db', UpsertRelation db name keywords ty = (.ok r, db') ∧ db'.faults = [] ∧
      db'.concepts = db.concepts ∧
      ∃ row ∈ db'.relations, row.ID = r.ID ∧ row.Name = name := by
  have hf0 := faulted_of_no_faults db hf
  have hf1 := faulted_of_no_faults db.step hf
  unfold UpsertRelation
  simp only [hf0, hf1]
  cases hfind : db.relations.find? (fun r => r.Name = name) with
  | none =>
    simp only [CreateRelation, hf1]
    refine ⟨_, _, rfl, hf, rfl, _, ?_, rfl, rfl⟩
    show _ ∈ db.relations ++ _
    simp
  | some r0 =>
    have hname : r0.Name = name := by simpa using List.find?_some hfind
    have hmem : r0 ∈ db.relations := List.mem_of_find?_eq_some hfind
    by_cases hlen : keywords.length > 0
    · simp only [hlen, if_true]
      refine ⟨_, _, rfl, hf, rfl, { r0 with Keywords := mergeItems r0.Keywords keywords }, ?_,
        rfl, hname⟩
      show _ ∈ db.relations.map _
      rw [List.mem_map]
      exact ⟨r0, hmem, by simp⟩
    · simp only [hlen, if_false]
      exact ⟨_, _, rfl, hf, rfl, r0, hmem, rfl, hname⟩

theorem CreateTriple_ok (db : Store) (triple : Triple) (hf : db.faults = []) :
    ∃ db', CreateTriple db triple =
        (.ok { triple with ID := db.nextID, CreatedAt := db.now }, db') ∧
      db'.faults = [] ∧ db'.concepts = db.concepts ∧ db'.relations = db.relations := by
  unfold CreateTriple
  simp only [faulted_of_no_faults db hf]
  exact ⟨_, rfl, hf, rfl, rfl⟩

/-- On a store that refuses no statement, one statement becomes one triple whose three
references resolve to rows with the names of the statement. -/
theorem storeTriple_ok (relationName : String) (unitID : Nat) (docRef : String)
    (db : Store) (subjectName objectName : String) (extraContext : Option String)
    (hf : db.faults = []) :
    ∃ t, (storeTriple relationName unitID docRef { db := db } subjectName objectName
        extraContext).triples = [t] ∧
      t.Context = extraContext ∧ t.UnitID = unitID ∧ t.DocRef = docRef ∧
      (∃ rel ∈ (storeTriple relationName unitID docRef { db := db } subjectName objectName
          extraContext).db.relations, rel.ID = t.RelationID ∧ rel.Name = relationName) ∧
      (∃ c ∈ (storeTriple relationName unitID docRef { db := db } subjectName objectName
          extraContext).db.concepts, c.ID = t.SubjectID ∧ c.Name = subjectName) ∧
      (∃ c ∈ (storeTriple relationName unitID docRef { db := db } subjectName objectName
          extraContext).db.concepts, c.ID = t.ObjectID ∧ c.Name = objectName) := by
  obtain ⟨s, db1, hs, hf1, _, hsn, hsm, _⟩ := GetOrCreateConcept_ok db subjectName "entity" hf
  obtain ⟨o, db2, ho, hf2, _, hon, hom, hkeep2⟩ :=
    GetOrCreateConcept_ok db1 objectName "entity" hf1
  obtain ⟨r, db3, hr, hf3, hc3, row, hrow, hrid, hrname⟩ :=
    UpsertRelation_ok db2 relationName (relationKeywordsFor relationName) "legal_rule" hf2
  obtain ⟨db4, ht, _, hc4, hr4⟩ := CreateTriple_ok db3
    { SubjectID := s.ID, RelationID := r.ID, ObjectID := o.ID, UnitID := unitID,
      DocRef := docRef, Confidence := 0.8, Context := extraContext } hf3
  have hval : ∃ t cc rc, storeTriple relationName unitID docRef { db := db } subjectName
      objectName extraContext = Extraction.mk [t] cc rc db4 ∧
      t.RelationID = r.ID ∧ t.SubjectID = s.ID ∧ t.ObjectID = o.ID ∧
      t.Context = extraContext ∧ t.UnitID = unitID ∧ t.DocRef = docRef := by
    unfold storeTriple
    simp only [hs, ho, hr, ht]
    exact ⟨_, _, _, rfl, rfl, rfl, rfl, rfl, rfl, rfl⟩
  obtain ⟨t, cc, rc, hval, e1, e2, e3, e4, e5, e6⟩ := hval
  rw [hval]
  refine ⟨t, rfl, e4, e5, e6, ⟨row, by rw [hr4]; exact hrow, by rw [hrid, e1], hrname⟩,
    ⟨s, ?_, e2.symm, hsn⟩, ⟨o, ?_, e3.symm, hon⟩⟩
  · show s ∈ db4.concepts
    rw [hc4, hc3]
    exact hkeep2 s hsm
  · show o ∈ db4.concepts
    rw [hc4, hc3]
    exact hom

/-- C10, amended: from a unit whose text is "the driver must not run the red light", with
all store calls succeeding, `extractTriplesFromText` produces exactly one triple; its
relation is the requirement relation (named "phải"), its subject "the driver" and its
object "not run the red light".  No prohibition ("cấm") statement is derived. -/
theorem extractTriplesFromText_driver_requirement (db : Store) (unit : Unit) (doc : Document)
    (hf : db.faults = []) (htext : unit.Text = "the driver must not run the red light") :
    extractedStatements (Strings.ToLower unit.Text)
      = [("phải", "the driver", "not run the red light", none)] ∧
    ∃ t, (extractTriplesFromText db unit doc).triples = [t] ∧
      (∃ rel ∈ (extractTriplesFromText db unit doc).db.relations,
        rel.ID = t.RelationID ∧ rel.Name = "phải") ∧
      (∃ c ∈ (extractTriplesFromText db unit doc).db.concepts,
        c.ID = t.SubjectID ∧ c.Name = "the driver") ∧
      (∃ c ∈ (extractTriplesFromText db unit doc).db.concepts,
        c.ID = t.ObjectID ∧ c.Name = "not run the red light") := by
  have hst : extractedStatements (Strings.ToLower unit.Text)
      = [("phải", "the driver", "not run the red light", none)] := by
    rw [htext]
    decide!
  refine ⟨hst, ?_⟩
  rw [extractTriplesFromText_statements, hst]
  simp only [List.foldl_cons, List.foldl_nil]
  obtain ⟨t, h1, _, _, _, h5, h6, h7⟩ := storeTriple_ok "phải" unit.ID (buildDocRef doc unit) db
    "the driver" "not run the red light" none hf
  exact ⟨t, h1, h5, h6, h7⟩

/-- C10, witness: the sample unit over the sample store. -/
theorem extractTriplesFromText_driver_requirement_witness :
    extractedStatements (Strings.ToLower driverUnit.Text)
      = [("phải", "the driver", "not run the red light", none)] ∧
    ∃ t, (extractTriplesFromText sampleStore driverUnit lawDoc).triples = [t] ∧
      (∃ rel ∈ (extractTriplesFromText sampleStore driverUnit lawDoc).db.relations,
        rel.ID = t.RelationID ∧ rel.Name = "phải") ∧
      (∃ c ∈ (extractTriplesFromText sampleStore driverUnit lawDoc).db.concepts,
        c.ID = t.SubjectID ∧ c.Name = "the driver") ∧
      (∃ c ∈ (extractTriplesFromText sampleStore driverUnit lawDoc).db.concepts,
        c.ID = t.ObjectID ∧ c.Name = "not run the red light") :=
  extractTriplesFromText_driver_requirement sampleStore driverUnit lawDoc rfl rfl

/-! ### Document references -/

theorem toString_pos_int (year : Int) (h : year > 0) : toString year = toString year.toNat := by
  obtain ⟨n, rfl⟩ := Int.eq_ofNat_of_zero_le (le_of_lt h)
  rfl

/-- C13: `buildDocRef` returns the single-space join, in this order, of the document type
(if non-empty), the document number (if present and non-empty), the decimal year (if present
and positive) and the unit code (if present and non-empty), and the document title when none
of the four is present; type "Law", number "123/2024", year 2024 and code "Article 5" give
"Law 123/2024 2024 Article 5". -/
theorem buildDocRef_join_or_title (doc : Document) (unit : Unit) :
    buildDocRef doc unit =
      (if docRefParts doc unit = [] then doc.Title
       else " ".intercalate (docRefParts doc unit)) ∧
    buildDocRef { Title := "Road Traffic Law", Type_ := "Law", Number := some "123/2024",
                  Year := some 2024 } { Code := some "Article 5" }
      = "Law 123/2024 2024 Article 5" ∧
    buildDocRef { Title := "Road Traffic Law", Number := some "", Year := some 0 }
                { Code := none } = "Road Traffic Law" := by
  refine ⟨?_, by decide!, by decide!⟩
  obtain ⟨_, title, ty, number, year, _, _, _, _⟩ := doc
  obtain ⟨_, _, _, code, _, _, _, _⟩ := unit
  simp only [buildDocRef, docRefParts, Strings.Join]
  by_cases h1 : ty = "" <;> rcases number with _ | number <;> rcases year with _ | year <;>
    rcases code with _ | code <;>
    simp only [h1, Option.filter, List.filterMap, id, Option.map] <;>
    (try by_cases h2 : number = "") <;> (try by_cases h3 : year > 0) <;>
    (try by_cases h4 : code = "") <;>
    simp [*, toString_pos_int]

/-! ### Key rotation -/

theorem afterCalls_state (keys : List String) (hne : keys ≠ []) (k : Nat) :
    (NewKeyManager keys).afterCalls k = { keys := keys, idx := k % keys.length } := by
  have hpos : 0 < keys.length := List.length_pos.2 hne
  induction k with
  | zero => simp [KeyManager.afterCalls, NewKeyManager]
  | succ k ih =>
    have hlt : k % keys.length < keys.length := Nat.mod_lt _ hpos
    simp only [KeyManager.afterCalls, ih, KeyManager.GetNextKey]
    rw [if_neg (by omega), List.getElem?_eq_getElem hlt]
    simp [Nat.add_mod]

/-- C15: for a `KeyManager` built from a non-empty list of `n` keys, the `k`-th call of
`GetNextKey` (`k = 0, 1, 2, ...`) returns the key at position `k mod n`, and the cursor is
`(k + 1) mod n`, inside `0..n-1`, after it (as it is before the first call). -/
theorem GetNextKey_round_robin (keys : List String) (hne : keys ≠ []) (k : Nat) :
    (∃ key, keys[k % keys.length]? = some key ∧ (NewKeyManager keys).nthCall k = .ok key) ∧
    ((NewKeyManager keys).afterCalls (k + 1)).idx = (k + 1) % keys.length ∧
    ((NewKeyManager keys).afterCalls (k + 1)).idx < keys.length ∧
    ((NewKeyManager keys).afterCalls 0).idx < keys.length ∧
    ((NewKeyManager keys).afterCalls (k + 1)).keys = keys := by
  have hpos : 0 < keys.length := List.length_pos.2 hne
  have hlt : k % keys.length < keys.length := Nat.mod_lt _ hpos
  refine ⟨⟨keys[k % keys.length], List.getElem?_eq_getElem hlt, ?_⟩, ?_, ?_, ?_, ?_⟩
  · simp only [KeyManager.nthCall, afterCalls_state keys hne k, KeyManager.GetNextKey]
    rw [if_neg (by omega), List.getElem?_eq_getElem hlt]
  · rw [afterCalls_state keys hne]
  · rw [afterCalls_state keys hne]
    exact Nat.mod_lt _ hpos
  · rw [afterCalls_state keys hne]
    exact Nat.mod_lt _ hpos
  · rw [afterCalls_state keys hne]

/-- C15, witness: three keys, fifth call (`k = 4`), which returns the key at position 1. -/
theorem GetNextKey_round_robin_witness :
    (∃ key, ["k0", "k1", "k2"][4 % ["k0", "k1", "k2"].length]? = some key ∧
      (NewKeyManager ["k0", "k1", "k2"]).nthCall 4 = .ok key) ∧
    ((NewKeyManager ["k0", "k1", "k2"]).afterCalls (4 + 1)).idx
      = (4 + 1) % ["k0", "k1", "k2"].length ∧
    ((NewKeyManager ["k0", "k1", "k2"]).afterCalls (4 + 1)).idx < ["k0", "k1", "k2"].length ∧
    ((NewKeyManager ["k0", "k1", "k2"]).afterCalls 0).idx < ["k0", "k1", "k2"].length ∧
    ((NewKeyManager ["k0", "k1", "k2"]).afterCalls (4 + 1)).keys = ["k0", "k1", "k2"] :=
  GetNextKey_round_robin ["k0", "k1", "k2"] (by decide) 4

/-- The rotation on three keys: seven calls in a row. -/
theorem GetNextKey_rotation_sample :
    (List.range 7).map (NewKeyManager ["k0", "k1", "k2"]).nthCall
      = [.ok "k0", .ok "k1", .ok "k2", .ok "k0", .ok "k1", .ok "k2", .ok "k0"] ∧
    (NewKeyManager []).nthCall 0 = .ok "" := by
  decide

/-! ### Star construction -/

theorem take5_append_of_full {α : Type} (l : List α) (a b : List α) (h : l.length = 5) :
    (l ++ a).take 5 = (l ++ b).take 5 := by
  rw [List.take_append_of_le_length (by omega), List.take_append_of_le_length (by omega)]

theorem groupCandidate_foldl (cs : List QueryCandidate) (g : RoleGroups)
    (h1 : g.subjectCandidates.length ≤ 5) (h2 : g.relationCandidates.length ≤ 5)
    (h3 : g.objectCandidates.length ≤ 5) :
    (cs.foldl groupCandidate g).subjectCandidates
      = (g.subjectCandidates ++ cs.filter (fun c => c.Type_ = "subject")).take 5 ∧
    (cs.foldl groupCandidate g).relationCandidates
      = (g.relationCandidates ++ cs.filter (fun c => c.Type_ = "relation")).take 5 ∧
    (cs.foldl groupCandidate g).objectCandidates
      = (g.objectCandidates ++ cs.filter (fun c => c.Type_ = "object")).take 5 := by
  induction cs generalizing g with
  | nil =>
    simp only [List.foldl_nil, List.filter_nil, List.append_nil]
    exact ⟨(List.take_of_length_le h1).symm, (List.take_of_length_le h2).symm,
      (List.take_of_length_le h3).symm⟩
  | cons c rest ih =>
    rw [List.foldl_cons]
    by_cases hs : c.Type_ = "subject"
    · have hr : c.Type_ ≠ "relation" := by rw [hs]; decide
      have ho : c.Type_ ≠ "object" := by rw [hs]; decide
      by_cases hlen : g.subjectCandidates.length < 5
      · have hg : groupCandidate g c =
            { g with subjectCandidates := g.subjectCandidates ++ [c] } := by
          simp [groupCandidate, hs, hlen]
        rw [hg]
        have := ih { g with subjectCandidates := g.subjectCandidates ++ [c] }
          (by simp; omega) h2 h3
        simpa [hs, hr, ho] using this
      · have hg : groupCandidate g c = g := by simp [groupCandidate, hs, hlen]
        rw [hg]
        obtain ⟨k1, k2, k3⟩ := ih g h1 h2 h3
        refine ⟨?_, by simpa [hr] using k2, by simpa [ho] using k3⟩
        rw [k1]
        exact take5_append_of_full _ _ _ (by omega)
    · by_cases hr : c.Type_ = "relation"
      · have ho : c.Type_ ≠ "object" := by rw [hr]; decide
        by_cases hlen : g.relationCandidates.length < 5
        · have hg : groupCandidate g c =
              { g with relationCandidates := g.relationCandidates ++ [c] } := by
            simp [groupCandidate, hr, hlen]
          rw [hg]
          have := ih { g with relationCandidates := g.relationCandidates ++ [c] }
            h1 (by simp; omega) h3
          simpa [hs, hr, ho] using this
        · have hg : groupCandidate g c = g := by simp [groupCandidate, hr, hlen]
          rw [hg]
          obtain ⟨k1, k2, k3⟩ := ih g h1 h2 h3
          refine ⟨by simpa [hs] using k1, ?_, by simpa [ho] using k3⟩
          rw [k2]
          exact take5_append_of_full _ _ _ (by omega)
      · by_cases ho : c.Type_ = "object"
        · by_cases hlen : g.objectCandidates.length < 5
          · have hg : groupCandidate g c =
                { g with objectCandidates := g.objectCandidates ++ [c] } := by
              simp [groupCandidate, ho, hlen]
            rw [hg]
            have := ih { g with objectCandidates := g.objectCandidates ++ [c] }
              h1 h2 (by simp; omega)
            simpa [hs, hr, ho] using this
          · have hg : groupCandidate g c = g := by simp [groupCandidate, ho, hlen]
            rw [hg]
            obtain ⟨k1, k2, k3⟩ := ih g h1 h2 h3
            refine ⟨by simpa [hs] using k1, by simpa [hr] using k2, ?_⟩
            rw [k3]
            exact take5_append_of_full _ _ _ (by omega)
        · have hg : groupCandidate g c = g := by simp [groupCandidate, hs, hr, ho]
          rw [hg]
          simpa [hs, hr, ho] using ih g h1 h2 h3

theorem buildQueryStars_groups (cs : List QueryCandidate) :
    (cs.foldl groupCandidate {}).subjectCandidates = roleTop5 "subject" cs ∧
    (cs.foldl groupCandidate {}).relationCandidates = roleTop5 "relation" cs ∧
    (cs.foldl groupCandidate {}).objectCandidates = roleTop5 "object" cs := by
  simpa [roleTop5] using groupCandidate_foldl cs {} (by simp) (by simp) (by simp)

theorem roleTop5_length (role : String) (cs : List QueryCandidate) :
    (roleTop5 role cs).length ≤ 5 := by
  simp [roleTop5]

/-- C18: `buildQueryStars` partitions the candidates by role preserving order, keeps the
first 5 of each role (S, R, O) and returns, in this order, omitting any whose precondition
fails: A = (S, R, O) if S, R and O are all non-empty; B = (S, first 2 of R, O) if R is
non-empty; C = (first 3 of S, R, no object constraint) if S is non-empty; D = (no subject
constraint, R, first 3 of O) if O is non-empty.  At most four stars are returned and every
candidate list of every star has at most 5 entries. -/
theorem buildQueryStars_four_stars (candidates : List QueryCandidate) :
    buildQueryStars candidates =
      (if roleTop5 "subject" candidates ≠ [] ∧ roleTop5 "relation" candidates ≠ [] ∧
          roleTop5 "object" candidates ≠ []
        then [{ SubjectCandidates := roleTop5 "subject" candidates,
                RelationCandidates := roleTop5 "relation" candidates,
                ObjectCandidates := roleTop5 "object" candidates }] else []) ++
      (if roleTop5 "relation" candidates ≠ []
        then [{ SubjectCandidates := roleTop5 "subject" candidates,
                RelationCandidates := (roleTop5 "relation" candidates).take 2,
                ObjectCandidates := roleTop5 "object" candidates }] else []) ++
      (if roleTop5 "subject" candidates ≠ []
        then [{ SubjectCandidates := (roleTop5 "subject" candidates).take 3,
                RelationCandidates := roleTop5 "relation" candidates,
                ObjectCandidates := [] }] else []) ++
      (if roleTop5 "object" candidates ≠ []
        then [{ SubjectCandidates := [],
                RelationCandidates := roleTop5 "relation" candidates,
                ObjectCandidates := (roleTop5 "object" candidates).take 3 }] else []) ∧
    (buildQueryStars candidates).length ≤ 4 ∧
    ∀ star ∈ buildQueryStars candidates,
      star.SubjectCandidates.length ≤ 5 ∧ star.RelationCandidates.length ≤ 5 ∧
      star.ObjectCandidates.length ≤ 5 ∧ star.MatchingTriples = [] := by
  obtain ⟨hS, hR, hO⟩ := buildQueryStars_groups candidates
  have hlS := roleTop5_length "subject" candidates
  have hlR := roleTop5_length "relation" candidates
  have hlO := roleTop5_length "object" candidates
  have hmin : ∀ (n : Nat) (l : List QueryCandidate), l.take (min n l.length) = l.take n := by
    intro n l
    rcases Nat.le_total n l.length with h | h
    · rw [Nat.min_eq_left h]
    · rw [Nat.min_eq_right h, List.take_of_length_le h, List.take_of_length_le (le_refl _)]
  unfold buildQueryStars
  simp only [hS, hR, hO, hmin]
  generalize roleTop5 "subject" candidates = S at hlS
  generalize roleTop5 "relation" candidates = R at hlR
  generalize roleTop5 "object" candidates = O at hlO
  rcases S with _ | ⟨s, S⟩ <;> rcases R with _ | ⟨r, R⟩ <;> rcases O with _ | ⟨o, O⟩ <;>
    simp at hlS hlR hlO ⊢ <;> omega

/-- Six subjects and three relations, no object: stars B and C only, the sixth subject
dropped. -/
theorem buildQueryStars_sample :
    buildQueryStars
      (((List.range 6).map (fun i => ({ Type_ := "subject", ConceptID := some i } : QueryCandidate)))
        ++ (List.range 3).map (fun i => ({ Type_ := "relation", RelationID := some i } : QueryCandidate)))
    = [{ SubjectCandidates :=
           (List.range 5).map (fun i => ({ Type_ := "subject", ConceptID := some i } : QueryCandidate)),
         RelationCandidates :=
           (List.range 2).map (fun i => ({ Type_ := "relation", RelationID := some i } : QueryCandidate)),
         ObjectCandidates := [] },
       { SubjectCandidates :=
           (List.range 3).map (fun i => ({ Type_ := "subject", ConceptID := some i } : QueryCandidate)),
         RelationCandidates :=
           (List.range 3).map (fun i => ({ Type_ := "relation", RelationID := some i } : QueryCandidate)),
         ObjectCandidates := [] }] := by
  decide!

/-! ### Query terms -/

theorem fieldsAux_no_space (rest cur : List Char)
    (hcur : ∀ c ∈ cur, Unicode.IsSpace c = false) :
    ∀ w ∈ Strings.fieldsAux rest cur, ∀ c ∈ w.data, Unicode.IsSpace c = false := by
  induction rest generalizing cur with
  | nil =>
    intro w hw c hc
    unfold Strings.fieldsAux at hw
    split_ifs at hw with h
    · simp at hw
    · simp only [List.mem_singleton] at hw
      subst hw
      exact hcur c (List.mem_reverse.1 hc)
  | cons a rest ih =>
    intro w hw
    unfold Strings.fieldsAux at hw
    split_ifs at hw with h1 h2
    · exact ih [] (by simp) w hw
    · rcases List.mem_cons.1 hw with hw | hw
      · subst hw
        intro c hc
        exact hcur c (List.mem_reverse.1 hc)
      · exact ih [] (by simp) w hw
    · refine ih (a :: cur) ?_ w hw
      intro c hc
      rcases List.mem_cons.1 hc with hc | hc
      · subst hc
        simpa using h1
      · exact hcur c hc

theorem trimBoth_subset (p : Char → Bool) (l : List Char) :
    ∀ c ∈ Strings.trimBoth p l, c ∈ l := by
  intro c hc
  unfold Strings.trimBoth Strings.trimLeft at hc
  have h1 := (List.dropWhile_suffix p (l := (l.dropWhile p).reverse)).subset
    (List.mem_reverse.1 hc)
  exact (List.dropWhile_suffix p (l := l)).subset (List.mem_reverse.1 h1)

theorem trimmed_field_single (q : String) :
    ∀ w ∈ (Strings.Fields q).map (fun word => Strings.Trim word punct),
      isSingleWord w = true := by
  intro w hw
  obtain ⟨f, hf, rfl⟩ := List.mem_map.1 hw
  have hns := fieldsAux_no_space q.data [] (by simp) f hf
  simp only [isSingleWord, Bool.not_eq_true', List.contains_eq_any_beq, List.any_eq_false,
    beq_iff_eq]
  intro c hc hsp
  have := hns c (trimBoth_subset _ _ c hc)
  rw [← hsp] at this
  revert this
  decide

theorem phrasesAt_not_single (ws : List String) :
    ∀ t ∈ phrasesAt ws, isSingleWord t = false := by
  intro t ht
  have key : ∀ (a b : String), isSingleWord (a ++ " " ++ b) = false := by
    intro a b
    simp [isSingleWord, String.data_append]
  unfold phrasesAt at ht
  split at ht
  · simp only [List.mem_append] at ht
    rcases ht with (ht | ht) | ht
    · split_ifs at ht
      · simp only [List.mem_singleton] at ht
        rw [ht]; exact key _ _
      · simp at ht
    · split at ht
      · split_ifs at ht
        · simp only [List.mem_singleton] at ht
          rw [ht]; exact key _ _
        · simp at ht
      · simp at ht
    · split at ht
      · split_ifs at ht
        · simp only [List.mem_singleton] at ht
          rw [ht]; exact key _ _
        · simp at ht
      · simp at ht
  · simp at ht

theorem phraseTerms_not_single (ws : List String) :
    ∀ t ∈ phraseTerms ws, isSingleWord t = false := by
  induction ws with
  | nil => intro t ht; simp [phraseTerms] at ht
  | cons w rest ih =>
    intro t ht
    unfold phraseTerms at ht
    rcases List.mem_append.1 ht with ht | ht
    · exact phrasesAt_not_single _ t ht
    · exact ih t ht

/-- C14: the single-word terms returned by `extractQueryTerms` are exactly, in order, the
white-space-separated words of the lower-cased text which, after trimming surrounding
punctuation, have length (`len`, the number of bytes) above 2 and are not in the stop-word
list; "What is the fine for not wearing a helmet?" yields "fine", "wearing" and "helmet"
and no stop word. -/
theorem extractQueryTerms_single_words (queryText : String) :
    (extractQueryTerms queryText).filter isSingleWord =
      ((Strings.Fields (Strings.ToLower queryText)).map
          (fun word => Strings.Trim word punct)).filter
        (fun word => decide (len word > 2) && decide (word ∉ stopWords)) ∧
    (∀ t ∈ extractQueryTerms queryText, isSingleWord t = true →
      len t > 2 ∧ t ∉ stopWords) ∧
    (extractQueryTerms "What is the fine for not wearing a helmet?").filter isSingleWord
      = ["fine", "wearing", "helmet"] := by
  have hwords : wordTerms (Strings.Fields (Strings.ToLower queryText)) =
      ((Strings.Fields (Strings.ToLower queryText)).map
          (fun word => Strings.Trim word punct)).filter
        (fun word => decide (len word > 2) && decide (word ∉ stopWords)) := by
    unfold wordTerms isStopWord
    congr 1
    funext word
    simp
  have hfilter : (extractQueryTerms queryText).filter isSingleWord =
      wordTerms (Strings.Fields (Strings.ToLower queryText)) := by
    simp only [extractQueryTerms, List.filter_append]
    rw [List.filter_eq_self.2, List.filter_eq_nil_iff.2, List.append_nil]
    · intro t ht
      rw [phraseTerms_not_single _ t ht]
      decide
    · intro t ht
      exact trimmed_field_single _ t (List.mem_of_mem_filter ht)
  refine ⟨hfilter.trans hwords, ?_, by decide!⟩
  intro t ht hsingle
  have hmem : t ∈ (extractQueryTerms queryText).filter isSingleWord :=
    List.mem_filter.2 ⟨ht, hsingle⟩
  rw [hfilter.trans hwords] at hmem
  have := (List.mem_filter.1 hmem).2
  simpa using this

/-- Length is counted in bytes: Vietnamese words of one or two letters whose encoding has
three bytes ("ở", "hà") are emitted, a word of two bytes ("xe") is not. -/
theorem extractQueryTerms_byte_length_sample :
    (extractQueryTerms "Tôi ở Hà Nội").filter isSingleWord = ["tôi", "ở", "hà", "nội"] ∧
    (extractQueryTerms "xe ô tô").filter isSingleWord = ["tô"] ∧
    len "ở" = 3 ∧ len "hà" = 3 ∧ len "xe" = 2 := by
  decide!

/-! ### Candidate search: the deduplication key -/

theorem digitChar_isDigit (m : Nat) (h : m < 10) :
    (Nat.digitChar m).isDigit = true ∧ (Nat.digitChar m).toNat - 48 = m := by
  interval_cases m <;> decide

theorem toDigitsCore_digits (fuel n : Nat) (ds : List Char) :
    ∀ c ∈ Nat.toDigitsCore 10 fuel n ds, c ∈ ds ∨ c.isDigit = true := by
  induction fuel generalizing n ds with
  | zero => intro c hc; left; simpa [Nat.toDigitsCore] using hc
  | succ fuel ih =>
    intro c hc
    have hd := (digitChar_isDigit (n % 10) (Nat.mod_lt _ (by decide))).1
    unfold Nat.toDigitsCore at hc
    simp only at hc
    split_ifs at hc with h
    · rcases List.mem_cons.1 hc with hc | hc
      · right; rw [hc]; exact hd
      · left; exact hc
    · rcases ih _ _ c hc with hc | hc
      · rcases List.mem_cons.1 hc with hc | hc
        · right; rw [hc]; exact hd
        · left; exact hc
      · right; exact hc

/-- Value of a decimal digit string read from the left, starting from `a`. -/
theorem toDigitsCore_value (fuel n : Nat) (ds : List Char) (h : n < fuel) :
    (Nat.toDigitsCore 10 fuel n ds).foldl (fun a c => 10 * a + (c.toNat - 48)) 0
      = ds.foldl (fun a c => 10 * a + (c.toNat - 48)) n := by
  induction fuel generalizing n ds with
  | zero => omega
  | succ fuel ih =>
    have hd := (digitChar_isDigit (n % 10) (Nat.mod_lt _ (by decide))).2
    unfold Nat.toDigitsCore
    simp only
    split_ifs with h0
    · simp only [List.foldl_cons, hd]
      congr 1
      omega
    · rw [ih (n / 10) _ (by omega)]
      simp only [List.foldl_cons, hd]
      congr 1
      omega

theorem idString_data (id : Nat) : (idString id).data = Nat.toDigits 10 id := rfl

theorem idString_injective (a b : Nat) (h : idString a = idString b) : a = b := by
  have ha := toDigitsCore_value (a + 1) a [] (by omega)
  have hb := toDigitsCore_value (b + 1) b [] (by omega)
  have hdata : Nat.toDigits 10 a = Nat.toDigits 10 b := by
    rw [← idString_data, ← idString_data, h]
  unfold Nat.toDigits at hdata
  rw [hdata, hb] at ha
  simpa using ha.symm

theorem idString_digits (id : Nat) : ∀ c ∈ (idString id).data, c.isDigit = true := by
  intro c hc
  rw [idString_data] at hc
  rcases toDigitsCore_digits _ _ _ c hc with h | h
  · simp at h
  · exact h

theorem fmtOptID_no_underscore (id : Option Nat) : '_' ∉ (fmtOptID id).data := by
  cases id with
  | none => decide
  | some n =>
    intro h
    have := idString_digits n '_' h
    revert this
    decide

theorem fmtOptID_injective (a b : Option Nat) (h : fmtOptID a = fmtOptID b) : a = b := by
  cases a with
  | none =>
    cases b with
    | none => rfl
    | some n =>
      exfalso
      have hm : '<' ∈ (fmtOptID (some n)).data := by rw [← h]; decide
      have := idString_digits n '<' hm
      revert this
      decide
  | some m =>
    cases b with
    | none =>
      exfalso
      have hm : '<' ∈ (fmtOptID (some m)).data := by rw [h]; decide
      have := idString_digits m '<' hm
      revert this
      decide
    | some n => rw [idString_injective m n h]

theorem split_first_sep (sep : Char) (a b x y : List Char) (ha : sep ∉ a) (hb : sep ∉ b)
    (h : a ++ sep :: x = b ++ sep :: y) : a = b ∧ x = y := by
  induction a generalizing b with
  | nil =>
    cases b with
    | nil => simpa using h
    | cons c b =>
      simp only [List.nil_append, List.cons_append, List.cons.injEq] at h
      exact absurd (by rw [h.1]; exact List.mem_cons_self _ _) hb
  | cons c a ih =>
    cases b with
    | nil =>
      simp only [List.nil_append, List.cons_append, List.cons.injEq] at h
      exact absurd (by rw [← h.1]; exact List.mem_cons_self _ _) ha
    | cons d b =>
      simp only [List.cons_append, List.cons.injEq] at h
      obtain ⟨h1, h2⟩ := ih b (fun hm => ha (List.mem_cons_of_mem _ hm))
        (fun hm => hb (List.mem_cons_of_mem _ hm)) h.2
      exact ⟨by rw [h.1, h1], h2⟩

theorem split_last_sep (sep : Char) (a b x y : List Char) (ha : sep ∉ a) (hb : sep ∉ b)
    (h : x ++ sep :: a = y ++ sep :: b) : x = y ∧ a = b := by
  have hr : a.reverse ++ sep :: x.reverse = b.reverse ++ sep :: y.reverse := by
    have := congrArg List.reverse h
    simpa using this
  obtain ⟨h1, h2⟩ := split_first_sep sep a.reverse b.reverse x.reverse y.reverse
    (by simpa using ha) (by simpa using hb) hr
  exact ⟨List.reverse_injective h2, List.reverse_injective h1⟩

/-- The role, name and identifiers of a candidate can be read back from its key when the
role holds no underscore. -/
theorem candidateKey_injective (c d : QueryCandidate)
    (hc : '_' ∉ c.Type_.data) (hd : '_' ∉ d.Type_.data)
    (h : candidateKey c = candidateKey d) :
    c.Type_ = d.Type_ ∧ c.Name = d.Name ∧ c.ConceptID = d.ConceptID ∧
      c.RelationID = d.RelationID := by
  have hdata := congrArg String.data h
  simp only [candidateKey, String.data_append] at hdata
  simp only [List.append_assoc, List.singleton_append] at hdata
  have k1 := split_last_sep '_' (fmtOptID c.RelationID).data (fmtOptID d.RelationID).data
    (c.Type_.data ++ '_' :: (c.Name.data ++ '_' :: (fmtOptID c.ConceptID).data))
    (d.Type_.data ++ '_' :: (d.Name.data ++ '_' :: (fmtOptID d.ConceptID).data))
    (fmtOptID_no_underscore _) (fmtOptID_no_underscore _) (by simpa using hdata)
  have k2 := split_last_sep '_' (fmtOptID c.ConceptID).data (fmtOptID d.ConceptID).data
    (c.Type_.data ++ '_' :: c.Name.data) (d.Type_.data ++ '_' :: d.Name.data)
    (fmtOptID_no_underscore _) (fmtOptID_no_underscore _) (by simpa using k1.1)
  have k3 := split_first_sep '_' c.Type_.data d.Type_.data c.Name.data d.Name.data hc hd k2.1
  exact ⟨String.ext k3.1, String.ext k3.2,
    fmtOptID_injective _ _ (String.ext k2.2), fmtOptID_injective _ _ (String.ext k1.2)⟩

theorem mapSet_keys {κ ν : Type} [DecidableEq κ] (m : List (κ × ν)) (k : κ) (v : ν) :
    (mapSet m k v).map Prod.fst =
      if k ∈ m.map Prod.fst then m.map Prod.fst else m.map Prod.fst ++ [k] := by
  induction m with
  | nil => simp [mapSet]
  | cons e rest ih =>
    unfold mapSet
    by_cases he : e.1 = k
    · simp [he]
    · have he' : ¬ k = e.1 := fun x => he x.symm
      simp only [he, if_false, List.map_cons, ih, List.mem_cons, he', false_or]
      split_ifs <;> simp

theorem mapSet_keys_nodup {κ ν : Type} [DecidableEq κ] (m : List (κ × ν)) (k : κ) (v : ν)
    (h : (m.map Prod.fst).Nodup) : ((mapSet m k v).map Prod.fst).Nodup := by
  rw [mapSet_keys]
  split_ifs with hk
  · exact h
  · exact List.Nodup.append h (List.nodup_singleton k) (by simpa using hk)

theorem dedupCandidate_inv (m : List (String × QueryCandidate)) (seen : List QueryCandidate)
    (c : QueryCandidate)
    (h1 : (m.map Prod.fst).Nodup)
    (h2 : ∀ k x, mapGet m k = some x → candidateKey x = k ∧ x ∈ seen ∧
      ∀ y ∈ seen, candidateKey y = k → y.Score ≤ x.Score)
    (h3 : ∀ y ∈ seen, (mapGet m (candidateKey y)).isSome) :
    ((dedupCandidate m c).map Prod.fst).Nodup ∧
    (∀ k x, mapGet (dedupCandidate m c) k = some x → candidateKey x = k ∧ x ∈ seen ++ [c] ∧
      ∀ y ∈ seen ++ [c], candidateKey y = k → y.Score ≤ x.Score) ∧
    (∀ y ∈ seen ++ [c], (mapGet (dedupCandidate m c) (candidateKey y)).isSome) := by
  unfold dedupCandidate
  simp only
  cases hget : mapGet m (candidateKey c) with
  | none =>
    simp only
    refine ⟨mapSet_keys_nodup _ _ _ h1, ?_, ?_⟩
    · intro k x hx
      rw [mapGet_mapSet] at hx
      split_ifs at hx with hk
      · simp only [Option.some.injEq] at hx
        subst hx
        refine ⟨hk.symm, by simp, ?_⟩
        intro y hy hyk
        rcases List.mem_append.1 hy with hy | hy
        · have := h3 y hy
          rw [hyk, hk, hget] at this
          simp at this
        · simp only [List.mem_singleton] at hy
          rw [hy]
      · obtain ⟨k1, k2, k3⟩ := h2 k x hx
        refine ⟨k1, List.mem_append_left _ k2, ?_⟩
        intro y hy hyk
        rcases List.mem_append.1 hy with hy | hy
        · exact k3 y hy hyk
        · simp only [List.mem_singleton] at hy
          exact absurd (by rw [← hyk, hy]) hk
    · intro y hy
      rw [mapGet_mapSet]
      split_ifs with hk
      · rfl
      · rcases List.mem_append.1 hy with hy | hy
        · exact h3 y hy
        · simp only [List.mem_singleton] at hy
          exact absurd (by rw [hy]) hk
  | some existing =>
    simp only
    obtain ⟨e1, e2, e3⟩ := h2 _ _ hget
    split_ifs with hgt
    · refine ⟨mapSet_keys_nodup _ _ _ h1, ?_, ?_⟩
      · intro k x hx
        rw [mapGet_mapSet] at hx
        split_ifs at hx with hk
        · simp only [Option.some.injEq] at hx
          subst hx
          refine ⟨hk.symm, by simp, ?_⟩
          intro y hy hyk
          rcases List.mem_append.1 hy with hy | hy
          · exact le_trans (e3 y hy (by rw [hyk, hk])) (le_of_lt hgt)
          · simp only [List.mem_singleton] at hy
            rw [hy]
        · obtain ⟨k1, k2, k3⟩ := h2 k x hx
          refine ⟨k1, List.mem_append_left _ k2, ?_⟩
          intro y hy hyk
          rcases List.mem_append.1 hy with hy | hy
          · exact k3 y hy hyk
          · simp only [List.mem_singleton] at hy
            exact absurd (by rw [← hyk, hy]) hk
      · intro y hy
        rw [mapGet_mapSet]
        split_ifs with hk
        · rfl
        · rcases List.mem_append.1 hy with hy | hy
          · exact h3 y hy
          · simp only [List.mem_singleton] at hy
            exact absurd (by rw [hy]) hk
    · refine ⟨h1, ?_, ?_⟩
      · intro k x hx
        obtain ⟨k1, k2, k3⟩ := h2 k x hx
        refine ⟨k1, List.mem_append_left _ k2, ?_⟩
        intro y hy hyk
        rcases List.mem_append.1 hy with hy | hy
        · exact k3 y hy hyk
        · simp only [List.mem_singleton] at hy
          subst hy
          rw [hyk] at hget
          rw [hget] at hx
          simp only [Option.some.injEq] at hx
          subst hx
          exact not_lt.1 hgt
      · intro y hy
        rcases List.mem_append.1 hy with hy | hy
        · exact h3 y hy
        · simp only [List.mem_singleton] at hy
          rw [hy, hget]
          rfl

theorem dedup_foldl_inv (raw : List QueryCandidate) (m : List (String × QueryCandidate))
    (seen : List QueryCandidate)
    (h1 : (m.map Prod.fst).Nodup)
    (h2 : ∀ k x, mapGet m k = some x → candidateKey x = k ∧ x ∈ seen ∧
      ∀ y ∈ seen, candidateKey y = k → y.Score ≤ x.Score)
    (h3 : ∀ y ∈ seen, (mapGet m (candidateKey y)).isSome) :
    ((raw.foldl dedupCandidate m).map Prod.fst).Nodup ∧
    (∀ k x, mapGet (raw.foldl dedupCandidate m) k = some x →
      candidateKey x = k ∧ x ∈ seen ++ raw ∧
      ∀ y ∈ seen ++ raw, candidateKey y = k → y.Score ≤ x.Score) ∧
    (∀ y ∈ seen ++ raw, (mapGet (raw.foldl dedupCandidate m) (candidateKey y)).isSome) := by
  induction raw generalizing m seen with
  | nil => simpa using ⟨h1, h2, h3⟩
  | cons c rest ih =>
    obtain ⟨k1, k2, k3⟩ := dedupCandidate_inv m seen c h1 h2 h3
    have := ih (dedupCandidate m c) (seen ++ [c]) k1 k2 k3
    simpa using this

/-- C19, counterexample: the store returns for "app" the relations "apply" and "applicable"
with the same score 0.75, the shorter name first; `findAllCandidates` returns them in that
order although "applicable" precedes "apply" by name. -/
theorem findAllCandidates_tie_not_by_name :
    (findAllCandidates tieRepo ["app"]).map (fun out => out.map (fun c => (c.Name, c.Score)))
      = .ok [("apply", 0.75), ("applicable", 0.75)] ∧
    "applicable" < "apply" := by
  decide!

/-- C19, amended: the candidate list returned by `findAllCandidates` is ordered by score
non-increasing and holds the deduplicated candidates; this is so in whatever order the
deduplication map is visited.  Nothing orders candidates of equal score by name. -/
theorem findAllCandidates_score_sorted (repo : RepositoryReads) (terms : List String)
    (raw : List QueryCandidate) (h : gatherCandidates repo terms = .ok raw) :
    ∃ out, findAllCandidates repo terms = .ok out ∧
      out.Pairwise (fun a b => b.Score ≤ a.Score) ∧
      out.Perm ((raw.foldl dedupCandidate []).map Prod.snd) ∧
      ∀ visited : List QueryCandidate,
        visited.Perm ((raw.foldl dedupCandidate []).map Prod.snd) →
        (sortSlice (fun a b => decide (a.Score > b.Score)) visited).Pairwise
          (fun a b => b.Score ≤ a.Score) ∧
        (sortSlice (fun a b => decide (a.Score > b.Score)) visited).Perm out := by
  refine ⟨sortSlice (fun a b : QueryCandidate => decide (a.Score > b.Score))
    ((raw.foldl dedupCandidate []).map Prod.snd), by simp only [findAllCandidates, h],
    sortSlice_key_sorted (fun c : QueryCandidate => c.Score) _, sortSlice_perm _ _, ?_⟩
  intro visited hv
  exact ⟨sortSlice_key_sorted (fun c : QueryCandidate => c.Score) _,
    ((sortSlice_perm _ visited).trans hv).trans (sortSlice_perm _ _).symm⟩

/-- C19, witness: the sample lookups for "helmet", "helm" and "app". -/
theorem findAllCandidates_score_sorted_witness :
    ∃ out, findAllCandidates tieRepo ["helmet", "helm", "app"] = .ok out ∧
      out.Pairwise (fun a b => b.Score ≤ a.Score) ∧
      out.Perm (((rawCandidates tieConcepts tieRelations ["helmet", "helm", "app"]).foldl
        dedupCandidate []).map Prod.snd) ∧
      ∀ visited : List QueryCandidate,
        visited.Perm (((rawCandidates tieConcepts tieRelations ["helmet", "helm", "app"]).foldl
          dedupCandidate []).map Prod.snd) →
        (sortSlice (fun a b => decide (a.Score > b.Score)) visited).Pairwise
          (fun a b => b.Score ≤ a.Score) ∧
        (sortSlice (fun a b => decide (a.Score > b.Score)) visited).Perm out :=
  findAllCandidates_score_sorted tieRepo ["helmet", "helm", "app"] _
    (by decide!)

theorem gatherCandidates_ok (repo : RepositoryReads)
    (concepts relations : String → List QueryCandidate) (terms : List String)
    (hc : ∀ t ∈ terms, repo.FindConceptCandidates t = .ok (concepts t))
    (hr : ∀ t ∈ terms, repo.FindRelationCandidates t = .ok (relations t)) :
    gatherCandidates repo terms = .ok (rawCandidates concepts relations terms) := by
  induction terms with
  | nil => rfl
  | cons t rest ih =>
    unfold gatherCandidates
    rw [hc t (List.mem_cons_self _ _), hr t (List.mem_cons_self _ _)]
    simp only
    rw [ih (fun x hx => hc x (List.mem_cons_of_mem _ hx))
      (fun x hx => hr x (List.mem_cons_of_mem _ hx))]
    simp [rawCandidates]

theorem rawCandidates_role (concepts relations : String → List QueryCandidate)
    (terms : List String) (hrel : ∀ t ∈ terms, ∀ c ∈ relations t, c.Type_ = "relation") :
    ∀ c ∈ rawCandidates concepts relations terms, '_' ∉ c.Type_.data := by
  intro c hc
  simp only [rawCandidates, List.mem_flatMap, List.mem_append] at hc
  obtain ⟨t, ht, hc | hc⟩ := hc
  · obtain ⟨x, _, hx⟩ := hc
    simp only [List.mem_cons, List.mem_singleton, List.not_mem_nil, or_false] at hx
    have hsub : '_' ∉ ("subject" : String).data := by decide
    have hobj : '_' ∉ ("object" : String).data := by decide
    rcases hx with hx | hx
    · rw [hx]; exact hsub
    · rw [hx]; exact hobj
  · rw [hrel t ht c hc]
    decide

theorem candidateTuple_key (c d : QueryCandidate) (h : candidateTuple c = candidateTuple d) :
    candidateKey c = candidateKey d := by
  simp only [candidateTuple, Prod.mk.injEq] at h
  obtain ⟨h1, h2, h3, h4⟩ := h
  simp [candidateKey, h1, h2, h3, h4]

/-- C20: when the store answers every lookup, the output of `findAllCandidates` holds
exactly one candidate for each distinct (role, name, concept id, relation id) tuple among
the raw candidates (each concept candidate taken once as subject and once as object, each
relation candidate with the role "relation" the store gives it), and the score of that
candidate is the maximum score of the raw candidates with that tuple. -/
theorem findAllCandidates_dedup_max (repo : RepositoryReads)
    (concepts relations : String → List QueryCandidate) (terms : List String)
    (hc : ∀ t ∈ terms, repo.FindConceptCandidates t = .ok (concepts t))
    (hr : ∀ t ∈ terms, repo.FindRelationCandidates t = .ok (relations t))
    (hrel : ∀ t ∈ terms, ∀ c ∈ relations t, c.Type_ = "relation") :
    ∃ out, findAllCandidates repo terms = .ok out ∧
      (out.map candidateTuple).Nodup ∧
      (∀ tup, tup ∈ out.map candidateTuple ↔
        tup ∈ (rawCandidates concepts relations terms).map candidateTuple) ∧
      ∀ c ∈ out, c ∈ rawCandidates concepts relations terms ∧
        ∀ c' ∈ rawCandidates concepts relations terms,
          candidateTuple c' = candidateTuple c → c'.Score ≤ c.Score := by
  have hg := gatherCandidates_ok repo concepts relations terms hc hr
  have hrole := rawCandidates_role concepts relations terms hrel
  generalize rawCandidates concepts relations terms = raw at hg hrole
  obtain ⟨k1, k2, k3⟩ := dedup_foldl_inv raw [] [] (by simp) (by simp [mapGet]) (by simp)
  simp only [List.nil_append] at k2 k3
  have hperm := sortSlice_perm (fun a b : QueryCandidate => decide (a.Score > b.Score))
    ((raw.foldl dedupCandidate []).map Prod.snd)
  have hentry : ∀ c ∈ (raw.foldl dedupCandidate []).map Prod.snd,
      mapGet (raw.foldl dedupCandidate []) (candidateKey c) = some c := by
    intro c hc
    obtain ⟨e, he, rfl⟩ := List.mem_map.1 hc
    have hget := mapGet_of_mem_nodup _ e.1 e.2 k1 he
    rw [(k2 _ _ hget).1]
    exact hget
  have hkeys : ((raw.foldl dedupCandidate []).map Prod.snd).map candidateKey
      = (raw.foldl dedupCandidate []).map Prod.fst := by
    rw [List.map_map]
    apply List.map_congr_left
    intro e he
    exact (k2 _ _ (mapGet_of_mem_nodup _ e.1 e.2 k1 he)).1
  refine ⟨sortSlice (fun a b : QueryCandidate => decide (a.Score > b.Score))
    ((raw.foldl dedupCandidate []).map Prod.snd), by simp only [findAllCandidates, hg], ?_, ?_, ?_⟩
  · refine (hperm.map candidateTuple).nodup_iff.2 ?_
    have hn : (((raw.foldl dedupCandidate []).map Prod.snd).map candidateKey).Nodup := by
      rw [hkeys]; exact k1
    have hfac : ((raw.foldl dedupCandidate []).map Prod.snd).map candidateKey =
        (((raw.foldl dedupCandidate []).map Prod.snd).map candidateTuple).map
          (fun tup => tup.1 ++ "_" ++ tup.2.1 ++ "_" ++ fmtOptID tup.2.2.1 ++ "_" ++
            fmtOptID tup.2.2.2) := by
      simp only [List.map_map]
      apply List.map_congr_left
      intro e _
      rfl
    rw [hfac] at hn
    exact List.Nodup.of_map _ hn
  · intro tup
    rw [(hperm.map candidateTuple).mem_iff]
    constructor
    · intro h
      obtain ⟨c, hc, rfl⟩ := List.mem_map.1 h
      exact List.mem_map.2 ⟨c, (k2 _ _ (hentry c hc)).2.1, rfl⟩
    · intro h
      obtain ⟨y, hy, rfl⟩ := List.mem_map.1 h
      obtain ⟨x, hx⟩ := Option.isSome_iff_exists.1 (k3 y hy)
      obtain ⟨x1, x2, _⟩ := k2 _ _ hx
      obtain ⟨t1, t2, t3, t4⟩ := candidateKey_injective x y (hrole x x2) (hrole y hy) x1
      refine List.mem_map.2 ⟨x, List.mem_map.2 ⟨(_, x), mapGet_mem _ _ _ hx, rfl⟩, ?_⟩
      simp [candidateTuple, t1, t2, t3, t4]
  · intro c hc
    have hc' := hperm.mem_iff.1 hc
    obtain ⟨_, x2, x3⟩ := k2 _ _ (hentry c hc')
    exact ⟨x2, fun c' hc'' htup => x3 c' hc'' (candidateTuple_key _ _ htup)⟩

/-- C20, witness: the concept "helmet" is found by the terms "helmet" (score 1) and "helm"
(score 0.7); two relations are found by "app". -/
theorem findAllCandidates_dedup_max_witness :
    ∃ out, findAllCandidates tieRepo ["helmet", "helm", "app"] = .ok out ∧
      (out.map candidateTuple).Nodup ∧
      (∀ tup, tup ∈ out.map candidateTuple ↔
        tup ∈ (rawCandidates tieConcepts tieRelations ["helmet", "helm", "app"]).map
          candidateTuple) ∧
      ∀ c ∈ out, c ∈ rawCandidates tieConcepts tieRelations ["helmet", "helm", "app"] ∧
        ∀ c' ∈ rawCandidates tieConcepts tieRelations ["helmet", "helm", "app"],
          candidateTuple c' = candidateTuple c → c'.Score ≤ c.Score :=
  findAllCandidates_dedup_max tieRepo tieConcepts tieRelations ["helmet", "helm", "app"]
    (fun _ _ => rfl) (fun _ _ => rfl) (by decide)

/-- The sample lookups evaluated: four candidates remain of six raw ones, "helmet" with
score 1 in both roles. -/
theorem findAllCandidates_sample :
    (rawCandidates tieConcepts tieRelations ["helmet", "helm", "app"]).length = 6 ∧
    (findAllCandidates tieRepo ["helmet", "helm", "app"]).map
        (fun out => out.map (fun c => (c.Type_, c.Name, c.Score)))
      = .ok [("subject", "helmet", 1), ("object", "helmet", 1),
             ("relation", "apply", 0.75), ("relation", "applicable", 0.75)] := by
  decide!

/-! ### Ingestion: the unit table is written by `CreateUnit` only -/

theorem CreateConcept_units (db : Store) (concept : Concept) :
    (CreateConcept db concept).2.units = db.units := by
  unfold CreateConcept
  split_ifs <;> rfl

theorem GetOrCreateConcept_units (db : Store) (name ty : String) :
    (GetOrCreateConcept db name ty).2.units = db.units := by
  unfold GetOrCreateConcept
  split_ifs
  · rfl
  · split
    · rfl
    · rw [CreateConcept_units]; rfl

theorem UpsertConcept_units (db : Store) (name : String) (synonyms : List String) (ty : String) :
    (UpsertConcept db name synonyms ty).2.units = db.units := by
  unfold UpsertConcept
  simp only
  repeat' split
  all_goals first | rfl | (rw [CreateConcept_units]; rfl)

theorem CreateRelation_units (db : Store) (relation : Relation) :
    (CreateRelation db relation).2.units = db.units := by
  unfold CreateRelation
  split_ifs <;> rfl

theorem UpsertRelation_units (db : Store) (name : String) (keywords : List String)
    (ty : String) : (UpsertRelation db name keywords ty).2.units = db.units := by
  unfold UpsertRelation
  simp only
  repeat' split
  all_goals first | rfl | (rw [CreateRelation_units]; rfl)

theorem CreateTriple_units (db : Store) (triple : Triple) :
    (CreateTriple db triple).2.units = db.units := by
  unfold CreateTriple
  split_ifs <;> rfl

theorem InsertTriple_units (db : Store) (triple : Triple) :
    (InsertTriple db triple).2.units = db.units := by
  unfold InsertTriple
  split_ifs <;> rfl

theorem GetUnit_units (db : Store) (id : Nat) : (GetUnit db id).2.units = db.units := by
  unfold GetUnit
  split_ifs
  · rfl
  · split <;> rfl

theorem UpsertUnitEmbedding_units (db : Store) (id : Nat) (emb : List ℚ) (model : String) :
    (UpsertUnitEmbedding db id emb model).2.units = db.units := by
  unfold UpsertUnitEmbedding
  split_ifs <;> rfl

theorem storeTriple_units (relationName : String) (unitID : Nat) (docRef : String)
    (acc : Extraction) (subjectName objectName : String) (extraContext : Option String) :
    (storeTriple relationName unitID docRef acc subjectName objectName extraContext).db.units
      = acc.db.units := by
  unfold storeTriple
  have h1 := GetOrCreateConcept_units acc.db subjectName "entity"
  rcases hg1 : GetOrCreateConcept acc.db subjectName "entity" with ⟨r1, db1⟩
  rw [hg1] at h1
  cases r1 with
  | error e => exact h1
  | ok subject =>
    simp only
    have h2 := GetOrCreateConcept_units db1 objectName "entity"
    rcases hg2 : GetOrCreateConcept db1 objectName "entity" with ⟨r2, db2⟩
    rw [hg2] at h2
    cases r2 with
    | error e => exact h2.trans h1
    | ok object =>
      simp only
      have h3 := UpsertRelation_units db2 relationName (relationKeywordsFor relationName)
        "legal_rule"
      rcases hg3 : UpsertRelation db2 relationName (relationKeywordsFor relationName)
        "legal_rule" with ⟨r3, db3⟩
      rw [hg3] at h3
      cases r3 with
      | error e => exact (h3.trans h2).trans h1
      | ok relation =>
        simp only
        have h4 := CreateTriple_units db3
          { SubjectID := subject.ID, RelationID := relation.ID, ObjectID := object.ID,
            UnitID := unitID, DocRef := docRef, Confidence := 0.8, Context := extraContext }
        rcases hg4 : CreateTriple db3
          { SubjectID := subject.ID, RelationID := relation.ID, ObjectID := object.ID,
            UnitID := unitID, DocRef := docRef, Confidence := 0.8, Context := extraContext }
          with ⟨r4, db4⟩
        rw [hg4] at h4
        cases r4 with
        | error e => exact ((h4.trans h3).trans h2).trans h1
        | ok created => exact ((h4.trans h3).trans h2).trans h1

theorem extractTriplesFromText_units (db : Store) (unit : Unit) (doc : Document) :
    (extractTriplesFromText db unit doc).db.units = db.units := by
  rw [extractTriplesFromText_statements]
  suffices h : ∀ (l : List (String × String × String × Option String)) (acc : Extraction),
      (l.foldl (fun acc st =>
        storeTriple st.1 unit.ID (buildDocRef doc unit) acc st.2.1 st.2.2.1 st.2.2.2) acc).db.units
      = acc.db.units from h _ _
  intro l
  induction l with
  | nil => intro acc; rfl
  | cons st rest ih =>
    intro acc
    rw [List.foldl_cons, ih, storeTriple_units]

theorem embedUnits_units (embedder : EmbeddingProvider) (model : String) (us : List Unit)
    (db : Store) (n : Nat) : (embedUnits embedder model us db n).2.units = db.units := by
  induction us generalizing db n with
  | nil => rfl
  | cons u rest ih =>
    unfold embedUnits
    cases embedder.Embed u.Text with
    | error e => rfl
    | ok emb =>
      simp only
      have h := UpsertUnitEmbedding_units db u.ID emb model
      rcases hg : UpsertUnitEmbedding db u.ID emb model with ⟨r, db1⟩
      rw [hg] at h
      cases r with
      | some e => exact h
      | none => simp only; rw [ih, h]

theorem upsertConcepts_units (reqs : List ConceptRequest) (db : Store) (n : Nat) :
    (upsertConcepts reqs db n).2.units = db.units := by
  induction reqs generalizing db n with
  | nil => rfl
  | cons c rest ih =>
    unfold upsertConcepts
    simp only
    have h := UpsertConcept_units db c.Name c.Synonyms (if c.Type_ = "" then "general" else c.Type_)
    rcases hg : UpsertConcept db c.Name c.Synonyms (if c.Type_ = "" then "general" else c.Type_)
      with ⟨r, db1⟩
    rw [hg] at h
    cases r with
    | error e => exact h
    | ok x => simp only; rw [ih, h]

theorem upsertRelations_units (reqs : List RelationRequest) (db : Store) (n : Nat) :
    (upsertRelations reqs db n).2.units = db.units := by
  induction reqs generalizing db n with
  | nil => rfl
  | cons c rest ih =>
    unfold upsertRelations
    simp only
    have h := UpsertRelation_units db c.Name c.Keywords (if c.Type_ = "" then "general" else c.Type_)
    rcases hg : UpsertRelation db c.Name c.Keywords (if c.Type_ = "" then "general" else c.Type_)
      with ⟨r, db1⟩
    rw [hg] at h
    cases r with
    | error e => exact h
    | ok x => simp only; rw [ih, h]

theorem createTripleFromRequest_units (db : Store) (req : TripleRequest)
    (unitMap : List (String × Nat)) :
    (createTripleFromRequest db req unitMap).2.units = db.units := by
  unfold createTripleFromRequest
  cases mapGet unitMap req.UnitCode with
  | none => rfl
  | some unitID =>
    simp only
    have h1 := UpsertConcept_units db req.Subject [] "entity"
    rcases hg1 : UpsertConcept db req.Subject [] "entity" with ⟨r1, db1⟩
    rw [hg1] at h1
    cases r1 with
    | error e => exact h1
    | ok subject =>
      simp only
      have h2 := UpsertConcept_units db1 req.Object [] "entity"
      rcases hg2 : UpsertConcept db1 req.Object [] "entity" with ⟨r2, db2⟩
      rw [hg2] at h2
      cases r2 with
      | error e => exact h2.trans h1
      | ok object =>
        simp only
        have h3 := UpsertRelation_units db2 req.Relation [] "legal_rule"
        rcases hg3 : UpsertRelation db2 req.Relation [] "legal_rule" with ⟨r3, db3⟩
        rw [hg3] at h3
        cases r3 with
        | error e => exact (h3.trans h2).trans h1
        | ok relation =>
          simp only
          have key : ∀ triple : Triple,
              (match InsertTriple db3 triple with
                | (.error err, db) => ((some err, db) : Option GoError × Store)
                | (.ok _, db) => (none, db)).2.units = db.units := by
            intro triple
            have h4 := InsertTriple_units db3 triple
            rcases hg4 : InsertTriple db3 triple with ⟨r4, db4⟩
            rw [hg4] at h4
            cases r4 with
            | error e => exact ((h4.trans h3).trans h2).trans h1
            | ok created => exact ((h4.trans h3).trans h2).trans h1
          exact key _

theorem createTriples_units (unitMap : List (String × Nat)) (reqs : List TripleRequest)
    (db : Store) (n : Nat) : (createTriples unitMap reqs db n).2.units = db.units := by
  induction reqs generalizing db n with
  | nil => rfl
  | cons c rest ih =>
    unfold createTriples
    have h := createTripleFromRequest_units db c unitMap
    rcases hg : createTripleFromRequest db c unitMap with ⟨r, db1⟩
    rw [hg] at h
    cases r with
    | some e => exact h
    | none => simp only; rw [ih, h]

theorem extractUnits_units (doc : Document) (entries : List (String × Nat)) (db : Store)
    (counts : ExtractionCounts) : (extractUnits doc entries db counts).2.units = db.units := by
  induction entries generalizing db counts with
  | nil => rfl
  | cons entry rest ih =>
    unfold extractUnits
    have h := GetUnit_units db entry.2
    rcases hg : GetUnit db entry.2 with ⟨r, db1⟩
    rw [hg] at h
    cases r with
    | error e => simp only; rw [ih, h]
    | ok unit => simp only; rw [ih, extractTriplesFromText_units, h]

/-! ### Ingestion: the unit loop -/

theorem unitFor_parent (docID : Nat) (st : UnitLoop) (r : UnitRequest)
    (hmap : ∀ k, mapGet st.unitMap k =
      (st.createdUnits.reverse.find? (fun v => v.Code = some k)).map (fun v => v.ID)) :
    (unitFor docID st.unitMap r).ParentID = resolveParent st.createdUnits r ∧
    (unitFor docID st.unitMap r).Code = r.Code := by
  unfold unitFor resolveParent
  cases r.ParentCode with
  | none => exact ⟨rfl, rfl⟩
  | some pc =>
    simp only
    split_ifs with h
    · rw [← hmap pc]
      cases mapGet st.unitMap pc <;> exact ⟨rfl, rfl⟩
    · exact ⟨rfl, rfl⟩

theorem createUnits_inv (docID : Nat) (reqs : List UnitRequest) (db : Store) (st : UnitLoop)
    (hmap : ∀ k, mapGet st.unitMap k =
      (st.createdUnits.reverse.find? (fun v => v.Code = some k)).map (fun v => v.ID))
    (hlt : ∀ v ∈ st.createdUnits, v.ID < db.nextID)
    (hinc : st.createdUnits.Pairwise (fun a b => a.ID < b.ID)) :
    ∃ created : List Unit,
      (createUnits docID reqs db st).2.units = db.units ++ created ∧
      (∀ n u, created[n]? = some u → ∃ r, reqs[n]? = some r ∧
        u.ParentID = resolveParent (st.createdUnits ++ created.take n) r) ∧
      (st.createdUnits ++ created).Pairwise (fun a b => a.ID < b.ID) ∧
      (∀ st', (createUnits docID reqs db st).1 = .ok st' →
        st'.createdUnits = st.createdUnits ++ created ∧ created.length = reqs.length) := by
  induction reqs generalizing db st with
  | nil =>
    refine ⟨[], by simp [createUnits], by simp, by simpa using hinc, ?_⟩
    intro st' h
    simp only [createUnits, Except.ok.injEq] at h
    simp [← h]
  | cons r rest ih =>
    obtain ⟨hpar, hcode⟩ := unitFor_parent docID st r hmap
    unfold createUnits
    simp only
    unfold CreateUnit
    by_cases hf : db.faulted = true
    · simp only [hf, if_true]
      refine ⟨[], ?_, by simp, by simpa using hinc, ?_⟩
      · cases (unitFor docID st.unitMap r).Code <;> simp [Store.step]
      · intro st' h
        cases hc : (unitFor docID st.unitMap r).Code <;> simp [hc] at h
    · simp only [hf, if_false, Bool.false_eq_true]
      set unit : Unit :=
        { unitFor docID st.unitMap r with ID := db.nextID, CreatedAt := db.now } with hu
      have huid : unit.ID = db.nextID := rfl
      have hupar : unit.ParentID = resolveParent st.createdUnits r := hpar
      have hucode : unit.Code = (unitFor docID st.unitMap r).Code := rfl
      obtain ⟨created, h1, h2, h3, h4⟩ := ih
        { db.step with units := db.units ++ [unit], nextID := db.nextID + 1 }
        { unitMap := match unit.Code with
            | some code => mapSet st.unitMap code unit.ID
            | none => st.unitMap,
          createdUnits := st.createdUnits ++ [unit],
          unitsCreated := st.unitsCreated + 1 }
        (by
          intro k
          simp only [List.reverse_append, List.reverse_singleton, List.singleton_append,
            List.find?_cons]
          cases hc : unit.Code with
          | none => simp [hmap k]
          | some code =>
            simp only [mapGet_mapSet]
            by_cases hk : k = code
            · simp [hk]
            · have hk' : ¬ code = k := fun x => hk x.symm
              simp [hk, hk', hmap k])
        (by
          intro v hv
          rcases List.mem_append.1 hv with hv | hv
          · exact Nat.lt_succ_of_lt (hlt v hv)
          · simp only [List.mem_singleton] at hv
            rw [hv, huid]
            exact Nat.lt_succ_self _)
        (by
          rw [List.pairwise_append]
          refine ⟨hinc, List.pairwise_singleton _ _, ?_⟩
          intro a ha b hb
          simp only [List.mem_singleton] at hb
          rw [hb, huid]
          exact hlt a ha)
      refine ⟨unit :: created, ?_, ?_, ?_, ?_⟩
      · exact h1.trans (by simp)
      · intro n u hn
        cases n with
        | zero =>
          simp only [List.getElem?_cons_zero, Option.some.injEq] at hn
          subst hn
          exact ⟨r, by simp, by simpa using hupar⟩
        | succ n =>
          simp only [List.getElem?_cons_succ] at hn
          obtain ⟨r', hr', hp'⟩ := h2 n u hn
          exact ⟨r', by simpa using hr', by simpa using hp'⟩
      · simpa using h3
      · intro st' hst
        obtain ⟨k1, k2⟩ := h4 st' hst
        exact ⟨by simpa using k1, by simp [k2]⟩

theorem embedStage_units (s : IngestionService) (req : IngestRequest) (us : List Unit)
    (db : Store) : (embedStage s req us db).2.units = db.units := by
  unfold embedStage
  cases s.embedder with
  | none => rfl
  | some embedder =>
    simp only
    split_ifs <;> first | rfl | exact embedUnits_units _ _ _ _ _

theorem explicitStage_units (req : IngestRequest) (unitMap : List (String × Nat)) (db : Store) :
    (explicitStage req unitMap db).2.units = db.units := by
  unfold explicitStage
  have h2 := upsertConcepts_units req.Concepts db 0
  rcases hg2 : upsertConcepts req.Concepts db 0 with ⟨e2, db2⟩
  rw [hg2] at h2
  cases e2 with
  | error f => exact h2
  | ok conceptsCreated =>
    simp only
    have h3 := upsertRelations_units req.Relations db2 0
    rcases hg3 : upsertRelations req.Relations db2 0 with ⟨e3, db3⟩
    rw [hg3] at h3
    cases e3 with
    | error f => exact h3.trans h2
    | ok relationsCreated =>
      simp only
      have h4 := createTriples_units unitMap req.Triples db3 0
      rcases hg4 : createTriples unitMap req.Triples db3 0 with ⟨e4, db4⟩
      rw [hg4] at h4
      cases e4 with
      | error f => exact (h4.trans h3).trans h2
      | ok triplesCreated => exact (h4.trans h3).trans h2

theorem extractStage_units (req : IngestRequest) (doc : Document)
    (unitMap : List (String × Nat)) (db : Store) (counts : ExtractionCounts) :
    (extractStage req doc unitMap db counts).2.units = db.units := by
  unfold extractStage
  split_ifs
  · exact extractUnits_units _ _ _ _
  · rfl

theorem ingestInto_units (s : IngestionService) (db : Store) (req : IngestRequest)
    (doc : Document) :
    (ingestInto s db req doc).2.units = (createUnits doc.ID req.Units db {}).2.units := by
  unfold ingestInto
  rcases createUnits doc.ID req.Units db {} with ⟨r0, db0⟩
  cases r0 with
  | error f => rfl
  | ok units =>
    simp only
    have h1 := embedStage_units s req units.createdUnits db0
    rcases hg1 : embedStage s req units.createdUnits db0 with ⟨e1, db1⟩
    rw [hg1] at h1
    cases e1 with
    | error f => exact h1
    | ok embeddingsCreated =>
      simp only
      have h2 := explicitStage_units req units.unitMap db1
      rcases hg2 : explicitStage req units.unitMap db1 with ⟨e2, db2⟩
      rw [hg2] at h2
      cases e2 with
      | error f => exact h2.trans h1
      | ok counts =>
        simp only
        rw [extractStage_units]
        exact h2.trans h1

theorem pairwise_take_lt (l : List Unit) (h : l.Pairwise (fun a b => a.ID < b.ID)) (n : Nat)
    (u v : Unit) (hu : l[n]? = some u) (hv : v ∈ l.take n) : v.ID < u.ID := by
  have hsplit : l = l.take n ++ l.drop n := (List.take_append_drop n l).symm
  rw [hsplit, List.pairwise_append] at h
  refine h.2.2 v hv u ?_
  have hlt : n < l.length := by
    by_contra hge
    rw [List.getElem?_eq_none (by omega)] at hu
    exact Option.noConfusion hu
  rw [List.getElem?_eq_getElem hlt] at hu
  simp only [Option.some.injEq] at hu
  rw [← hu, List.drop_eq_getElem_cons hlt]
  exact List.mem_cons_self _ _

theorem IngestLegalContent_units (s : IngestionService) (db : Store) (req : IngestRequest) :
    ∃ created : List Unit,
      (IngestLegalContent s db req).2.units = db.units ++ created ∧
      (∀ n u, created[n]? = some u → ∃ r, req.Units[n]? = some r ∧
        u.ParentID = resolveParent (created.take n) r) ∧
      created.Pairwise (fun a b => a.ID < b.ID) := by
  unfold IngestLegalContent FindDocumentByMetadata
  by_cases hf : db.faulted = true
  · simp only [hf, if_true]
    exact ⟨[], by simp [Store.step], by simp, List.Pairwise.nil⟩
  · simp only [hf, if_false, Bool.false_eq_true]
    split
    · exact ⟨[], by simp_all [Store.step], by simp, List.Pairwise.nil⟩
    · rename_i heq
      simp only [Prod.mk.injEq, Except.ok.injEq] at heq
      obtain ⟨_, hdb⟩ := heq
      subst hdb
      exact ⟨[], by simp [Store.step], by simp, List.Pairwise.nil⟩
    · rename_i heq
      simp only [Prod.mk.injEq, Except.ok.injEq] at heq
      obtain ⟨_, hdb⟩ := heq
      subst hdb
      unfold CreateDocument
      by_cases hf1 : db.step.faulted = true
      · simp only [hf1, if_true]
        exact ⟨[], by simp [Store.step], by simp, List.Pairwise.nil⟩
      · simp only [hf1, if_false, Bool.false_eq_true]
        rw [ingestInto_units]
        obtain ⟨created, h1, h2, h3, _⟩ := createUnits_inv db.step.nextID req.Units
          { db.step.step with
            documents := db.step.documents ++
              [{ Title := req.Document.Title, Type_ := req.Document.Type_,
                 Number := req.Document.Number, Year := req.Document.Year,
                 Authority := req.Document.Authority, Status := "active",
                 ID := db.step.nextID, CreatedAt := db.step.now, UpdatedAt := db.step.now }],
            nextID := db.step.nextID + 1 }
          {} (by simp [mapGet]) (by simp) List.Pairwise.nil
        exact ⟨created, h1, by simpa using h2, by simpa using h3⟩

/-- C16: the units `IngestLegalContent` adds to the store come in request order, and the
parent link of each is the id of the last unit created before it in the same call that
carries its parent code (no link when there is none); so a parent link refers only to a
unit created earlier in the call, no unit is its own parent and the parent relation among
the created units has no cycle. -/
theorem IngestLegalContent_parent_links (s : IngestionService) (db : Store)
    (req : IngestRequest) :
    ∃ created : List Unit,
      (IngestLegalContent s db req).2.units = db.units ++ created ∧
      (∀ n u, created[n]? = some u → ∃ r, req.Units[n]? = some r ∧
        u.ParentID = resolveParent (created.take n) r) ∧
      (∀ n u p, created[n]? = some u → u.ParentID = some p →
        ∃ v ∈ created.take n, v.ID = p ∧ v.ID ≠ u.ID) ∧
      (∀ u ∈ created, u.ParentID ≠ some u.ID) ∧
      (∀ u, ¬ Relation.TransGen (IsParentIn created) u u) := by
  obtain ⟨created, h1, h2, h3⟩ := IngestLegalContent_units s db req
  have hprec : ∀ n u p, created[n]? = some u → u.ParentID = some p →
      ∃ v ∈ created.take n, v.ID = p ∧ v.ID < u.ID := by
    intro n u p hn hp
    obtain ⟨r, _, hr⟩ := h2 n u hn
    rw [hp] at hr
    unfold resolveParent at hr
    split at hr
    · rename_i pc _
      split_ifs at hr
      cases hfind : (created.take n).reverse.find? (fun v => decide (v.Code = some pc)) with
      | none => rw [hfind] at hr; exact Option.noConfusion hr
      | some v =>
        rw [hfind] at hr
        simp only [Option.map_some', Option.some.injEq] at hr
        have hv : v ∈ created.take n :=
          List.mem_reverse.1 (List.mem_of_find?_eq_some hfind)
        exact ⟨v, hv, hr.symm, pairwise_take_lt created h3 n u v hn hv⟩
    · exact Option.noConfusion hr
  have hstep : ∀ u v, IsParentIn created u v → v.ID < u.ID := by
    rintro u v ⟨hu, _, hp⟩
    obtain ⟨n, hn⟩ := List.mem_iff_getElem?.1 hu
    obtain ⟨w, _, hw, hlt⟩ := hprec n u v.ID hn hp
    rw [← hw]
    exact hlt
  have hchain : ∀ u v, Relation.TransGen (IsParentIn created) u v → v.ID < u.ID := by
    intro u v h
    induction h with
    | single h => exact hstep _ _ h
    | tail _ h ih => exact lt_trans (hstep _ _ h) ih
  refine ⟨created, h1, h2, ?_, ?_, ?_⟩
  · intro n u p hn hp
    obtain ⟨v, hv, hid, hlt⟩ := hprec n u p hn hp
    exact ⟨v, hv, hid, Nat.ne_of_lt hlt⟩
  · intro u hu hp
    exact lt_irrefl _ (hstep u u ⟨hu, hu, hp⟩)
  · intro u h
    exact lt_irrefl _ (hchain u u h)

/-- The sample request: the clause is linked to the article created before it. -/
theorem IngestLegalContent_parent_sample :
    (IngestLegalContent {} {} sampleIngest).2.units.map (fun u => (u.ID, u.Code, u.ParentID))
      = [(2, some "Article 1", none), (3, some "Clause 1", some 2)] := by
  decide!

/-! ### Ingestion: the document and triple tables -/

theorem CreateConcept_frame (db : Store) (concept : Concept) :
    (CreateConcept db concept).2.documents = db.documents ∧
    (CreateConcept db concept).2.triples = db.triples := by
  unfold CreateConcept
  split_ifs <;> exact ⟨rfl, rfl⟩

theorem GetOrCreateConcept_frame (db : Store) (name ty : String) :
    (GetOrCreateConcept db name ty).2.documents = db.documents ∧
    (GetOrCreateConcept db name ty).2.triples = db.triples := by
  unfold GetOrCreateConcept
  repeat' split
  all_goals first | exact ⟨rfl, rfl⟩ | exact CreateConcept_frame _ _

theorem UpsertConcept_frame (db : Store) (name : String) (synonyms : List String)
    (ty : String) :
    (UpsertConcept db name synonyms ty).2.documents = db.documents ∧
    (UpsertConcept db name synonyms ty).2.triples = db.triples := by
  unfold UpsertConcept
  simp only
  repeat' split
  all_goals first | exact ⟨rfl, rfl⟩ | exact CreateConcept_frame _ _

theorem CreateRelation_frame (db : Store) (relation : Relation) :
    (CreateRelation db relation).2.documents = db.documents ∧
    (CreateRelation db relation).2.triples = db.triples := by
  unfold CreateRelation
  split_ifs <;> exact ⟨rfl, rfl⟩

theorem UpsertRelation_frame (db : Store) (name : String) (keywords : List String)
    (ty : String) :
    (UpsertRelation db name keywords ty).2.documents = db.documents ∧
    (UpsertRelation db name keywords ty).2.triples = db.triples := by
  unfold UpsertRelation
  simp only
  repeat' split
  all_goals first | exact ⟨rfl, rfl⟩ | exact CreateRelation_frame _ _

theorem CreateTriple_documents (db : Store) (triple : Triple) :
    (CreateTriple db triple).2.documents = db.documents := by
  unfold CreateTriple
  split_ifs <;> rfl

theorem GetUnit_frame (db : Store) (id : Nat) :
    (GetUnit db id).2.documents = db.documents ∧ (GetUnit db id).2.triples = db.triples := by
  unfold GetUnit
  repeat' split
  all_goals exact ⟨rfl, rfl⟩

theorem UpsertUnitEmbedding_frame (db : Store) (id : Nat) (emb : List ℚ) (model : String) :
    (UpsertUnitEmbedding db id emb model).2.documents = db.documents ∧
    (UpsertUnitEmbedding db id emb model).2.triples = db.triples := by
  unfold UpsertUnitEmbedding
  split_ifs <;> exact ⟨rfl, rfl⟩

/-- A successful `InsertTriple` adds one row; a failed one adds none. -/
theorem InsertTriple_rows (db : Store) (triple : Triple) :
    (InsertTriple db triple).2.documents = db.documents ∧
    ((∃ e, (InsertTriple db triple).1 = .error e) ∧ (InsertTriple db triple).2.triples = db.triples ∨
     (∃ t, (InsertTriple db triple).1 = .ok t) ∧
       ∃ row, (InsertTriple db triple).2.triples = db.triples ++ [row]) := by
  unfold InsertTriple
  split_ifs
  · exact ⟨rfl, Or.inl ⟨⟨_, rfl⟩, rfl⟩⟩
  · exact ⟨rfl, Or.inr ⟨⟨_, rfl⟩, _, rfl⟩⟩

theorem createTripleFromRequest_rows (db : Store) (req : TripleRequest)
    (unitMap : List (String × Nat)) :
    (createTripleFromRequest db req unitMap).2.documents = db.documents ∧
    ((∃ e, (createTripleFromRequest db req unitMap).1 = some e) ∧
        (createTripleFromRequest db req unitMap).2.triples = db.triples ∨
     (createTripleFromRequest db req unitMap).1 = none ∧
       ∃ row, (createTripleFromRequest db req unitMap).2.triples = db.triples ++ [row]) := by
  unfold createTripleFromRequest
  cases mapGet unitMap req.UnitCode with
  | none => exact ⟨rfl, Or.inl ⟨⟨_, rfl⟩, rfl⟩⟩
  | some unitID =>
    simp only
    have h1 := UpsertConcept_frame db req.Subject [] "entity"
    rcases hg1 : UpsertConcept db req.Subject [] "entity" with ⟨r1, db1⟩
    rw [hg1] at h1
    cases r1 with
    | error e => exact ⟨h1.1, Or.inl ⟨⟨_, rfl⟩, h1.2⟩⟩
    | ok subject =>
      simp only
      have h2 := UpsertConcept_frame db1 req.Object [] "entity"
      rcases hg2 : UpsertConcept db1 req.Object [] "entity" with ⟨r2, db2⟩
      rw [hg2] at h2
      cases r2 with
      | error e => exact ⟨h2.1.trans h1.1, Or.inl ⟨⟨_, rfl⟩, h2.2.trans h1.2⟩⟩
      | ok object =>
        simp only
        have h3 := UpsertRelation_frame db2 req.Relation [] "legal_rule"
        rcases hg3 : UpsertRelation db2 req.Relation [] "legal_rule" with ⟨r3, db3⟩
        rw [hg3] at h3
        have hd : db3.documents = db.documents := (h3.1.trans h2.1).trans h1.1
        have ht : db3.triples = db.triples := (h3.2.trans h2.2).trans h1.2
        cases r3 with
        | error e => exact ⟨hd, Or.inl ⟨⟨_, rfl⟩, ht⟩⟩
        | ok relation =>
          simp only
          have key : ∀ triple : Triple,
              (match InsertTriple db3 triple with
                | (.error err, db) => ((some err, db) : Option GoError × Store)
                | (.ok _, db) => (none, db)).2.documents = db.documents ∧
              ((∃ e, (match InsertTriple db3 triple with
                | (.error err, db) => ((some err, db) : Option GoError × Store)
                | (.ok _, db) => (none, db)).1 = some e) ∧
                (match InsertTriple db3 triple with
                | (.error err, db) => ((some err, db) : Option GoError × Store)
                | (.ok _, db) => (none, db)).2.triples = db.triples ∨
               (match InsertTriple db3 triple with
                | (.error err, db) => ((some err, db) : Option GoError × Store)
                | (.ok _, db) => (none, db)).1 = none ∧
                ∃ row, (match InsertTriple db3 triple with
                | (.error err, db) => ((some err, db) : Option GoError × Store)
                | (.ok _, db) => (none, db)).2.triples = db.triples ++ [row]) := by
            intro triple
            obtain ⟨k1, k2⟩ := InsertTriple_rows db3 triple
            rcases hg4 : InsertTriple db3 triple with ⟨r4, db4⟩
            rw [hg4] at k1 k2
            cases r4 with
            | error e =>
              rcases k2 with ⟨_, k2⟩ | ⟨⟨t, ht'⟩, _⟩
              · exact ⟨k1.trans hd, Or.inl ⟨⟨_, rfl⟩, k2.trans ht⟩⟩
              · exact Except.noConfusion ht'
            | ok created =>
              rcases k2 with ⟨⟨e, he⟩, _⟩ | ⟨_, row, k2⟩
              · exact Except.noConfusion he
              · exact ⟨k1.trans hd, Or.inr ⟨rfl, row, by rw [← ht]; exact k2⟩⟩
          exact key _

theorem createTriples_rows (unitMap : List (String × Nat)) (reqs : List TripleRequest)
    (db : Store) (n : Nat) :
    (createTriples unitMap reqs db n).2.documents = db.documents ∧
    (∀ e, (createTriples unitMap reqs db n).1 = .error (.err e) →
      ∃ ctx cause, e = .wrap ctx cause) ∧
    (∀ r, (createTriples unitMap reqs db n).1 ≠ .error (.panic r)) ∧
    ∀ m, (createTriples unitMap reqs db n).1 = .ok m →
      m = n + reqs.length ∧
      ∃ rows, (createTriples unitMap reqs db n).2.triples = db.triples ++ rows ∧
        rows.length = reqs.length := by
  induction reqs generalizing db n with
  | nil =>
    refine ⟨rfl, ?_, ?_, ?_⟩
    · intro e h; simp [createTriples] at h
    · intro r h; simp [createTriples] at h
    · intro m h
      simp only [createTriples, Except.ok.injEq] at h
      exact ⟨by simp [← h], [], by simp [createTriples], rfl⟩
  | cons c rest ih =>
    unfold createTriples
    obtain ⟨k1, k2⟩ := createTripleFromRequest_rows db c unitMap
    rcases hg : createTripleFromRequest db c unitMap with ⟨r, db1⟩
    rw [hg] at k1 k2
    cases r with
    | some e =>
      refine ⟨k1, ?_, ?_, ?_⟩
      · intro e' h
        simp only [Except.error.injEq, Fault.err.injEq] at h
        exact ⟨_, _, h.symm⟩
      · intro r h; simp at h
      · intro m h; simp at h
    | none =>
      simp only
      rcases k2 with ⟨⟨e, he⟩, _⟩ | ⟨_, row, k2⟩
      · exact Option.noConfusion he
      · obtain ⟨i1, i2, i3, i4⟩ := ih db1 (n + 1)
        refine ⟨i1.trans k1, i2, i3, ?_⟩
        intro m h
        obtain ⟨j1, rows, j2, j3⟩ := i4 m h
        refine ⟨by simp only [List.length_cons]; omega, row :: rows, ?_, by simp [j3]⟩
        rw [j2]
        simp only at k2
        rw [k2]
        simp

theorem unitFor_fields (docID : Nat) (unitMap : List (String × Nat)) (r : UnitRequest) :
    (unitFor docID unitMap r).Code = r.Code ∧ (unitFor docID unitMap r).Text = r.Text ∧
    (unitFor docID unitMap r).DocumentID = docID := by
  unfold unitFor
  repeat' split
  all_goals exact ⟨rfl, rfl, rfl⟩

theorem createUnits_frame (docID : Nat) (reqs : List UnitRequest) (db : Store) (st : UnitLoop) :
    (createUnits docID reqs db st).2.documents = db.documents ∧
    (createUnits docID reqs db st).2.triples = db.triples ∧
    (∀ e, (createUnits docID reqs db st).1 = .error (.err e) →
      ∃ ctx cause, e = .wrap ctx cause) ∧
    ∀ st', (createUnits docID reqs db st).1 = .ok st' →
      st'.unitsCreated = st.unitsCreated + reqs.length ∧
      ∃ created, st'.createdUnits = st.createdUnits ++ created ∧
        List.Forall₂ (fun r u => u.Code = r.Code ∧ u.Text = r.Text ∧ u.DocumentID = docID)
          reqs created := by
  induction reqs generalizing db st with
  | nil =>
    refine ⟨rfl, rfl, ?_, ?_⟩
    · intro e h; simp [createUnits] at h
    · intro st' h
      simp only [createUnits, Except.ok.injEq] at h
      subst h
      exact ⟨rfl, [], by simp, List.Forall₂.nil⟩
  | cons r rest ih =>
    obtain ⟨f1, f2, f3⟩ := unitFor_fields docID st.unitMap r
    unfold createUnits
    simp only
    unfold CreateUnit
    by_cases hf : db.faulted = true
    · simp only [hf, if_true]
      cases hc : (unitFor docID st.unitMap r).Code with
      | none =>
        refine ⟨rfl, rfl, ?_, ?_⟩
        · intro e h; simp at h
        · intro st' h; simp at h
      | some code =>
        refine ⟨rfl, rfl, ?_, ?_⟩
        · intro e h
          simp only [Except.error.injEq, Fault.err.injEq] at h
          exact ⟨_, _, h.symm⟩
        · intro st' h; simp at h
    · simp only [hf, if_false, Bool.false_eq_true]
      set unit : Unit :=
        { unitFor docID st.unitMap r with ID := db.nextID, CreatedAt := db.now } with hu
      obtain ⟨i1, i2, i3, i4⟩ := ih
        { db.step with units := db.units ++ [unit], nextID := db.nextID + 1 }
        { unitMap := match unit.Code with
            | some code => mapSet st.unitMap code unit.ID
            | none => st.unitMap,
          createdUnits := st.createdUnits ++ [unit],
          unitsCreated := st.unitsCreated + 1 }
      refine ⟨i1, i2, i3, ?_⟩
      intro st' h
      obtain ⟨j1, created, j2, j3⟩ := i4 st' h
      refine ⟨by rw [j1]; simp only [List.length_cons]; omega, unit :: created, ?_, ?_⟩
      · rw [j2]; simp
      · exact List.Forall₂.cons ⟨f1, f2, f3⟩ j3

theorem embedUnits_frame (embedder : EmbeddingProvider) (model : String) (us : List Unit)
    (db : Store) (n : Nat) :
    (embedUnits embedder model us db n).2.documents = db.documents ∧
    (embedUnits embedder model us db n).2.triples = db.triples ∧
    (∀ e, (embedUnits embedder model us db n).1 = .error (.err e) →
      ∃ ctx cause, e = .wrap ctx cause) ∧
    (∀ r, (embedUnits embedder model us db n).1 ≠ .error (.panic r)) := by
  induction us generalizing db n with
  | nil => exact ⟨rfl, rfl, by intro e h; simp [embedUnits] at h, by intro r h; simp [embedUnits] at h⟩
  | cons u rest ih =>
    unfold embedUnits
    cases embedder.Embed u.Text with
    | error e =>
      refine ⟨rfl, rfl, ?_, by intro r h; simp at h⟩
      intro e' h
      simp only [Except.error.injEq, Fault.err.injEq] at h
      exact ⟨_, _, h.symm⟩
    | ok emb =>
      simp only
      have h := UpsertUnitEmbedding_frame db u.ID emb model
      rcases hg : UpsertUnitEmbedding db u.ID emb model with ⟨r, db1⟩
      rw [hg] at h
      cases r with
      | some e =>
        refine ⟨h.1, h.2, ?_, by intro r h; simp at h⟩
        intro e' h'
        simp only [Except.error.injEq, Fault.err.injEq] at h'
        exact ⟨_, _, h'.symm⟩
      | none =>
        simp only
        obtain ⟨i1, i2, i3, i4⟩ := ih db1 (n + 1)
        exact ⟨i1.trans h.1, i2.trans h.2, i3, i4⟩

theorem upsertConcepts_frame (reqs : List ConceptRequest) (db : Store) (n : Nat) :
    (upsertConcepts reqs db n).2.documents = db.documents ∧
    (upsertConcepts reqs db n).2.triples = db.triples ∧
    (∀ e, (upsertConcepts reqs db n).1 = .error (.err e) → ∃ ctx cause, e = .wrap ctx cause) ∧
    (∀ r, (upsertConcepts reqs db n).1 ≠ .error (.panic r)) := by
  induction reqs generalizing db n with
  | nil =>
    exact ⟨rfl, rfl, by intro e h; simp [upsertConcepts] at h,
      by intro r h; simp [upsertConcepts] at h⟩
  | cons c rest ih =>
    unfold upsertConcepts
    simp only
    have h := UpsertConcept_frame db c.Name c.Synonyms (if c.Type_ = "" then "general" else c.Type_)
    rcases hg : UpsertConcept db c.Name c.Synonyms (if c.Type_ = "" then "general" else c.Type_)
      with ⟨r, db1⟩
    rw [hg] at h
    cases r with
    | error e =>
      refine ⟨h.1, h.2, ?_, by intro r h; simp at h⟩
      intro e' h'
      simp only [Except.error.injEq, Fault.err.injEq] at h'
      exact ⟨_, _, h'.symm⟩
    | ok x =>
      simp only
      obtain ⟨i1, i2, i3, i4⟩ := ih db1 (n + 1)
      exact ⟨i1.trans h.1, i2.trans h.2, i3, i4⟩

theorem upsertRelations_frame (reqs : List RelationRequest) (db : Store) (n : Nat) :
    (upsertRelations reqs db n).2.documents = db.documents ∧
    (upsertRelations reqs db n).2.triples = db.triples ∧
    (∀ e, (upsertRelations reqs db n).1 = .error (.err e) → ∃ ctx cause, e = .wrap ctx cause) ∧
    (∀ r, (upsertRelations reqs db n).1 ≠ .error (.panic r)) := by
  induction reqs generalizing db n with
  | nil =>
    exact ⟨rfl, rfl, by intro e h; simp [upsertRelations] at h,
      by intro r h; simp [upsertRelations] at h⟩
  | cons c rest ih =>
    unfold upsertRelations
    simp only
    have h := UpsertRelation_frame db c.Name c.Keywords (if c.Type_ = "" then "general" else c.Type_)
    rcases hg : UpsertRelation db c.Name c.Keywords (if c.Type_ = "" then "general" else c.Type_)
      with ⟨r, db1⟩
    rw [hg] at h
    cases r with
    | error e =>
      refine ⟨h.1, h.2, ?_, by intro r h; simp at h⟩
      intro e' h'
      simp only [Except.error.injEq, Fault.err.injEq] at h'
      exact ⟨_, _, h'.symm⟩
    | ok x =>
      simp only
      obtain ⟨i1, i2, i3, i4⟩ := ih db1 (n + 1)
      exact ⟨i1.trans h.1, i2.trans h.2, i3, i4⟩

theorem storeTriple_documents (relationName : String) (unitID : Nat) (docRef : String)
    (acc : Extraction) (subjectName objectName : String) (extraContext : Option String) :
    (storeTriple relationName unitID docRef acc subjectName objectName extraContext).db.documents
      = acc.db.documents := by
  unfold storeTriple
  have h1 := (GetOrCreateConcept_frame acc.db subjectName "entity").1
  rcases hg1 : GetOrCreateConcept acc.db subjectName "entity" with ⟨r1, db1⟩
  rw [hg1] at h1
  cases r1 with
  | error e => exact h1
  | ok subject =>
    simp only
    have h2 := (GetOrCreateConcept_frame db1 objectName "entity").1
    rcases hg2 : GetOrCreateConcept db1 objectName "entity" with ⟨r2, db2⟩
    rw [hg2] at h2
    cases r2 with
    | error e => exact h2.trans h1
    | ok object =>
      simp only
      have h3 := (UpsertRelation_frame db2 relationName (relationKeywordsFor relationName)
        "legal_rule").1
      rcases hg3 : UpsertRelation db2 relationName (relationKeywordsFor relationName)
        "legal_rule" with ⟨r3, db3⟩
      rw [hg3] at h3
      cases r3 with
      | error e => exact (h3.trans h2).trans h1
      | ok relation =>
        simp only
        have h4 := CreateTriple_documents db3
          { SubjectID := subject.ID, RelationID := relation.ID, ObjectID := object.ID,
            UnitID := unitID, DocRef := docRef, Confidence := 0.8, Context := extraContext }
        rcases hg4 : CreateTriple db3
          { SubjectID := subject.ID, RelationID := relation.ID, ObjectID := object.ID,
            UnitID := unitID, DocRef := docRef, Confidence := 0.8, Context := extraContext }
          with ⟨r4, db4⟩
        rw [hg4] at h4
        cases r4 with
        | error e => exact ((h4.trans h3).trans h2).trans h1
        | ok created => exact ((h4.trans h3).trans h2).trans h1

theorem extractTriplesFromText_documents (db : Store) (unit : Unit) (doc : Document) :
    (extractTriplesFromText db unit doc).db.documents = db.documents := by
  rw [extractTriplesFromText_statements]
  suffices h : ∀ (l : List (String × String × String × Option String)) (acc : Extraction),
      (l.foldl (fun acc st =>
        storeTriple st.1 unit.ID (buildDocRef doc unit) acc st.2.1 st.2.2.1 st.2.2.2)
        acc).db.documents = acc.db.documents from h _ _
  intro l
  induction l with
  | nil => intro acc; rfl
  | cons st rest ih =>
    intro acc
    rw [List.foldl_cons, ih, storeTriple_documents]

theorem extractUnits_documents (doc : Document) (entries : List (String × Nat)) (db : Store)
    (counts : ExtractionCounts) :
    (extractUnits doc entries db counts).2.documents = db.documents := by
  induction entries generalizing db counts with
  | nil => rfl
  | cons entry rest ih =>
    unfold extractUnits
    have h := (GetUnit_frame db entry.2).1
    rcases hg : GetUnit db entry.2 with ⟨r, db1⟩
    rw [hg] at h
    cases r with
    | error e => simp only; rw [ih, h]
    | ok unit => simp only; rw [ih, extractTriplesFromText_documents, h]

theorem embedStage_frame (s : IngestionService) (req : IngestRequest) (us : List Unit)
    (db : Store) :
    (embedStage s req us db).2.documents = db.documents ∧
    (embedStage s req us db).2.triples = db.triples ∧
    (∀ e, (embedStage s req us db).1 = .error (.err e) → ∃ ctx cause, e = .wrap ctx cause) ∧
    (∀ r, (embedStage s req us db).1 ≠ .error (.panic r)) := by
  unfold embedStage
  cases s.embedder with
  | none => exact ⟨rfl, rfl, (by intro e h; cases h), (by intro r h; cases h)⟩
  | some embedder =>
    simp only
    split_ifs <;>
      first
      | exact embedUnits_frame _ _ _ _ _
      | exact ⟨rfl, rfl, (by intro e h; cases h), (by intro r h; cases h)⟩

theorem explicitStage_frame (req : IngestRequest) (unitMap : List (String × Nat))
    (db : Store) :
    (explicitStage req unitMap db).2.documents = db.documents ∧
    (∀ e, (explicitStage req unitMap db).1 = .error (.err e) →
      ∃ ctx cause, e = .wrap ctx cause) ∧
    (∀ r, (explicitStage req unitMap db).1 ≠ .error (.panic r)) ∧
    ∀ counts, (explicitStage req unitMap db).1 = .ok counts →
      counts.triples = req.Triples.length ∧
      ∃ rows, (explicitStage req unitMap db).2.triples = db.triples ++ rows ∧
        rows.length = req.Triples.length := by
  unfold explicitStage
  obtain ⟨a1, a2, a3, a4⟩ := upsertConcepts_frame req.Concepts db 0
  rcases hg2 : upsertConcepts req.Concepts db 0 with ⟨e2, db2⟩
  rw [hg2] at a1 a2 a3 a4
  cases e2 with
  | error f =>
    dsimp only
    refine ⟨a1, (fun e h => a3 e (by simp only [Except.error.injEq] at h ⊢; exact h)), (fun r h => a4 r (by simp only [Except.error.injEq] at h ⊢; exact h)), ?_⟩
    intro counts h; cases h
  | ok conceptsCreated =>
    simp only
    obtain ⟨b1, b2, b3, b4⟩ := upsertRelations_frame req.Relations db2 0
    rcases hg3 : upsertRelations req.Relations db2 0 with ⟨e3, db3⟩
    rw [hg3] at b1 b2 b3 b4
    cases e3 with
    | error f =>
      dsimp only
      refine ⟨b1.trans a1, (fun e h => b3 e (by simp only [Except.error.injEq] at h ⊢; exact h)), (fun r h => b4 r (by simp only [Except.error.injEq] at h ⊢; exact h)), ?_⟩
      intro counts h; cases h
    | ok relationsCreated =>
      simp only
      obtain ⟨c1, c2, c3, c4⟩ := createTriples_rows unitMap req.Triples db3 0
      rcases hg4 : createTriples unitMap req.Triples db3 0 with ⟨e4, db4⟩
      rw [hg4] at c1 c2 c3 c4
      cases e4 with
      | error f =>
        dsimp only
        refine ⟨(c1.trans b1).trans a1, (fun e h => c2 e (by simp only [Except.error.injEq] at h ⊢; exact h)), (fun r h => c3 r (by simp only [Except.error.injEq] at h ⊢; exact h)), ?_⟩
        intro counts h; cases h
      | ok triplesCreated =>
        dsimp only
        refine ⟨(c1.trans b1).trans a1, (by intro e h; cases h), (by intro r h; cases h), ?_⟩
        intro counts h
        simp only [Except.ok.injEq] at h
        obtain ⟨d1, rows, d2, d3⟩ := c4 triplesCreated rfl
        refine ⟨by rw [← h]; simpa using d1, rows, ?_, d3⟩
        simp only at d2 ⊢
        rw [d2, b2, a2]

theorem extractStage_frame (req : IngestRequest) (doc : Document)
    (unitMap : List (String × Nat)) (db : Store) (counts : ExtractionCounts) :
    (extractStage req doc unitMap db counts).2.documents = db.documents ∧
    (req.Triples ≠ [] → extractStage req doc unitMap db counts = (counts, db)) := by
  unfold extractStage
  split_ifs with h
  · exact ⟨extractUnits_documents _ _ _ _, fun hne => absurd (List.length_eq_zero.1 h) hne⟩
  · exact ⟨rfl, fun _ => rfl⟩

/-- What a run of the stages after the document was created leaves behind. -/
theorem ingestInto_post (s : IngestionService) (db : Store) (req : IngestRequest)
    (doc : Document) :
    (ingestInto s db req doc).2.documents = db.documents ∧
    (∀ e, (ingestInto s db req doc).1 = .error (.err e) → ∃ ctx cause, e = .wrap ctx cause) ∧
    ∀ resp, (ingestInto s db req doc).1 = .ok resp →
      resp.DocumentID = doc.ID ∧ resp.UnitsCreated = req.Units.length ∧
      (∃ created, (ingestInto s db req doc).2.units = db.units ++ created ∧
        List.Forall₂ (fun r u => u.Code = r.Code ∧ u.Text = r.Text ∧ u.DocumentID = doc.ID)
          req.Units created) ∧
      (req.Triples ≠ [] → resp.TriplesCreated = req.Triples.length ∧
        ∃ rows, (ingestInto s db req doc).2.triples = db.triples ++ rows ∧
          rows.length = req.Triples.length) := by
  have hunits := ingestInto_units s db req doc
  obtain ⟨created, u1, _, _, u4⟩ := createUnits_inv doc.ID req.Units db {}
    (by simp [mapGet]) (by simp) List.Pairwise.nil
  obtain ⟨a1, a2, a3, a4⟩ := createUnits_frame doc.ID req.Units db {}
  rw [u1] at hunits
  unfold ingestInto at hunits ⊢
  rcases hg0 : createUnits doc.ID req.Units db {} with ⟨r0, db0⟩
  rw [hg0] at a1 a2 a3 a4 u4 hunits
  cases r0 with
  | error f =>
    dsimp only
    exact ⟨a1, (fun e h => a3 e (by simp only [Except.error.injEq] at h ⊢; exact h)), by intro resp h; cases h⟩
  | ok units =>
    simp only at hunits ⊢
    obtain ⟨b1, b2, b3, b4⟩ := embedStage_frame s req units.createdUnits db0
    rcases hg1 : embedStage s req units.createdUnits db0 with ⟨e1, db1⟩
    rw [hg1] at b1 b2 b3 b4 hunits
    cases e1 with
    | error f =>
      dsimp only
      exact ⟨b1.trans a1, (fun e h => b3 e (by simp only [Except.error.injEq] at h ⊢; exact h)), by intro resp h; cases h⟩
    | ok embeddingsCreated =>
      simp only at hunits ⊢
      obtain ⟨c1, c2, c3, c4⟩ := explicitStage_frame req units.unitMap db1
      rcases hg2 : explicitStage req units.unitMap db1 with ⟨e2, db2⟩
      rw [hg2] at c1 c2 c3 c4 hunits
      cases e2 with
      | error f =>
        dsimp only
        exact ⟨(c1.trans b1).trans a1, (fun e h => c2 e (by simp only [Except.error.injEq] at h ⊢; exact h)), by intro resp h; cases h⟩
      | ok counts =>
        simp only at hunits ⊢
        obtain ⟨d1, d2⟩ := extractStage_frame req doc units.unitMap db2 counts
        refine ⟨((d1.trans c1).trans b1).trans a1, (by intro e h; cases h), ?_⟩
        intro resp h
        simp only [Except.ok.injEq] at h
        obtain ⟨k1, created', k2, k3⟩ := a4 units rfl
        obtain ⟨k4, _⟩ := u4 units rfl
        have hc : created' = created := by
          have := k2.symm.trans k4
          simpa using this
        subst hc
        refine ⟨by rw [← h]; rfl, by rw [← h]; simpa [ingestResponse] using k1,
          ⟨created', hunits, k3⟩, ?_⟩
        intro hne
        obtain ⟨m1, rows, m2, m3⟩ := c4 counts rfl
        rw [d2 hne] at h ⊢
        refine ⟨by rw [← h]; exact m1, rows, ?_, m3⟩
        simp only at m2 ⊢
        rw [m2, b2, a2]

/-- C12, counterexample: the sample request on an empty store sends 13 statements, the
twelfth (ordinal 11, time stamp 12) being the creation of the one pattern-extracted triple;
when that statement fails, `IngestLegalContent` still returns a success response, with no
triple stored. -/
theorem IngestLegalContent_extracted_triple_failure_ignored :
    (IngestLegalContent {} {} sampleIngest).2.triples.map (fun row => row.created_at) = [12] ∧
    (IngestLegalContent {} { faults := [11] } sampleIngest).2.calls = 13 ∧
    (IngestLegalContent {} { faults := [11] } sampleIngest).2.triples = [] ∧
    (IngestLegalContent {} { faults := [11] } sampleIngest).2.concepts.map (fun c => c.Name)
      = ["the driver", "wear a helmet"] ∧
    (IngestLegalContent {} { faults := [11] } sampleIngest).1 =
      .ok { DocumentID := 1, UnitsCreated := 2, TriplesCreated := 0, ConceptsCreated := 0,
            RelationsCreated := 0, EmbeddingsCreated := 0,
            ProcessingSummary :=
              "Successfully ingested document \x27Road Traffic Law\x27 with 2 units, " ++
              "extracted 0 triples, created 0 new concepts and 0 new relations" } := by
  decide!

/-- A success response of `IngestLegalContent` for a document that was not stored
before means that the document, every unit of the request and, when the request
has explicit triples, every one of them were stored; every error it returns wraps its
cause.  A failure while a pattern-extracted triple is stored is not reported: once the
units are created, a request without explicit concepts, relations and triples (and
without an embedder) gets a success response whatever fails afterwards. -/
theorem IngestLegalContent_success_means_stored (s : IngestionService) (db : Store)
    (req : IngestRequest) :
    (∀ resp, (IngestLegalContent s db req).1 = .ok resp →
      (∃ d ∈ db.documents, resp.DocumentID = d.ID ∧
        (IngestLegalContent s db req).2.documents = db.documents ∧
        (IngestLegalContent s db req).2.units = db.units ∧
        (IngestLegalContent s db req).2.triples = db.triples) ∨
      (∃ doc : Document, doc.ID = resp.DocumentID ∧ doc.Title = req.Document.Title ∧
        (IngestLegalContent s db req).2.documents = db.documents ++ [doc] ∧
        resp.UnitsCreated = req.Units.length ∧
        (∃ created, (IngestLegalContent s db req).2.units = db.units ++ created ∧
          List.Forall₂ (fun r u => u.Code = r.Code ∧ u.Text = r.Text ∧ u.DocumentID = doc.ID)
            req.Units created) ∧
        (req.Triples ≠ [] → resp.TriplesCreated = req.Triples.length ∧
          ∃ rows, (IngestLegalContent s db req).2.triples = db.triples ++ rows ∧
            rows.length = req.Triples.length))) ∧
    (∀ e, (IngestLegalContent s db req).1 = .error (.err e) →
      ∃ ctx cause, e = .wrap ctx cause) ∧
    (∀ db1 doc db2 st db3, s.embedder = none → req.Concepts = [] → req.Relations = [] →
      req.Triples = [] →
      FindDocumentByMetadata db req.Document.Title req.Document.Number = (.ok none, db1) →
      CreateDocument db1
        { Title := req.Document.Title, Type_ := req.Document.Type_,
          Number := req.Document.Number, Year := req.Document.Year,
          Authority := req.Document.Authority, Status := "active" } = (.ok doc, db2) →
      createUnits doc.ID req.Units db2 {} = (.ok st, db3) →
      ∃ resp, (IngestLegalContent s db req).1 = .ok resp) := by
  refine ⟨?_, ?_, ?_⟩
  · unfold IngestLegalContent FindDocumentByMetadata
    by_cases hf : db.faulted = true
    · simp only [hf, if_true]
      intro resp h
      cases h
    · simp only [hf, if_false, Bool.false_eq_true]
      split
      · rename_i heq
        simp only [Prod.mk.injEq] at heq
        exact absurd heq.1 (by simp)
      · rename_i d _ heq
        simp only [Prod.mk.injEq, Except.ok.injEq] at heq
        obtain ⟨hd, hdb⟩ := heq
        subst hdb
        intro resp h
        simp only [Except.ok.injEq] at h
        exact Or.inl ⟨d, List.mem_of_find?_eq_some hd, by rw [← h], rfl, rfl, rfl⟩
      · rename_i heq
        simp only [Prod.mk.injEq, Except.ok.injEq] at heq
        obtain ⟨_, hdb⟩ := heq
        subst hdb
        unfold CreateDocument
        by_cases hf1 : db.step.faulted = true
        · simp only [hf1, if_true]
          intro resp h
          cases h
        · simp only [hf1, if_false, Bool.false_eq_true]
          intro resp h
          obtain ⟨p1, _, p3⟩ := ingestInto_post s _ req _
          obtain ⟨q1, q2, q3, q4⟩ := p3 resp h
          exact Or.inr ⟨_, q1.symm, rfl, p1, q2, q3, q4⟩
  · unfold IngestLegalContent FindDocumentByMetadata
    by_cases hf : db.faulted = true
    · simp only [hf, if_true]
      intro e h
      simp only [Except.error.injEq, Fault.err.injEq] at h
      exact ⟨_, _, h.symm⟩
    · simp only [hf, if_false, Bool.false_eq_true]
      split
      · rename_i heq
        simp only [Prod.mk.injEq] at heq
        exact absurd heq.1 (by simp)
      · intro e h
        cases h
      · rename_i heq
        simp only [Prod.mk.injEq, Except.ok.injEq] at heq
        obtain ⟨_, hdb⟩ := heq
        subst hdb
        unfold CreateDocument
        by_cases hf1 : db.step.faulted = true
        · simp only [hf1, if_true]
          intro e h
          simp only [Except.error.injEq, Fault.err.injEq] at h
          exact ⟨_, _, h.symm⟩
        · simp only [hf1, if_false, Bool.false_eq_true]
          exact (ingestInto_post s _ req _).2.1
  · intro db1 doc db2 st db3 he hc hr ht hfind hdoc hunits
    unfold IngestLegalContent
    rw [hfind]
    simp only
    rw [hdoc]
    simp only [ingestInto, hunits, embedStage, he, explicitStage, hc, hr, ht, upsertConcepts,
      upsertRelations, createTriples]
    exact ⟨_, rfl⟩

/-- Failing creations on the sample requests: the first unit (statement 2), the explicit
triple (statement 10); and the unit without a code, where formatting the error panics. -/
theorem IngestLegalContent_abort_samples :
    (IngestLegalContent {} { faults := [1] } sampleIngest).1
      = .error (.err (.wrap "creating document" dbError)) ∧
    (IngestLegalContent {} { faults := [2] } sampleIngest).1
      = .error (.err (.wrap "creating unit Article 1" dbError)) ∧
    (IngestLegalContent {} { faults := [10] } explicitIngest).1
      = .error (.err (.wrap "creating triple driver-phải-helmet" dbError)) ∧
    (IngestLegalContent {} {} explicitIngest).2.triples.map (fun row => row.created_at) = [11] ∧
    (IngestLegalContent {} { faults := [2] } uncodedIngest).1
      = .error (.panic "invalid memory address or nil pointer dereference") := by
  decide!

/-! ### Pattern extractor: skipped matches and the rule table -/

/-- The guard on empty spans: a match whose second span trims to nothing is skipped, and
so is one whose first span does, unless the rule is a penalty rule whose pattern holds
"đối với", where the first span is moved to the context and not tested. -/
theorem matchNames_discards_empty (pattern : Pattern) (relationName : String)
    (m : List String) :
    (Strings.TrimSpace (m.getD 2 "") = "" → matchNames pattern relationName m = none) ∧
    (Strings.TrimSpace (m.getD 1 "") = "" →
      ¬ (relationName = "xử phạt" ∧ Strings.Contains pattern.source "đối với" = true) →
      matchNames pattern relationName m = none) := by
  unfold matchNames
  constructor
  · intro h
    split_ifs <;> simp_all
  · intro h hn
    split_ifs <;> simp_all

/-- C11, failing input: in "Phạt   đối với xe máy" the penalty pattern
`phạt ([^.;]+) đối với ([^.;]+)` matches with a first span of one blank, which trims to
the empty string; the match is not discarded: a triple with subject "người vi phạm",
object "xe máy" and the empty context is stored. -/
theorem extractTriplesFromText_blank_amount_kept :
    (allMatches (Strings.ToLower blankAmountUnit.Text)).map (fun x => (x.1.source, x.2))
      = [("phạt ([^.;]+) đối với ([^.;]+)", "xử phạt", ["phạt   đối với xe máy", " ", "xe máy"])] ∧
    Strings.TrimSpace " " = "" ∧
    extractedStatements (Strings.ToLower blankAmountUnit.Text)
      = [("xử phạt", "người vi phạm", "xe máy", some "")] ∧
    (extractTriplesFromText {} blankAmountUnit lawDoc).triples.map
        (fun t => (t.UnitID, t.Context)) = [(1, some "")] ∧
    (extractTriplesFromText {} blankAmountUnit lawDoc).db.concepts.map (fun c => c.Name)
      = ["người vi phạm", "xe máy"] := by
  decide!

theorem findAllFrom_length (re : Re) (fuel : Nat) (s : List Char) :
    ∀ m ∈ findAllFrom re fuel s, m.length = re.groups + 1 := by
  induction fuel generalizing s with
  | zero => intro m hm; simp [findAllFrom] at hm
  | succ fuel ih =>
    intro m hm
    unfold findAllFrom at hm
    cases hmh : matchHere re s with
    | none =>
      rw [hmh] at hm
      simp only at hm
      split_ifs at hm
      · simp at hm
      · exact ih _ m hm
    | some found =>
      obtain ⟨rest, m0⟩ := found
      rw [hmh] at hm
      simp only at hm
      have hm0 : m0.length = re.groups + 1 := by
        unfold matchHere at hmh
        split at hmh
        · simp only [Option.some.injEq, Prod.mk.injEq] at hmh
          rw [← hmh.2]
          simp
        · exact Option.noConfusion hmh
      rcases List.mem_cons.1 hm with h | h
      · rw [h]; exact hm0
      · split_ifs at h
        · exact ih _ m h
        · simp at h
        · exact ih _ m h

/-- A pattern with a single capture group never yields a triple: each of its matches has
two entries and is skipped by the test `len(match) < 3`. -/
theorem extractTriplesByPattern_single_group (pattern : Pattern) (relationName text : String)
    (unitID : Nat) (docRef : String) (acc : Extraction) (h : pattern.re.groups = 1) :
    extractTriplesByPattern pattern relationName text unitID docRef acc = acc := by
  unfold extractTriplesByPattern FindAllStringSubmatch
  have hlen := findAllFrom_length pattern.re (text.data.length + 1) text.data
  generalize findAllFrom pattern.re (text.data.length + 1) text.data = ms at hlen
  induction ms with
  | nil => rfl
  | cons m rest ih =>
    rw [List.foldl_cons]
    have hm : m.length = 2 := by rw [hlen m (List.mem_cons_self _ _), h]
    have hskip : extractMatch pattern relationName unitID docRef acc m = acc := by
      simp [extractMatch, matchNames, hm]
    rw [hskip]
    exact ih (fun x hx => hlen x (List.mem_cons_of_mem _ hx))

/-- The five English prohibition patterns have a single capture group. -/
theorem english_prohibition_single_group :
    ∀ p ∈ prohibitionPatterns, p.isEnglish = true → p.re.groups = 1 := by
  decide!

/-- C17, counterexample: the scope rule ("phạm vi điều chỉnh") has Vietnamese patterns
only, so not every rule has an English pattern. -/
theorem extractionRules_scope_without_english :
    ("phạm vi điều chỉnh", scopePatterns) ∈ extractionRules ∧
    (∀ p ∈ scopePatterns, p.isEnglish = false ∧ p.isVietnamese = true) ∧
    ¬ (∀ rule ∈ extractionRules,
        (∃ p ∈ rule.2, p.isEnglish = true) ∧ (∃ p ∈ rule.2, p.isVietnamese = true)) := by
  decide!

/-- C17, amended: the rule table covers the five canonical relations ("cấm", "phải",
"xử phạt", "áp dụng", "phạm vi điều chỉnh"), in this order; each of the five has at least
one Vietnamese pattern, each of the first four has at least one English pattern, and the
scope rule has none. -/
theorem extractionRules_cover_five_relations :
    extractionRules.map Prod.fst
      = ["cấm", "phải", "xử phạt", "áp dụng", "phạm vi điều chỉnh"] ∧
    (∀ rule ∈ extractionRules, ∃ p ∈ rule.2, p.isVietnamese = true) ∧
    (∀ rule ∈ extractionRules, rule.1 ≠ "phạm vi điều chỉnh" →
      ∃ p ∈ rule.2, p.isEnglish = true) ∧
    (∀ rule ∈ extractionRules, rule.1 = "phạm vi điều chỉnh" →
      ∀ p ∈ rule.2, p.isEnglish = false) ∧
    (∀ rule ∈ extractionRules, ∀ p ∈ rule.2, p.isEnglish = !p.isVietnamese) := by
  decide!


/-! ### Relevance score -/

/-- C21: `calculateRelevanceScore` equals, in exact arithmetic, `0.3·[lower-cased subject
name is a substring of the lower-cased query] + 0.4·[same for the relation name] +
0.3·[same for the object name] + 0.2·m/n`, with `n` the number of white-space-separated
words of the lower-cased query and `m` the number of those words of length above 2 that
occur in the lower-cased unit text (the last term is 0 when `n = 0`); when this sum is
exactly 0 the result is 0.1. -/
theorem calculateRelevanceScore_formula (triple : TripleView) (queryText : String) :
    calculateRelevanceScore triple queryText =
      (if relevanceSum triple queryText = 0 then 0.1 else relevanceSum triple queryText) ∧
    calculateRelevanceScore sampleTripleC "helmet for the rider" = 0.3 + 0.3 + 0.2 * 3 / 4 ∧
    calculateRelevanceScore sampleTripleC "speed limit" = 0.1 := by
  refine ⟨?_, by decide!, by decide!⟩
  have hsum : relevanceSum triple queryText =
      (let score : ℚ := 0.0
       let score := if Strings.Contains (Strings.ToLower queryText)
          (Strings.ToLower triple.SubjectName) then score + 0.3 else score
       let score := if Strings.Contains (Strings.ToLower queryText)
          (Strings.ToLower triple.RelationName) then score + 0.4 else score
       let score := if Strings.Contains (Strings.ToLower queryText)
          (Strings.ToLower triple.ObjectName) then score + 0.3 else score
       if (Strings.Fields (Strings.ToLower queryText)).length > 0
        then score + (matchedQueryWords triple queryText : ℚ) /
          ((Strings.Fields (Strings.ToLower queryText)).length : ℚ) * 0.2
        else score) := by
    unfold relevanceSum bracket
    simp only
    cases Strings.Contains (Strings.ToLower queryText) (Strings.ToLower triple.SubjectName) <;>
      cases Strings.Contains (Strings.ToLower queryText) (Strings.ToLower triple.RelationName) <;>
      cases Strings.Contains (Strings.ToLower queryText) (Strings.ToLower triple.ObjectName) <;>
      rcases Nat.eq_zero_or_pos (Strings.Fields (Strings.ToLower queryText)).length with h | h <;>
      simp [h, Nat.pos_iff_ne_zero.1, Nat.ne_of_gt] <;> ring
  rw [hsum]
  rfl

/-! ### Rerank documents -/

/-- C22, failing input: for the answer with title "Road Traffic Law" and context
"article 5" the document `ProcessQuery` builds is "Title: Road Traffic Law\nContent: "
followed by the bad-verb rendering of the context pointer, not by the context text: a
reranker that waits for the text of the context scores nothing, one that waits for the
pointer rendering scores the answer. -/
theorem rerankDoc_renders_pointer :
    (stage5Answers (probeEngine []) "helmet").map
        (fun answers => answers.map (fun a => (a.Title, a.Context)))
      = .ok [("Road Traffic Law", some "article 5")] ∧
    rerankDoc sampleRuntime 0 { Title := "Road Traffic Law", Context := some "article 5" }
      = "Title: Road Traffic Law\nContent: %!s(*string=0xc000010250)" ∧
    rerankDoc sampleRuntime 0 { Title := "Road Traffic Law", Context := some "article 5" }
      ≠ "Title: Road Traffic Law\nContent: article 5" ∧
    (ProcessQuery (probeEngine ["Title: Road Traffic Law\nContent: article 5"])
        sampleRuntime "helmet" false).map (fun r => r.Answers.length) = .ok 0 ∧
    (ProcessQuery (probeEngine ["Title: Road Traffic Law\nContent: %!s(*string=0xc000010250)"])
        sampleRuntime "helmet" false).map (fun r => r.Answers.length) = .ok 1 := by
  decide!

/-- The document built for an answer does not depend on the text of its context. -/
theorem rerankDoc_ignores_context_text (rt : Runtime) (i : Nat) (ans : Answer)
    (text other : String) (h : ans.Context = some text) :
    rerankDoc rt i ans = rerankDoc rt i { ans with Context := some other } ∧
    rerankDoc rt i ans =
      "Title: " ++ ans.Title ++ "\nContent: " ++ ("%!s(*string=0x" ++ rt.addr i ++ ")") := by
  simp [rerankDoc, sprintStringPtr, h]

/-! ### Query rewriting -/

theorem rewriteLines_head (query content : String) :
    ∃ more, rewriteLines query content = query :: more := by
  unfold rewriteLines
  suffices h : ∀ (lines : List String) (acc : List String),
      ∃ more, lines.foldl (fun queries line =>
        if Strings.TrimSpace line ≠ "" then queries ++ [Strings.TrimSpace line] else queries)
        (query :: acc) = query :: more from h _ []
  intro lines
  induction lines with
  | nil => intro acc; exact ⟨acc, rfl⟩
  | cons line rest ih =>
    intro acc
    rw [List.foldl_cons]
    split_ifs
    · exact ih (acc ++ [Strings.TrimSpace line])
    · exact ih acc

theorem OpenAI_RewriteQuery_head (p : Option (String → ChatCompletion)) (query : String) :
    ∃ more, (OpenAIQAProvider.RewriteQuery p query).1 = query :: more := by
  unfold OpenAIQAProvider.RewriteQuery
  repeat' split
  all_goals first | exact ⟨[], rfl⟩ | exact rewriteLines_head _ _

theorem Gemini_RewriteQuery_head (p : Option (String → GeminiReply)) (query : String) :
    ∃ more, (GeminiQAProvider.RewriteQuery p query).1 = query :: more := by
  unfold GeminiQAProvider.RewriteQuery
  repeat' split
  all_goals first | exact ⟨[], rfl⟩ | exact rewriteLines_head _ _

theorem resultOf_ok (r : List String × Option GoError) (l : List String)
    (h : resultOf r = .ok l) : l = r.1 := by
  unfold resultOf at h
  split at h
  · exact Except.noConfusion h
  · simp only [Except.ok.injEq] at h
    exact h.symm

/-- The variants for the query "helmet fine": the original and the two non-blank lines of
the model's text; the original alone when the call fails or the provider is nil. -/
theorem rewriteQueries_samples :
    rewriteQueries (openAIQA (some (fun _ =>
        .choices ["fine for no helmet\n\n  penalty helmet  \n"]))) "helmet fine"
      = ["helmet fine", "fine for no helmet", "penalty helmet"] ∧
    rewriteQueries (geminiQA (some (fun _ => .response 500 (.ok [["x"]])))) "helmet fine"
      = ["helmet fine"] ∧
    rewriteQueries (openAIQA none) "helmet fine" = ["helmet fine"] ∧
    rewriteQueries { RewriteQuery := fun _ => .ok ["crash helmet"] } "helmet fine"
      = ["crash helmet"] := by
  decide!

/-! ### Phrase terms -/

theorem phraseTerms_eq_flatMap (ws : List String) :
    phraseTerms ws = ws.tails.flatMap phrasesAt := by
  induction ws with
  | nil => simp [phraseTerms, phrasesAt]
  | cons w rest ih =>
    rw [phraseTerms, ih]
    simp [List.tails]

theorem phrasesAt_eq_windows (ws : List String) :
    phrasesAt ws = ((windowsAt (ws.map (fun word => Strings.Trim word punct))).filter
      windowEmitted).map joinWords := by
  have two : ∀ a b : String,
      (len a > 1 ∧ len b > 1 ∧ (!isStopWord a) = true ∧ (!isStopWord b) = true)
        ↔ windowEmitted [a, b] = true := by
    intro a b
    simp [windowEmitted, endsNotStopWords, and_assoc]
  have three : ∀ a b c : String,
      (len a > 1 ∧ len b > 1 ∧ len c > 1 ∧ (!isStopWord a) = true ∧ (!isStopWord c) = true)
        ↔ windowEmitted [a, b, c] = true := by
    intro a b c
    simp [windowEmitted, endsNotStopWords, and_assoc]
  have four : ∀ a b c d : String,
      (len a > 1 ∧ len b > 1 ∧ len c > 1 ∧ len d > 1 ∧
          (!isStopWord a) = true ∧ (!isStopWord d) = true)
        ↔ windowEmitted [a, b, c, d] = true := by
    intro a b c d
    simp [windowEmitted, endsNotStopWords, and_assoc]
  match ws with
  | [] => rfl
  | [_] => rfl
  | [a, b] =>
    simp only [phrasesAt, windowsAt, List.map, List.filterMap, List.length, List.take]
    simp only [two]
    by_cases h : windowEmitted [Strings.Trim a punct, Strings.Trim b punct] = true
    · simp [h, joinWords]
    · simp [h]
  | [a, b, c] =>
    simp only [phrasesAt, windowsAt, List.map, List.filterMap, List.length, List.take]
    simp only [two, three]
    by_cases h : windowEmitted [Strings.Trim a punct, Strings.Trim b punct] = true <;>
    by_cases h3 : windowEmitted
      [Strings.Trim a punct, Strings.Trim b punct, Strings.Trim c punct] = true <;>
    simp [h, h3, joinWords, String.append_assoc]
  | a :: b :: c :: d :: rest =>
    simp only [phrasesAt, windowsAt, List.map, List.filterMap, List.length, List.take]
    simp only [two, three, four]
    by_cases h : windowEmitted [Strings.Trim a punct, Strings.Trim b punct] = true <;>
    by_cases h3 : windowEmitted
      [Strings.Trim a punct, Strings.Trim b punct, Strings.Trim c punct] = true <;>
    by_cases h4 : windowEmitted
      [Strings.Trim a punct, Strings.Trim b punct, Strings.Trim c punct,
        Strings.Trim d punct] = true <;>
    simp [h, h3, h4, joinWords, String.append_assoc]

theorem phraseTerms_eq_windows (ws : List String) :
    phraseTerms ws = (((windows (ws.map (fun word => Strings.Trim word punct))).filter
      windowEmitted).map joinWords) := by
  rw [phraseTerms_eq_flatMap, windows]
  induction ws with
  | nil => rfl
  | cons w rest ih =>
    have ht : (w :: rest).tails = (w :: rest) :: rest.tails := by simp [List.tails]
    have ht2 : ((w :: rest).map (fun word => Strings.Trim word punct)).tails =
        ((w :: rest).map (fun word => Strings.Trim word punct)) ::
          (rest.map (fun word => Strings.Trim word punct)).tails := by simp [List.tails]
    rw [ht, ht2, List.flatMap_cons, List.flatMap_cons, List.filter_append, List.map_append,
      ← ih, phrasesAt_eq_windows]

theorem data_split_space (l1 l2 r1 r2 : List Char) (h1 : ' ' ∉ l1) (h2 : ' ' ∉ l2)
    (h : l1 ++ ' ' :: r1 = l2 ++ ' ' :: r2) : l1 = l2 ∧ r1 = r2 := by
  induction l1 generalizing l2 with
  | nil =>
    cases l2 with
    | nil => simpa using h
    | cons c l2 =>
      simp only [List.nil_append, List.cons_append, List.cons.injEq] at h
      exact absurd (h.1 ▸ List.mem_cons_self _ _) h2
  | cons c l1 ih =>
    cases l2 with
    | nil =>
      simp only [List.nil_append, List.cons_append, List.cons.injEq] at h
      exact absurd (h.1 ▸ List.mem_cons_self _ _) h1
    | cons d l2 =>
      simp only [List.cons_append, List.cons.injEq] at h
      obtain ⟨hl, hr⟩ := ih l2 (fun hm => h1 (List.mem_cons_of_mem _ hm))
        (fun hm => h2 (List.mem_cons_of_mem _ hm)) h.2
      exact ⟨by rw [h.1, hl], hr⟩

theorem joinWords_cons_data (a b : String) (rest : List String) :
    (joinWords (a :: b :: rest)).data = a.data ++ ' ' :: (joinWords (b :: rest)).data := by
  simp [joinWords, String.data_append]

theorem joinWords_injective (w1 w2 : List String)
    (h1 : ∀ a ∈ w1, ' ' ∉ a.data) (h2 : ∀ a ∈ w2, ' ' ∉ a.data)
    (n1 : w1 ≠ []) (n2 : w2 ≠ []) (h : joinWords w1 = joinWords w2) : w1 = w2 := by
  induction w1 generalizing w2 with
  | nil => exact absurd rfl n1
  | cons a r1 ih =>
    cases w2 with
    | nil => exact absurd rfl n2
    | cons b r2 =>
      have hd := congrArg String.data h
      cases r1 with
      | nil =>
        cases r2 with
        | nil =>
          simp only [joinWords] at h
          rw [h]
        | cons c r2 =>
          rw [joinWords_cons_data] at hd
          simp only [joinWords] at hd
          exact absurd (hd ▸ List.mem_append_right _ (List.mem_cons_self _ _))
            (h1 a (List.mem_cons_self _ _))
      | cons c r1 =>
        cases r2 with
        | nil =>
          rw [joinWords_cons_data] at hd
          simp only [joinWords] at hd
          exact absurd (hd ▸ List.mem_append_right _ (List.mem_cons_self _ _))
            (h2 b (List.mem_cons_self _ _))
        | cons d r2 =>
          rw [joinWords_cons_data, joinWords_cons_data] at hd
          obtain ⟨hab, hrest⟩ := data_split_space _ _ _ _ (h1 a (List.mem_cons_self _ _))
            (h2 b (List.mem_cons_self _ _)) hd
          have hrec := ih (d :: r2) (fun x hx => h1 x (List.mem_cons_of_mem _ hx))
            (fun x hx => h2 x (List.mem_cons_of_mem _ hx)) (by simp) (by simp)
            (String.ext hrest)
          rw [String.ext hab, hrec]

theorem windowsAt_spec (ws : List String) :
    ∀ w ∈ windowsAt ws, 2 ≤ w.length ∧ ∀ a ∈ w, a ∈ ws := by
  intro w hw
  simp only [windowsAt, List.mem_filterMap] at hw
  obtain ⟨n, hn, hsome⟩ := hw
  split_ifs at hsome with hle
  simp only [Option.some.injEq] at hsome
  subst hsome
  refine ⟨?_, fun a ha => List.mem_of_mem_take ha⟩
  rw [List.length_take, Nat.min_eq_left hle]
  simp only [List.mem_cons, List.mem_singleton, List.not_mem_nil, or_false] at hn
  omega

theorem windows_spec (ws : List String) :
    ∀ w ∈ windows ws, 2 ≤ w.length ∧ ∀ a ∈ w, a ∈ ws := by
  intro w hw
  simp only [windows, List.mem_flatMap, List.mem_tails] at hw
  obtain ⟨suffix, hsuf, hw⟩ := hw
  obtain ⟨hlen, hmem⟩ := windowsAt_spec suffix w hw
  exact ⟨hlen, fun a ha => hsuf.subset (hmem a ha)⟩

theorem joinWords_not_single (w : List String) (h : 2 ≤ w.length) :
    isSingleWord (joinWords w) = false := by
  match w, h with
  | a :: b :: rest, _ =>
    simp [isSingleWord, joinWords_cons_data]

theorem extractQueryTerms_phrases (queryText : String) :
    (extractQueryTerms queryText).filter (fun t => !isSingleWord t) =
      ((windows (trimmedWords queryText)).filter windowEmitted).map joinWords := by
  rw [trimmedWords, ← phraseTerms_eq_windows]
  simp only [extractQueryTerms, List.filter_append]
  rw [List.filter_eq_nil_iff.2, List.filter_eq_self.2, List.nil_append]
  · intro t ht
    rw [phraseTerms_not_single _ t ht]
    rfl
  · intro t ht
    have := trimmed_field_single _ t (List.mem_of_mem_filter ht)
    simp [this]

/-- C24, counterexample: in "article 5 applies" the window of all three words has first and
last words that are non-stopwords of length above 1, and the joined window is not a term,
because the inner word "5" has length 1; the same holds for "wearing a helmet". -/
theorem extractQueryTerms_inner_word_length_filtered :
    ["article", "5", "applies"] ∈ windows (trimmedWords "Article 5 applies") ∧
    endsMeaningful ["article", "5", "applies"] = true ∧
    joinWords ["article", "5", "applies"] = "article 5 applies" ∧
    "article 5 applies" ∉ extractQueryTerms "Article 5 applies" ∧
    extractQueryTerms "Article 5 applies" = ["article", "applies"] ∧
    ["wearing", "a", "helmet"] ∈ windows (trimmedWords "wearing a helmet?") ∧
    endsMeaningful ["wearing", "a", "helmet"] = true ∧
    joinWords ["wearing", "a", "helmet"] ∉ extractQueryTerms "wearing a helmet?" := by
  decide!

/-- C24, amended: the phrase terms of `extractQueryTerms` are, in order of start position
and then of size, the space-joined contiguous windows of 2, 3 and 4 trimmed lower-cased
words in which every word has length (bytes) above 1 and the first and last words are
not stop words; a window is emitted as a term if and only if it meets this condition, so
an inner word is tested for length but not against the stop-word list ("fine for no
helmet" is emitted with the stop word "for" inside). -/
theorem extractQueryTerms_windows (queryText : String) :
    (extractQueryTerms queryText).filter (fun t => !isSingleWord t) =
      ((windows (trimmedWords queryText)).filter windowEmitted).map joinWords ∧
    (∀ window ∈ windows (trimmedWords queryText),
      joinWords window ∈ extractQueryTerms queryText ↔ windowEmitted window = true) ∧
    (∀ window, windowEmitted window =
      (window.all (fun word => decide (len word > 1)) && endsNotStopWords window)) ∧
    (extractQueryTerms "fine for no helmet").filter (fun t => !isSingleWord t) =
      ["fine for no", "fine for no helmet", "no helmet"] := by
  refine ⟨extractQueryTerms_phrases queryText, ?_, fun _ => rfl, by decide!⟩
  intro window hw
  have hspec := windows_spec _ window hw
  have hnosp : ∀ w ∈ windows (trimmedWords queryText), ∀ a ∈ w, ' ' ∉ a.data := by
    intro w hw a ha
    have hs := trimmed_field_single (Strings.ToLower queryText) a
      ((windows_spec _ w hw).2 a ha)
    simpa [isSingleWord] using hs
  constructor
  · intro hmem
    have hin : joinWords window ∈
        (extractQueryTerms queryText).filter (fun t => !isSingleWord t) :=
      List.mem_filter.2 ⟨hmem, by rw [joinWords_not_single window hspec.1]; rfl⟩
    rw [extractQueryTerms_phrases] at hin
    obtain ⟨other, hother, hjoin⟩ := List.mem_map.1 hin
    obtain ⟨hoth, hemit⟩ := List.mem_filter.1 hother
    have hne : ∀ w : List String, 2 ≤ w.length → w ≠ [] := by
      intro w hl hnil
      rw [hnil] at hl
      simp at hl
    have heq := joinWords_injective other window (hnosp other hoth) (hnosp window hw)
      (hne _ (windows_spec _ other hoth).1) (hne _ hspec.1) hjoin
    rw [← heq]
    exact hemit
  · intro hemit
    have hin : joinWords window ∈
        ((windows (trimmedWords queryText)).filter windowEmitted).map joinWords :=
      List.mem_map.2 ⟨window, List.mem_filter.2 ⟨hw, hemit⟩, rfl⟩
    rw [← extractQueryTerms_phrases] at hin
    exact List.mem_of_mem_filter hin

/-! ### Snippets -/

theorem generateSnippet_within_200_bytes (triple : TripleView) (h : len triple.UnitText ≤ 200) :
    generateSnippet triple = .ok (utf8 triple.UnitText) := by
  simp [generateSnippet, h]

/-- C25, failing input: the Vietnamese rule `helmetRuleText` has 179 characters, which is
at most 200, and 236 bytes; `generateSnippet` does not return it verbatim but its first
185 bytes (141 characters) followed by "...", and for the same text with only the object
name known the snippet stops after the first byte of the three-byte letter "ồ". -/
theorem generateSnippet_short_vietnamese_cut :
    helmetRuleText.length = 179 ∧ len helmetRuleText = 236 ∧
    generateSnippet helmetRuleTriple ≠ .ok (utf8 helmetRuleText) ∧
    generateSnippet helmetRuleTriple =
      .ok (utf8 "Người điều khiển xe mô tô, xe gắn máy phải đội mũ bảo hiểm có cài quai đúng quy cách khi tham gia giao thông đường bộ; người vi phạm bị phạt " ++ utf8 "...") ∧
    generateSnippet { helmetRuleTriple with SubjectName := "" } =
      .ok (utf8 "..." ++ utf8 "u khiển xe mô tô, xe gắn máy phải đội mũ bảo hiểm có cài quai đúng quy cách khi tham gia giao thông đường bộ; người vi phạm bị phạt tiền từ 400.000 đồng đến 600.000 đ" ++ [0xE1] ++ utf8 "...") ∧
    utf8 "ồ" = [0xE1, 0xBB, 0x93] := by
  decide!

theorem utf8_length (s : String) : (utf8 s).length = len s := by
  unfold utf8 len
  induction s.data with
  | nil => rfl
  | cons c rest ih =>
    simp only [List.flatMap_cons, List.length_append, List.map_cons, List.sum_cons, ih,
      String.length_utf8EncodeChar]

theorem indexRunes_lower (name text : List Char)
    (hkeep : ∀ c ∈ text, (Unicode.ToLower c).utf8Size = c.utf8Size) :
    Strings.indexRunes (name.map Unicode.ToLower) (text.map Unicode.ToLower) =
      caseInsensitiveOffset name text := by
  induction text with
  | nil => simp [Strings.indexRunes, caseInsensitiveOffset]
  | cons c rest ih =>
    simp only [List.map_cons, Strings.indexRunes, caseInsensitiveOffset]
    rw [ih (fun d hd => hkeep d (List.mem_cons_of_mem _ hd)), hkeep c (List.mem_cons_self _ _)]

theorem caseInsensitiveOffset_le (name text : List Char) (idx : Nat)
    (h : caseInsensitiveOffset name text = some idx) : idx ≤ (text.map Char.utf8Size).sum := by
  induction text generalizing idx with
  | nil =>
    simp only [caseInsensitiveOffset] at h
    split_ifs at h
    simp only [Option.some.injEq] at h
    omega
  | cons c rest ih =>
    simp only [caseInsensitiveOffset] at h
    split_ifs at h
    · simp only [Option.some.injEq] at h
      omega
    · obtain ⟨i, hi, rfl⟩ := Option.map_eq_some'.1 h
      have := ih i hi
      simp only [List.map_cons, List.sum_cons]
      omega

theorem snippetAround_none (text term : String) (rest : List String)
    (hkeep : lowerKeepsSize text) (h : nameOffset text term = none) :
    snippetAround text (term :: rest) = snippetAround text rest := by
  unfold nameOffset at h
  rw [snippetAround]
  split_ifs with hempty
  · rfl
  · rw [if_neg hempty] at h
    have hidx : Strings.Index (Strings.ToLower text) (Strings.ToLower term) = none := by
      unfold Strings.Index Strings.ToLower
      rw [indexRunes_lower _ _ hkeep, h]
    simp only [hidx]

theorem snippetAround_some (text term : String) (rest : List String) (idx : Nat)
    (hkeep : lowerKeepsSize text) (h : nameOffset text term = some idx) :
    snippetAround text (term :: rest) = .ok (snippetWindow text term idx) := by
  unfold nameOffset at h
  rw [snippetAround]
  split_ifs with hempty
  · rw [if_pos hempty] at h
    exact Option.noConfusion h
  · rw [if_neg hempty] at h
    have hidx : Strings.Index (Strings.ToLower text) (Strings.ToLower term) = some idx := by
      unfold Strings.Index Strings.ToLower
      rw [indexRunes_lower _ _ hkeep, h]
    have hle : idx ≤ len text := caseInsensitiveOffset_le _ _ _ h
    unfold snippetWindow
    simp only [hidx]
    have hstart : max (0 : Int) ((idx : Int) - 50) = ((idx - 50 : Nat) : Int) := by omega
    have hstop : min (len text : Int) ((idx : Int) + (len term : Int) + 150) =
        ((min (len text) (idx + len term + 150) : Nat) : Int) := by omega
    rw [hstart, hstop]
    have hSE : idx - 50 ≤ min (len text) (idx + len term + 150) := by omega
    have hEle : min (len text) (idx + len term + 150) ≤ len text := by omega
    generalize min (len text) (idx + len term + 150) = E at hSE hEle ⊢
    generalize idx - 50 = S at hSE ⊢
    have hslice : sliceBytes (utf8 text) (S : Int) (E : Int) =
        .ok (((utf8 text).drop S).take (E - S)) := by
      unfold sliceBytes
      rw [if_pos]
      · simp only [Int.toNat_ofNat]
      · rw [utf8_length]
        omega
    rw [hslice]
    have h1 : ((S : Int) > 0) ↔ S > 0 := by omega
    have h2 : ((E : Int) < (len text : Int)) ↔ E < len text := by omega
    simp only [bind, Except.bind, pure, Except.pure, h1, h2]
    by_cases c1 : S > 0 <;> by_cases c2 : E < len text <;>
    simp only [c1, c2, if_true, if_false, List.append_nil, List.nil_append, List.append_assoc]

theorem snippetAround_fallback (text : String) (hlong : len text > 200) :
    snippetAround text [] = .ok ((utf8 text).take 200 ++ utf8 "...") := by
  have hslice : sliceBytes (utf8 text) 0 200 = .ok ((utf8 text).take 200) := by
    unfold sliceBytes
    rw [if_pos]
    · rfl
    · rw [utf8_length]
      omega
  simp only [snippetAround, hslice, bind, Except.bind, pure, Except.pure]

theorem take_utf8_single_bytes (n : Nat) (l : List Char)
    (h : ∀ c ∈ l.take n, c.utf8Size = 1) :
    (l.flatMap String.utf8EncodeChar).take n = (l.take n).flatMap String.utf8EncodeChar := by
  induction l generalizing n with
  | nil => simp
  | cons c rest ih =>
    cases n with
    | zero => simp
    | succ k =>
      have hc : (String.utf8EncodeChar c).length = 1 := by
        rw [String.length_utf8EncodeChar]
        exact h c (by simp)
      obtain ⟨b, hb⟩ := List.length_eq_one.1 hc
      have hrest := ih k (fun d hd => h d (by
        rw [List.take_succ_cons]
        exact List.mem_cons_of_mem _ hd))
      simp only [List.flatMap_cons, List.take_succ_cons, hb, List.singleton_append, hrest]

theorem caseInsensitiveOffset_first (name text : List Char) (idx : Nat)
    (h : caseInsensitiveOffset name text = some idx) :
    ∃ before rest, text = before ++ rest ∧ (before.map Char.utf8Size).sum = idx ∧
      (name.map Unicode.ToLower).isPrefixOf (rest.map Unicode.ToLower) = true ∧
      ∀ k < before.length,
        (name.map Unicode.ToLower).isPrefixOf ((text.drop k).map Unicode.ToLower) = false := by
  induction text generalizing idx with
  | nil =>
    simp only [caseInsensitiveOffset] at h
    split_ifs at h with hn
    simp only [Option.some.injEq] at h
    refine ⟨[], [], rfl, by simpa using h, ?_, by simp⟩
    rw [List.isEmpty_iff.1 hn]
    rfl
  | cons c rest ih =>
    simp only [caseInsensitiveOffset] at h
    split_ifs at h with hp
    · simp only [Option.some.injEq] at h
      exact ⟨[], c :: rest, rfl, by simpa using h, hp, by simp⟩
    · obtain ⟨i, hi, rfl⟩ := Option.map_eq_some'.1 h
      obtain ⟨before, after, htext, hsum, hpre, hmin⟩ := ih i hi
      refine ⟨c :: before, after, by rw [htext]; rfl, ?_, hpre, ?_⟩
      · simp only [List.map_cons, List.sum_cons, hsum]
        omega
      · intro k hk
        cases k with
        | zero =>
          simp only [List.drop_zero]
          exact Bool.eq_false_iff.2 hp
        | succ j =>
          simp only [List.drop_succ_cons]
          exact hmin j (by simpa using hk)

/-- An empty name is skipped: the unit text `paddedHelmetText` is longer than 200 and the
empty subject name occurs in it at index 0 (`strings.Index` of the empty string); the code
does not take the window at index 0 but the window of the object name "helmet" found at
index 100, "..." followed by the bytes from 50 to the end. -/
theorem generateSnippet_skips_empty_name :
    len unnamedSubjectTriple.UnitText = 206 ∧
    Strings.Index (Strings.ToLower unnamedSubjectTriple.UnitText)
      (Strings.ToLower unnamedSubjectTriple.SubjectName) = some 0 ∧
    caseInsensitiveOffset unnamedSubjectTriple.SubjectName.data
      unnamedSubjectTriple.UnitText.data = some 0 ∧
    snippetWindow paddedHelmetText "" 0 = (utf8 paddedHelmetText).take 150 ++ utf8 "..." ∧
    generateSnippet unnamedSubjectTriple ≠ .ok (snippetWindow paddedHelmetText "" 0) ∧
    generateSnippet unnamedSubjectTriple = .ok (snippetWindow paddedHelmetText "helmet" 100) ∧
    snippetWindow paddedHelmetText "helmet" 100 =
      utf8 "..." ++ (utf8 paddedHelmetText).drop 50 := by
  decide!

/-- Where the description holds: for every triple whose unit text is longer than 200 bytes
and keeps the byte length of each of its characters under lower-casing, `generateSnippet`
skips an empty name, takes the first case-insensitive occurrence `idx` of the subject name in the text, or
else of the object name, and returns the bytes of the text from `max(0, idx-50)` to
`min(len(text), idx+len(name)+150)`, with "..." in front exactly when the window starts
after the beginning and "..." behind exactly when it stops before the end; when no
non-empty name occurs and the first 200 characters are single bytes, it returns the first
200 characters followed by "...". -/
theorem generateSnippet_window (triple : TripleView)
    (hlong : len triple.UnitText > 200) (hkeep : lowerKeepsSize triple.UnitText) :
    (∀ idx, nameOffset triple.UnitText triple.SubjectName = some idx →
      generateSnippet triple = .ok (snippetWindow triple.UnitText triple.SubjectName idx)) ∧
    (nameOffset triple.UnitText triple.SubjectName = none →
      ∀ idx, nameOffset triple.UnitText triple.ObjectName = some idx →
        generateSnippet triple =
          .ok (snippetWindow triple.UnitText triple.ObjectName idx)) ∧
    (nameOffset triple.UnitText triple.SubjectName = none →
      nameOffset triple.UnitText triple.ObjectName = none →
      (∀ c ∈ triple.UnitText.data.take 200, c.utf8Size = 1) →
        generateSnippet triple =
          .ok (utf8 ⟨triple.UnitText.data.take 200⟩ ++ utf8 "...")) ∧
    (∀ name idx, nameOffset triple.UnitText name = some idx →
      name ≠ "" ∧ idx ≤ len triple.UnitText ∧
      ∃ before rest, triple.UnitText.data = before ++ rest ∧
        (before.map Char.utf8Size).sum = idx ∧
        (name.data.map Unicode.ToLower).isPrefixOf (rest.map Unicode.ToLower) = true ∧
        ∀ k < before.length, (name.data.map Unicode.ToLower).isPrefixOf
          ((triple.UnitText.data.drop k).map Unicode.ToLower) = false) := by
  have hgen : generateSnippet triple =
      snippetAround triple.UnitText [triple.SubjectName, triple.ObjectName] := by
    unfold generateSnippet
    rw [if_neg (by omega)]
  refine ⟨?_, ?_, ?_, ?_⟩
  · intro idx h
    rw [hgen, snippetAround_some _ _ _ idx hkeep h]
  · intro hs idx h
    rw [hgen, snippetAround_none _ _ _ hkeep hs, snippetAround_some _ _ _ idx hkeep h]
  · intro hs ho hascii
    rw [hgen, snippetAround_none _ _ _ hkeep hs, snippetAround_none _ _ _ hkeep ho,
      snippetAround_fallback _ hlong]
    unfold utf8
    rw [take_utf8_single_bytes 200 _ hascii]
  · intro name idx h
    unfold nameOffset at h
    split_ifs at h with hempty
    exact ⟨hempty, caseInsensitiveOffset_le _ _ _ h, caseInsensitiveOffset_first _ _ _ h⟩

/-- The Vietnamese rule `helmetRuleText` (236 bytes) with the subject name at index 0: the snippet is the window of the first 185 bytes followed by "...". -/
theorem generateSnippet_window_witness :
    len helmetRuleTriple.UnitText > 200 ∧ lowerKeepsSize helmetRuleTriple.UnitText ∧
    nameOffset helmetRuleTriple.UnitText helmetRuleTriple.SubjectName = some 0 ∧
    generateSnippet helmetRuleTriple =
      .ok (snippetWindow helmetRuleTriple.UnitText helmetRuleTriple.SubjectName 0) :=
  ⟨by decide!, by decide!, by decide!,
    (generateSnippet_window helmetRuleTriple (by decide!) (by decide!)).1 0 (by decide!)⟩

/-- On ASCII text the description holds as stated: the mixed-case "Helmet" is found at
index 100 for the subject name "helmet", and a text without either name is cut to its
first 200 characters. -/
theorem generateSnippet_ascii_samples :
    generateSnippet { unnamedSubjectTriple with SubjectName := "HELMET", ObjectName := "a" }
      = .ok (utf8 "..." ++ (utf8 paddedHelmetText).drop 50) ∧
    generateSnippet { unnamedSubjectTriple with SubjectName := "rider", ObjectName := "fine" }
      = .ok (utf8 (String.mk (List.replicate 100 (Char.ofNat 97)) ++ "Helmet" ++
          String.mk (List.replicate 94 (Char.ofNat 98))) ++ utf8 "...") := by
  decide!

/-- C28, failing input: the unit text `stretchedText` has 203 bytes and its subject name
"x" is found, at index 303 of the lower-cased text (304 bytes); the bounds computed are
start 253 and end 203, so start exceeds end and the slice of the text panics. -/
theorem generateSnippet_slice_out_of_range :
    len stretchedText = 203 ∧ len (Strings.ToLower stretchedText) = 304 ∧
    Strings.Index (Strings.ToLower stretchedText) (Strings.ToLower "x") = some 303 ∧
    max (0 : Int) (303 - 50) = 253 ∧
    min (len stretchedText : Int) (303 + (len "x" : Int) + 150) = 203 ∧
    sliceBytes (utf8 stretchedText) 253 203 = .error (.panic "slice bounds out of range") ∧
    generateSnippet { UnitText := stretchedText, SubjectName := "x", ObjectName := "y" }
      = .error (.panic "slice bounds out of range") ∧
    ¬ lowerKeepsSize stretchedText := by
  decide!

/-- C26, failing input: the unit text `shrunkText` (326 bytes: sixty "İ", a hundred "a",
"helmet", a hundred "b") holds the subject name "helmet" at byte 220, its first
case-insensitive occurrence; the code searches the lower-cased text, where each "İ" became
the one-byte "i", finds index 160 and cuts the original text there: it returns "..." with
the bytes from 110 to 316 and "...", not the window from 170 to 326 around byte 220. -/
theorem generateSnippet_index_of_lowered_text :
    len shrunkText = 326 ∧
    caseInsensitiveOffset "helmet".data shrunkText.data = some 220 ∧
    Strings.Index (Strings.ToLower shrunkText) (Strings.ToLower "helmet") = some 160 ∧
    generateSnippet { UnitText := shrunkText, SubjectName := "helmet" }
      = .ok (utf8 "..." ++ ((utf8 shrunkText).drop 110).take 206 ++ utf8 "...") ∧
    snippetWindow shrunkText "helmet" 220 = utf8 "..." ++ (utf8 shrunkText).drop 170 ∧
    generateSnippet { UnitText := shrunkText, SubjectName := "helmet" }
      ≠ .ok (snippetWindow shrunkText "helmet" 220) ∧
    ¬ lowerKeepsSize shrunkText := by
  decide!

/-! ### Penalty rebinding -/

/-- C27: a match that is not skipped yields, under a penalty rule (relation "xử phạt") whose
pattern text holds the connective "đối với", the subject "người vi phạm", the trimmed second
span as object and the trimmed first span as context, and under every other rule the
trimmed first and second spans as subject and object and no context; on a store that
refuses no statement the triple emitted for the match carries this context and refers to
concepts with these names. The rules that rebind are the three Vietnamese penalty patterns
with "đối với"; the application pattern "áp dụng đối với" does not rebind. -/
theorem extractTriplesByPattern_penalty_rebinding (pattern : Pattern) (relationName : String)
    (m : List String) :
    (∀ names, matchNames pattern relationName m = some names →
      ((relationName = "xử phạt" ∧ Strings.Contains pattern.source "đối với" = true) →
        names = ("người vi phạm", Strings.TrimSpace (m.getD 2 ""),
          some (Strings.TrimSpace (m.getD 1 "")))) ∧
      (¬ (relationName = "xử phạt" ∧ Strings.Contains pattern.source "đối với" = true) →
        names = (Strings.TrimSpace (m.getD 1 ""), Strings.TrimSpace (m.getD 2 ""), none))) ∧
    (∀ names (unitID : Nat) (docRef : String) (db : Store), db.faults = [] →
      matchNames pattern relationName m = some names →
      ∃ t, (extractMatch pattern relationName unitID docRef { db := db } m).triples = [t] ∧
        t.Context = names.2.2 ∧
        (∃ c ∈ (extractMatch pattern relationName unitID docRef { db := db } m).db.concepts,
          c.ID = t.SubjectID ∧ c.Name = names.1) ∧
        (∃ c ∈ (extractMatch pattern relationName unitID docRef { db := db } m).db.concepts,
          c.ID = t.ObjectID ∧ c.Name = names.2.1)) ∧
    extractionRules.flatMap (fun rule => (rule.2.filter (fun p =>
        decide (rule.1 = "xử phạt") && Strings.Contains p.source "đối với")).map
          (fun p => p.source)) =
      ["phạt tiền (?:từ )?([0-9\\.\\s]+(?:đ|đồng|vnđ)) (?:đến [0-9\\.\\s]+(?:đ|đồng|vnđ) )?đối với ([^.;]+)",
       "phạt ([^.;]+) đối với ([^.;]+)", "xử phạt ([^.;]+) đối với ([^.;]+)"] ∧
    extractedStatements "phạt tiền từ 400.000 đồng đến 600.000 đồng đối với người không đội mũ bảo hiểm."
      = [("xử phạt", "người vi phạm", "người không đội mũ bảo hiểm", some "400.000 đồng")] ∧
    extractedStatements "luật này áp dụng đối với người lái xe."
      = [("áp dụng", "luật này", "người lái xe", none)] := by
  refine ⟨?_, ?_, by decide!, by decide!, by decide!⟩
  · intro names h
    unfold matchNames at h
    split_ifs at h with h1 h2
    · simp only at h
      split_ifs at h
      simp only [Option.some.injEq] at h
      exact ⟨fun _ => h.symm, fun hn => absurd h2 hn⟩
    · simp only at h
      split_ifs at h
      simp only [Option.some.injEq] at h
      exact ⟨fun hp => absurd hp h2, fun _ => h.symm⟩
  · intro names unitID docRef db hf h
    obtain ⟨t, ht, hctx, _, _, _, hsub, hobj⟩ :=
      storeTriple_ok relationName unitID docRef db names.1 names.2.1 names.2.2 hf
    have hex : extractMatch pattern relationName unitID docRef { db := db } m =
        storeTriple relationName unitID docRef { db := db } names.1 names.2.1 names.2.2 := by
      unfold extractMatch
      rw [h]
    rw [hex]
    exact ⟨t, ht, hctx, hsub, hobj⟩

/-! ### Extraction scope -/

theorem scannedUnits_ids (doc : Document) (m : List (String × Nat)) (db : Store) :
    ∀ x ∈ scannedUnits doc m db, ∃ entry ∈ m, x.1.ID = entry.2 := by
  induction m generalizing db with
  | nil => intro x hx; simp [scannedUnits] at hx
  | cons entry rest ih =>
    intro x hx
    unfold scannedUnits at hx
    rcases hg : GetUnit db entry.2 with ⟨r, db1⟩
    rw [hg] at hx
    cases r with
    | error e =>
      simp only at hx
      obtain ⟨en, hen, hid⟩ := ih db1 x hx
      exact ⟨en, List.mem_cons_of_mem _ hen, hid⟩
    | ok unit =>
      simp only [List.mem_cons] at hx
      rcases hx with hx | hx
      · refine ⟨entry, List.mem_cons_self _ _, ?_⟩
        rw [hx]
        unfold GetUnit at hg
        split_ifs at hg
        · simp at hg
        · split at hg
          · rename_i found hfind
            simp only [Prod.mk.injEq, Except.ok.injEq] at hg
            rw [← hg.1]
            simpa using List.find?_some hfind
          · simp at hg
      · obtain ⟨en, hen, hid⟩ := ih _ x hx
        exact ⟨en, List.mem_cons_of_mem _ hen, hid⟩

theorem extractUnits_scanned (doc : Document) (m : List (String × Nat)) (db : Store)
    (counts : ExtractionCounts) :
    (extractUnits doc m db counts).1.triples =
      counts.triples + ((scannedUnits doc m db).map (fun x => x.2.triples.length)).sum := by
  induction m generalizing db counts with
  | nil => simp [extractUnits, scannedUnits]
  | cons entry rest ih =>
    unfold extractUnits scannedUnits
    rcases GetUnit db entry.2 with ⟨r, db1⟩
    cases r with
    | error e => exact ih db1 counts
    | ok unit =>
      simp only [List.map_cons, List.sum_cons]
      rw [ih]
      simp only
      omega

theorem createUnits_unitMap (docID : Nat) (reqs : List UnitRequest) (db : Store) (st : UnitLoop)
    (hmap : ∀ k, mapGet st.unitMap k =
      (st.createdUnits.reverse.find? (fun v => v.Code = some k)).map (fun v => v.ID))
    (hnodup : (st.unitMap.map Prod.fst).Nodup) :
    ∀ st', (createUnits docID reqs db st).1 = .ok st' →
      (∀ k, mapGet st'.unitMap k =
        (st'.createdUnits.reverse.find? (fun v => v.Code = some k)).map (fun v => v.ID)) ∧
      (st'.unitMap.map Prod.fst).Nodup := by
  induction reqs generalizing db st with
  | nil =>
    intro st' h
    simp only [createUnits, Except.ok.injEq] at h
    rw [← h]
    exact ⟨hmap, hnodup⟩
  | cons r rest ih =>
    intro st' h
    unfold createUnits at h
    simp only at h
    rcases hg : CreateUnit db (unitFor docID st.unitMap r) with ⟨res, db1⟩
    rw [hg] at h
    cases res with
    | error e =>
      simp only at h
      cases hc : (unitFor docID st.unitMap r).Code <;> rw [hc] at h <;> simp at h
    | ok unit =>
      simp only at h
      refine ih db1 _ ?_ ?_ st' h
      · intro k
        simp only [List.reverse_append, List.reverse_singleton, List.singleton_append,
          List.find?_cons]
        cases hc : unit.Code with
        | none => simp [hmap k]
        | some code =>
          simp only [mapGet_mapSet]
          by_cases hk : k = code
          · simp [hk]
          · have hk' : ¬ code = k := fun x => hk x.symm
            simp [hk, hk', hmap k]
      · cases hc : unit.Code with
        | none => exact hnodup
        | some code => exact mapSet_keys_nodup _ _ _ hnodup

theorem ingestIntoScanned_spec (s : IngestionService) (db : Store) (req : IngestRequest)
    (doc : Document) :
    ∃ created : List Unit,
      (createUnits doc.ID req.Units db {}).2.units = db.units ++ created ∧
      created.Pairwise (fun a b => a.ID < b.ID) ∧
      ∀ x ∈ ingestIntoScanned s db req doc, ∃ code u,
        created.reverse.find? (fun v => decide (v.Code = some code)) = some u ∧
        x.1.ID = u.ID := by
  obtain ⟨created, h1, _, h3, h4⟩ := createUnits_inv doc.ID req.Units db {}
    (by simp [mapGet]) (by simp) List.Pairwise.nil
  have hinv := createUnits_unitMap doc.ID req.Units db {} (by simp [mapGet]) (by simp)
  refine ⟨created, h1, by simpa using h3, ?_⟩
  intro x hx
  unfold ingestIntoScanned at hx
  rcases hg : createUnits doc.ID req.Units db {} with ⟨r0, db0⟩
  rw [hg] at hx h4 hinv
  cases r0 with
  | error f => simp at hx
  | ok units =>
    obtain ⟨hcreated, _⟩ := h4 units rfl
    obtain ⟨hmap, hnodup⟩ := hinv units rfl
    simp only at hx
    rcases hg1 : embedStage s req units.createdUnits db0 with ⟨e1, db1⟩
    rw [hg1] at hx
    cases e1 with
    | error f => simp at hx
    | ok embeddingsCreated =>
      simp only at hx
      rcases hg2 : explicitStage req units.unitMap db1 with ⟨e2, db2⟩
      rw [hg2] at hx
      cases e2 with
      | error f => simp at hx
      | ok counts =>
        simp only at hx
        split_ifs at hx
        · obtain ⟨entry, hentry, hid⟩ := scannedUnits_ids doc units.unitMap db2 x hx
          have hget := mapGet_of_mem_nodup units.unitMap entry.1 entry.2 hnodup hentry
          rw [hmap entry.1, hcreated] at hget
          simp only [List.nil_append] at hget
          obtain ⟨u, hu, huid⟩ := Option.map_eq_some'.1 hget
          exact ⟨entry.1, u, hu, by rw [hid, huid]⟩
        · simp at hx

theorem ingestScanned_spec (s : IngestionService) (db : Store) (req : IngestRequest) :
    ∃ created : List Unit,
      (IngestLegalContent s db req).2.units = db.units ++ created ∧
      created.Pairwise (fun a b => a.ID < b.ID) ∧
      ∀ x ∈ ingestScanned s db req, ∃ code u,
        created.reverse.find? (fun v => decide (v.Code = some code)) = some u ∧
        x.1.ID = u.ID := by
  have hu1 : (FindDocumentByMetadata db req.Document.Title req.Document.Number).2.units
      = db.units := by
    unfold FindDocumentByMetadata
    split_ifs <;> rfl
  have hu2 : ∀ (d0 : Store) (d : Document), (CreateDocument d0 d).2.units = d0.units := by
    intro d0 d
    unfold CreateDocument
    split_ifs <;> rfl
  unfold IngestLegalContent ingestScanned
  rcases hg : FindDocumentByMetadata db req.Document.Title req.Document.Number with ⟨r, db1⟩
  rw [hg] at hu1
  cases r with
  | error e => exact ⟨[], by simpa using hu1, List.Pairwise.nil, by simp⟩
  | ok found =>
    cases found with
    | some existing => exact ⟨[], by simpa using hu1, List.Pairwise.nil, by simp⟩
    | none =>
      simp only
      have hu3 := hu2 db1
        { Title := req.Document.Title, Type_ := req.Document.Type_,
          Number := req.Document.Number, Year := req.Document.Year,
          Authority := req.Document.Authority, Status := "active" }
      rcases hg2 : CreateDocument db1
        { Title := req.Document.Title, Type_ := req.Document.Type_,
          Number := req.Document.Number, Year := req.Document.Year,
          Authority := req.Document.Authority, Status := "active" } with ⟨r2, db2⟩
      rw [hg2] at hu3
      cases r2 with
      | error e =>
        refine ⟨[], ?_, List.Pairwise.nil, by simp⟩
        simp only [List.append_nil]
        exact hu3.trans hu1
      | ok doc =>
        simp only
        rw [ingestInto_units]
        obtain ⟨created, h1, h2, h3⟩ := ingestIntoScanned_spec s db2 req doc
        refine ⟨created, ?_, h2, h3⟩
        rw [h1]
        simp only at hu3 hu1
        rw [hu3, hu1]

theorem pairwise_id_inj (l : List Unit) (h : l.Pairwise (fun a b => a.ID < b.ID))
    (a b : Unit) (ha : a ∈ l) (hb : b ∈ l) (hid : a.ID = b.ID) : a = b := by
  induction l with
  | nil => simp at ha
  | cons c rest ih =>
    rw [List.pairwise_cons] at h
    rcases List.mem_cons.1 ha with ha | ha <;> rcases List.mem_cons.1 hb with hb | hb
    · rw [ha, hb]
    · have := h.1 b hb
      rw [← ha, hid] at this
      exact absurd this (Nat.lt_irrefl _)
    · have := h.1 a ha
      rw [← hb, hid] at this
      exact absurd this (Nat.lt_irrefl _)
    · exact ih h.2 ha hb

theorem reverse_find_last (p : Unit → Bool) (l : List Unit)
    (h : l.Pairwise (fun a b => a.ID < b.ID)) (u : Unit)
    (hu : l.reverse.find? p = some u) : ∀ w ∈ l, p w = true → w.ID ≤ u.ID := by
  induction l with
  | nil => intro w hw; simp at hw
  | cons a rest ih =>
    rw [List.pairwise_cons] at h
    rw [List.reverse_cons, List.find?_append] at hu
    intro w hw hp
    cases hr : rest.reverse.find? p with
    | some u' =>
      rw [hr] at hu
      simp only [Option.or, Option.some.injEq] at hu
      subst hu
      rcases List.mem_cons.1 hw with hw | hw
      · rw [hw]
        exact Nat.le_of_lt (h.1 u' (List.mem_reverse.1 (List.mem_of_find?_eq_some hr)))
      · exact ih h.2 hr w hw hp
    | none =>
      rw [hr] at hu
      simp only [Option.or] at hu
      have hua : u = a := by
        rw [List.find?_cons] at hu
        split at hu
        · simp only [Option.some.injEq] at hu
          exact hu.symm
        · simp at hu
      rcases List.mem_cons.1 hw with hw | hw
      · rw [hw, hua]
      · have := List.find?_eq_none.1 hr w (List.mem_reverse.2 hw)
        exact absurd hp this

theorem storeTriple_faultfree (relationName : String) (unitID : Nat) (docRef : String)
    (acc : Extraction) (subjectName objectName : String) (extraContext : Option String)
    (hf : acc.db.faults = []) :
    (storeTriple relationName unitID docRef acc subjectName objectName extraContext).db.faults
      = [] := by
  obtain ⟨s, db1, hs, hf1, _⟩ := GetOrCreateConcept_ok acc.db subjectName "entity" hf
  obtain ⟨o, db2, ho, hf2, _⟩ := GetOrCreateConcept_ok db1 objectName "entity" hf1
  obtain ⟨r, db3, hr, hf3, _⟩ :=
    UpsertRelation_ok db2 relationName (relationKeywordsFor relationName) "legal_rule" hf2
  obtain ⟨db4, ht, hf4, _⟩ := CreateTriple_ok db3
    { SubjectID := s.ID, RelationID := r.ID, ObjectID := o.ID, UnitID := unitID,
      DocRef := docRef, Confidence := 0.8, Context := extraContext } hf3
  unfold storeTriple
  simp only [hs, ho, hr, ht]
  exact hf4

theorem extractTriplesFromText_faultfree (db : Store) (unit : Unit) (doc : Document)
    (hf : db.faults = []) : (extractTriplesFromText db unit doc).db.faults = [] := by
  rw [extractTriplesFromText_statements]
  suffices h : ∀ (l : List (String × String × String × Option String)) (acc : Extraction),
      acc.db.faults = [] →
      (l.foldl (fun acc st =>
        storeTriple st.1 unit.ID (buildDocRef doc unit) acc st.2.1 st.2.2.1 st.2.2.2) acc).db.faults
      = [] from h _ _ hf
  intro l
  induction l with
  | nil => intro acc h; exact h
  | cons st rest ih =>
    intro acc h
    rw [List.foldl_cons]
    exact ih _ (storeTriple_faultfree _ _ _ _ _ _ _ h)

theorem scannedUnits_complete (doc : Document) (m : List (String × Nat)) (db : Store)
    (hf : db.faults = []) (hread : ∀ entry ∈ m, ∃ u ∈ db.units, u.ID = entry.2) :
    (scannedUnits doc m db).map (fun x => x.1.ID) = m.map Prod.snd := by
  induction m generalizing db with
  | nil => rfl
  | cons entry rest ih =>
    obtain ⟨u, hu, huid⟩ := hread entry (List.mem_cons_self _ _)
    have hsome : ∃ unit, db.units.find? (fun v => v.ID = entry.2) = some unit := by
      cases hfind : db.units.find? (fun v => v.ID = entry.2) with
      | some unit => exact ⟨unit, rfl⟩
      | none =>
        have := List.find?_eq_none.1 hfind u hu
        simp [huid] at this
    obtain ⟨unit, hfind⟩ := hsome
    have hid : unit.ID = entry.2 := by simpa using List.find?_some hfind
    have hget : GetUnit db entry.2 = (.ok unit, db.step) := by
      unfold GetUnit
      simp only [faulted_of_no_faults db hf, hfind]
      rfl
    unfold scannedUnits
    rw [hget]
    simp only [List.map_cons, hid]
    rw [ih]
    · exact extractTriplesFromText_faultfree _ _ _ hf
    · intro en hen
      rw [extractTriplesFromText_units]
      exact hread en (List.mem_cons_of_mem _ hen)

/-- The scanned units: `IngestLegalContent` scans no unit when the request carries an
explicit triple (the extraction stage then leaves counts and store as they are); otherwise the extraction
stage is the loop over the code-to-unit map, whose counts come from the scanned units and
which, on a store that refuses no statement and holds the recorded units, scans exactly
the recorded ids in map order. Every unit scanned by a call has the id of a unit created in
this call that carries a code and is the last created unit with that code: a created unit
without a code is never scanned, and a created unit followed by a later created unit with
the same code is never scanned. -/
theorem IngestLegalContent_extraction_scope (s : IngestionService) (db : Store)
    (req : IngestRequest) :
    (req.Triples ≠ [] → ingestScanned s db req = []) ∧
    (∀ doc unitMap d counts, req.Triples ≠ [] →
      extractStage req doc unitMap d counts = (counts, d)) ∧
    (∀ doc unitMap d counts, req.Triples = [] →
      extractStage req doc unitMap d counts = extractUnits doc unitMap d counts ∧
      (extractUnits doc unitMap d counts).1.triples = counts.triples +
        ((scannedUnits doc unitMap d).map (fun x => x.2.triples.length)).sum ∧
      (d.faults = [] → (∀ entry ∈ unitMap, ∃ u ∈ d.units, u.ID = entry.2) →
        (scannedUnits doc unitMap d).map (fun x => x.1.ID) = unitMap.map Prod.snd)) ∧
    (∃ created : List Unit,
      (IngestLegalContent s db req).2.units = db.units ++ created ∧
      (∀ x ∈ ingestScanned s db req, ∃ code u,
        created.reverse.find? (fun v => decide (v.Code = some code)) = some u ∧
        x.1.ID = u.ID) ∧
      (∀ v ∈ created, v.Code = none → ∀ x ∈ ingestScanned s db req, x.1.ID ≠ v.ID) ∧
      (∀ before v after, created = before ++ v :: after →
        (∃ w ∈ after, w.Code = v.Code) →
        ∀ x ∈ ingestScanned s db req, x.1.ID ≠ v.ID)) ∧
    (ingestScanned {} {} uncodedRuleIngest = [] ∧
     (IngestLegalContent {} {} uncodedRuleIngest).2.units.map (fun u => u.Text)
       = ["the driver must wear a helmet"] ∧
     (IngestLegalContent {} {} uncodedRuleIngest).2.triples = [] ∧
     (ingestScanned {} {} sharedCodeIngest).map (fun x => (x.1.ID, x.1.Text, x.2.triples.length))
       = [(3, "general provisions", 0)] ∧
     (ingestScanned {} {} sharedCodeIngestLast).map
         (fun x => (x.1.ID, x.1.Text, x.2.triples.length))
       = [(3, "the driver must wear a helmet", 1)] ∧
     (IngestLegalContent {} {} sharedCodeIngest).2.triples = [] ∧
     (IngestLegalContent {} {} sharedCodeIngestLast).2.triples.map (fun row => row.unit_id)
       = [3] ∧
     (ingestScanned {} {} sampleIngest).map (fun x => x.1.ID) = [2, 3] ∧
     ingestScanned {} {} explicitIngest = []) := by
  refine ⟨?_, ?_, ?_, ?_, by decide!⟩
  · intro hne
    have hlen : ¬ req.Triples.length = 0 := by
      intro h
      exact hne (List.length_eq_zero.1 h)
    have hinto : ∀ d doc, ingestIntoScanned s d req doc = [] := by
      intro d doc
      unfold ingestIntoScanned
      simp only [hlen, if_false]
      repeat' split
      all_goals rfl
    unfold ingestScanned
    simp only [hinto]
    repeat' split
    all_goals rfl
  · intro doc unitMap d counts hne
    unfold extractStage
    rw [if_neg]
    intro h
    exact hne (List.length_eq_zero.1 h)
  · intro doc unitMap d counts he
    refine ⟨?_, extractUnits_scanned doc unitMap d counts, scannedUnits_complete doc unitMap d⟩
    unfold extractStage
    rw [if_pos]
    rw [he]
    rfl
  · obtain ⟨created, h1, h2, h3⟩ := ingestScanned_spec s db req
    have hkey : ∀ v ∈ created, ∀ x ∈ ingestScanned s db req, x.1.ID = v.ID →
        ∃ code, created.reverse.find? (fun w => decide (w.Code = some code)) = some v := by
      intro v hv x hx hid
      obtain ⟨code, u, hu, hxu⟩ := h3 x hx
      have hmem : u ∈ created := List.mem_reverse.1 (List.mem_of_find?_eq_some hu)
      have huv : u = v := pairwise_id_inj created h2 u v hmem hv (hxu.symm.trans hid)
      exact ⟨code, by rw [← huv]; exact hu⟩
    refine ⟨created, h1, h3, ?_, ?_⟩
    · intro v hv hnone x hx hid
      obtain ⟨code, hfind⟩ := hkey v hv x hx hid
      have := List.find?_some hfind
      simp [hnone] at this
    · intro before v after hsplit hlater x hx hid
      obtain ⟨w, hw, hcode⟩ := hlater
      have hv : v ∈ created := by rw [hsplit]; simp
      have hwm : w ∈ created := by rw [hsplit]; simp [hw]
      obtain ⟨code, hfind⟩ := hkey v hv x hx hid
      have hvc : v.Code = some code := by simpa using List.find?_some hfind
      have hle := reverse_find_last _ created h2 v hfind w hwm (by simp [hcode, hvc])
      rw [hsplit, List.pairwise_append, List.pairwise_cons] at h2
      have := h2.2.1.1 w hw
      omega

/-! ### Zero floor of the answer scores -/

/-- C3, failing input: the stars hold one distinct triple id, and for its triple (unit text
`stretchedText`, subject name "x") the snippet cut panics, so `combineAndRankResults`
returns no answer list at all instead of one Answer for that id. -/
theorem combineAndRankResults_panics_on_snippet :
    (tripleIDs stretchedStars).dedup = [1] ∧
    (stretchedStars.flatMap (fun s => s.MatchingTriples.map generateSnippet))
      = [.error (.panic "slice bounds out of range")] ∧
    combineAndRankResultsKeyed stretchedStars "x"
      = .error (.panic "slice bounds out of range") ∧
    combineAndRankResults stretchedStars "x"
      = .error (.panic "slice bounds out of range") := by
  decide!

/-! ### `ProcessQuery`: rerank scores are converted to `float32` -/

/-- C4, counterexample: the reranker returns 1/2 for position 0 and `1/2 + 2^-40` for
position 1. Ordered by the returned scores the answer of position 1 would come first, with
its own score; `ProcessQuery` stores 1/2 for both (the `float32` conversion) and returns
them in Stage-5 order, the answer of position 0 first. -/
theorem ProcessQuery_rerank_converts_scores :
    (stage5Answers closeScoresEngine "helmet").map (fun l => l.map (fun a => a.UnitID))
      = .ok ["0", "5"] ∧
    toFloat32 (1 / 2) = 1 / 2 ∧ toFloat32 (1 / 2 + 1 / 1099511627776) = 1 / 2 ∧
    (1 / 2 : ℚ) < 1 / 2 + 1 / 1099511627776 ∧
    (ProcessQuery closeScoresEngine sampleRuntime "helmet" false).map
        (fun r => r.Answers.map (fun a => (a.UnitID, a.Score)))
      = .ok [("0", 1 / 2), ("5", 1 / 2)] := by
  decide!

/-- Conversion samples: 1/10 is not a `float32` and converts to `13421773 / 2^27`; a tie
goes to the even neighbour; `2^128 - 2^103` and above overflow. -/
theorem toFloat32_samples :
    toFloat32 (1 / 10) = 13421773 / 134217728 ∧
    toFloat32 (9 / 10) = 15099494 / 16777216 ∧
    toFloat32 16777217 = 16777216 ∧ toFloat32 16777219 = 16777220 ∧
    toFloat32 (-(3 / 10)) = -(5033165 / 16777216) ∧
    toFloat32 340282356779733661637539395458142568448 = pow2 128 ∧
    toFloat32 340282356779733661637539395458142568447
      = 340282346638528859811704183484516925440 := by
  decide!

/-! ### `ProcessQuery`: nil rewrite provider -/

/-- C6, failing input: on the engine built without an API key (nil `QAProvider`) over an
empty graph, no lookup returns a candidate, and every query panics at the call of
`RewriteQuery` instead of returning an empty answer list; the same graph behind an engine
with a provider gives the empty list. -/
theorem ProcessQuery_nil_provider_panics :
    (∀ t, keylessEngine.repo.FindConceptCandidates t = .ok [] ∧
      keylessEngine.repo.FindRelationCandidates t = .ok []) ∧
    (∀ q includeDebug, ProcessQuery keylessEngine sampleRuntime q includeDebug
      = .error (.panic "invalid memory address or nil pointer dereference")) ∧
    (ProcessQuery emptyGraphEngine sampleRuntime
      "What is the fine for not wearing a helmet?" true).map (fun r => r.Answers)
      = .ok [] := by
  refine ⟨fun _ => ⟨rfl, rfl⟩, fun _ _ => rfl, by decide!⟩

/-! ### `FindTriplesByStar`: NULL tfidf -/

/-- C7, failing input: in the sample store the subject-constrained star matches the
non-blacklisted triples 100, 101 and 102, of which 102 has no tfidf (NULL). In the order of
the query they are 101, 100, 102 (NULL last), the rows the description promises;
`FindTriplesByStar` returns an error and no row, because the NULL cannot be scanned into
the `float32` field. A row created by `CreateTriple` takes the column default for tfidf;
on a store without a default the triple extracted from the sample request is stored with
NULL and the unconstrained star query on that store fails the same way. -/
theorem FindTriplesByStar_null_tfidf_fails :
    (starMatches sampleStore sampleSubjectStar).map (fun row => (row.t.id, row.t.tfidf))
      = [(100, some 0.5), (101, some 0.8), (102, none)] ∧
    (starQuery sampleStore sampleSubjectStar).map (fun row => row.t.id) = [101, 100, 102] ∧
    (FindTriplesByStar sampleStore sampleSubjectStar).1
      = .error (.msg "cannot scan NULL into *float32") ∧
    (IngestLegalContent {} {} sampleIngest).2.triples.map (fun row => (row.id, row.tfidf))
      = [(7, none)] ∧
    (FindTriplesByStar (IngestLegalContent {} {} sampleIngest).2 {}).1
      = .error (.msg "cannot scan NULL into *float32") ∧
    ((FindTriplesByStar (IngestLegalContent {} { tfidfDefault := some 0 } sampleIngest).2 {}).1).map
        (fun out => out.map (fun tv => tv.ID)) = .ok [7] := by
  decide!

/-! ### Query rewriting: the list is used as returned -/

/-- C23, counterexample: the provider `foreignQA` returns the list ["crash helmet"] for the
query "helmet fine"; the query variants of `ProcessQuery` are that list, which does not
hold the query, and no extracted term comes from the word "fine". -/
theorem ProcessQuery_variants_without_original :
    foreignQA.RewriteQuery "helmet fine" = .ok ["crash helmet"] ∧
    rewriteQueries foreignQA "helmet fine" = ["crash helmet"] ∧
    "helmet fine" ∉ rewriteQueries foreignQA "helmet fine" ∧
    (runStages foreignEngine "helmet fine").map (fun st => (st.queries, st.terms))
      = .ok (["crash helmet"], ["crash", "helmet", "crash helmet"]) := by
  decide!

/-- C23, amended: for every query `q` and every list `L` the rewrite capability returns
successfully, the query variants from which `ProcessQuery` extracts terms are `L` itself;
a list returned by one of the two providers of the repository starts with `q`, so with them
the variants hold `q`; when the rewrite capability fails the variants are exactly `[q]`. -/
theorem ProcessQuery_variants_are_rewrite_list (q : String) :
    (∀ (qa : QAProvider) L, qa.RewriteQuery q = .ok L → rewriteQueries qa q = L) ∧
    (∀ (qa : QAProvider),
      (∃ p, qa = openAIQA p) ∨ (∃ p, qa = geminiQA p) →
      ∀ L, qa.RewriteQuery q = .ok L →
        L.head? = some q ∧ q ∈ rewriteQueries qa q) ∧
    (∀ (qa : QAProvider) err, qa.RewriteQuery q = .error err → rewriteQueries qa q = [q]) ∧
    (∀ (e : QueryEngine) (qa : QAProvider) st, e.qaProvider = some qa →
      runStages e q = .ok st →
      st.queries = rewriteQueries qa q ∧ st.terms = combinedTerms (rewriteQueries qa q)) ∧
    rewriteQueries (openAIQA (some (fun _ =>
        .choices ["fine for no helmet\n\n  penalty helmet  \n"]))) "helmet fine"
      = ["helmet fine", "fine for no helmet", "penalty helmet"] := by
  have hsame : ∀ (qa : QAProvider) L, qa.RewriteQuery q = .ok L → rewriteQueries qa q = L := by
    intro qa L hL
    simp [rewriteQueries, hL]
  refine ⟨hsame, ?_, ?_, ?_, by decide!⟩
  · intro qa hqa L hL
    have hhead : ∃ more, L = q :: more := by
      rcases hqa with ⟨p, rfl⟩ | ⟨p, rfl⟩
      · obtain ⟨more, hm⟩ := OpenAI_RewriteQuery_head p q
        exact ⟨more, (resultOf_ok _ L hL).trans hm⟩
      · obtain ⟨more, hm⟩ := Gemini_RewriteQuery_head p q
        exact ⟨more, (resultOf_ok _ L hL).trans hm⟩
    obtain ⟨more, rfl⟩ := hhead
    refine ⟨rfl, ?_⟩
    rw [hsame qa _ hL]
    exact List.mem_cons_self _ _
  · intro qa err h
    simp [rewriteQueries, h]
  · intro e qa st hqa hst
    unfold runStages at hst
    rw [hqa] at hst
    simp only at hst
    repeat' split at hst
    all_goals first | exact Except.noConfusion hst | skip
    simp only [Except.ok.injEq] at hst
    rw [← hst]
    exact ⟨rfl, rfl⟩

/-! ### Zero floor of the answer scores and the cut to ten answers -/

theorem createUnits_cons (docID : Nat) (r : UnitRequest) (rest : List UnitRequest) (db : Store)
    (st : UnitLoop) :
    createUnits docID (r :: rest) db st =
      match CreateUnit db (unitFor docID st.unitMap r) with
      | (.error err, db) =>
        match (unitFor docID st.unitMap r).Code with
        | none => (.error (.panic "invalid memory address or nil pointer dereference"), db)
        | some code => (.error (.err (.wrap ("creating unit " ++ code) err)), db)
      | (.ok unit, db) =>
        createUnits docID rest db
          { unitMap :=
              match unit.Code with
              | some code => mapSet st.unitMap code unit.ID
              | none => st.unitMap
            createdUnits := st.createdUnits ++ [unit]
            unitsCreated := st.unitsCreated + 1 } := by
  rfl

theorem createTriples_cons (unitMap : List (String × Nat)) (r : TripleRequest)
    (rest : List TripleRequest) (db : Store) (n : Nat) :
    createTriples unitMap (r :: rest) db n =
      match createTripleFromRequest db r unitMap with
      | (some err, db) =>
        (.error (.err (.wrap ("creating triple " ++ r.Subject ++ "-" ++ r.Relation ++ "-" ++
          r.Object) err)), db)
      | (none, db) => createTriples unitMap rest db (n + 1) := by
  rfl

theorem createUnits_append (docID : Nat) (before rest : List UnitRequest) (db : Store)
    (st : UnitLoop) :
    createUnits docID (before ++ rest) db st =
      match createUnits docID before db st with
      | (.ok st', db') => createUnits docID rest db' st'
      | (.error f, db') => (.error f, db') := by
  induction before generalizing db st with
  | nil => rfl
  | cons r more ih =>
    rw [List.cons_append, createUnits_cons, createUnits_cons]
    rcases CreateUnit db (unitFor docID st.unitMap r) with ⟨res, db1⟩
    cases res with
    | error e => cases (unitFor docID st.unitMap r).Code <;> rfl
    | ok unit => exact ih _ _

theorem createTriples_append (unitMap : List (String × Nat)) (before rest : List TripleRequest)
    (db : Store) (n : Nat) :
    createTriples unitMap (before ++ rest) db n =
      match createTriples unitMap before db n with
      | (.ok m, db') => createTriples unitMap rest db' m
      | (.error f, db') => (.error f, db') := by
  induction before generalizing db n with
  | nil => rfl
  | cons r more ih =>
    rw [List.cons_append, createTriples_cons, createTriples_cons]
    rcases createTripleFromRequest db r unitMap with ⟨res, db1⟩
    cases res with
    | some e => rfl
    | none => exact ih _ _

/-- A failing `CreateUnit` for a unit that has a code ends the unit loop with an error that
wraps the cause; for a unit without a code, formatting the message panics. -/
theorem createUnits_stops (docID : Nat) (before : List UnitRequest) (r : UnitRequest)
    (after : List UnitRequest) (db db1 db2 : Store) (st : UnitLoop) (err : GoError)
    (hbefore : createUnits docID before db {} = (.ok st, db1))
    (hfail : CreateUnit db1 (unitFor docID st.unitMap r) = (.error err, db2)) :
    createUnits docID (before ++ r :: after) db {} =
      (match r.Code with
       | some code => .error (.err (.wrap ("creating unit " ++ code) err))
       | none => .error (.panic "invalid memory address or nil pointer dereference"), db2) := by
  rw [createUnits_append, hbefore]
  simp only
  rw [createUnits_cons, hfail]
  simp only
  rw [(unitFor_fields docID st.unitMap r).1]
  cases r.Code <;> rfl

theorem ingestInto_units_error (s : IngestionService) (db : Store) (req : IngestRequest)
    (doc : Document) (f : Fault) (db1 : Store)
    (h : createUnits doc.ID req.Units db {} = (.error f, db1)) :
    ingestInto s db req doc = (.error f, db1) := by
  unfold ingestInto
  rw [h]

theorem ingestInto_triple_error (s : IngestionService) (db : Store) (req : IngestRequest)
    (doc : Document) (units : UnitLoop) (db1 db2 db3 db4 db5 db6 : Store) (n c r k : Nat)
    (before : List TripleRequest) (t : TripleRequest) (after : List TripleRequest)
    (err : GoError)
    (hunits : createUnits doc.ID req.Units db {} = (.ok units, db1))
    (hembed : embedStage s req units.createdUnits db1 = (.ok n, db2))
    (hconcepts : upsertConcepts req.Concepts db2 0 = (.ok c, db3))
    (hrelations : upsertRelations req.Relations db3 0 = (.ok r, db4))
    (hsplit : req.Triples = before ++ t :: after)
    (hbefore : createTriples units.unitMap before db4 0 = (.ok k, db5))
    (hfail : createTripleFromRequest db5 t units.unitMap = (some err, db6)) :
    ingestInto s db req doc =
      (.error (.err (.wrap ("creating triple " ++ t.Subject ++ "-" ++ t.Relation ++ "-" ++
        t.Object) err)), db6) := by
  have htriples : createTriples units.unitMap req.Triples db4 0 =
      (.error (.err (.wrap ("creating triple " ++ t.Subject ++ "-" ++ t.Relation ++ "-" ++
        t.Object) err)), db6) := by
    rw [hsplit, createTriples_append, hbefore]
    simp only
    rw [createTriples_cons, hfail]
  unfold ingestInto
  rw [hunits]
  simp only
  rw [hembed]
  simp only
  unfold explicitStage
  rw [hconcepts]
  simp only
  rw [hrelations]
  simp only
  rw [htriples]

/-- A failing `InsertTriple` makes `createTripleFromRequest` return that error. -/
theorem createTripleFromRequest_insert_error (db db1 db2 db3 db4 : Store) (req : TripleRequest)
    (unitMap : List (String × Nat)) (unitID : Nat) (subject object : Concept)
    (relation : Relation) (err : GoError)
    (hunit : mapGet unitMap req.UnitCode = some unitID)
    (hsubject : UpsertConcept db req.Subject [] "entity" = (.ok subject, db1))
    (hobject : UpsertConcept db1 req.Object [] "entity" = (.ok object, db2))
    (hrelation : UpsertRelation db2 req.Relation [] "legal_rule" = (.ok relation, db3))
    (hinsert : InsertTriple db3
      { SubjectID := subject.ID, RelationID := relation.ID, ObjectID := object.ID,
        UnitID := unitID, DocRef := req.DocRef, Confidence := 0.9,
        TfIdf := (match req.TfIdf with
          | some given => given
          | none => 0.5),
        IsBlacklisted := false, Context := req.Context } = (.error err, db4)) :
    createTripleFromRequest db req unitMap = (some err, db4) := by
  unfold createTripleFromRequest
  rw [hunit]
  simp only
  rw [hsubject]
  simp only
  rw [hobject]
  simp only
  rw [hrelation]
  simp only
  cases htf : req.TfIdf <;> simp only [htf] at hinsert ⊢ <;> rw [hinsert]

/-- The premises of the abort statements hold on the sample requests: on an empty store,
the second statement of the sample request creates its first unit and the tenth statement
of the request with an explicit triple inserts that triple. -/
theorem IngestLegalContent_abort_premises :
    FindDocumentByMetadata { faults := [2] } sampleIngest.Document.Title
      sampleIngest.Document.Number = (.ok none, { faults := [2], calls := 1 }) ∧
    (CreateDocument { faults := [2], calls := 1 }
      { Title := "Road Traffic Law", Type_ := "Law", Number := some "23/2008",
        Year := some 2008, Authority := sampleIngest.Document.Authority,
        Status := "active" }).1.toOption.map (fun d => d.ID) = some 1 ∧
    (sampleIngest.Units.head?.map (fun r => r.Code)) = some (some "Article 1") ∧
    (sampleIngest.Units.head?.map (fun r =>
      (CreateUnit (CreateDocument { faults := [2], calls := 1 }
        { Title := "Road Traffic Law", Type_ := "Law", Number := some "23/2008",
          Year := some 2008, Authority := sampleIngest.Document.Authority,
          Status := "active" }).2 (unitFor 1 [] r)).1)) = some (.error dbError) ∧
    (IngestLegalContent {} { faults := [2] } sampleIngest).1
      = .error (.err (.wrap "creating unit Article 1" dbError)) ∧
    (IngestLegalContent {} { faults := [2] } sampleIngest).2.units = [] ∧
    (IngestLegalContent {} { faults := [2] } sampleIngest).2.calls = 3 ∧
    (IngestLegalContent {} { faults := [10] } explicitIngest).1
      = .error (.err (.wrap "creating triple driver-phải-helmet" dbError)) ∧
    (IngestLegalContent {} { faults := [10] } explicitIngest).2.triples = [] ∧
    (IngestLegalContent {} { faults := [10] } explicitIngest).2.calls = 11 := by
  decide!

/-- C12, amended: for a document that was not stored before, a failing `CreateDocument`, a
failing `CreateUnit` of a unit that has a code, and a failing creation of an explicit triple
(a failing `InsertTriple` among them) each make `IngestLegalContent` stop there: it returns
the error that wraps the cause, together with the store as the failing call left it, so no
later statement is sent.  A success response means that the document, every unit of the
request and, when the request has explicit triples, every one of them were stored; every
error returned wraps its cause.  A failure while a pattern-extracted triple is stored is
not reported: once the units are created, a request without explicit concepts, relations
and triples (and without an embedder) gets a success response whatever fails afterwards. -/
theorem IngestLegalContent_stops_on_failed_creation (s : IngestionService) (db : Store)
    (req : IngestRequest) :
    (∀ db1 err db2,
      FindDocumentByMetadata db req.Document.Title req.Document.Number = (.ok none, db1) →
      CreateDocument db1
        { Title := req.Document.Title, Type_ := req.Document.Type_,
          Number := req.Document.Number, Year := req.Document.Year,
          Authority := req.Document.Authority, Status := "active" } = (.error err, db2) →
      IngestLegalContent s db req = (.error (.err (.wrap "creating document" err)), db2)) ∧
    (∀ db1 doc db2 before r after st db3 code err db4,
      FindDocumentByMetadata db req.Document.Title req.Document.Number = (.ok none, db1) →
      CreateDocument db1
        { Title := req.Document.Title, Type_ := req.Document.Type_,
          Number := req.Document.Number, Year := req.Document.Year,
          Authority := req.Document.Authority, Status := "active" } = (.ok doc, db2) →
      req.Units = before ++ r :: after →
      createUnits doc.ID before db2 {} = (.ok st, db3) →
      r.Code = some code →
      CreateUnit db3 (unitFor doc.ID st.unitMap r) = (.error err, db4) →
      IngestLegalContent s db req =
        (.error (.err (.wrap ("creating unit " ++ code) err)), db4)) ∧
    (∀ db1 doc db2 units db3 n db4 c db5 r db6 before t after k db7 err db8,
      FindDocumentByMetadata db req.Document.Title req.Document.Number = (.ok none, db1) →
      CreateDocument db1
        { Title := req.Document.Title, Type_ := req.Document.Type_,
          Number := req.Document.Number, Year := req.Document.Year,
          Authority := req.Document.Authority, Status := "active" } = (.ok doc, db2) →
      createUnits doc.ID req.Units db2 {} = (.ok units, db3) →
      embedStage s req units.createdUnits db3 = (.ok n, db4) →
      upsertConcepts req.Concepts db4 0 = (.ok c, db5) →
      upsertRelations req.Relations db5 0 = (.ok r, db6) →
      req.Triples = before ++ t :: after →
      createTriples units.unitMap before db6 0 = (.ok k, db7) →
      createTripleFromRequest db7 t units.unitMap = (some err, db8) →
      IngestLegalContent s db req =
        (.error (.err (.wrap ("creating triple " ++ t.Subject ++ "-" ++ t.Relation ++ "-" ++
          t.Object) err)), db8)) ∧
    (∀ (t : TripleRequest) (unitMap : List (String × Nat)) db7 unitID subject dbA object dbB
        relation dbC err db8,
      mapGet unitMap t.UnitCode = some unitID →
      UpsertConcept db7 t.Subject [] "entity" = (.ok subject, dbA) →
      UpsertConcept dbA t.Object [] "entity" = (.ok object, dbB) →
      UpsertRelation dbB t.Relation [] "legal_rule" = (.ok relation, dbC) →
      InsertTriple dbC
        { SubjectID := subject.ID, RelationID := relation.ID, ObjectID := object.ID,
          UnitID := unitID, DocRef := t.DocRef, Confidence := 0.9,
          TfIdf := (match t.TfIdf with
            | some given => given
            | none => 0.5),
          IsBlacklisted := false, Context := t.Context } = (.error err, db8) →
      createTripleFromRequest db7 t unitMap = (some err, db8)) ∧
    (∀ resp, (IngestLegalContent s db req).1 = .ok resp →
      (∃ d ∈ db.documents, resp.DocumentID = d.ID ∧
        (IngestLegalContent s db req).2.documents = db.documents ∧
        (IngestLegalContent s db req).2.units = db.units ∧
        (IngestLegalContent s db req).2.triples = db.triples) ∨
      (∃ doc : Document, doc.ID = resp.DocumentID ∧ doc.Title = req.Document.Title ∧
        (IngestLegalContent s db req).2.documents = db.documents ++ [doc] ∧
        resp.UnitsCreated = req.Units.length ∧
        (∃ created, (IngestLegalContent s db req).2.units = db.units ++ created ∧
          List.Forall₂ (fun r u => u.Code = r.Code ∧ u.Text = r.Text ∧ u.DocumentID = doc.ID)
            req.Units created) ∧
        (req.Triples ≠ [] → resp.TriplesCreated = req.Triples.length ∧
          ∃ rows, (IngestLegalContent s db req).2.triples = db.triples ++ rows ∧
            rows.length = req.Triples.length))) ∧
    (∀ e, (IngestLegalContent s db req).1 = .error (.err e) →
      ∃ ctx cause, e = .wrap ctx cause) ∧
    (∀ db1 doc db2 st db3, s.embedder = none → req.Concepts = [] → req.Relations = [] →
      req.Triples = [] →
      FindDocumentByMetadata db req.Document.Title req.Document.Number = (.ok none, db1) →
      CreateDocument db1
        { Title := req.Document.Title, Type_ := req.Document.Type_,
          Number := req.Document.Number, Year := req.Document.Year,
          Authority := req.Document.Authority, Status := "active" } = (.ok doc, db2) →
      createUnits doc.ID req.Units db2 {} = (.ok st, db3) →
      ∃ resp, (IngestLegalContent s db req).1 = .ok resp) := by
  refine ⟨?_, ?_, ?_, ?_, (IngestLegalContent_success_means_stored s db req).1,
    (IngestLegalContent_success_means_stored s db req).2.1,
    (IngestLegalContent_success_means_stored s db req).2.2⟩
  · intro db1 err db2 hfind hdoc
    unfold IngestLegalContent
    rw [hfind]
    simp only
    rw [hdoc]
  · intro db1 doc db2 before r after st db3 code err db4 hfind hdoc hsplit hbefore hcode hfail
    unfold IngestLegalContent
    rw [hfind]
    simp only
    rw [hdoc]
    simp only
    have hunits := createUnits_stops doc.ID before r after db2 db3 db4 st err hbefore hfail
    rw [hcode, ← hsplit] at hunits
    exact ingestInto_units_error s db2 req doc _ db4 hunits
  · intro db1 doc db2 units db3 n db4 c db5 r db6 before t after k db7 err db8 hfind hdoc hunits
      hembed hconcepts hrelations hsplit hbefore hfail
    unfold IngestLegalContent
    rw [hfind]
    simp only
    rw [hdoc]
    simp only
    exact ingestInto_triple_error s db2 req doc units db3 db4 db5 db6 db7 db8 n c r k before t
      after err hunits hembed hconcepts hrelations hsplit hbefore hfail
  · intro t unitMap db7 unitID subject dbA object dbB relation dbC err db8 hunit hsubject hobject
      hrelation hinsert
    exact createTripleFromRequest_insert_error db7 dbA dbB dbC db8 t unitMap unitID subject
      object relation err hunit hsubject hobject hrelation hinsert

/-! ### Extraction scope: what the extraction loop stores and counts -/

theorem GetOrCreateConcept_triples (db : Store) (name ty : String) (r : Except GoError Concept)
    (db1 : Store) (h : GetOrCreateConcept db name ty = (r, db1)) : db1.triples = db.triples := by
  have := (GetOrCreateConcept_frame db name ty).2
  rw [h] at this
  exact this

theorem UpsertRelation_triples (db : Store) (name : String) (keywords : List String)
    (ty : String) (r : Except GoError Relation) (db1 : Store)
    (h : UpsertRelation db name keywords ty = (r, db1)) : db1.triples = db.triples := by
  have := (UpsertRelation_frame db name keywords ty).2
  rw [h] at this
  exact this

/-- A successful `CreateTriple` adds the one row of the triple it returns, under the unit
of the triple passed; a failed one adds none. -/
theorem CreateTriple_rows (db : Store) (triple : Triple) :
    (∀ created db1, CreateTriple db triple = (.ok created, db1) →
      created.UnitID = triple.UnitID ∧
      ∃ row, db1.triples = db.triples ++ [row] ∧ row.id = created.ID ∧
        row.unit_id = created.UnitID) ∧
    (∀ e db1, CreateTriple db triple = (.error e, db1) → db1.triples = db.triples) := by
  unfold CreateTriple
  split_ifs
  · refine ⟨fun created db1 h => ?_, fun e db1 h => ?_⟩
    · simp at h
    · simp only [Prod.mk.injEq] at h
      rw [← h.2]
      rfl
  · refine ⟨fun created db1 h => ?_, fun e db1 h => ?_⟩
    · simp only [Prod.mk.injEq, Except.ok.injEq] at h
      rw [← h.1, ← h.2]
      exact ⟨rfl, _, rfl, rfl, rfl⟩
    · simp at h

/-- One pass of the loop body of `extractTriplesByPattern`: the triples it appends to its
result are the rows it adds to the store, all under the unit it was given. -/
theorem storeTriple_rows (relationName : String) (unitID : Nat) (docRef : String)
    (acc : Extraction) (subjectName objectName : String) (extraContext : Option String) :
    ∃ new : List Triple,
      (storeTriple relationName unitID docRef acc subjectName objectName extraContext).triples
        = acc.triples ++ new ∧
      (storeTriple relationName unitID docRef acc subjectName objectName
        extraContext).db.triples.map (fun row => (row.id, row.unit_id))
        = acc.db.triples.map (fun row => (row.id, row.unit_id)) ++
          new.map (fun t => (t.ID, t.UnitID)) ∧
      ∀ t ∈ new, t.UnitID = unitID := by
  unfold storeTriple
  rcases hg1 : GetOrCreateConcept acc.db subjectName "entity" with ⟨r1, db1⟩
  have h1 := GetOrCreateConcept_triples _ _ _ _ _ hg1
  cases r1 with
  | error e => exact ⟨[], by simp, by simp [h1], by simp⟩
  | ok subject =>
    simp only
    rcases hg2 : GetOrCreateConcept db1 objectName "entity" with ⟨r2, db2⟩
    have h2 := GetOrCreateConcept_triples _ _ _ _ _ hg2
    cases r2 with
    | error e => exact ⟨[], by simp, by simp [h1, h2], by simp⟩
    | ok object =>
      simp only
      rcases hg3 : UpsertRelation db2 relationName (relationKeywordsFor relationName)
        "legal_rule" with ⟨r3, db3⟩
      have h3 := UpsertRelation_triples _ _ _ _ _ _ hg3
      cases r3 with
      | error e => exact ⟨[], by simp, by simp [h1, h2, h3], by simp⟩
      | ok relation =>
        simp only
        obtain ⟨c1, c2⟩ := CreateTriple_rows db3
          { SubjectID := subject.ID, RelationID := relation.ID, ObjectID := object.ID,
            UnitID := unitID, DocRef := docRef, Confidence := 0.8, Context := extraContext }
        rcases hg4 : CreateTriple db3
          { SubjectID := subject.ID, RelationID := relation.ID, ObjectID := object.ID,
            UnitID := unitID, DocRef := docRef, Confidence := 0.8, Context := extraContext }
          with ⟨r4, db4⟩
        cases r4 with
        | error e =>
          have h4 := c2 e db4 hg4
          exact ⟨[], by simp, by simp [h1, h2, h3, h4], by simp⟩
        | ok created =>
          obtain ⟨hu, row, h4, hid, hrow⟩ := c1 created db4 hg4
          refine ⟨[created], rfl, ?_, ?_⟩
          · simp only [h4, h3, h2, h1, List.map_append, List.map_cons, List.map_nil, hid, hrow]
          · intro t ht
            simp only [List.mem_singleton] at ht
            rw [ht, hu]

/-- The triples `extractTriplesFromText` returns are the rows it adds to the store, all
under the unit it was given. -/
theorem extractTriplesFromText_rows (db : Store) (unit : Unit) (doc : Document) :
    (extractTriplesFromText db unit doc).db.triples.map (fun row => (row.id, row.unit_id))
      = db.triples.map (fun row => (row.id, row.unit_id)) ++
        (extractTriplesFromText db unit doc).triples.map (fun t => (t.ID, t.UnitID)) ∧
    ∀ t ∈ (extractTriplesFromText db unit doc).triples, t.UnitID = unit.ID := by
  rw [extractTriplesFromText_statements]
  suffices h : ∀ (l : List (String × String × String × Option String)) (acc : Extraction),
      acc.db.triples.map (fun row => (row.id, row.unit_id))
        = db.triples.map (fun row => (row.id, row.unit_id)) ++
          acc.triples.map (fun t => (t.ID, t.UnitID)) →
      (∀ t ∈ acc.triples, t.UnitID = unit.ID) →
      (l.foldl (fun acc st =>
        storeTriple st.1 unit.ID (buildDocRef doc unit) acc st.2.1 st.2.2.1 st.2.2.2)
        acc).db.triples.map (fun row => (row.id, row.unit_id))
        = db.triples.map (fun row => (row.id, row.unit_id)) ++
          (l.foldl (fun acc st =>
            storeTriple st.1 unit.ID (buildDocRef doc unit) acc st.2.1 st.2.2.1 st.2.2.2)
            acc).triples.map (fun t => (t.ID, t.UnitID)) ∧
      ∀ t ∈ (l.foldl (fun acc st =>
        storeTriple st.1 unit.ID (buildDocRef doc unit) acc st.2.1 st.2.2.1 st.2.2.2)
        acc).triples, t.UnitID = unit.ID from h _ _ (by simp) (by simp)
  intro l
  induction l with
  | nil => intro acc h1 h2; exact ⟨h1, h2⟩
  | cons st rest ih =>
    intro acc h1 h2
    rw [List.foldl_cons]
    obtain ⟨new, n1, n2, n3⟩ := storeTriple_rows st.1 unit.ID (buildDocRef doc unit) acc st.2.1
      st.2.2.1 st.2.2.2
    apply ih
    · rw [n2, n1, h1, List.map_append, List.append_assoc]
    · intro t ht
      rw [n1, List.mem_append] at ht
      rcases ht with ht | ht
      · exact h2 t ht
      · exact n3 t ht

/-- The extraction loop in terms of the units it scans: its three counters grow by what
the extractor returned for the scanned units, the rows it adds to the store are the
triples returned for them, each under the scanned unit, and every scanned unit was read
with `GetUnit` under an id of the map and passed to `extractTriplesFromText`. -/
theorem extractUnits_trace (doc : Document) (m : List (String × Nat)) (db : Store)
    (counts : ExtractionCounts) :
    (extractUnits doc m db counts).1 =
      { triples := counts.triples +
          ((scannedUnits doc m db).map (fun x => x.2.triples.length)).sum,
        concepts := counts.concepts +
          ((scannedUnits doc m db).map (fun x => x.2.conceptsCreated)).sum,
        relations := counts.relations +
          ((scannedUnits doc m db).map (fun x => x.2.relationsCreated)).sum } ∧
    (extractUnits doc m db counts).2.triples.map (fun row => (row.id, row.unit_id))
      = db.triples.map (fun row => (row.id, row.unit_id)) ++
        (scannedUnits doc m db).flatMap (fun x => x.2.triples.map (fun t => (t.ID, t.UnitID))) ∧
    (∀ x ∈ scannedUnits doc m db, ∀ t ∈ x.2.triples, t.UnitID = x.1.ID) ∧
    (∀ x ∈ scannedUnits doc m db, ∃ entry ∈ m, ∃ d0 d1,
      GetUnit d0 entry.2 = (.ok x.1, d1) ∧ x.2 = extractTriplesFromText d1 x.1 doc) := by
  induction m generalizing db counts with
  | nil =>
    simp [extractUnits, scannedUnits]
  | cons entry rest ih =>
    unfold extractUnits scannedUnits
    have hf := (GetUnit_frame db entry.2).2
    rcases hg : GetUnit db entry.2 with ⟨r, db1⟩
    rw [hg] at hf
    simp only at hf
    cases r with
    | error e =>
      simp only
      obtain ⟨i1, i2, i3, i4⟩ := ih db1 counts
      refine ⟨i1, by rw [i2, hf], i3, ?_⟩
      intro x hx
      obtain ⟨en, hen, d0, d1, hd⟩ := i4 x hx
      exact ⟨en, List.mem_cons_of_mem _ hen, d0, d1, hd⟩
    | ok unit =>
      simp only
      obtain ⟨i1, i2, i3, i4⟩ := ih (extractTriplesFromText db1 unit doc).db
        { triples := counts.triples + (extractTriplesFromText db1 unit doc).triples.length,
          concepts := counts.concepts + (extractTriplesFromText db1 unit doc).conceptsCreated,
          relations := counts.relations + (extractTriplesFromText db1 unit doc).relationsCreated }
      obtain ⟨e1, e2⟩ := extractTriplesFromText_rows db1 unit doc
      refine ⟨?_, ?_, ?_, ?_⟩
      · rw [i1]
        simp only [List.map_cons, List.sum_cons, ExtractionCounts.mk.injEq]
        omega
      · rw [i2, e1, hf]
        simp only [List.flatMap_cons, List.append_assoc]
      · intro x hx
        simp only [List.mem_cons] at hx
        rcases hx with hx | hx
        · rw [hx]
          exact e2
        · exact i3 x hx
      · intro x hx
        simp only [List.mem_cons] at hx
        rcases hx with hx | hx
        · rw [hx]
          exact ⟨entry, List.mem_cons_self _ _, db, db1, hg, rfl⟩
        · obtain ⟨en, hen, d0, d1, hd⟩ := i4 x hx
          exact ⟨en, List.mem_cons_of_mem _ hen, d0, d1, hd⟩

/-- The explicit triples of a request add at most one row each, also when the loop stops
at a failure; the count returned is the number of rows added. -/
theorem createTriples_rows_le (unitMap : List (String × Nat)) (reqs : List TripleRequest)
    (db : Store) (n : Nat) :
    ∃ rows, (createTriples unitMap reqs db n).2.triples = db.triples ++ rows ∧
      rows.length ≤ reqs.length ∧
      ∀ m, (createTriples unitMap reqs db n).1 = .ok m → m = n + rows.length := by
  induction reqs generalizing db n with
  | nil => exact ⟨[], by simp [createTriples], by simp, by intro m h; simp only [createTriples, Except.ok.injEq] at h; simp [← h]⟩
  | cons r rest ih =>
    rw [createTriples_cons]
    have h1 := (createTripleFromRequest_rows db r unitMap).2
    rcases hg : createTripleFromRequest db r unitMap with ⟨res, db1⟩
    rw [hg] at h1
    cases res with
    | some e =>
      simp only at h1 ⊢
      rcases h1 with ⟨_, h1⟩ | ⟨h1, _⟩
      · exact ⟨[], by simp [h1], by simp, by intro m h; cases h⟩
      · cases h1
    | none =>
      simp only at h1 ⊢
      rcases h1 with ⟨⟨e, h1⟩, _⟩ | ⟨_, row, h1⟩
      · cases h1
      · obtain ⟨rows, i1, i2, i3⟩ := ih db1 (n + 1)
        refine ⟨row :: rows, by rw [i1, h1, List.append_assoc, List.singleton_append], ?_, ?_⟩
        · simp only [List.length_cons]
          omega
        · intro m h
          have := i3 m h
          simp only [List.length_cons]
          omega

theorem explicitStage_rows (req : IngestRequest) (unitMap : List (String × Nat)) (db : Store) :
    ∃ rows, (explicitStage req unitMap db).2.triples = db.triples ++ rows ∧
      rows.length ≤ req.Triples.length ∧
      ∀ counts, (explicitStage req unitMap db).1 = .ok counts →
        counts.triples = rows.length := by
  unfold explicitStage
  have a := (upsertConcepts_frame req.Concepts db 0).2.1
  rcases hg2 : upsertConcepts req.Concepts db 0 with ⟨e2, db2⟩
  rw [hg2] at a
  cases e2 with
  | error f => exact ⟨[], by simpa using a, by simp, by intro counts h; cases h⟩
  | ok conceptsCreated =>
    simp only at a ⊢
    have b := (upsertRelations_frame req.Relations db2 0).2.1
    rcases hg3 : upsertRelations req.Relations db2 0 with ⟨e3, db3⟩
    rw [hg3] at b
    cases e3 with
    | error f => exact ⟨[], by simpa using b.trans a, by simp, by intro counts h; cases h⟩
    | ok relationsCreated =>
      simp only at b ⊢
      obtain ⟨rows, c1, c2, c3⟩ := createTriples_rows_le unitMap req.Triples db3 0
      rcases hg4 : createTriples unitMap req.Triples db3 0 with ⟨e4, db4⟩
      rw [hg4] at c1 c3
      cases e4 with
      | error f =>
        exact ⟨rows, by simpa [a, b] using c1, c2, by intro counts h; cases h⟩
      | ok triplesCreated =>
        refine ⟨rows, by simpa [a, b] using c1, c2, ?_⟩
        intro counts h
        simp only [Except.ok.injEq] at h
        rw [← h]
        have := c3 triplesCreated rfl
        simp only at this ⊢
        omega

/-- The stages after the document was created, in terms of the scanned units: the rows
added to the store are those of the explicit triples followed by the triples the extractor
returned for the scanned units, and the triple count of a success response is their
number. -/
theorem ingestInto_rows (s : IngestionService) (db : Store) (req : IngestRequest)
    (doc : Document) :
    ∃ explicitRows : List TripleRow,
      (ingestInto s db req doc).2.triples.map (fun row => (row.id, row.unit_id))
        = (db.triples ++ explicitRows).map (fun row => (row.id, row.unit_id)) ++
          (ingestIntoScanned s db req doc).flatMap
            (fun x => x.2.triples.map (fun t => (t.ID, t.UnitID))) ∧
      explicitRows.length ≤ req.Triples.length ∧
      ∀ resp, (ingestInto s db req doc).1 = .ok resp →
        resp.TriplesCreated = explicitRows.length +
          ((ingestIntoScanned s db req doc).map (fun x => x.2.triples.length)).sum := by
  unfold ingestInto ingestIntoScanned
  have a := (createUnits_frame doc.ID req.Units db {}).2.1
  rcases hg0 : createUnits doc.ID req.Units db {} with ⟨r0, db0⟩
  rw [hg0] at a
  simp only at a
  cases r0 with
  | error f => exact ⟨[], by simp [a], by simp, by intro resp h; cases h⟩
  | ok units =>
    simp only at a ⊢
    have b := (embedStage_frame s req units.createdUnits db0).2.1
    rcases hg1 : embedStage s req units.createdUnits db0 with ⟨e1, db1⟩
    rw [hg1] at b
    simp only at b
    cases e1 with
    | error f => exact ⟨[], by simp [a, b], by simp, by intro resp h; cases h⟩
    | ok embeddingsCreated =>
      simp only at b ⊢
      obtain ⟨rows, c1, c2, c3⟩ := explicitStage_rows req units.unitMap db1
      rcases hg2 : explicitStage req units.unitMap db1 with ⟨e2, db2⟩
      rw [hg2] at c1 c3
      cases e2 with
      | error f =>
        refine ⟨rows, ?_, c2, by intro resp h; cases h⟩
        simp only at c1 ⊢
        rw [c1, b, a]
        simp
      | ok counts =>
        simp only at c1 ⊢
        have hc := c3 counts rfl
        unfold extractStage
        split_ifs with hlen
        · obtain ⟨t1, t2, _, _⟩ := extractUnits_trace doc units.unitMap db2 counts
          refine ⟨rows, ?_, c2, ?_⟩
          · rw [t2, c1, b, a]
          · intro resp h
            simp only [Except.ok.injEq] at h
            rw [← h, t1, ← hc]
            rfl
        · refine ⟨rows, ?_, c2, ?_⟩
          · simp only [List.flatMap_nil, List.append_nil]
            rw [c1, b, a]
          · intro resp h
            simp only [Except.ok.injEq] at h
            rw [← h, ← hc]
            simp [ingestResponse]

theorem ingestScanned_cases (s : IngestionService) (db : Store) (req : IngestRequest) :
    ingestScanned s db req = [] ∨
    ∃ doc m d, ingestScanned s db req = scannedUnits doc m d := by
  unfold ingestScanned ingestIntoScanned
  simp only
  repeat' split
  all_goals first | exact Or.inl rfl | exact Or.inr ⟨_, _, _, rfl⟩

/-- The call as a whole in terms of the scanned units: the rows it adds to the store are
those of the explicit triples followed by the triples the extractor returned for the
scanned units, and the triple count of a success response is their number. -/
theorem IngestLegalContent_rows (s : IngestionService) (db : Store) (req : IngestRequest) :
    ∃ explicitRows : List TripleRow,
      (IngestLegalContent s db req).2.triples.map (fun row => (row.id, row.unit_id))
        = (db.triples ++ explicitRows).map (fun row => (row.id, row.unit_id)) ++
          (ingestScanned s db req).flatMap
            (fun x => x.2.triples.map (fun t => (t.ID, t.UnitID))) ∧
      explicitRows.length ≤ req.Triples.length ∧
      ∀ resp, (IngestLegalContent s db req).1 = .ok resp →
        resp.TriplesCreated = explicitRows.length +
          ((ingestScanned s db req).map (fun x => x.2.triples.length)).sum := by
  have hu1 : (FindDocumentByMetadata db req.Document.Title req.Document.Number).2.triples
      = db.triples := by
    unfold FindDocumentByMetadata
    split_ifs <;> rfl
  have hu2 : ∀ (d0 : Store) (d : Document), (CreateDocument d0 d).2.triples = d0.triples := by
    intro d0 d
    unfold CreateDocument
    split_ifs <;> rfl
  unfold IngestLegalContent ingestScanned
  rcases hg : FindDocumentByMetadata db req.Document.Title req.Document.Number with ⟨r, db1⟩
  rw [hg] at hu1
  simp only at hu1
  cases r with
  | error e => exact ⟨[], by simp [hu1], by simp, by intro resp h; cases h⟩
  | ok found =>
    cases found with
    | some existing =>
      refine ⟨[], by simp [hu1], by simp, ?_⟩
      intro resp h
      simp only [Except.ok.injEq] at h
      rw [← h]
      rfl
    | none =>
      simp only
      have hu3 := hu2 db1
        { Title := req.Document.Title, Type_ := req.Document.Type_,
          Number := req.Document.Number, Year := req.Document.Year,
          Authority := req.Document.Authority, Status := "active" }
      rcases hg2 : CreateDocument db1
        { Title := req.Document.Title, Type_ := req.Document.Type_,
          Number := req.Document.Number, Year := req.Document.Year,
          Authority := req.Document.Authority, Status := "active" } with ⟨r2, db2⟩
      rw [hg2] at hu3
      simp only at hu3
      cases r2 with
      | error e => exact ⟨[], by simp [hu1, hu3], by simp, by intro resp h; cases h⟩
      | ok doc =>
        simp only
        obtain ⟨rows, h1, h2, h3⟩ := ingestInto_rows s db2 req doc
        refine ⟨rows, ?_, h2, h3⟩
        rw [h1, hu3, hu1]

/-- The call on the path where the document is new and the stages before the extraction
succeed: the result is that of the extraction stage run on the map the unit loop built, the
scanned units are those of the loop over that same map, and the map is the code-to-unit
map: a code is bound to the id of the last created unit carrying it, so its entries are
those units and every created unit with a code has its code as a key. -/
theorem IngestLegalContent_stages (s : IngestionService) (db : Store) (req : IngestRequest)
    (db1 : Store) (doc : Document) (db2 : Store) (units : UnitLoop) (db3 : Store) (n : Nat)
    (db4 : Store) (counts : ExtractionCounts) (db5 : Store)
    (hfind : FindDocumentByMetadata db req.Document.Title req.Document.Number = (.ok none, db1))
    (hdoc : CreateDocument db1
      { Title := req.Document.Title, Type_ := req.Document.Type_,
        Number := req.Document.Number, Year := req.Document.Year,
        Authority := req.Document.Authority, Status := "active" } = (.ok doc, db2))
    (hunits : createUnits doc.ID req.Units db2 {} = (.ok units, db3))
    (hembed : embedStage s req units.createdUnits db3 = (.ok n, db4))
    (hexplicit : explicitStage req units.unitMap db4 = (.ok counts, db5)) :
    IngestLegalContent s db req =
      (.ok (ingestResponse doc units.unitsCreated n
        (extractStage req doc units.unitMap db5 counts).1),
       (extractStage req doc units.unitMap db5 counts).2) ∧
    ingestScanned s db req =
      (if req.Triples.length = 0 then scannedUnits doc units.unitMap db5 else []) ∧
    db3.units = db2.units ++ units.createdUnits ∧ db5.units = db3.units ∧
    (∀ k, mapGet units.unitMap k =
      (units.createdUnits.reverse.find? (fun v => decide (v.Code = some k))).map
        (fun v => v.ID)) ∧
    (units.unitMap.map Prod.fst).Nodup ∧
    (∀ entry ∈ units.unitMap, ∃ u,
      units.createdUnits.reverse.find? (fun v => decide (v.Code = some entry.1)) = some u ∧
      u.ID = entry.2) ∧
    (∀ u ∈ units.createdUnits, ∀ code, u.Code = some code →
      ∃ id, (code, id) ∈ units.unitMap) ∧
    (req.Triples = [] → db5.faults = [] →
      (ingestScanned s db req).map (fun x => x.1.ID) = units.unitMap.map Prod.snd) := by
  obtain ⟨created, h1, _, _, h4⟩ := createUnits_inv doc.ID req.Units db2 {}
    (by simp [mapGet]) (by simp) List.Pairwise.nil
  obtain ⟨hmap, hnodup⟩ := createUnits_unitMap doc.ID req.Units db2 {} (by simp [mapGet])
    (by simp) units (by rw [hunits])
  rw [hunits] at h1 h4
  obtain ⟨hcreated, _⟩ := h4 units rfl
  simp only [List.nil_append] at hcreated
  simp only at h1
  have hu4 : db4.units = db3.units := by
    have := embedStage_units s req units.createdUnits db3
    rw [hembed] at this
    exact this
  have hu5 : db5.units = db4.units := by
    have := explicitStage_units req units.unitMap db4
    rw [hexplicit] at this
    exact this
  have hscan : ingestScanned s db req =
      (if req.Triples.length = 0 then scannedUnits doc units.unitMap db5 else []) := by
    unfold ingestScanned
    rw [hfind]
    simp only
    rw [hdoc]
    simp only
    unfold ingestIntoScanned
    rw [hunits]
    simp only
    rw [hembed]
    simp only
    rw [hexplicit]
  have hentry : ∀ entry ∈ units.unitMap, ∃ u,
      units.createdUnits.reverse.find? (fun v => decide (v.Code = some entry.1)) = some u ∧
      u.ID = entry.2 := by
    intro entry hentry
    have hget := mapGet_of_mem_nodup units.unitMap entry.1 entry.2 hnodup hentry
    rw [hmap entry.1] at hget
    exact Option.map_eq_some'.1 hget
  refine ⟨?_, hscan, by rw [h1, hcreated], hu5.trans hu4, hmap, hnodup, hentry, ?_, ?_⟩
  · unfold IngestLegalContent
    rw [hfind]
    simp only
    rw [hdoc]
    simp only
    unfold ingestInto
    rw [hunits]
    simp only
    rw [hembed]
    simp only
    rw [hexplicit]
  · intro u hu code hcode
    have hsome : (units.createdUnits.reverse.find?
        (fun v => decide (v.Code = some code))).isSome := by
      rw [List.find?_isSome]
      exact ⟨u, List.mem_reverse.2 hu, by simp [hcode]⟩
    obtain ⟨w, hw⟩ := Option.isSome_iff_exists.1 hsome
    exact ⟨w.ID, mapGet_mem _ _ _ (by rw [hmap code, hw]; rfl)⟩
  · intro ht hf
    rw [hscan, ht]
    simp only [List.length_nil, if_true]
    apply scannedUnits_complete doc units.unitMap db5 hf
    intro entry he
    obtain ⟨u, hu, hid⟩ := hentry entry he
    refine ⟨u, ?_, hid⟩
    rw [hu5, hu4, h1, ← hcreated]
    exact List.mem_append_right _ (List.mem_reverse.1 (List.mem_of_find?_eq_some hu))

/-- C29: `IngestLegalContent` runs pattern extraction only when the request carries no
explicit triple, and then on the units recorded in its code-to-unit map.  On the path where
the document is new and the earlier stages succeed, the result of the call is that of the
extraction stage run on the map built by the unit loop, which binds a code to the id of the
last created unit carrying it; with an explicit triple that stage leaves counts and store
as they are, otherwise it is the loop over the map, whose counters and stored rows are
what `extractTriplesFromText` returned for the units read under the ids of the map (all of
them on a store that refuses no statement).  For every store and request, the rows the
call adds are those of the explicit triples followed by the rows extracted from the
scanned units, the triple count of a success response is their number, and every scanned
unit and every extracted row belongs to a unit created in this call that has a code and is
the last created one with that code: a created unit without a code is never scanned and
gets no row, whatever its text, and neither does a created unit followed by a later one
with the same code. -/
theorem IngestLegalContent_scans_code_map (s : IngestionService) (db : Store)
    (req : IngestRequest) :
    (req.Triples ≠ [] → ingestScanned s db req = []) ∧
    (∀ db1 doc db2 units db3 n db4 counts db5,
      FindDocumentByMetadata db req.Document.Title req.Document.Number = (.ok none, db1) →
      CreateDocument db1
        { Title := req.Document.Title, Type_ := req.Document.Type_,
          Number := req.Document.Number, Year := req.Document.Year,
          Authority := req.Document.Authority, Status := "active" } = (.ok doc, db2) →
      createUnits doc.ID req.Units db2 {} = (.ok units, db3) →
      embedStage s req units.createdUnits db3 = (.ok n, db4) →
      explicitStage req units.unitMap db4 = (.ok counts, db5) →
      IngestLegalContent s db req =
        (.ok (ingestResponse doc units.unitsCreated n
          (extractStage req doc units.unitMap db5 counts).1),
         (extractStage req doc units.unitMap db5 counts).2) ∧
      ingestScanned s db req =
        (if req.Triples.length = 0 then scannedUnits doc units.unitMap db5 else []) ∧
      db3.units = db2.units ++ units.createdUnits ∧ db5.units = db3.units ∧
      (∀ k, mapGet units.unitMap k =
        (units.createdUnits.reverse.find? (fun v => decide (v.Code = some k))).map
          (fun v => v.ID)) ∧
      (units.unitMap.map Prod.fst).Nodup ∧
      (∀ entry ∈ units.unitMap, ∃ u,
        units.createdUnits.reverse.find? (fun v => decide (v.Code = some entry.1)) = some u ∧
        u.ID = entry.2) ∧
      (∀ u ∈ units.createdUnits, ∀ code, u.Code = some code →
        ∃ id, (code, id) ∈ units.unitMap) ∧
      (req.Triples = [] → db5.faults = [] →
        (ingestScanned s db req).map (fun x => x.1.ID) = units.unitMap.map Prod.snd)) ∧
    (∀ doc unitMap d counts, req.Triples ≠ [] →
      extractStage req doc unitMap d counts = (counts, d)) ∧
    (∀ doc unitMap d counts, req.Triples = [] →
      extractStage req doc unitMap d counts = extractUnits doc unitMap d counts ∧
      (extractUnits doc unitMap d counts).1 =
        { triples := counts.triples +
            ((scannedUnits doc unitMap d).map (fun x => x.2.triples.length)).sum,
          concepts := counts.concepts +
            ((scannedUnits doc unitMap d).map (fun x => x.2.conceptsCreated)).sum,
          relations := counts.relations +
            ((scannedUnits doc unitMap d).map (fun x => x.2.relationsCreated)).sum } ∧
      (extractUnits doc unitMap d counts).2.triples.map (fun row => (row.id, row.unit_id))
        = d.triples.map (fun row => (row.id, row.unit_id)) ++
          (scannedUnits doc unitMap d).flatMap
            (fun x => x.2.triples.map (fun t => (t.ID, t.UnitID))) ∧
      (∀ x ∈ scannedUnits doc unitMap d, ∃ entry ∈ unitMap, ∃ d0 d1,
        GetUnit d0 entry.2 = (.ok x.1, d1) ∧ x.2 = extractTriplesFromText d1 x.1 doc) ∧
      (d.faults = [] → (∀ entry ∈ unitMap, ∃ u ∈ d.units, u.ID = entry.2) →
        (scannedUnits doc unitMap d).map (fun x => x.1.ID) = unitMap.map Prod.snd)) ∧
    (∃ (created : List Unit) (explicitRows : List TripleRow),
      (IngestLegalContent s db req).2.units = db.units ++ created ∧
      (IngestLegalContent s db req).2.triples.map (fun row => (row.id, row.unit_id))
        = (db.triples ++ explicitRows).map (fun row => (row.id, row.unit_id)) ++
          (ingestScanned s db req).flatMap
            (fun x => x.2.triples.map (fun t => (t.ID, t.UnitID))) ∧
      explicitRows.length ≤ req.Triples.length ∧
      (∀ resp, (IngestLegalContent s db req).1 = .ok resp →
        resp.TriplesCreated = explicitRows.length +
          ((ingestScanned s db req).map (fun x => x.2.triples.length)).sum) ∧
      (∀ x ∈ ingestScanned s db req, ∀ t ∈ x.2.triples, t.UnitID = x.1.ID) ∧
      (∀ x ∈ ingestScanned s db req, ∃ code u,
        created.reverse.find? (fun v => decide (v.Code = some code)) = some u ∧
        x.1.ID = u.ID) ∧
      (∀ v ∈ created, v.Code = none → ∀ x ∈ ingestScanned s db req, x.1.ID ≠ v.ID) ∧
      (∀ before v after, created = before ++ v :: after →
        (∃ w ∈ after, w.Code = v.Code) →
        ∀ x ∈ ingestScanned s db req, x.1.ID ≠ v.ID) ∧
      (∀ p ∈ (ingestScanned s db req).flatMap
          (fun x => x.2.triples.map (fun t => (t.ID, t.UnitID))),
        (∃ code u, created.reverse.find? (fun v => decide (v.Code = some code)) = some u ∧
          p.2 = u.ID) ∧
        (∀ v ∈ created, v.Code = none → p.2 ≠ v.ID) ∧
        (∀ before v after, created = before ++ v :: after →
          (∃ w ∈ after, w.Code = v.Code) → p.2 ≠ v.ID))) ∧
    (ingestScanned {} {} uncodedRuleIngest = [] ∧
     (IngestLegalContent {} {} uncodedRuleIngest).2.units.map (fun u => u.Text)
       = ["the driver must wear a helmet"] ∧
     (IngestLegalContent {} {} uncodedRuleIngest).2.triples = [] ∧
     (ingestScanned {} {} sharedCodeIngest).map (fun x => (x.1.ID, x.1.Text, x.2.triples.length))
       = [(3, "general provisions", 0)] ∧
     (ingestScanned {} {} sharedCodeIngestLast).map
         (fun x => (x.1.ID, x.1.Text, x.2.triples.length))
       = [(3, "the driver must wear a helmet", 1)] ∧
     (IngestLegalContent {} {} sharedCodeIngest).2.triples = [] ∧
     (IngestLegalContent {} {} sharedCodeIngestLast).2.triples.map (fun row => row.unit_id)
       = [3] ∧
     (ingestScanned {} {} sampleIngest).map (fun x => x.1.ID) = [2, 3] ∧
     ingestScanned {} {} explicitIngest = []) := by
  obtain ⟨o1, o2, o3, ⟨created, c1, c2, c3, c4⟩, o5⟩ := IngestLegalContent_extraction_scope s db req
  obtain ⟨explicitRows, r1, r2, r3⟩ := IngestLegalContent_rows s db req
  have hunit : ∀ x ∈ ingestScanned s db req, ∀ t ∈ x.2.triples, t.UnitID = x.1.ID := by
    rcases ingestScanned_cases s db req with h | ⟨doc, m, d, h⟩
    · rw [h]
      intro x hx
      simp at hx
    · rw [h]
      exact (extractUnits_trace doc m d {}).2.2.1
  have hrow : ∀ p ∈ (ingestScanned s db req).flatMap
      (fun x => x.2.triples.map (fun t => (t.ID, t.UnitID))),
      ∃ x ∈ ingestScanned s db req, p.2 = x.1.ID := by
    intro p hp
    simp only [List.mem_flatMap, List.mem_map] at hp
    obtain ⟨x, hx, t, ht, hpt⟩ := hp
    exact ⟨x, hx, by rw [← hpt]; exact hunit x hx t ht⟩
  refine ⟨o1, ?_, o2, ?_, ⟨created, explicitRows, c1, r1, r2, r3, hunit, c2, c3, c4, ?_⟩, o5⟩
  · intro db1 doc db2 units db3 n db4 counts db5 hfind hdoc hunits hembed hexplicit
    exact IngestLegalContent_stages s db req db1 doc db2 units db3 n db4 counts db5 hfind hdoc
      hunits hembed hexplicit
  · intro doc unitMap d counts he
    obtain ⟨t1, t2, _, t4⟩ := extractUnits_trace doc unitMap d counts
    exact ⟨(o3 doc unitMap d counts he).1, t1, t2, t4, (o3 doc unitMap d counts he).2.2⟩
  · intro p hp
    obtain ⟨x, hx, hpx⟩ := hrow p hp
    refine ⟨?_, ?_, ?_⟩
    · obtain ⟨code, u, hu, hid⟩ := c2 x hx
      exact ⟨code, u, hu, hpx.trans hid⟩
    · intro v hv hnone
      rw [hpx]
      exact c3 v hv hnone x hx
    · intro before v after hsplit hlater
      rw [hpx]
      exact c4 before v after hsplit hlater x hx

/-! ### The exponent used by the `float32` conversion -/

/-- With fuel `n` the exponent search of `toFloat32` is exact: `log2Floor n n` is the
integer part of the binary logarithm of `n`. -/
theorem log2Floor_spec (fuel n : Nat) (hfuel : n ≤ fuel) (hpos : 0 < n) :
    2 ^ log2Floor fuel n ≤ n ∧ n < 2 ^ (log2Floor fuel n + 1) := by
  induction fuel generalizing n with
  | zero => omega
  | succ fuel ih =>
    unfold log2Floor
    split_ifs with h
    · have h1 : n = 1 := by omega
      subst h1
      decide
    · obtain ⟨i1, i2⟩ := ih (n / 2) (by omega) (by omega)
      constructor
      · rw [pow_succ]
        omega
      · rw [pow_succ]
        omega

end Graph
